import Mathlib

/-!
# Bike power decoding and resampling engine

A shallow embedding of `PowerRecordingLib` (`RecordOutput.c`, `DecodePowerOnly.c`,
`DecodeCrankTorque.c`, `DecodeWheelTorque.c`, `DecodeCrankTorqueFrequency.c`,
`PowerDecoder.c`).

Conventions of the embedding:

* `float` and `double` values are exact rationals (`ℚ`); the conversions `(float)` between
  them are the identity.  A floating division whose divisor is zero leaves exact arithmetic
  (the C result is an infinity or a NaN) and is reported as `Fault.floatDivByZero`.
* Two results are rounded to the `double` format (`toDouble`, IEEE 754 binary64, round to
  nearest, ties to even) before their integer part is taken, because there the rounding
  decides a whole unit: the quotient under `floor` in every `_Resync` (the receive time over
  the record interval, an integer or nearly one whenever a frame arrives at a record epoch)
  and the product under `(int)` in every `_Init` and in `DecodePowerOnly_SetTimeBase`.  All
  other floating operations are exact.
* The conversion `(int)` is the 32-bit one: truncation toward zero inside the range of `int`,
  and `INT_MIN` outside it (`truncToInt`).
* `unsigned char`, `unsigned short` and `unsigned long` values are natural numbers, reduced
  modulo `2^8`, `2^16` and `2^ULONG_BITS` wherever the C code stores or truncates them.
* An integer division or modulo by zero is `Fault.intDivByZero`.
* The static `BPSAMPLER stState` of every decoder, the static intervals of every translation
  unit and the statics of the dispatcher are explicit state.
* The record receiver callback is modelled by the list of records handed to it, in call order.
-/

set_option linter.unusedVariables false

namespace BikePower

/-! ## Faults, machine arithmetic -/

/-- Ways in which a step of the C code can fail to produce a result in exact arithmetic. -/
inductive Fault where
  | intDivByZero
  | floatDivByZero
  | nonTermination
deriving DecidableEq, Repr

deriving instance DecidableEq for Except

/-- Integer division of unsigned operands; a zero divisor is a fault. -/
def idiv (a b : Nat) : Except Fault Nat :=
  if b = 0 then .error .intDivByZero else .ok (a / b)

/-- Integer remainder of unsigned operands; a zero divisor is a fault. -/
def imod (a b : Nat) : Except Fault Nat :=
  if b = 0 then .error .intDivByZero else .ok (a % b)

/-- Floating division in exact arithmetic; a zero divisor is a fault. -/
def fdiv (a b : ℚ) : Except Fault ℚ :=
  if b = 0 then .error .floatDivByZero else .ok (a / b)

/-- The integer part of a floating value: truncation toward zero. -/
def truncate (x : ℚ) : Int :=
  if 0 ≤ x then ⌊x⌋ else -⌊-x⌋

/-- Conversion of a floating value to `int` (32 bits): truncation toward zero when the
integer part is in the range of `int`.  Outside that range the C conversion is undefined;
the value is then the one the conversion instruction of the x86 family (`cvttsd2si`)
delivers, `INT_MIN`, as it does for an infinity. -/
def truncToInt (x : ℚ) : Int :=
  if -2147483648 ≤ truncate x ∧ truncate x < 2147483648 then truncate x else -2147483648

/-- The loop of `ilog2`: halve `n` until it is below 2, counting the steps. -/
def bitsLoop : Nat → Nat → Nat
  | 0, _ => 0
  | fuel + 1, n => if n < 2 then 0 else bitsLoop fuel (n / 2) + 1

/-- The binary logarithm of a positive natural number, rounded down. -/
def ilog2 (n : Nat) : Nat := bitsLoop n n

/-- The binary exponent of a nonzero rational `x`: the `e` with `2^e ≤ |x| < 2^(e+1)`. -/
def binade (x : ℚ) : Int :=
  let k : Int := (ilog2 x.num.natAbs : Int) - (ilog2 x.den : Int)
  if (if 0 ≤ k then x.den * 2 ^ k.toNat ≤ x.num.natAbs
      else x.den ≤ x.num.natAbs * 2 ^ (-k).toNat) then k else k - 1

/-- The spacing of the `double` values around `x` (IEEE 754 binary64): a significand of
53 bits, so `2^(e-52)` in the binade `e` of `x`, and `2^(-1074)` below the smallest normal
value `2^(-1022)`. -/
def ulp (x : ℚ) : ℚ :=
  if 0 ≤ max (binade x) (-1022) - 52 then
    ((2 ^ (max (binade x) (-1022) - 52).toNat : Nat) : ℚ)
  else
    1 / ((2 ^ (52 - max (binade x) (-1022)).toNat : Nat) : ℚ)

/-- The integer nearest to `x`, a tie going to the even one (the default rounding of
IEEE 754). -/
def roundHalfEven (x : ℚ) : Int :=
  if x - (⌊x⌋ : ℚ) < 1 / 2 then ⌊x⌋
  else if 1 / 2 < x - (⌊x⌋ : ℚ) then ⌊x⌋ + 1
  else if ⌊x⌋ % 2 = 0 then ⌊x⌋ else ⌊x⌋ + 1

/-- The `double` a C expression of exact value `x` evaluates to: the multiple of `ulp x`
nearest to `x`, ties to even.  Values beyond the largest finite `double` (about `1.8e308`,
where the C result is an infinity) are rounded in the same way, with no bound on the
exponent. -/
def toDouble (x : ℚ) : ℚ :=
  if x = 0 then 0 else (roundHalfEven (x / ulp x) : ℚ) * ulp x

/-- Conversion of an integer to `unsigned char` (wrap modulo 256). -/
def toUChar (z : Int) : Nat := (z % 256).toNat

/-- Conversion of an integer to `unsigned short` (wrap modulo 65536). -/
def toUShort (z : Int) : Nat := (z % 65536).toNat

/-- The difference of two `unsigned char` counters, computed in 8 bits:
`(cur - last) mod 256`. -/
def delta8 (cur last : Nat) : Nat := toUChar ((cur : Int) - last)

/-- The difference of two `unsigned short` counters, computed in 16 bits:
`(cur - last) mod 65536`. -/
def delta16 (cur last : Nat) : Nat := toUShort ((cur : Int) - last)

/-- The constant `M_PI` of `math.h`: the double nearest to π, an exact dyadic rational. -/
def M_PI : ℚ := 884279719003555 / 281474976710656

/-- Constants and type widths declared in `PowerDecoder.h`, which is not part of the
sources at hand; they are parameters of the embedding. -/
structure Consts where
  PO_TIME_QUANTIZATION : Nat
  CT_TIME_QUANTIZATION : Nat
  WT_TIME_QUANTIZATION : Nat
  CTF_TIME_QUANTIZATION : Nat
  MAXIMUM_TIME_GAP : ℚ
  ULONG_BITS : Nat
  CALIBRATION_ID_BYTE : Fin 8
  ANT_CTF_CALIBRATION_ID : Nat
  ANT_CTF_CAL_TYPE_BYTE : Fin 8
  ANT_CTF_CAL_ZERO : Nat
  ANT_CTF_CAL_ZERO_LSB_BYTE : Fin 8
  ANT_CTF_CAL_ZERO_MSB_BYTE : Fin 8
  po_pos : 0 < PO_TIME_QUANTIZATION
  ct_pos : 0 < CT_TIME_QUANTIZATION
  wt_pos : 0 < WT_TIME_QUANTIZATION
  ctf_pos : 0 < CTF_TIME_QUANTIZATION
  ulong_bits : 32 ≤ ULONG_BITS

/-- Conversion of an integer to `unsigned long` (wrap modulo `2^ULONG_BITS`). -/
def toULong (c : Consts) (z : Int) : Nat := (z % (2 ^ c.ULONG_BITS : Nat)).toNat

/-- Modelled from the spec: the page-type tags of `PowerDecoder.h` (absent), as listed in
the frame payload table of the specification. -/
def ANT_POWERONLY : Nat := 0x10

/-- Modelled from the spec: the Wheel-Torque page tag of `PowerDecoder.h` (absent). -/
def ANT_WHEELTORQUE : Nat := 0x11

/-- Modelled from the spec: the Crank-Torque page tag of `PowerDecoder.h` (absent). -/
def ANT_CRANKTORQUE : Nat := 0x12

/-- Modelled from the spec: the TE/PS auxiliary page tag of `PowerDecoder.h` (absent). -/
def ANT_TEPS : Nat := 0x13

/-- Modelled from the spec: the Crank-Torque-Frequency page tag of `PowerDecoder.h` (absent). -/
def ANT_CRANKFREQ : Nat := 0x20

/-- Modelled from the spec: the Calibration page tag of `PowerDecoder.h` (absent). -/
def ANT_CALIBRATION_MESSAGE : Nat := 0x01

/-! ## Data model -/

/-- An 8-byte message payload, `unsigned char messagePayload_[8]`. -/
structure Payload where
  b0 : Fin 256
  b1 : Fin 256
  b2 : Fin 256
  b3 : Fin 256
  b4 : Fin 256
  b5 : Fin 256
  b6 : Fin 256
  b7 : Fin 256
deriving DecidableEq, Repr

/-- Byte `i` of the payload, `messagePayload_[i]`. -/
def Payload.byte (p : Payload) (i : Fin 8) : Nat :=
  match i with
  | 0 => p.b0.val
  | 1 => p.b1.val
  | 2 => p.b2.val
  | 3 => p.b3.val
  | 4 => p.b4.val
  | 5 => p.b5.val
  | 6 => p.b6.val
  | 7 => p.b7.val

/-- The 16-bit value `lsb + ((unsigned short)msb << 8)` stored in an `unsigned short`. -/
def word16 (lsb msb : Fin 256) : Nat := (lsb.val + msb.val * 256) % 65536

/-- The decoder state `BPSAMPLER` (declared in `PowerDecoder.h`; the fields are those the
sources read and write, typed by their Hungarian prefixes). -/
structure BPSAMPLER where
  ucCadence : Nat
  dTotalEnergy : ℚ
  fAccumEnergy : ℚ
  fPendingEnergy : ℚ
  fGapEnergy : ℚ
  dTotalRotation : ℚ
  fAccumRotation : ℚ
  fPendingRotation : ℚ
  fGapRotation : ℚ
  ulEventTime : Nat
  ulLastRecordTime : Nat
  ucRecordGapCount : Nat
  dLastRecordTime : ℚ
  dLastMessageTime : ℚ
  usRecordInterval : Nat
  usTimeBase : Nat
  ucLastEventCount : Nat
  ucLastRotationTicks : Nat
  usLastAccumTorque : Nat
  usLastAccumPeriod : Nat
  usTorqueOffset : Nat
deriving DecidableEq, Repr

/-- A zero-initialised `static BPSAMPLER`. -/
def BPSAMPLER.zero : BPSAMPLER :=
  { ucCadence := 0, dTotalEnergy := 0, fAccumEnergy := 0, fPendingEnergy := 0,
    fGapEnergy := 0, dTotalRotation := 0, fAccumRotation := 0, fPendingRotation := 0,
    fGapRotation := 0, ulEventTime := 0, ulLastRecordTime := 0, ucRecordGapCount := 0,
    dLastRecordTime := 0, dLastMessageTime := 0, usRecordInterval := 0, usTimeBase := 0,
    ucLastEventCount := 0, ucLastRotationTicks := 0, usLastAccumTorque := 0,
    usLastAccumPeriod := 0, usTorqueOffset := 0 }

/-- One call of the record receiver:
`(dLastRecordTime, dTotalRotation, dTotalEnergy, fAverageCadence, fAveragePower)`. -/
structure Record where
  timestamp : ℚ
  cumulativeRotation : ℚ
  cumulativeEnergy : ℚ
  averageCadence : ℚ
  averagePower : ℚ
deriving DecidableEq, Repr

/-- The statics of one decoder translation unit: `stState`, `dRecordInterval`,
`dReSyncInterval`. -/
structure Decoder where
  stState : BPSAMPLER
  dRecordInterval : ℚ
  dReSyncInterval : ℚ
deriving DecidableEq, Repr

/-- The statics of a freshly loaded decoder translation unit. -/
def Decoder.zero : Decoder :=
  { stState := BPSAMPLER.zero, dRecordInterval := 0, dReSyncInterval := 0 }

/-! ## RecordOutput.c -/

/-- Function `ResamplerOutput_Init`: returns the initialised sampler and the new value of
the static `dRecordInterval` of `RecordOutput.c`. -/
def ResamplerOutput_Init (s : BPSAMPLER) (usRecordInterval_ : Nat) (dRecordInterval_ : ℚ)
    (usTimeBase_ : Nat) : BPSAMPLER × ℚ :=
  ({ s with
      ucCadence := 0, dTotalEnergy := 0, fAccumEnergy := 0, fPendingEnergy := 0,
      fGapEnergy := 0, dTotalRotation := 0, fAccumRotation := 0, fPendingRotation := 0,
      fGapRotation := 0, ulEventTime := 0, ucRecordGapCount := 0, dLastRecordTime := 0,
      dLastMessageTime := 0, usRecordInterval := usRecordInterval_,
      usTimeBase := usTimeBase_ },
   dRecordInterval_)

/-- The `for` loop of `RecordOutput_FillGap`, run for `n` iterations. -/
def fillGapLoop (dRecordInterval fIncEnergy fIncRotation fAverageCadence fAveragePower : ℚ) :
    Nat → BPSAMPLER → BPSAMPLER × List Record
  | 0, s => (s, [])
  | n + 1, s =>
    let s1 : BPSAMPLER :=
      { s with
        dTotalEnergy := s.dTotalEnergy + fIncEnergy,
        dTotalRotation := s.dTotalRotation + fIncRotation,
        dLastRecordTime := s.dLastRecordTime + dRecordInterval }
    let r : Record :=
      ⟨s1.dLastRecordTime, s1.dTotalRotation, s1.dTotalEnergy, fAverageCadence, fAveragePower⟩
    let out := fillGapLoop dRecordInterval fIncEnergy fIncRotation fAverageCadence
      fAveragePower n s1
    (out.1, r :: out.2)

/-- Function `RecordOutput_FillGap`; `dRecordInterval` is the static of `RecordOutput.c`. -/
def RecordOutput_FillGap (dRecordInterval : ℚ) (s : BPSAMPLER) :
    Except Fault (BPSAMPLER × List Record) :=
  if s.ucRecordGapCount > 0 then do
    let fIncEnergy ← fdiv s.fGapEnergy (s.ucRecordGapCount : ℚ)
    let fIncRotation ← fdiv s.fGapRotation (s.ucRecordGapCount : ℚ)
    let fAveragePower ← fdiv fIncEnergy dRecordInterval
    let fAverageCadence ← fdiv (fIncRotation * 60) dRecordInterval
    let out := fillGapLoop dRecordInterval fIncEnergy fIncRotation fAverageCadence
      fAveragePower s.ucRecordGapCount s
    pure ({ out.1 with ucRecordGapCount := 0 }, out.2)
  else
    pure (s, [])

/-- Function `RecordOutput`; `dRecordInterval` is the static of `RecordOutput.c`. -/
def RecordOutput (dRecordInterval : ℚ) (s : BPSAMPLER) :
    Except Fault (BPSAMPLER × List Record) := do
  let fAveragePower ← fdiv s.fPendingEnergy dRecordInterval
  let fAverageCadence ← fdiv (s.fPendingRotation * 60) dRecordInterval
  let q ← idiv s.ulEventTime s.usRecordInterval
  let s1 : BPSAMPLER :=
    { s with
      dTotalEnergy := s.dTotalEnergy + s.fPendingEnergy,
      dTotalRotation := s.dTotalRotation + s.fPendingRotation,
      dLastRecordTime := s.dLastRecordTime + dRecordInterval,
      ulLastRecordTime := q * s.usRecordInterval }
  let r : Record :=
    ⟨s1.dLastRecordTime, s1.dTotalRotation, s1.dTotalEnergy, fAverageCadence, fAveragePower⟩
  let out ← RecordOutput_FillGap dRecordInterval s1
  pure (out.1, r :: out.2)

/-- The wall-clock catch-up loop
`while ((dTime_ - dLastRecordTime) > dRecordInterval) { dLastRecordTime += step; emit }`
at the end of every incremental decode, run with a bound on the number of iterations;
exhausting the bound is `Fault.nonTermination`. -/
def wallClockLoop (dTime_ dRecordInterval step : ℚ) :
    Nat → BPSAMPLER → Except Fault (BPSAMPLER × List Record)
  | fuel, s =>
    if dTime_ - s.dLastRecordTime > dRecordInterval then
      match fuel with
      | 0 => .error .nonTermination
      | fuel + 1 => do
        let s1 : BPSAMPLER := { s with dLastRecordTime := s.dLastRecordTime + step }
        let r : Record := ⟨s1.dLastRecordTime, s1.dTotalRotation, s1.dTotalEnergy, 0, 0⟩
        let out ← wallClockLoop dTime_ dRecordInterval step fuel s1
        pure (out.1, r :: out.2)
    else
      pure (s, [])

/-- Number of iterations that suffices for the wall-clock loop when the step is positive;
with a step that is not positive the loop, once entered, never ends. -/
def wallClockFuel (dTime_ dRecordInterval step : ℚ) (s : BPSAMPLER) : Nat :=
  if 0 < step then (⌈(dTime_ - s.dLastRecordTime - dRecordInterval) / step⌉).toNat + 1 else 0

/-- The wall-clock catch-up `if`/`while` of the incremental decoders. -/
def wallClockFill (dTime_ dRecordInterval step : ℚ) (s : BPSAMPLER) :
    Except Fault (BPSAMPLER × List Record) :=
  wallClockLoop dTime_ dRecordInterval step (wallClockFuel dTime_ dRecordInterval step s) s

/-- The number of missed records a `_Resync` of the Power-Only, Crank-Torque and
Crank-Torque-Frequency decoders stores in `ucRecordGapCount`:
`(unsigned char)((gap + interval * 0.5) / interval)`, where `gap` is the time from the last
record to the current record epoch. -/
def resyncGapCount (gap dRecordInterval : ℚ) : Except Fault Nat := do
  let quot ← fdiv (gap + dRecordInterval * (1 / 2)) dRecordInterval
  pure (toUChar (truncToInt quot))

/-- The number of missed records `DecodeWheelTorque_Resync` stores in `ucRecordGapCount`:
`(unsigned char)(gap + interval * 0.5) / interval`; the cast applies to the numerator only
and the quotient is truncated again by the store into the `unsigned char` field. -/
def resyncGapCountWT (gap dRecordInterval : ℚ) : Except Fault Nat := do
  let quot ← fdiv ((toUChar (truncToInt (gap + dRecordInterval * (1 / 2))) : Nat) : ℚ)
    dRecordInterval
  pure (toUChar (truncToInt quot))

/-- The catch-up staged by every `_Resync`: the accumulated energy and rotation are
transferred to the gap buckets and `RecordOutput_FillGap` fills the gap with records. -/
def resyncCatchUp (ro : ℚ) (s : BPSAMPLER) (ucRecordGapCount : Nat) :
    Except Fault (BPSAMPLER × List Record) :=
  RecordOutput_FillGap ro
    { s with
      ucRecordGapCount := ucRecordGapCount,
      fGapEnergy := s.fAccumEnergy,
      fGapRotation := s.fAccumRotation }

/-- The record epoch a `_Resync` at time `t` computes,
`floor(t / interval) * interval`: the floor is taken of the quotient as a `double`. -/
def recordEpoch (dRecordInterval t : ℚ) : ℚ :=
  (⌊toDouble (t / dRecordInterval)⌋ : ℚ) * dRecordInterval

/-- The test `((unsigned short)(ulNewEventTime - stState.ulLastRecordTime)) >=
stState.usRecordInterval`: the event time has reached the next record boundary. -/
def crossed (c : Consts) (s : BPSAMPLER) (ulNewEventTime : Nat) : Prop :=
  toUShort (toULong c ((ulNewEventTime : Int) - s.ulLastRecordTime)) ≥ s.usRecordInterval

instance (c : Consts) (s : BPSAMPLER) (n : Nat) : Decidable (crossed c s n) := by
  unfold crossed
  infer_instance

/-- The closing `if`/`else` shared by the four incremental decoders: when the event time has
crossed the next record boundary call `RecordOutput`, otherwise run the wall-clock catch-up
with the decoder's own `step`.  `ro` is the static `dRecordInterval` of `RecordOutput.c`,
`dRecordInterval` the one of the decoder. -/
def recordOrCatchUp (c : Consts) (ro dRecordInterval step dTime_ : ℚ) (s : BPSAMPLER) :
    Except Fault (BPSAMPLER × List Record) :=
  if crossed c s s.ulEventTime then
    RecordOutput ro s
  else
    wallClockFill dTime_ dRecordInterval step s

/-! ## DecodePowerOnly.c -/

/-- Function `DecodePowerOnly_Init`: the new decoder statics and the new static
`dRecordInterval` of `RecordOutput.c`. -/
def DecodePowerOnly_Init (c : Consts) (d : Decoder)
    (dRecordInterval_ dTimeBase_ dReSyncInterval_ : ℚ) : Decoder × ℚ :=
  let out := ResamplerOutput_Init d.stState
    (toUShort (truncToInt (toDouble (dRecordInterval_ * c.PO_TIME_QUANTIZATION))))
    dRecordInterval_
    (toUShort (truncToInt (toDouble (dTimeBase_ * c.PO_TIME_QUANTIZATION))))
  ({ stState := out.1, dRecordInterval := dRecordInterval_,
     dReSyncInterval := dReSyncInterval_ }, out.2)

/-- Function `DecodePowerOnly_SetTimeBase` of the source. -/
def DecodePowerOnly_SetTimeBase (c : Consts) (d : Decoder) (dTimeBase_ : ℚ) : Decoder :=
  { d with stState := { d.stState with
      usTimeBase := toUShort (truncToInt (toDouble (dTimeBase_ * c.PO_TIME_QUANTIZATION))) } }

/-- Function `DecodePowerOnly_Resync`: re-establish the data baseline. -/
def DecodePowerOnly_Resync (c : Consts) (ro : ℚ) (d : Decoder) (dCurrentTime_ : ℚ)
    (p : Payload) : Except Fault (Decoder × List Record) := do
  let quot ← fdiv dCurrentTime_ d.dRecordInterval
  let dCurrentRecordEpoch : ℚ := (⌊toDouble quot⌋ : ℚ) * d.dRecordInterval
  let s := d.stState
  let out ← (
    if s.dLastRecordTime ≠ 0
        ∧ dCurrentRecordEpoch - s.dLastRecordTime > 0
        ∧ dCurrentRecordEpoch - s.dLastRecordTime < c.MAXIMUM_TIME_GAP then do
      let ucRecordGapCount ← resyncGapCount (dCurrentRecordEpoch - s.dLastRecordTime)
        d.dRecordInterval
      resyncCatchUp ro s ucRecordGapCount
    else
      pure (s, []))
  let usCurrentAccumPower := word16 p.b4 p.b5
  pure ({ d with stState :=
      { out.1 with
        ucCadence := p.b3.val,
        fAccumEnergy := 0, fPendingEnergy := 0, fGapEnergy := 0,
        fAccumRotation := 0, fPendingRotation := 0, fGapRotation := 0,
        ucRecordGapCount := 0,
        ulEventTime := 0, ulLastRecordTime := 0,
        dLastMessageTime := dCurrentTime_,
        dLastRecordTime := dCurrentRecordEpoch,
        usLastAccumPeriod := 0,
        ucLastRotationTicks := p.b1.val,
        ucLastEventCount := p.b1.val,
        usLastAccumTorque := usCurrentAccumPower } }, out.2)

/-- The first part of `DecodePowerOnly`, up to and including the store of the new
`stState.ulEventTime`: the counter deltas, the event energy and the split of the event
between the pending, accumulated and gap buckets. -/
def DecodePowerOnly_update (c : Consts) (s : BPSAMPLER) (p : Payload) :
    Except Fault BPSAMPLER := do
  let usCurrentAccumPower := word16 p.b4 p.b5
  let usInstPower := word16 p.b6 p.b7
  let usDeltaPower0 := delta16 usCurrentAccumPower s.usLastAccumTorque
  let ucDeltaTicks := delta8 p.b1.val s.ucLastEventCount
  let ucCadence := p.b3.val
  -- Sanity check on delta power vs. instantaneous.
  let usDeltaPower1 :=
    if usInstPower > 0 ∧ usDeltaPower0 > 100 * usInstPower then usInstPower else usDeltaPower0
  let per ← (
    if ucCadence > 0 then do
      let quot ← idiv
        (toULong c ((ucDeltaTicks * c.PO_TIME_QUANTIZATION * 60 + ucCadence / 2 : Nat) : Int))
        ucCadence
      pure (toUShort (quot : Int), usDeltaPower1)
    else
      pure (0xFFFF, 0))
  let usDeltaPeriod : Nat := per.1
  let usDeltaPower : Nat := per.2
  let ev ← (
    if s.usTimeBase ≠ 0 then
      -- time based messages.
      pure (toULong c ((s.ulEventTime + toULong c ((s.usTimeBase * ucDeltaTicks : Nat) : Int)
              : Nat) : Int),
            toUShort ((s.usTimeBase * ucDeltaTicks : Nat) : Int),
            (usDeltaPower : ℚ))
    else do
      -- event based messages
      let e ← fdiv ((usDeltaPower : ℚ) * usDeltaPeriod / c.PO_TIME_QUANTIZATION) ucDeltaTicks
      pure (toULong c ((s.ulEventTime + usDeltaPeriod : Nat) : Int), usDeltaPeriod, e))
  let ulNewEventTime : Nat := ev.1
  let usDeltaPowerPeriod : Nat := ev.2.1
  let fEventEnergy : ℚ := ev.2.2
  let s1 ← (
    if crossed c s ulNewEventTime then do
      -- The event occurred after the end of the current record epoch.
      let qNew ← idiv ulNewEventTime s.usRecordInterval
      let qLast ← idiv s.ulLastRecordTime s.usRecordInterval
      let ucRecordGapCount := toUChar (toULong c ((qNew : Int) - qLast - 1))
      let rOld ← imod s.ulEventTime s.usRecordInterval
      let before : ℚ := toULong c ((s.usRecordInterval : Int) - rOld)
      let fPendingEnergy ← fdiv (fEventEnergy * before) usDeltaPowerPeriod
      let rNew ← imod ulNewEventTime s.usRecordInterval
      let fAccumEnergy ← fdiv (fEventEnergy * (rNew : ℚ)) usDeltaPowerPeriod
      let fGapEnergy ← fdiv
        (fEventEnergy * ((ucRecordGapCount * s.usRecordInterval : Nat) : ℚ)) usDeltaPowerPeriod
      let fPendingRotation ← fdiv ((ucDeltaTicks : ℚ) * before) usDeltaPeriod
      let fAccumRotation ← fdiv ((ucDeltaTicks : ℚ) * (rNew : ℚ)) usDeltaPeriod
      let fGapRotation ← fdiv
        ((ucDeltaTicks : ℚ) * ((ucRecordGapCount * s.usRecordInterval : Nat) : ℚ)) usDeltaPeriod
      pure { s with
        ucCadence := ucCadence,
        ucRecordGapCount := ucRecordGapCount,
        fPendingEnergy := s.fAccumEnergy + fPendingEnergy,
        fAccumEnergy := fAccumEnergy,
        fGapEnergy := fGapEnergy,
        fPendingRotation := s.fAccumRotation + fPendingRotation,
        fAccumRotation := fAccumRotation,
        fGapRotation := fGapRotation }
    else
      -- This event came in before the next record epoch started.
      pure { s with
        ucCadence := ucCadence,
        fAccumEnergy := s.fAccumEnergy + fEventEnergy,
        fAccumRotation :=
          if s.usTimeBase ≠ 0 then s.fAccumRotation + (ucDeltaTicks : ℚ) * ucCadence / 60
          else s.fAccumRotation + ucDeltaTicks,
        fPendingEnergy := 0,
        fPendingRotation := 0,
        ucRecordGapCount := 0 })
  let s2 : BPSAMPLER := { s1 with ulEventTime := ulNewEventTime }
  pure s2

/-- Function `DecodePowerOnly`: the incremental decode of a Power-Only page. -/
def DecodePowerOnly (c : Consts) (ro : ℚ) (d : Decoder) (dTime_ : ℚ) (p : Payload) :
    Except Fault (Decoder × List Record) := do
  let usCurrentAccumPower := word16 p.b4 p.b5
  let s2 ← DecodePowerOnly_update c d.stState p
  let out ← recordOrCatchUp c ro d.dRecordInterval
    ((s2.usRecordInterval : ℚ) / c.PO_TIME_QUANTIZATION) dTime_ s2
  -- Propagate the message state information.
  pure ({ d with stState :=
      { out.1 with
        ucLastRotationTicks := p.b1.val,
        ucLastEventCount := p.b1.val,
        usLastAccumTorque := usCurrentAccumPower } }, out.2)

/-- Function `DecodePowerOnly_Message`: the message event handler of the Power-Only decoder. -/
def DecodePowerOnly_Message (c : Consts) (ro : ℚ) (d : Decoder) (dTime_ : ℚ) (p : Payload) :
    Except Fault (Decoder × List Record) :=
  -- see if the message is new.
  if d.stState.ucLastEventCount ≠ p.b1.val then do
    let out ← (
      if dTime_ - d.stState.dLastMessageTime > d.dReSyncInterval then
        DecodePowerOnly_Resync c ro d dTime_ p
      else
        DecodePowerOnly c ro d dTime_ p)
    pure ({ out.1 with stState :=
        { out.1.stState with dLastMessageTime := dTime_, ucLastEventCount := p.b1.val } },
      out.2)
  else
    pure (d, [])

/-! ## DecodeCrankTorque.c -/

/-- Function `DecodeCrankTorque_Init` of the source. -/
def DecodeCrankTorque_Init (c : Consts) (d : Decoder)
    (dRecordInterval_ dTimeBase_ dReSyncInterval_ : ℚ) : Decoder × ℚ :=
  let out := ResamplerOutput_Init d.stState
    (toUShort (truncToInt (toDouble (dRecordInterval_ * c.CT_TIME_QUANTIZATION))))
    dRecordInterval_
    (toUShort (truncToInt (toDouble (dTimeBase_ * c.CT_TIME_QUANTIZATION))))
  ({ stState := out.1, dRecordInterval := dRecordInterval_,
     dReSyncInterval := dReSyncInterval_ }, out.2)

/-- Function `DecodeCrankTorque_Resync`: re-establish the data baseline. -/
def DecodeCrankTorque_Resync (c : Consts) (ro : ℚ) (d : Decoder) (dCurrentTime_ : ℚ)
    (p : Payload) : Except Fault (Decoder × List Record) := do
  let quot ← fdiv dCurrentTime_ d.dRecordInterval
  let dCurrentRecordEpoch : ℚ := (⌊toDouble quot⌋ : ℚ) * d.dRecordInterval
  let s := d.stState
  let out ← (
    if s.dLastRecordTime ≠ 0
        ∧ dCurrentRecordEpoch - s.dLastRecordTime < c.MAXIMUM_TIME_GAP then do
      -- Figure out how many records we missed based on the receive timestamps.
      let ucRecordGapCount ← resyncGapCount (dCurrentRecordEpoch - s.dLastRecordTime)
        d.dRecordInterval
      resyncCatchUp ro s ucRecordGapCount
    else
      pure (s, []))
  let usCurrentAccumPeriod := word16 p.b4 p.b5
  let usCurrentAccumTorque := word16 p.b6 p.b7
  pure ({ d with stState :=
      { out.1 with
        ucCadence := p.b3.val,
        fAccumEnergy := 0, fPendingEnergy := 0, fGapEnergy := 0,
        fAccumRotation := 0, fPendingRotation := 0, fGapRotation := 0,
        ucRecordGapCount := 0,
        ulEventTime := 0, ulLastRecordTime := 0,
        dLastMessageTime := dCurrentTime_,
        dLastRecordTime := dCurrentRecordEpoch,
        usLastAccumTorque := usCurrentAccumTorque,
        usLastAccumPeriod := usCurrentAccumPeriod,
        ucLastRotationTicks := p.b2.val,
        ucLastEventCount := p.b1.val } }, out.2)

/-- The torque delta used by `DecodeCrankTorque`: the 16-bit difference of the accumulated
torque counters, with 65535 treated as invalid and replaced by 0. -/
def DecodeCrankTorque_deltaTorque (usLastAccumTorque : Nat) (p : Payload) : Nat :=
  let usCurrentAccumTorque := word16 p.b6 p.b7
  let usDeltaTorque := delta16 usCurrentAccumTorque usLastAccumTorque
  -- 65535 is an invalid value.
  if usDeltaTorque = 65535 then 0 else usDeltaTorque

/-- The first part of `DecodeCrankTorque`, up to and including the store of the new
`stState.ulEventTime`: the counter deltas, the event energy and the split of the event
between the pending, accumulated and gap buckets. -/
def DecodeCrankTorque_update (c : Consts) (s : BPSAMPLER) (p : Payload) :
    Except Fault BPSAMPLER := do
  let usCurrentAccumPeriod := word16 p.b4 p.b5
  let usCurrentAccumTorque := word16 p.b6 p.b7
  let usDeltaTorque := DecodeCrankTorque_deltaTorque s.usLastAccumTorque p
  let usDeltaPeriod := delta16 usCurrentAccumPeriod s.usLastAccumPeriod
  let ucDeltaEventCount := delta8 p.b1.val s.ucLastEventCount
  let ucDeltaTicks := delta8 p.b2.val s.ucLastRotationTicks
  let ucCadence := p.b3.val
  let ev ← (
    if usDeltaPeriod ≠ 0 ∧ usDeltaPeriod ≠ 0xFFFF then do
      let ulNewEventTime := toULong c ((s.ulEventTime + usDeltaPeriod : Nat) : Int)
      let pw ← idiv ((truncToInt (M_PI * 2048 + 1 / 2)).toNat * usDeltaTorque) usDeltaPeriod
      let ulEventPower := toULong c (((pw + 8) / 16 : Nat) : Int)
      let cad ← idiv (ucDeltaTicks * 60 * c.CT_TIME_QUANTIZATION + usDeltaPeriod / 2)
        usDeltaPeriod
      let ulEventCadence := toULong c (cad : Int)
      pure (ulNewEventTime, M_PI * (usDeltaTorque : ℚ) / 16)
    else
      -- This is basically a non-event.
      pure (s.ulEventTime, 0))
  let ulNewEventTime : Nat := ev.1
  let fEventEnergy : ℚ := ev.2
  let s1 ← (
    if crossed c s ulNewEventTime then do
      -- The event occurred after the end of the current record epoch.
      let qNew ← idiv ulNewEventTime s.usRecordInterval
      let qLast ← idiv s.ulLastRecordTime s.usRecordInterval
      let ucRecordGapCount := toUChar (toULong c ((qNew : Int) - qLast - 1))
      let rOld ← imod s.ulEventTime s.usRecordInterval
      let before : ℚ := toULong c ((s.usRecordInterval : Int) - rOld)
      let fPendingEnergy ← fdiv (fEventEnergy * before) usDeltaPeriod
      let rNew ← imod ulNewEventTime s.usRecordInterval
      let fAccumEnergy ← fdiv (fEventEnergy * (rNew : ℚ)) usDeltaPeriod
      let fGapEnergy ← fdiv
        (fEventEnergy * ((ucRecordGapCount * s.usRecordInterval : Nat) : ℚ)) usDeltaPeriod
      let fPendingRotation ← fdiv ((ucDeltaTicks : ℚ) * before) usDeltaPeriod
      let fAccumRotation ← fdiv ((ucDeltaTicks : ℚ) * (rNew : ℚ)) usDeltaPeriod
      let fGapRotation ← fdiv
        ((ucDeltaTicks : ℚ) * ((ucRecordGapCount * s.usRecordInterval : Nat) : ℚ)) usDeltaPeriod
      pure { s with
        ucCadence := ucCadence,
        ucRecordGapCount := ucRecordGapCount,
        fPendingEnergy := s.fAccumEnergy + fPendingEnergy,
        fAccumEnergy := fAccumEnergy,
        fGapEnergy := fGapEnergy,
        fPendingRotation := s.fAccumRotation + fPendingRotation,
        fAccumRotation := fAccumRotation,
        fGapRotation := fGapRotation }
    else
      -- This event came in before the next record epoch started.
      pure { s with
        ucCadence := ucCadence,
        fAccumEnergy := s.fAccumEnergy + fEventEnergy,
        fAccumRotation := s.fAccumRotation + ucDeltaTicks,
        fPendingEnergy := 0,
        fPendingRotation := 0,
        ucRecordGapCount := 0 })
  let s2 : BPSAMPLER :=
    { s1 with ulEventTime := toULong c ((s1.ulEventTime + usDeltaPeriod : Nat) : Int) }
  pure s2

/-- Function `DecodeCrankTorque`: the incremental decode of a Crank-Torque page. -/
def DecodeCrankTorque (c : Consts) (ro : ℚ) (d : Decoder) (dTime_ : ℚ) (p : Payload) :
    Except Fault (Decoder × List Record) := do
  let usCurrentAccumPeriod := word16 p.b4 p.b5
  let usCurrentAccumTorque := word16 p.b6 p.b7
  let s2 ← DecodeCrankTorque_update c d.stState p
  let out ← recordOrCatchUp c ro d.dRecordInterval d.dRecordInterval dTime_ s2
  -- Propagate the message state information.
  pure ({ d with stState :=
      { out.1 with
        ucLastEventCount := p.b1.val,
        ucLastRotationTicks := p.b2.val,
        usLastAccumPeriod := usCurrentAccumPeriod,
        usLastAccumTorque := usCurrentAccumTorque } }, out.2)

/-- Function `DecodeCrankTorque_Message`: the message event handler of the Crank-Torque decoder. -/
def DecodeCrankTorque_Message (c : Consts) (ro : ℚ) (d : Decoder) (dTime_ : ℚ) (p : Payload) :
    Except Fault (Decoder × List Record) :=
  -- see if the message is new.
  if d.stState.ucLastEventCount ≠ p.b1.val then do
    let out ← (
      if dTime_ - d.stState.dLastMessageTime > d.dReSyncInterval then
        DecodeCrankTorque_Resync c ro d dTime_ p
      else
        DecodeCrankTorque c ro d dTime_ p)
    pure ({ out.1 with stState := { out.1.stState with dLastMessageTime := dTime_ } }, out.2)
  else
    pure (d, [])

/-! ## DecodeWheelTorque.c (compiled with `PROPAGATE_CADENCE`) -/

/-- Function `DecodeWheelTorque_Init` of the source. -/
def DecodeWheelTorque_Init (c : Consts) (d : Decoder)
    (dRecordInterval_ dTimeBasedPeriod_ dReSyncInterval_ : ℚ) : Decoder × ℚ :=
  let out := ResamplerOutput_Init d.stState
    (toUShort (truncToInt (toDouble (dRecordInterval_ * c.WT_TIME_QUANTIZATION))))
    dRecordInterval_
    (toUShort (truncToInt (toDouble (dTimeBasedPeriod_ * c.WT_TIME_QUANTIZATION))))
  ({ stState := out.1, dRecordInterval := dRecordInterval_,
     dReSyncInterval := dReSyncInterval_ }, out.2)

/-- Function `DecodeWheelTorque_Resync`: re-establish the data baseline.  The gap count is
`resyncGapCountWT`: here the cast applies to the numerator only. -/
def DecodeWheelTorque_Resync (c : Consts) (ro : ℚ) (d : Decoder) (dCurrentTime_ : ℚ)
    (p : Payload) : Except Fault (Decoder × List Record) := do
  let quot ← fdiv dCurrentTime_ d.dRecordInterval
  let dCurrentRecordEpoch : ℚ := (⌊toDouble quot⌋ : ℚ) * d.dRecordInterval
  let s := d.stState
  let out ← (
    if s.dLastRecordTime ≠ 0
        ∧ dCurrentRecordEpoch - s.dLastRecordTime > 0
        ∧ dCurrentRecordEpoch - s.dLastRecordTime < c.MAXIMUM_TIME_GAP then do
      let ucRecordGapCount ← resyncGapCountWT (dCurrentRecordEpoch - s.dLastRecordTime)
        d.dRecordInterval
      resyncCatchUp ro s ucRecordGapCount
    else
      pure (s, []))
  let usCurrentAccumPeriod := word16 p.b4 p.b5
  let usCurrentAccumTorque := word16 p.b6 p.b7
  pure ({ d with stState :=
      { out.1 with
        ucCadence := p.b3.val,
        fAccumEnergy := 0, fPendingEnergy := 0, fGapEnergy := 0,
        fAccumRotation := 0, fPendingRotation := 0, fGapRotation := 0,
        ucRecordGapCount := 0,
        ulEventTime := 0, ulLastRecordTime := 0,
        dLastMessageTime := dCurrentTime_,
        dLastRecordTime := dCurrentRecordEpoch,
        usLastAccumTorque := usCurrentAccumTorque,
        usLastAccumPeriod := usCurrentAccumPeriod,
        ucLastRotationTicks := p.b2.val,
        ucLastEventCount := p.b1.val } }, out.2)

/-- The first part of `DecodeWheelTorque`, up to and including the store of the new
`stState.ulEventTime`: the counter deltas, the event energy and the split of the event
between the pending, accumulated and gap buckets. -/
def DecodeWheelTorque_update (c : Consts) (s : BPSAMPLER) (p : Payload) :
    Except Fault BPSAMPLER := do
  let usCurrentAccumPeriod := word16 p.b4 p.b5
  let usCurrentAccumTorque := word16 p.b6 p.b7
  let usDeltaTorque0 := delta16 usCurrentAccumTorque s.usLastAccumTorque
  let usDeltaPeriod := delta16 usCurrentAccumPeriod s.usLastAccumPeriod
  let ucCadence := p.b3.val
  let ucDeltaEventCount := delta8 p.b1.val s.ucLastEventCount
  let ucDeltaTicks0 := delta8 p.b2.val s.ucLastRotationTicks
  -- Unlikely to be right...
  let ucDeltaTicks1 := if ucDeltaTicks0 > 200 then 0 else ucDeltaTicks0
  -- 65535 is an invalid value.
  let usDeltaTorque := if usDeltaTorque0 = 65535 then 0 else usDeltaTorque0
  let ev ← (
    if usDeltaPeriod ≠ 0 ∧ usDeltaPeriod ≠ 0xFFFF then do
      let pw ← idiv ((truncToInt (M_PI * 2048 + 1 / 2)).toNat * usDeltaTorque) usDeltaPeriod
      let ulEventPower := toULong c (((pw + 8) / 16 : Nat) : Int)
      let tb :=
        if s.usTimeBase ≠ 0 then
          -- time based messages.
          (toULong c ((s.ulEventTime + toULong c ((s.usTimeBase * ucDeltaEventCount : Nat) : Int)
              : Nat) : Int),
            s.usTimeBase,
            (ulEventPower : ℚ),
            if ucCadence ≠ 0 then ucDeltaEventCount else 0)
        else
          -- event based messages
          (toULong c ((s.ulEventTime + usDeltaPeriod : Nat) : Int),
            usDeltaPeriod,
            M_PI * (usDeltaTorque : ℚ) / 16,
            ucDeltaTicks1)
      -- This is actually the wheel rotation speed.
      let rpm ← idiv (tb.2.2.2 * 60 * c.WT_TIME_QUANTIZATION + usDeltaPeriod / 2) usDeltaPeriod
      let ulEventWheelRPM := toULong c (rpm : Int)
      pure tb
    else
      -- This is basically a non-event.
      pure (s.ulEventTime, usDeltaPeriod, 0, ucDeltaTicks1))
  let ulNewEventTime : Nat := ev.1
  let usDeltaPowerPeriod : Nat := ev.2.1
  let fEventEnergy : ℚ := ev.2.2.1
  let ucDeltaTicks : Nat := ev.2.2.2
  let s1 ← (
    if crossed c s ulNewEventTime then do
      -- The event occurred after the end of the current record epoch.
      let qNew ← idiv ulNewEventTime s.usRecordInterval
      let qLast ← idiv s.ulLastRecordTime s.usRecordInterval
      let ucRecordGapCount := toUChar (toULong c ((qNew : Int) - qLast - 1))
      let rOld ← imod s.ulEventTime s.usRecordInterval
      let before : ℚ := toULong c ((s.usRecordInterval : Int) - rOld)
      let fPendingEnergy ← fdiv (fEventEnergy * before) usDeltaPowerPeriod
      let rNew ← imod ulNewEventTime s.usRecordInterval
      let fAccumEnergy ← fdiv (fEventEnergy * (rNew : ℚ)) usDeltaPowerPeriod
      let fGapEnergy ← fdiv
        (fEventEnergy * ((ucRecordGapCount * s.usRecordInterval : Nat) : ℚ)) usDeltaPowerPeriod
      -- Same for rotation: the cycling cadence is propagated.
      pure { s with
        ucCadence := ucCadence,
        ucRecordGapCount := ucRecordGapCount,
        fPendingEnergy := s.fAccumEnergy + fPendingEnergy,
        fAccumEnergy := fAccumEnergy,
        fGapEnergy := fGapEnergy,
        fPendingRotation := s.fAccumRotation
          + (ucDeltaTicks : ℚ) * ucCadence / 60 * before / c.WT_TIME_QUANTIZATION,
        fAccumRotation :=
          (ucDeltaTicks : ℚ) * ucCadence / 60 * (rNew : ℚ) / c.WT_TIME_QUANTIZATION,
        fGapRotation :=
          (ucDeltaTicks : ℚ) * ucCadence / 60
            * ((ucRecordGapCount * s.usRecordInterval : Nat) : ℚ) / c.WT_TIME_QUANTIZATION }
    else
      -- This event came in before the next record epoch started.
      pure { s with
        ucCadence := ucCadence,
        fAccumEnergy := s.fAccumEnergy + fEventEnergy,
        fAccumRotation := s.fAccumRotation + (ucDeltaTicks : ℚ) * ucCadence / 60,
        fPendingEnergy := 0,
        fPendingRotation := 0,
        ucRecordGapCount := 0 })
  let s2 : BPSAMPLER := { s1 with ulEventTime := ulNewEventTime }
  pure s2

/-- Function `DecodeWheelTorque`: the incremental decode of a Wheel-Torque page. -/
def DecodeWheelTorque (c : Consts) (ro : ℚ) (d : Decoder) (dTime_ : ℚ) (p : Payload) :
    Except Fault (Decoder × List Record) := do
  let usCurrentAccumPeriod := word16 p.b4 p.b5
  let usCurrentAccumTorque := word16 p.b6 p.b7
  let s2 ← DecodeWheelTorque_update c d.stState p
  let out ← recordOrCatchUp c ro d.dRecordInterval
    ((s2.usRecordInterval : ℚ) / c.WT_TIME_QUANTIZATION) dTime_ s2
  -- Propagate the message state information.
  pure ({ d with stState :=
      { out.1 with
        ucLastEventCount := p.b1.val,
        ucLastRotationTicks := p.b2.val,
        usLastAccumPeriod := usCurrentAccumPeriod,
        usLastAccumTorque := usCurrentAccumTorque } }, out.2)

/-- Function `DecodeWheelTorque_Message`: the message event handler of the Wheel-Torque decoder. -/
def DecodeWheelTorque_Message (c : Consts) (ro : ℚ) (d : Decoder) (dTime_ : ℚ) (p : Payload) :
    Except Fault (Decoder × List Record) :=
  -- see if the message is new.
  if d.stState.ucLastEventCount ≠ p.b1.val then do
    let out ← (
      if dTime_ - d.stState.dLastMessageTime > d.dReSyncInterval then
        DecodeWheelTorque_Resync c ro d dTime_ p
      else
        DecodeWheelTorque c ro d dTime_ p)
    pure ({ out.1 with stState :=
        { out.1.stState with dLastMessageTime := dTime_, ucLastEventCount := p.b1.val } },
      out.2)
  else
    pure (d, [])

/-! ## DecodeCrankTorqueFrequency.c -/

/-- Function `DecodeCrankTorqueFreq_Init` of the source. -/
def DecodeCrankTorqueFreq_Init (c : Consts) (d : Decoder)
    (dRecordInterval_ dTimeBase_ dReSyncInterval_ : ℚ) : Decoder × ℚ :=
  let out := ResamplerOutput_Init d.stState
    (toUShort (truncToInt (toDouble (dRecordInterval_ * c.CTF_TIME_QUANTIZATION))))
    dRecordInterval_
    (toUShort (truncToInt (toDouble (dTimeBase_ * c.CTF_TIME_QUANTIZATION))))
  -- This is a nominal cal point for the SRM's we've seen.
  ({ stState := { out.1 with usTorqueOffset := 500 }, dRecordInterval := dRecordInterval_,
     dReSyncInterval := dReSyncInterval_ }, out.2)

/-- Function `DecodeCrankTorqueFreq_Resync`: re-establish the data baseline.  The 16-bit fields of
this page are read most significant byte first (`TIME_STAMP_MSB` is byte 4,
`TORQUE_TICKS_MSB` is byte 6). -/
def DecodeCrankTorqueFreq_Resync (c : Consts) (ro : ℚ) (d : Decoder) (dCurrentTime_ : ℚ)
    (p : Payload) : Except Fault (Decoder × List Record) := do
  let quot ← fdiv dCurrentTime_ d.dRecordInterval
  let dCurrentRecordEpoch : ℚ := (⌊toDouble quot⌋ : ℚ) * d.dRecordInterval
  let s := d.stState
  let out ← (
    if s.dLastRecordTime ≠ 0
        ∧ dCurrentRecordEpoch - s.dLastRecordTime < c.MAXIMUM_TIME_GAP then do
      -- Figure out how many records we missed.
      let ucRecordGapCount ← resyncGapCount (dCurrentRecordEpoch - s.dLastRecordTime)
        d.dRecordInterval
      resyncCatchUp ro s ucRecordGapCount
    else
      pure (s, []))
  let usCurrentTimeStamp := word16 p.b5 p.b4
  let usCurrentTorqueTicks := word16 p.b7 p.b6
  pure ({ d with stState :=
      { out.1 with
        fAccumEnergy := 0, fPendingEnergy := 0, fGapEnergy := 0,
        fAccumRotation := 0, fPendingRotation := 0, fGapRotation := 0,
        ucRecordGapCount := 0,
        ulEventTime := 0, ulLastRecordTime := 0,
        dLastMessageTime := dCurrentTime_,
        dLastRecordTime := dCurrentRecordEpoch,
        usLastAccumTorque := usCurrentTorqueTicks,
        usLastAccumPeriod := usCurrentTimeStamp,
        ucLastRotationTicks := p.b1.val,
        ucLastEventCount := p.b1.val } }, out.2)

/-- The first part of `DecodeCrankTorqueFreq`, up to and including the store of the new
`stState.ulEventTime`: the counter deltas, the event energy and the split of the event
between the pending, accumulated and gap buckets. -/
def DecodeCrankTorqueFreq_update (c : Consts) (s : BPSAMPLER) (p : Payload) :
    Except Fault BPSAMPLER := do
  let ucCurrentEventCount := p.b1.val
  let usTorqueSlope := word16 p.b3 p.b2
  let usCurrentTimeStamp := word16 p.b5 p.b4
  let usCurrentTorqueTicks := word16 p.b7 p.b6
  let usDeltaTorque0 := delta16 usCurrentTorqueTicks s.usLastAccumTorque
  let usDeltaPeriod := delta16 usCurrentTimeStamp s.usLastAccumPeriod
  let ucDeltaEventCount := delta8 ucCurrentEventCount s.ucLastEventCount
  -- 65535 is an invalid value.
  let usDeltaTorque := if usDeltaTorque0 = 65535 then 0 else usDeltaTorque0
  let ev ← (
    if usDeltaPeriod ≠ 0 ∧ usDeltaPeriod ≠ 0xFFFF then do
      let ulNewEventTime := toULong c ((s.ulEventTime + usDeltaPeriod : Nat) : Int)
      -- We multiply this up by 32 so that we end up with the torque quantized to 1/32 N*m
      let t0 ← idiv (toULong c ((usDeltaTorque * c.CTF_TIME_QUANTIZATION * 32 : Nat) : Int))
        usDeltaPeriod
      let off := toULong c ((s.usTorqueOffset * 32 : Nat) : Int)
      let t1 := if t0 > off then toULong c ((t0 : Int) - off) else 0
      let t2 := toULong c ((t1 * 10 : Nat) : Int)
      let ulTempTorque ← idiv t2 usTorqueSlope
      let pw ← idiv (toULong c (((truncToInt (M_PI * 2000 + 1 / 2)).toNat * ulTempTorque : Nat)
        : Int)) usDeltaPeriod
      let ulEventPower := toULong c ((pw + 8 : Nat) : Int) / 16
      let cad ← idiv (ucDeltaEventCount * 60 * c.CTF_TIME_QUANTIZATION + usDeltaPeriod / 2)
        usDeltaPeriod
      let ulEventCadence := toULong c (cad : Int)
      pure (ulNewEventTime, M_PI * (ulTempTorque : ℚ) / 16)
    else
      -- This is basically a non-event.
      pure (s.ulEventTime, 0))
  let ulNewEventTime : Nat := ev.1
  let fEventEnergy : ℚ := ev.2
  let s1 ← (
    if crossed c s ulNewEventTime then do
      -- The event occurred after the end of the current record epoch.
      let qNew ← idiv ulNewEventTime s.usRecordInterval
      let qLast ← idiv s.ulLastRecordTime s.usRecordInterval
      let ucRecordGapCount := toUChar (toULong c ((qNew : Int) - qLast - 1))
      let rOld ← imod s.ulEventTime s.usRecordInterval
      let before : ℚ := toULong c ((s.usRecordInterval : Int) - rOld)
      let fPendingEnergy ← fdiv (fEventEnergy * before) usDeltaPeriod
      let rNew ← imod ulNewEventTime s.usRecordInterval
      let fAccumEnergy ← fdiv (fEventEnergy * (rNew : ℚ)) usDeltaPeriod
      let fGapEnergy ← fdiv
        (fEventEnergy * ((ucRecordGapCount * s.usRecordInterval : Nat) : ℚ)) usDeltaPeriod
      let fPendingRotation ← fdiv ((ucDeltaEventCount : ℚ) * before) usDeltaPeriod
      let fAccumRotation ← fdiv ((ucDeltaEventCount : ℚ) * (rNew : ℚ)) usDeltaPeriod
      let fGapRotation ← fdiv
        ((ucDeltaEventCount : ℚ) * ((ucRecordGapCount * s.usRecordInterval : Nat) : ℚ))
        usDeltaPeriod
      pure { s with
        ucRecordGapCount := ucRecordGapCount,
        fPendingEnergy := s.fAccumEnergy + fPendingEnergy,
        fAccumEnergy := fAccumEnergy,
        fGapEnergy := fGapEnergy,
        fPendingRotation := s.fAccumRotation + fPendingRotation,
        fAccumRotation := fAccumRotation,
        fGapRotation := fGapRotation }
    else
      -- This event came in before the next record epoch started.
      pure { s with
        fAccumEnergy := s.fAccumEnergy + fEventEnergy,
        fAccumRotation := s.fAccumRotation + ucDeltaEventCount,
        fPendingEnergy := 0,
        fPendingRotation := 0,
        ucRecordGapCount := 0 })
  let s2 : BPSAMPLER :=
    { s1 with ulEventTime := toULong c ((s1.ulEventTime + usDeltaPeriod : Nat) : Int) }
  pure s2

/-- Function `DecodeCrankTorqueFreq`: the incremental decode of a Crank-Torque-Frequency page. -/
def DecodeCrankTorqueFreq (c : Consts) (ro : ℚ) (d : Decoder) (dTime_ : ℚ) (p : Payload) :
    Except Fault (Decoder × List Record) := do
  let ucCurrentEventCount := p.b1.val
  let usCurrentTimeStamp := word16 p.b5 p.b4
  let usCurrentTorqueTicks := word16 p.b7 p.b6
  let s2 ← DecodeCrankTorqueFreq_update c d.stState p
  let out ← recordOrCatchUp c ro d.dRecordInterval
    ((s2.usRecordInterval : ℚ) / c.CTF_TIME_QUANTIZATION) dTime_ s2
  -- Propagate the message state information.
  pure ({ d with stState :=
      { out.1 with
        ucLastEventCount := ucCurrentEventCount,
        ucLastRotationTicks := ucCurrentEventCount,
        usLastAccumPeriod := usCurrentTimeStamp,
        usLastAccumTorque := usCurrentTorqueTicks } }, out.2)

/-- Function `DecodeCrankTorqueFreq_Message`: the message event handler of the
Crank-Torque-Frequency decoder. -/
def DecodeCrankTorqueFreq_Message (c : Consts) (ro : ℚ) (d : Decoder) (dTime_ : ℚ)
    (p : Payload) : Except Fault (Decoder × List Record) :=
  -- see if the message is new.
  if d.stState.ucLastEventCount ≠ p.b1.val then do
    let out ← (
      if dTime_ - d.stState.dLastMessageTime > d.dReSyncInterval then
        DecodeCrankTorqueFreq_Resync c ro d dTime_ p
      else
        DecodeCrankTorqueFreq c ro d dTime_ p)
    pure ({ out.1 with stState := { out.1.stState with dLastMessageTime := dTime_ } }, out.2)
  else
    pure (d, [])

/-- Function `DecodeCrankTorqueFreq_Calibration` of the source. -/
def DecodeCrankTorqueFreq_Calibration (c : Consts) (d : Decoder) (dTime_ : ℚ) (p : Payload) :
    Decoder :=
  if p.byte c.CALIBRATION_ID_BYTE ≠ c.ANT_CTF_CALIBRATION_ID then
    -- bad message
    d
  else if p.byte c.ANT_CTF_CAL_TYPE_BYTE = c.ANT_CTF_CAL_ZERO then
    { d with stState := { d.stState with
        usTorqueOffset :=
          (p.byte c.ANT_CTF_CAL_ZERO_LSB_BYTE + p.byte c.ANT_CTF_CAL_ZERO_MSB_BYTE * 256)
            % 65536 } }
  else
    d

/-! ## PowerDecoder.c -/

/-- The statics of the dispatcher together with the four decoder translation units and the
static `dRecordInterval` of `RecordOutput.c`. -/
structure Session where
  po : Decoder
  ct : Decoder
  ctf : Decoder
  wt : Decoder
  roRecordInterval : ℚ
  ucPowerMeterType : Nat
  bResyncPowerChannel : Bool
  bResyncPowerOnlyChannel : Bool
  ucPowerOnlyEventCount : Nat
  dPowerOnlyBundleRxTime : ℚ
  ucNewPowerOnlyEventCount : Nat
deriving DecidableEq, Repr

/-- The statics as they are when the program is loaded. -/
def Session.initial : Session :=
  { po := Decoder.zero, ct := Decoder.zero, ctf := Decoder.zero, wt := Decoder.zero,
    roRecordInterval := 0,
    ucPowerMeterType := 255,
    bResyncPowerChannel := true,
    bResyncPowerOnlyChannel := true,
    ucPowerOnlyEventCount := 255,
    dPowerOnlyBundleRxTime := -1,
    ucNewPowerOnlyEventCount := 0 }

/-- Function `InitPowerDecoder`: it returns nothing and performs no check of its arguments. -/
def InitPowerDecoder (c : Consts) (ss : Session)
    (dRecordInterval_ dTimeBase_ dReSyncInterval_ : ℚ) : Session :=
  let po := DecodePowerOnly_Init c ss.po dRecordInterval_ dTimeBase_ dReSyncInterval_
  let ct := DecodeCrankTorque_Init c ss.ct dRecordInterval_ dTimeBase_ dReSyncInterval_
  let ctf := DecodeCrankTorqueFreq_Init c ss.ctf dRecordInterval_ dTimeBase_ dReSyncInterval_
  let wt := DecodeWheelTorque_Init c ss.wt dRecordInterval_ dTimeBase_ dReSyncInterval_
  { ss with po := po.1, ct := ct.1, ctf := ctf.1, wt := wt.1, roRecordInterval := wt.2 }

/-- Function `SetPowerMeterType` of the source. -/
def SetPowerMeterType (ss : Session) (ucPowerMeterType_ : Nat) : Session :=
  { ss with ucPowerMeterType := ucPowerMeterType_ % 256 }

/-- The `ANT_POWERONLY` case of `DecodePowerMessage`. -/
def dispatchPowerOnly (c : Consts) (ss0 : Session) (dRxTime_ : ℚ) (p : Payload) :
    Except Fault (Session × List Record) := do
  let ucNew := p.b1.val
  let ss1 : Session := { ss0 with ucNewPowerOnlyEventCount := ucNew }
  let ss2 : Session :=
    if ucNew ≠ ss1.ucPowerOnlyEventCount then
      { ss1 with ucPowerOnlyEventCount := ucNew, dPowerOnlyBundleRxTime := dRxTime_ }
    else ss1
  -- Don't grab the power decoding unless we're the only power message type so far.
  let r3 ← (
    if ss2.ucPowerMeterType = 255 then do
      let out ← DecodePowerOnly_Resync c ss2.roRecordInterval ss2.po
        ss2.dPowerOnlyBundleRxTime p
      pure ({ ss2 with ucPowerMeterType := p.b0.val, po := out.1 }, out.2)
    else
      pure (ss2, []))
  let ss3 : Session := r3.1
  let r4 ← (
    if ss3.bResyncPowerOnlyChannel then do
      let out ← DecodePowerOnly_Resync c ss3.roRecordInterval ss3.po
        ss3.dPowerOnlyBundleRxTime p
      pure ({ ss3 with po := out.1, bResyncPowerOnlyChannel := false }, out.2)
    else
      pure (ss3, []))
  let ss4 : Session := r4.1
  -- For now we will only decode the power only page if it is the only bike power page
  let r5 ← (
    if ss4.ucPowerMeterType = ANT_POWERONLY then do
      let out ← DecodePowerOnly_Message c ss4.roRecordInterval ss4.po
        ss4.dPowerOnlyBundleRxTime p
      pure ({ ss4 with po := out.1 }, out.2)
    else
      pure (ss4, []))
  pure (r5.1, r3.2 ++ r4.2 ++ r5.2)

/-- The common shape of the `ANT_WHEELTORQUE`, `ANT_CRANKTORQUE` and `ANT_CRANKFREQ` cases of
`DecodePowerMessage`; `get` and `set` select the decoder of the page, `resync` and `message`
are its `_Resync` and `_Message` functions. -/
def dispatchTorque (c : Consts) (get : Session → Decoder) (set : Session → Decoder → Session)
    (resync message : Consts → ℚ → Decoder → ℚ → Payload → Except Fault (Decoder × List Record))
    (ss0 : Session) (dRxTime_ : ℚ) (p : Payload) : Except Fault (Session × List Record) := do
  let r1 ← (
    if ss0.ucPowerMeterType ≠ p.b0.val then do
      -- set up the power only message in addition to the torque data stream.
      let outPo ← DecodePowerOnly_Resync c ss0.roRecordInterval ss0.po dRxTime_ p
      let ssA : Session := { ss0 with po := outPo.1, bResyncPowerOnlyChannel := false }
      let outT ← resync c ssA.roRecordInterval (get ssA) dRxTime_ p
      let ssB : Session := { set ssA outT.1 with bResyncPowerChannel := false }
      pure ({ ssB with ucPowerMeterType := p.b0.val }, outPo.2 ++ outT.2)
    else
      pure (ss0, []))
  let ss1 : Session := r1.1
  -- decoder specific resync requirements when a new message is available.
  let r2 ← (
    if ss1.bResyncPowerChannel then do
      let outT ← resync c ss1.roRecordInterval (get ss1) dRxTime_ p
      pure ({ set ss1 outT.1 with bResyncPowerChannel := false }, outT.2)
    else
      pure (ss1, []))
  let ss2 : Session := r2.1
  let outM ← message c ss2.roRecordInterval (get ss2) dRxTime_ p
  pure (set ss2 outM.1, r1.2 ++ r2.2 ++ outM.2)

/-- Function `DecodePowerMessage`: the sole per-message entry point. -/
def DecodePowerMessage (c : Consts) (ss : Session) (dRxTime_ : ℚ) (p : Payload) :
    Except Fault (Session × List Record) :=
  -- Initialize the received time for power only event count bundled messages
  let ss0 : Session :=
    if ss.dPowerOnlyBundleRxTime < 0 ∨ dRxTime_ - ss.dPowerOnlyBundleRxTime > 30 then
      { ss with dPowerOnlyBundleRxTime := dRxTime_ }
    else ss
  if p.b0.val = ANT_POWERONLY then
    dispatchPowerOnly c ss0 dRxTime_ p
  else if p.b0.val = ANT_WHEELTORQUE then
    dispatchTorque c (fun x => x.wt) (fun x d => { x with wt := d })
      DecodeWheelTorque_Resync DecodeWheelTorque_Message ss0 dRxTime_ p
  else if p.b0.val = ANT_CRANKTORQUE then
    dispatchTorque c (fun x => x.ct) (fun x d => { x with ct := d })
      DecodeCrankTorque_Resync DecodeCrankTorque_Message ss0 dRxTime_ p
  else if p.b0.val = ANT_CRANKFREQ then
    dispatchTorque c (fun x => x.ctf) (fun x d => { x with ctf := d })
      DecodeCrankTorqueFreq_Resync DecodeCrankTorqueFreq_Message ss0 dRxTime_ p
  else if p.b0.val = ANT_TEPS then
    -- This is an auxiliary message
    let ucNew := p.b1.val
    let ss1 : Session := { ss0 with ucNewPowerOnlyEventCount := ucNew }
    if ucNew ≠ ss1.ucPowerOnlyEventCount then
      pure ({ ss1 with ucPowerOnlyEventCount := ucNew, dPowerOnlyBundleRxTime := dRxTime_ }, [])
    else
      pure (ss1, [])
  else if p.b0.val = ANT_CALIBRATION_MESSAGE then
    if ss0.ucPowerMeterType = ANT_CRANKFREQ then
      -- The only one that really matters is the crank torque frequency meter.
      pure ({ ss0 with ctf := DecodeCrankTorqueFreq_Calibration c ss0.ctf dRxTime_ p }, [])
    else
      pure (ss0, [])
  else
    -- Other pages are ignored in this example.
    pure (ss0, [])

/-- A sequence of `DecodePowerMessage` calls, in order; the records of all calls are
concatenated in call order. -/
def decodeAll (c : Consts) : Session → List (ℚ × Payload) → Except Fault (Session × List Record)
  | ss, [] => pure (ss, [])
  | ss, (t, p) :: rest => do
    let out ← DecodePowerMessage c ss t p
    let out2 ← decodeAll c out.1 rest
    pure (out2.1, out.2 ++ out2.2)

/-- A value for the constants of `PowerDecoder.h`: the time quantization each decoder scales
its power constant by (`M_PI*2048.0`, `M_PI*2000.0`), a four minute gap ceiling, and a 32-bit
`unsigned long`. -/
def defaultConsts : Consts :=
  { PO_TIME_QUANTIZATION := 2048, CT_TIME_QUANTIZATION := 2048, WT_TIME_QUANTIZATION := 2048,
    CTF_TIME_QUANTIZATION := 2000, MAXIMUM_TIME_GAP := 240, ULONG_BITS := 32,
    CALIBRATION_ID_BYTE := 1, ANT_CTF_CALIBRATION_ID := 0x10, ANT_CTF_CAL_TYPE_BYTE := 2,
    ANT_CTF_CAL_ZERO := 1, ANT_CTF_CAL_ZERO_LSB_BYTE := 7, ANT_CTF_CAL_ZERO_MSB_BYTE := 6,
    po_pos := by decide, ct_pos := by decide, wt_pos := by decide, ctf_pos := by decide,
    ulong_bits := by decide }

/-! ## Concrete inputs used to instantiate the theorems -/

/-- A decoder whose stored event count is 7. -/
def dupDecoder : Decoder :=
  { stState := { BPSAMPLER.zero with ucLastEventCount := 7, usRecordInterval := 2048,
                                     fAccumEnergy := 12, dLastRecordTime := 3 },
    dRecordInterval := 1, dReSyncInterval := 10 }

/-- A payload whose event count is 7 as well. -/
def dupPayload : Payload := ⟨0x12, 7, 33, 90, 1, 2, 3, 4⟩

/-- A sampler with pending energy 50, pending rotation 1 and two gap records to fill. -/
def emitState : BPSAMPLER :=
  { BPSAMPLER.zero with
    dTotalEnergy := 100, dTotalRotation := 4, fPendingEnergy := 50, fPendingRotation := 1,
    fGapEnergy := 30, fGapRotation := 2, ucRecordGapCount := 2, ulEventTime := 7000,
    ulLastRecordTime := 0, dLastRecordTime := 9, usRecordInterval := 2048 }

/-- A Crank-Torque decoder whose stored accumulated torque is 65530. -/
def wrapDecoder : Decoder :=
  { stState := { BPSAMPLER.zero with usLastAccumTorque := 65530, usRecordInterval := 2048,
                                     ucLastEventCount := 3, fAccumEnergy := 5 },
    dRecordInterval := 1, dReSyncInterval := 10 }

/-- A Crank-Torque page with accumulated period 1024 and accumulated torque 20. -/
def wrapPayload : Payload := ⟨0x12, 4, 1, 90, 0, 4, 20, 0⟩

/-- A Crank-Torque decoder whose stored accumulated torque is 1. -/
def sentinelDecoder : Decoder :=
  { stState := { BPSAMPLER.zero with usLastAccumTorque := 1, usRecordInterval := 2048,
                                     ucLastEventCount := 3, fAccumEnergy := 5 },
    dRecordInterval := 1, dReSyncInterval := 10 }

/-- A Crank-Torque page with accumulated period 1024 and accumulated torque 0. -/
def sentinelPayload : Payload := ⟨0x12, 4, 1, 90, 0, 4, 0, 0⟩

/-- A session configured with a one second record interval, event-based decoding and a ten
second resync interval. -/
def session1 : Session := InitPowerDecoder defaultConsts Session.initial 1 0 10

/-- A session configured with a record interval of zero. -/
def sessionZero : Session := InitPowerDecoder defaultConsts Session.initial 0 0 10

/-- A session configured with a record interval of minus one second. -/
def sessionNeg : Session := InitPowerDecoder defaultConsts Session.initial (-1) 0 10

/-- Two Crank-Torque-Frequency pages half a second apart; the second one carries a new event
count, a time stamp 2000 ticks later and a torque-slope field of zero. -/
def ctfZeroSlopeFrames : List (ℚ × Payload) :=
  [(1 / 2, ⟨0x20, 0, 0, 0, 0, 0, 0, 0⟩), (1, ⟨0x20, 1, 0, 0, 0x07, 0xD0, 0, 10⟩)]

/-- The four page decoders. -/
inductive Variant where
  | powerOnly
  | wheelTorque
  | crankTorque
  | crankTorqueFreq
deriving DecidableEq, Repr

/-- The `_Message` handler of a variant. -/
def Variant.Message :
    Variant → Consts → ℚ → Decoder → ℚ → Payload → Except Fault (Decoder × List Record)
  | .powerOnly => DecodePowerOnly_Message
  | .wheelTorque => DecodeWheelTorque_Message
  | .crankTorque => DecodeCrankTorque_Message
  | .crankTorqueFreq => DecodeCrankTorqueFreq_Message

/-- The `_Resync` function of a variant. -/
def Variant.Resync :
    Variant → Consts → ℚ → Decoder → ℚ → Payload → Except Fault (Decoder × List Record)
  | .powerOnly => DecodePowerOnly_Resync
  | .wheelTorque => DecodeWheelTorque_Resync
  | .crankTorque => DecodeCrankTorque_Resync
  | .crankTorqueFreq => DecodeCrankTorqueFreq_Resync

/-- The incremental decode function of a variant. -/
def Variant.Decode :
    Variant → Consts → ℚ → Decoder → ℚ → Payload → Except Fault (Decoder × List Record)
  | .powerOnly => DecodePowerOnly
  | .wheelTorque => DecodeWheelTorque
  | .crankTorque => DecodeCrankTorque
  | .crankTorqueFreq => DecodeCrankTorqueFreq

/-- The first part of the incremental decode of a variant. -/
def Variant.update : Variant → Consts → BPSAMPLER → Payload → Except Fault BPSAMPLER
  | .powerOnly => DecodePowerOnly_update
  | .wheelTorque => DecodeWheelTorque_update
  | .crankTorque => DecodeCrankTorque_update
  | .crankTorqueFreq => DecodeCrankTorqueFreq_update

/-- The time quantization constant of a variant. -/
def Variant.quantization (c : Consts) : Variant → Nat
  | .powerOnly => c.PO_TIME_QUANTIZATION
  | .wheelTorque => c.WT_TIME_QUANTIZATION
  | .crankTorque => c.CT_TIME_QUANTIZATION
  | .crankTorqueFreq => c.CTF_TIME_QUANTIZATION

/-- The amount by which the wall-clock catch-up of a variant advances `dLastRecordTime`:
`dRecordInterval` in the Crank-Torque decoder, `usRecordInterval / quantization` in the
other three. -/
def Variant.catchUpStep (c : Consts) (v : Variant) (d : Decoder) : ℚ :=
  match v with
  | .crankTorque => d.dRecordInterval
  | .powerOnly => (d.stState.usRecordInterval : ℚ) / c.PO_TIME_QUANTIZATION
  | .wheelTorque => (d.stState.usRecordInterval : ℚ) / c.WT_TIME_QUANTIZATION
  | .crankTorqueFreq => (d.stState.usRecordInterval : ℚ) / c.CTF_TIME_QUANTIZATION

/-- The gap count computed by the `_Resync` of a variant. -/
def Variant.resyncGapCount : Variant → ℚ → ℚ → Except Fault Nat
  | .powerOnly => BikePower.resyncGapCount
  | .wheelTorque => BikePower.resyncGapCountWT
  | .crankTorque => BikePower.resyncGapCount
  | .crankTorqueFreq => BikePower.resyncGapCount

/-- A session configured with a record interval of 0.3 s, event-based decoding and a ten
second resync interval; the quantized Power-Only record interval is 614 ticks of 1/2048 s,
slightly less than 0.3 s. -/
def session03 : Session := InitPowerDecoder defaultConsts Session.initial (3 / 10) 0 10

/-- Two Power-Only pages: the first one (resync) at 0.35 s, the second one at 1 s with a new
event count, cadence 255 and 100 more accumulated power. -/
def driftFrames : List (ℚ × Payload) :=
  [(7 / 20, ⟨0x10, 0, 0, 255, 0, 0, 100, 0⟩), (1, ⟨0x10, 1, 0, 255, 100, 0, 100, 0⟩)]

/-- The Power-Only decoder reached from `session03` by `driftFrames`: two wall-clock filler
records have moved `dLastRecordTime` to `2303/2560`, just below the record epoch `0.9`, and
`6025/256` of energy is accumulated. -/
def driftDecoder : Decoder :=
  { stState :=
      { BPSAMPLER.zero with
        ucCadence := 255, fAccumEnergy := 6025 / 256, fAccumRotation := 1, ulEventTime := 482,
        dLastRecordTime := 2303 / 2560, dLastMessageTime := 1, usRecordInterval := 614,
        ucLastEventCount := 1, ucLastRotationTicks := 1, usLastAccumTorque := 100 },
    dRecordInterval := 3 / 10, dReSyncInterval := 10 }

/-- A Wheel-Torque page; as the first page of another type it makes the dispatcher resync
the Power-Only decoder. -/
def firstWheelPage : Payload := ⟨0x11, 0, 0, 0, 0, 0, 0, 0⟩

/-- A Power-Only decoder with a one second record interval, last record at 2 s, 10 units of
accumulated energy and 3 of rotation. -/
def resyncDecoder : Decoder :=
  { stState :=
      { BPSAMPLER.zero with
        dTotalEnergy := 100, dTotalRotation := 7, fAccumEnergy := 10, fAccumRotation := 3,
        dLastRecordTime := 2, dLastMessageTime := 5 / 2, usRecordInterval := 2048,
        ucLastEventCount := 4 },
    dRecordInterval := 1, dReSyncInterval := 10 }

/-- The energy and rotation buckets of a sampler are non-negative. -/
def NonNeg (s : BPSAMPLER) : Prop :=
  0 ≤ s.fAccumEnergy ∧ 0 ≤ s.fPendingEnergy ∧ 0 ≤ s.fGapEnergy
  ∧ 0 ≤ s.fAccumRotation ∧ 0 ≤ s.fPendingRotation ∧ 0 ≤ s.fGapRotation

/-- The sampler `s2` agrees with `s` on the record clock, the totals and the configuration:
the fields the first part of an incremental decode never writes. -/
def SameBase (s s2 : BPSAMPLER) : Prop :=
  s2.dLastRecordTime = s.dLastRecordTime ∧ s2.dTotalEnergy = s.dTotalEnergy
  ∧ s2.dTotalRotation = s.dTotalRotation ∧ s2.usRecordInterval = s.usRecordInterval
  ∧ s2.usTimeBase = s.usTimeBase ∧ s2.dLastMessageTime = s.dLastMessageTime
  ∧ s2.ulLastRecordTime = s.ulLastRecordTime

/-- The records `rs` are stamped `t0 + I`, `t0 + 2 * I`, ... in this order, each exactly `I`
after the previous one, and `t1` is the last stamp (`t0` itself when `rs` is empty). -/
def SpacedStamps (I : ℚ) : ℚ → List Record → ℚ → Prop
  | t0, [], t1 => t1 = t0
  | t0, r :: rs, t1 => r.timestamp = t0 + I ∧ SpacedStamps I r.timestamp rs t1

/-- The cumulative energy and rotation never decrease from the pair `a` through the records
`rs`, in this order, to the pair `b` (energy first, rotation second). -/
def MonoTotals : ℚ × ℚ → List Record → ℚ × ℚ → Prop
  | a, [], b => a.1 ≤ b.1 ∧ a.2 ≤ b.2
  | a, r :: rs, b =>
    a.1 ≤ r.cumulativeEnergy ∧ a.2 ≤ r.cumulativeRotation
      ∧ MonoTotals (r.cumulativeEnergy, r.cumulativeRotation) rs b

/-- The records of `out` are stamped one interval `I` apart, the first one interval after
`s.dLastRecordTime`, and the new `dLastRecordTime` is the last stamp. -/
def Stamped (I : ℚ) (s : BPSAMPLER) (out : BPSAMPLER × List Record) : Prop :=
  SpacedStamps I s.dLastRecordTime out.2 out.1.dLastRecordTime

/-- When the buckets of `s` are non-negative, the totals never decrease from those of `s`
through the records of `out` up to the totals of the new sampler, whose buckets are
non-negative again. -/
def TotalsGrow (s : BPSAMPLER) (out : BPSAMPLER × List Record) : Prop :=
  NonNeg s →
    MonoTotals (s.dTotalEnergy, s.dTotalRotation) out.2
      (out.1.dTotalEnergy, out.1.dTotalRotation)
    ∧ NonNeg out.1

/-- A Power-Only page with event count 5, cadence 60 and accumulated power 100. -/
def steadyPage : Payload := ⟨0x10, 5, 0, 60, 100, 0, 100, 0⟩

/-- The Power-Only decoder `resyncDecoder` after the page `steadyPage` received at 3.5 s: one
record, stamped 3 s, has been emitted. -/
def steadyAfter : Decoder :=
  { stState :=
      { BPSAMPLER.zero with
        ucCadence := 60, dTotalEnergy := 210, fPendingEnergy := 110, dTotalRotation := 11,
        fPendingRotation := 4, ulEventTime := 2048, ulLastRecordTime := 2048,
        dLastRecordTime := 3, dLastMessageTime := 7 / 2, usRecordInterval := 2048,
        ucLastEventCount := 5, ucLastRotationTicks := 5, usLastAccumTorque := 100 },
    dRecordInterval := 1, dReSyncInterval := 10 }

/-- The record emitted by `resyncDecoder` on `steadyPage`. -/
def steadyRecord : Record := ⟨3, 11, 210, 240, 110⟩

/-- Four Power-Only pages: a first one at 0.5 s, a second one a second later, then, after
299 s of silence, two more a second apart. -/
def silenceFrames : List (ℚ × Payload) :=
  [(1 / 2, ⟨0x10, 0, 0, 60, 0, 0, 100, 0⟩), (3 / 2, ⟨0x10, 1, 0, 60, 100, 0, 100, 0⟩),
   (601 / 2, ⟨0x10, 2, 0, 60, 200, 0, 100, 0⟩), (603 / 2, ⟨0x10, 3, 0, 60, 44, 1, 100, 0⟩)]

/-- Two Power-Only pages a second apart followed by two Wheel-Torque pages a second apart:
the detected meter type changes from Power-Only to Wheel-Torque. -/
def typeChangeFrames : List (ℚ × Payload) :=
  [(1 / 2, ⟨0x10, 0, 0, 60, 0, 0, 100, 0⟩), (3 / 2, ⟨0x10, 1, 0, 60, 100, 0, 100, 0⟩),
   (2, ⟨0x11, 0, 0, 0, 0, 0, 0, 0⟩), (3, ⟨0x11, 1, 1, 0, 0, 8, 0, 0⟩)]

/-- The sampler `s2` has the configuration of `s`: the quantized record interval and the
quantized time base. -/
def SameConfig (s s2 : BPSAMPLER) : Prop :=
  s2.usRecordInterval = s.usRecordInterval ∧ s2.usTimeBase = s.usTimeBase

/-- The constants `defaultConsts` with a gap ceiling of 100000 s instead of 240 s. -/
def wideGapConsts : Consts := { defaultConsts with MAXIMUM_TIME_GAP := 100000 }

/-- The page tag carried in byte 0 of the pages of a variant. -/
def Variant.tag : Variant → Nat
  | .powerOnly => ANT_POWERONLY
  | .wheelTorque => ANT_WHEELTORQUE
  | .crankTorque => ANT_CRANKTORQUE
  | .crankTorqueFreq => ANT_CRANKFREQ

/-- The file-static decoder of a variant inside the session. -/
def Variant.decoder : Variant → Session → Decoder
  | .powerOnly, ss => ss.po
  | .wheelTorque, ss => ss.wt
  | .crankTorque, ss => ss.ct
  | .crankTorqueFreq, ss => ss.ctf

/-- The value of `dPowerOnlyBundleRxTime` after the first statement of
`DecodePowerMessage`: the receive time when the baseline was never set or is more than
thirty seconds old, the stored baseline otherwise. -/
def bundleBaseline (ss : Session) (dRxTime_ : ℚ) : ℚ :=
  if ss.dPowerOnlyBundleRxTime < 0 ∨ dRxTime_ - ss.dPowerOnlyBundleRxTime > 30 then dRxTime_
  else ss.dPowerOnlyBundleRxTime

/-- A page whose tag is none of the six page types the dispatcher knows. -/
def unknownPage : Payload := ⟨0x50, 9, 1, 2, 3, 4, 5, 6⟩

/-- The session `DecodePowerMessage` decodes the page in: the stored one with the receive
time baseline adjusted by the thirty second rule. -/
def afterBaseline (ss : Session) (dRxTime_ : ℚ) : Session :=
  { ss with dPowerOnlyBundleRxTime := bundleBaseline ss dRxTime_ }

/-- The store of a variant's file-static decoder into the session. -/
def Variant.setDecoder : Variant → Session → Decoder → Session
  | .powerOnly, ss, d => { ss with po := d }
  | .wheelTorque, ss, d => { ss with wt := d }
  | .crankTorque, ss, d => { ss with ct := d }
  | .crankTorqueFreq, ss, d => { ss with ctf := d }

/-- The rotation-tick counter a `_Resync` stores from the frame: the wheel or crank tick byte
of the torque pages, the event count where the page has no tick field. -/
def Variant.frameTicks : Variant → Payload → Nat
  | .powerOnly, p => p.b1.val
  | .wheelTorque, p => p.b2.val
  | .crankTorque, p => p.b2.val
  | .crankTorqueFreq, p => p.b1.val

/-- The accumulated torque (accumulated power, torque ticks) a `_Resync` stores from the
frame. -/
def Variant.frameTorque : Variant → Payload → Nat
  | .powerOnly, p => p.b4.val + 256 * p.b5.val
  | .wheelTorque, p => p.b6.val + 256 * p.b7.val
  | .crankTorque, p => p.b6.val + 256 * p.b7.val
  | .crankTorqueFreq, p => 256 * p.b6.val + p.b7.val

/-- The accumulated period (time stamp) a `_Resync` stores from the frame; the Power-Only
page has none and zero is stored. -/
def Variant.framePeriod : Variant → Payload → Nat
  | .powerOnly, _ => 0
  | .wheelTorque, p => p.b4.val + 256 * p.b5.val
  | .crankTorque, p => p.b4.val + 256 * p.b5.val
  | .crankTorqueFreq, p => 256 * p.b4.val + p.b5.val

/-- The event-count correlation step shared by the Power-Only and TE/PS cases of
`DecodePowerMessage`: the new event count is read from byte 1, and when it differs from the
stored one both the stored count and the receive time baseline are replaced. -/
def correlateBundle (ss0 : Session) (dRxTime_ : ℚ) (p : Payload) : Session :=
  if p.b1.val ≠ ss0.ucPowerOnlyEventCount then
    { ss0 with ucNewPowerOnlyEventCount := p.b1.val, ucPowerOnlyEventCount := p.b1.val,
               dPowerOnlyBundleRxTime := dRxTime_ }
  else { ss0 with ucNewPowerOnlyEventCount := p.b1.val }

/-- A TE/PS page with event count 7. -/
def tepsPage : Payload := ⟨0x13, 7, 0, 0, 0, 0, 0, 0⟩

/-- A Power-Only page with event count 7: cadence 60, accumulated power 100. -/
def powerPage7 : Payload := ⟨0x10, 7, 0, 60, 100, 0, 100, 0⟩

/-- A first Crank-Torque page, event count 3. -/
def firstCrankPage : Payload := ⟨0x12, 3, 0, 0, 0, 0, 0, 0⟩

/-- Modelled from the spec: the frame table gives the zero-offset value of the calibration
page as a little-endian 16-bit field at a fixed offset; these constants put its low byte at
offset 6 and its high byte at offset 7, the other constants are those of `defaultConsts`. -/
def calConsts : Consts :=
  { defaultConsts with ANT_CTF_CAL_ZERO_LSB_BYTE := 6, ANT_CTF_CAL_ZERO_MSB_BYTE := 7 }

/-- A calibration page of the Crank-Torque-Frequency meter for `calConsts`: calibration id
`0x10`, zero-offset sub-type, offset bytes `0xF4` (low) and `0x01` (high), the value 500. -/
def calibrationPage : Payload := ⟨0x01, 0x10, 1, 0, 0, 0, 0xF4, 0x01⟩

/-- The session of `session1` with the Crank-Torque-Frequency meter announced by
`SetPowerMeterType`. -/
def sessionCtf : Session := SetPowerMeterType session1 ANT_CRANKFREQ

/-- The session `session1` is in after a first Crank-Torque page (`firstCrankPage`) received
at 0.5 s: Crank-Torque is the active type, both resync flags are clear, the Power-Only and
Crank-Torque decoders are re-baselined on the frame. -/
def crankActiveSession : Session :=
  { session1 with
    po := { session1.po with stState := { session1.po.stState with
      dLastMessageTime := 1 / 2, ucLastEventCount := 3, ucLastRotationTicks := 3 } },
    ct := { session1.ct with stState := { session1.ct.stState with
      dLastMessageTime := 1 / 2, ucLastEventCount := 3 } },
    ucPowerMeterType := 0x12, bResyncPowerChannel := false, bResyncPowerOnlyChannel := false,
    dPowerOnlyBundleRxTime := 1 / 2 }

/-- The session `session1` is in after the TE/PS page `tepsPage` received at 1 s: the event
count 7 and the receive time baseline 1 s are stored. -/
def tepsSession : Session :=
  { session1 with
    ucNewPowerOnlyEventCount := 7, ucPowerOnlyEventCount := 7, dPowerOnlyBundleRxTime := 1 }

/-- The Power-Only decoder of `session1` after a resync at 1 s on the frame `powerPage7`. -/
def powerOnlyResyncedAt1 : Decoder :=
  { session1.po with stState := { session1.po.stState with
      ucCadence := 60, dLastMessageTime := 1, dLastRecordTime := 1, ucLastEventCount := 7,
      ucLastRotationTicks := 7, usLastAccumTorque := 100 } }

/-- A session configured with a record interval of 0.5 s, event-based decoding and a ten
second resync interval. -/
def session05 : Session := InitPowerDecoder defaultConsts Session.initial (1 / 2) 0 10

/-- A first Wheel-Torque page at 0.6 s and, after 12.6 s of silence, a second one with a new
event count at 13.2 s. -/
def wtGapFrames : List (ℚ × Payload) :=
  [(3 / 5, ⟨0x11, 0, 0, 0, 0, 0, 0, 0⟩), (66 / 5, ⟨0x11, 1, 1, 60, 0, 8, 100, 0⟩)]

/-- The frames of `wtGapFrames` sent as Power-Only pages. -/
def poGapFrames : List (ℚ × Payload) :=
  [(3 / 5, ⟨0x10, 0, 0, 0, 0, 0, 0, 0⟩), (66 / 5, ⟨0x10, 1, 1, 60, 0, 8, 100, 0⟩)]

/-- What the first part of an incremental decode settles before it tests for a record
boundary: the locals `ulNewEventTime`, `usDeltaPowerPeriod` (`usDeltaPeriod` where the
decoder has no separate power period) and `fEventEnergy`, and the value the step finally
stores in `stState.ulEventTime`. -/
structure Event where
  ulNewEventTime : Nat
  usDeltaPowerPeriod : Nat
  fEventEnergy : ℚ
  ulEventTime : Nat
deriving DecidableEq, Repr

/-- The event of `DecodePowerOnly`: the source lines of `DecodePowerOnly_update` up to the
boundary test; `stState.ulEventTime = ulNewEventTime` is stored at the end. -/
def DecodePowerOnly_event (c : Consts) (s : BPSAMPLER) (p : Payload) : Except Fault Event := do
  let usCurrentAccumPower := word16 p.b4 p.b5
  let usInstPower := word16 p.b6 p.b7
  let usDeltaPower0 := delta16 usCurrentAccumPower s.usLastAccumTorque
  let ucDeltaTicks := delta8 p.b1.val s.ucLastEventCount
  let ucCadence := p.b3.val
  let usDeltaPower1 :=
    if usInstPower > 0 ∧ usDeltaPower0 > 100 * usInstPower then usInstPower else usDeltaPower0
  let per ← (
    if ucCadence > 0 then do
      let quot ← idiv
        (toULong c ((ucDeltaTicks * c.PO_TIME_QUANTIZATION * 60 + ucCadence / 2 : Nat) : Int))
        ucCadence
      pure (toUShort (quot : Int), usDeltaPower1)
    else
      pure (0xFFFF, 0))
  let usDeltaPeriod : Nat := per.1
  let usDeltaPower : Nat := per.2
  let ev ← (
    if s.usTimeBase ≠ 0 then
      pure (toULong c ((s.ulEventTime + toULong c ((s.usTimeBase * ucDeltaTicks : Nat) : Int)
              : Nat) : Int),
            toUShort ((s.usTimeBase * ucDeltaTicks : Nat) : Int),
            (usDeltaPower : ℚ))
    else do
      let e ← fdiv ((usDeltaPower : ℚ) * usDeltaPeriod / c.PO_TIME_QUANTIZATION) ucDeltaTicks
      pure (toULong c ((s.ulEventTime + usDeltaPeriod : Nat) : Int), usDeltaPeriod, e))
  pure ⟨ev.1, ev.2.1, ev.2.2, ev.1⟩

/-- The event of `DecodeWheelTorque`: the source lines of `DecodeWheelTorque_update` up to the
boundary test; `stState.ulEventTime = ulNewEventTime` is stored at the end. -/
def DecodeWheelTorque_event (c : Consts) (s : BPSAMPLER) (p : Payload) : Except Fault Event := do
  let usCurrentAccumPeriod := word16 p.b4 p.b5
  let usCurrentAccumTorque := word16 p.b6 p.b7
  let usDeltaTorque0 := delta16 usCurrentAccumTorque s.usLastAccumTorque
  let usDeltaPeriod := delta16 usCurrentAccumPeriod s.usLastAccumPeriod
  let ucCadence := p.b3.val
  let ucDeltaEventCount := delta8 p.b1.val s.ucLastEventCount
  let ucDeltaTicks0 := delta8 p.b2.val s.ucLastRotationTicks
  let ucDeltaTicks1 := if ucDeltaTicks0 > 200 then 0 else ucDeltaTicks0
  let usDeltaTorque := if usDeltaTorque0 = 65535 then 0 else usDeltaTorque0
  let ev ← (
    if usDeltaPeriod ≠ 0 ∧ usDeltaPeriod ≠ 0xFFFF then do
      let pw ← idiv ((truncToInt (M_PI * 2048 + 1 / 2)).toNat * usDeltaTorque) usDeltaPeriod
      let ulEventPower := toULong c (((pw + 8) / 16 : Nat) : Int)
      let tb :=
        if s.usTimeBase ≠ 0 then
          (toULong c ((s.ulEventTime + toULong c ((s.usTimeBase * ucDeltaEventCount : Nat) : Int)
              : Nat) : Int),
            s.usTimeBase,
            (ulEventPower : ℚ),
            if ucCadence ≠ 0 then ucDeltaEventCount else 0)
        else
          (toULong c ((s.ulEventTime + usDeltaPeriod : Nat) : Int),
            usDeltaPeriod,
            M_PI * (usDeltaTorque : ℚ) / 16,
            ucDeltaTicks1)
      let rpm ← idiv (tb.2.2.2 * 60 * c.WT_TIME_QUANTIZATION + usDeltaPeriod / 2) usDeltaPeriod
      pure tb
    else
      pure (s.ulEventTime, usDeltaPeriod, 0, ucDeltaTicks1))
  pure ⟨ev.1, ev.2.1, ev.2.2.1, ev.1⟩

/-- The event of `DecodeCrankTorque`: the source lines of `DecodeCrankTorque_update` up to the
boundary test; the step ends with `stState.ulEventTime += usDeltaPeriod`, whatever the
period delta. -/
def DecodeCrankTorque_event (c : Consts) (s : BPSAMPLER) (p : Payload) : Except Fault Event := do
  let usCurrentAccumPeriod := word16 p.b4 p.b5
  let usDeltaTorque := DecodeCrankTorque_deltaTorque s.usLastAccumTorque p
  let usDeltaPeriod := delta16 usCurrentAccumPeriod s.usLastAccumPeriod
  let ucDeltaTicks := delta8 p.b2.val s.ucLastRotationTicks
  let ev ← (
    if usDeltaPeriod ≠ 0 ∧ usDeltaPeriod ≠ 0xFFFF then do
      let ulNewEventTime := toULong c ((s.ulEventTime + usDeltaPeriod : Nat) : Int)
      let pw ← idiv ((truncToInt (M_PI * 2048 + 1 / 2)).toNat * usDeltaTorque) usDeltaPeriod
      let cad ← idiv (ucDeltaTicks * 60 * c.CT_TIME_QUANTIZATION + usDeltaPeriod / 2)
        usDeltaPeriod
      pure (ulNewEventTime, M_PI * (usDeltaTorque : ℚ) / 16)
    else
      pure (s.ulEventTime, 0))
  pure ⟨ev.1, usDeltaPeriod, ev.2, toULong c ((s.ulEventTime + usDeltaPeriod : Nat) : Int)⟩

/-- The event of `DecodeCrankTorqueFreq`: the source lines of `DecodeCrankTorqueFreq_update`
up to the boundary test; the step ends with `stState.ulEventTime += usDeltaPeriod`, whatever
the period delta. -/
def DecodeCrankTorqueFreq_event (c : Consts) (s : BPSAMPLER) (p : Payload) :
    Except Fault Event := do
  let ucCurrentEventCount := p.b1.val
  let usTorqueSlope := word16 p.b3 p.b2
  let usCurrentTimeStamp := word16 p.b5 p.b4
  let usCurrentTorqueTicks := word16 p.b7 p.b6
  let usDeltaTorque0 := delta16 usCurrentTorqueTicks s.usLastAccumTorque
  let usDeltaPeriod := delta16 usCurrentTimeStamp s.usLastAccumPeriod
  let ucDeltaEventCount := delta8 ucCurrentEventCount s.ucLastEventCount
  let usDeltaTorque := if usDeltaTorque0 = 65535 then 0 else usDeltaTorque0
  let ev ← (
    if usDeltaPeriod ≠ 0 ∧ usDeltaPeriod ≠ 0xFFFF then do
      let ulNewEventTime := toULong c ((s.ulEventTime + usDeltaPeriod : Nat) : Int)
      let t0 ← idiv (toULong c ((usDeltaTorque * c.CTF_TIME_QUANTIZATION * 32 : Nat) : Int))
        usDeltaPeriod
      let off := toULong c ((s.usTorqueOffset * 32 : Nat) : Int)
      let t1 := if t0 > off then toULong c ((t0 : Int) - off) else 0
      let t2 := toULong c ((t1 * 10 : Nat) : Int)
      let ulTempTorque ← idiv t2 usTorqueSlope
      let pw ← idiv (toULong c (((truncToInt (M_PI * 2000 + 1 / 2)).toNat * ulTempTorque : Nat)
        : Int)) usDeltaPeriod
      let cad ← idiv (ucDeltaEventCount * 60 * c.CTF_TIME_QUANTIZATION + usDeltaPeriod / 2)
        usDeltaPeriod
      pure (ulNewEventTime, M_PI * (ulTempTorque : ℚ) / 16)
    else
      pure (s.ulEventTime, 0))
  pure ⟨ev.1, usDeltaPeriod, ev.2, toULong c ((s.ulEventTime + usDeltaPeriod : Nat) : Int)⟩

/-- The event of the incremental decode of a variant. -/
def Variant.event : Variant → Consts → BPSAMPLER → Payload → Except Fault Event
  | .powerOnly => DecodePowerOnly_event
  | .wheelTorque => DecodeWheelTorque_event
  | .crankTorque => DecodeCrankTorque_event
  | .crankTorqueFreq => DecodeCrankTorqueFreq_event

/-- How the first part of an incremental decode leaves the sampler `s2`, given the event it
settled on: the new event time is stored; across a record boundary the event energy is
split between the pending, accumulated and gap buckets in proportion to the part of the
period before the boundary, the part after the last boundary and the whole intervals in
between; otherwise the event energy is added to the accumulated bucket. -/
def EnergySplit (c : Consts) (s : BPSAMPLER) (ev : Event) (s2 : BPSAMPLER) : Prop :=
  s2.ulEventTime = ev.ulEventTime
  ∧ (crossed c s ev.ulNewEventTime →
      s.usRecordInterval ≠ 0 ∧ ev.usDeltaPowerPeriod ≠ 0
      ∧ s2.ucRecordGapCount = toUChar (toULong c
          (((ev.ulNewEventTime / s.usRecordInterval : Nat) : Int)
            - (s.ulLastRecordTime / s.usRecordInterval : Nat) - 1))
      ∧ s2.fPendingEnergy = s.fAccumEnergy + ev.fEventEnergy
          * (toULong c ((s.usRecordInterval : Int)
              - (s.ulEventTime % s.usRecordInterval : Nat)) : ℚ) / ev.usDeltaPowerPeriod
      ∧ s2.fAccumEnergy = ev.fEventEnergy
          * ((ev.ulNewEventTime % s.usRecordInterval : Nat) : ℚ) / ev.usDeltaPowerPeriod
      ∧ s2.fGapEnergy = ev.fEventEnergy
          * ((s2.ucRecordGapCount * s.usRecordInterval : Nat) : ℚ) / ev.usDeltaPowerPeriod)
  ∧ (¬ crossed c s ev.ulNewEventTime →
      s2.ucRecordGapCount = 0 ∧ s2.fAccumEnergy = s.fAccumEnergy + ev.fEventEnergy
      ∧ s2.fPendingEnergy = 0 ∧ s2.fGapEnergy = s.fGapEnergy)

/-- The Torque-Effectiveness / Pedal-Smoothness branch of `Example::ProcessMessage`
(`PowerRecordingExample.cpp`), for the data payload `&stMessage.aucData[ucDataOffset]`: the
four values it hands to `TePsReceiver` after the receive time (left and right torque
effectiveness, left-or-combined and right pedal smoothness) when the page tag is
`ANT_TEPS`, nothing for any other page. -/
def ProcessMessage_TePs (p : Payload) : Option (ℚ × ℚ × ℚ × ℚ) :=
  if p.b0.val = ANT_TEPS then
    -- NOTE: Any value greater than 200 or 100% should be considered "INVALID"
    let fLeftTorqueEffectiveness : ℚ := (p.b2.val : ℚ) / 2
    let fRightTorqueEffectiveness : ℚ := (p.b3.val : ℚ) / 2
    let fLeftOrCombPedalSmoothness : ℚ := (p.b4.val : ℚ) / 2
    let fRightPedalSmoothness : ℚ := (p.b4.val : ℚ) / 2
    some (fLeftTorqueEffectiveness, fRightTorqueEffectiveness, fLeftOrCombPedalSmoothness,
      fRightPedalSmoothness)
  else none

/-- A TE/PS page: torque effectiveness 50 % and 45 %, pedal smoothness 20 % (left or
combined, byte 4 = 40) and 30 % (right, byte 5 = 60). -/
def tePsValuesPage : Payload := ⟨0x13, 7, 100, 90, 40, 60, 0xFF, 0xFF⟩

/-- A first Crank-Torque-Frequency page: slope bytes 0 and 10, time stamp bytes 1 and 2,
torque tick bytes 3 and 4. -/
def ctfPage1234 : Payload := ⟨0x20, 1, 0, 10, 1, 2, 3, 4⟩

/-- A first page of the given type at 0.5 s, then at 0.9 s a page with a new event count
whose 16-bit period field has gone back by one: a period delta of `0xFFFF`. -/
def sentinelPeriodFrames (tag : Fin 256) : List (ℚ × Payload) :=
  [(1 / 2, ⟨tag, 0, 0, 0, 0, 0, 0, 0⟩), (9 / 10, ⟨tag, 1, 1, 60, 0xFF, 0xFF, 10, 0⟩)]

/-- A session configured with a record interval of 1 s, a time base of 1 s (time-based
decoding) and a ten second resync interval. -/
def sessionTb : Session := InitPowerDecoder defaultConsts Session.initial 1 1 10

/-- A Wheel-Torque page with event count 1, wheel-tick byte 201, cadence 60, accumulated
period 2048 and accumulated torque 25. -/
def tickJumpPage : Payload := ⟨0x11, 1, 201, 60, 0, 8, 25, 0⟩

/-- A first Wheel-Torque page at 0.5 s, then at 0.9 s the page `tickJumpPage`, whose
wheel-tick byte is 201 ahead of the stored one. -/
def tickJumpFrames : List (ℚ × Payload) :=
  [(1 / 2, ⟨0x11, 0, 0, 60, 0, 0, 0, 0⟩), (9 / 10, tickJumpPage)]

/-- Power-Only pages: a first page, one second of pedalling at cadence 60, a shorter event
at cadence 90, then a coasting page (cadence 0). -/
def coastingFrames : List (ℚ × Payload) :=
  [(1 / 2, ⟨0x10, 0, 0, 60, 0, 0, 0, 0⟩), (3 / 2, ⟨0x10, 1, 0, 60, 100, 0, 100, 0⟩),
   (9 / 5, ⟨0x10, 2, 0, 90, 200, 0, 100, 0⟩), (2, ⟨0x10, 3, 0, 0, 200, 0, 0, 0⟩)]

/-- The `_Init` function of a variant. -/
def Variant.Init : Variant → Consts → Decoder → ℚ → ℚ → ℚ → Decoder × ℚ
  | .powerOnly => DecodePowerOnly_Init
  | .wheelTorque => DecodeWheelTorque_Init
  | .crankTorque => DecodeCrankTorque_Init
  | .crankTorqueFreq => DecodeCrankTorqueFreq_Init

/-- The decoder states a translation unit can be in: the `_Init` of the freshly loaded
statics, followed by any number of returning calls of its functions, with any arguments.
(The calibration and time-base setters exist for one variant each; allowing them for all
only enlarges the set.) -/
inductive Reachable (c : Consts) (v : Variant) : Decoder → Prop
  | init (I tb rsI : ℚ) : Reachable c v (v.Init c Decoder.zero I tb rsI).1
  | resync (d d1 : Decoder) (rs : List Record) (ro t : ℚ) (p : Payload) :
      Reachable c v d → v.Resync c ro d t p = .ok (d1, rs) → Reachable c v d1
  | message (d d1 : Decoder) (rs : List Record) (ro t : ℚ) (p : Payload) :
      Reachable c v d → v.Message c ro d t p = .ok (d1, rs) → Reachable c v d1
  | decode (d d1 : Decoder) (rs : List Record) (ro t : ℚ) (p : Payload) :
      Reachable c v d → v.Decode c ro d t p = .ok (d1, rs) → Reachable c v d1
  | calibration (d : Decoder) (t : ℚ) (p : Payload) :
      Reachable c v d → Reachable c v (DecodeCrankTorqueFreq_Calibration c d t p)
  | setTimeBase (d : Decoder) (tb : ℚ) :
      Reachable c v d → Reachable c v (DecodePowerOnly_SetTimeBase c d tb)

/-- The sampler is between two steps: the last record boundary is a whole number of
quantized record intervals, no gap is waiting to be filled, and (when the quantized record
interval is not zero) the boundary test on the stored event time fails. -/
def Settled (c : Consts) (s : BPSAMPLER) : Prop :=
  s.usRecordInterval ∣ s.ulLastRecordTime ∧ s.ucRecordGapCount = 0
  ∧ (1 ≤ s.usRecordInterval → ¬ crossed c s s.ulEventTime)

/-- The `k`-th page of a steady Wheel-Torque stream: one event and one wheel revolution per
page, cadence 60, a period of 2048 ticks (1 s) and a torque of 25 counts per event. -/
def wtSteadyPage (k : Nat) : Payload :=
  ⟨0x11, Fin.ofNat k, Fin.ofNat k, 60, Fin.ofNat (2048 * k), Fin.ofNat (2048 * k / 256),
    Fin.ofNat (25 * k), Fin.ofNat (25 * k / 256)⟩

/-- Six pages of the steady stream, one per second from 0.5 s on. -/
def wtSteadyFrames : List (ℚ × Payload) :=
  [(1 / 2, wtSteadyPage 0), (3 / 2, wtSteadyPage 1), (5 / 2, wtSteadyPage 2),
   (7 / 2, wtSteadyPage 3), (9 / 2, wtSteadyPage 4), (11 / 2, wtSteadyPage 5)]

/-- The steady stream, 15 s of silence, then two more pages. -/
def wtDropoutFrames : List (ℚ × Payload) :=
  wtSteadyFrames ++ [(41 / 2, wtSteadyPage 6), (43 / 2, wtSteadyPage 7)]

/-- The time-based session `sessionTb` after the six pages of the steady stream. -/
def afterSteady : Session :=
  match decodeAll defaultConsts sessionTb wtSteadyFrames with
  | .ok out => out.1
  | .error _ => sessionTb

/-- A sequence of calls of the message handler of one decoder, in order; the result lists
the records of each call. -/
def messageAll (c : Consts) (v : Variant) (ro : ℚ) :
    Decoder → List (ℚ × Payload) → Except Fault (Decoder × List (List Record))
  | d, [] => pure (d, [])
  | d, (t, p) :: rest => do
    let out ← v.Message c ro d t p
    let out2 ← messageAll c v ro out.1 rest
    pure (out2.1, out.2 :: out2.2)

/-- The frames of a steady Crank-Torque stream, as seen by a decoder that stored the event
count `cnt`, the accumulated period `per` and torque `tq` at time `tm`: every frame carries
a new event count, comes within the resync interval `rsI` of the previous one, and its
16-bit period and torque deltas are `Iq` and `T`. -/
def SteadyCrankStream (Iq T : Nat) (rsI : ℚ) : Nat → Nat → Nat → ℚ → List (ℚ × Payload) → Prop
  | _, _, _, _, [] => True
  | cnt, per, tq, tm, (t, p) :: rest =>
    cnt ≠ p.b1.val ∧ ¬ (t - tm > rsI)
    ∧ delta16 (word16 p.b4 p.b5) per = Iq ∧ delta16 (word16 p.b6 p.b7) tq = T
    ∧ SteadyCrankStream Iq T rsI p.b1.val (word16 p.b4 p.b5) (word16 p.b6 p.b7) t rest

/-- The session after `InitPowerDecoder(65535 / 2048, 0, 10)` on the load-time statics: the
quantized record interval of the Crank-Torque decoder is 65535 ticks. -/
def session32 : Session := InitPowerDecoder defaultConsts Session.initial (65535 / 2048) 0 10

/-- A Crank-Torque stream whose period delta is 65535 ticks and whose torque delta is 16,
after the page that resyncs the decoder. -/
def sentinelSteadyFrames : List (ℚ × Payload) :=
  [(1 / 2, ⟨0x12, 0, 0, 0, 0, 0, 0, 0⟩), (1, ⟨0x12, 1, 1, 60, 0xFF, 0xFF, 16, 0⟩),
   (2, ⟨0x12, 2, 2, 60, 0xFE, 0xFF, 32, 0⟩)]

/-- The Crank-Torque decoder of `session1` after the resync at 0.5 s on a page with zeroed
counters. -/
def crankResynced : Decoder :=
  match DecodeCrankTorque_Resync defaultConsts 1 session1.ct (1 / 2)
    ⟨0x12, 0, 0, 0, 0, 0, 0, 0⟩ with
  | .ok out => out.1
  | .error _ => session1.ct

/-- Two frames of a steady Crank-Torque stream: period delta 2048 ticks, torque delta 16. -/
def crankSteadyFrames : List (ℚ × Payload) :=
  [(3 / 2, ⟨0x12, 1, 1, 60, 0, 8, 16, 0⟩), (5 / 2, ⟨0x12, 2, 2, 60, 0, 16, 32, 0⟩)]

/-- The Power-Only branch of `Example::ProcessMessage` (`PowerRecordingExample.cpp`), for the
data payload `&stMessage.aucData[ucDataOffset]`: the two values it hands to
`PowerBalanceReceiver` after the receive time (the power balance and the right pedal
indicator) when the page tag is `ANT_POWERONLY`, nothing for any other page.  The indicator
is the source expression `0x80 & stMessage.aucData[ucDataOffset + 2] != 0`, in which `!=`
binds tighter than `&`; the `BOOL` is converted to the `bool` parameter of the receiver. -/
def ProcessMessage_PowerBalance (p : Payload) : Option (ℚ × Bool) :=
  if p.b0.val = ANT_POWERONLY then
    let fPowerBalance : ℚ := ((0x7F &&& p.b2.val : Nat) : ℚ)
    let bPowerBalanceRightPedalIndicator : Nat := 0x80 &&& (if p.b2.val ≠ 0 then 1 else 0)
    some (fPowerBalance, decide (bPowerBalanceRightPedalIndicator ≠ 0))
  else none

/-- A Power-Only page whose pedal-balance byte is `0xB2`: bit 7 set (right pedal), balance
50 %. -/
def rightPedalPage : Payload := ⟨0x10, 1, 0xB2, 60, 100, 0, 100, 0⟩

/-- The power delta of `DecodePowerOnly` after the sanity check against the instantaneous
power and before the cadence test; `usLastAccumTorque` is the field that stores the last
accumulated power. -/
def DecodePowerOnly_deltaPower (usLastAccumTorque : Nat) (p : Payload) : Nat :=
  let usCurrentAccumPower := word16 p.b4 p.b5
  let usInstPower := word16 p.b6 p.b7
  let usDeltaPower := delta16 usCurrentAccumPower usLastAccumTorque
  -- Sanity check on delta power vs. instantaneous.
  if usInstPower > 0 ∧ usDeltaPower > 100 * usInstPower then usInstPower else usDeltaPower

/-- A Power-Only page with event count 1, cadence 60, accumulated power 500 and an
instantaneous power of zero. -/
def zeroInstPage : Payload := ⟨0x10, 1, 0, 60, 0xF4, 0x01, 0, 0⟩

/-- A first Power-Only page with zeroed counters at 0.5 s, then `zeroInstPage` at 1.5 s. -/
def zeroInstFrames : List (ℚ × Payload) :=
  [(1 / 2, ⟨0x10, 0, 0, 60, 0, 0, 0, 0⟩), (3 / 2, zeroInstPage)]

/-- A Power-Only page with event count 1, cadence 60, accumulated power 500 and an
instantaneous power of 3 W. -/
def clampedPage : Payload := ⟨0x10, 1, 0, 60, 0xF4, 0x01, 3, 0⟩

/-- A Crank-Torque-Frequency page with event count 1, slope 10, a time stamp of 2000 ticks
and a torque-tick counter of 65535. -/
def ctfSentinelTorquePage : Payload := ⟨0x20, 1, 0, 10, 0x07, 0xD0, 0xFF, 0xFF⟩

/-- A Crank-Torque-Frequency page with event count 1, slope 10, a time stamp of 1 tick and a
torque-tick counter of 7000. -/
def ctfFastTorquePage : Payload := ⟨0x20, 1, 0, 10, 0, 1, 0x1B, 0x58⟩

/-- A Crank-Torque-Frequency page with event count 1, slope 10, a time stamp of 2000 ticks
and a torque-tick counter of 1000. -/
def ctfTorquePage : Payload := ⟨0x20, 1, 0, 10, 0x07, 0xD0, 0x03, 0xE8⟩

/-- A coasting Power-Only page: event count 1, cadence 0, no change of the accumulated
power. -/
def coastPage : Payload := ⟨0x10, 1, 0, 0, 0, 0, 0, 0⟩

/-- A first Power-Only page with zeroed counters at 0.5 s, then `coastPage` at 1.5 s. -/
def coastAfterResyncFrames : List (ℚ × Payload) :=
  [(1 / 2, ⟨0x10, 0, 0, 60, 0, 0, 0, 0⟩), (3 / 2, coastPage)]
/-- The session `session1` after a first Power-Only page with zeroed counters received at
0.5 s (the page resyncs the Power-Only decoder). -/
def poResyncedSession : Session :=
  match decodeAll defaultConsts session1 [(1 / 2, ⟨0x10, 0, 0, 60, 0, 0, 0, 0⟩)] with
  | .ok out => out.1
  | .error _ => session1

/-- The Crank-Torque decoder of `session1` after a resync at 0.5 s (which leaves the last
record time at 0) and a second resync at 3.5 s on a page with accumulated period 2048 and
accumulated torque 16. -/
def crankResyncedLate : Decoder :=
  match DecodeCrankTorque_Resync defaultConsts 1 crankResynced (7 / 2)
    ⟨0x12, 1, 1, 60, 0, 8, 16, 0⟩ with
  | .ok out => out.1
  | .error _ => crankResynced

/-- The computation `x` does not end in an integer division or remainder by zero. -/
def IntSafe {α : Type} (x : Except Fault α) : Prop := x ≠ .error .intDivByZero

/-- A session configured with the record interval `0.1`, that is with the `double` nearest to
one tenth, `3602879701896397 / 2^55`, a resync interval of ten seconds and event-based
power-only pages. -/
def sessionTenth : Session :=
  InitPowerDecoder defaultConsts Session.initial (3602879701896397 / 36028797018963968) 0 10

/-- A session configured with a record interval of one second, event-based power-only pages
and a resync interval of sixty seconds. -/
def session60 : Session := InitPowerDecoder defaultConsts Session.initial 1 0 60

/-- Two Crank-Torque pages: the first one of the session, and 31.5 s later a crank
revolution of 64000 ticks (31.25 s), which ends in the 32nd record interval. -/
def staleFrames : List (ℚ × Payload) :=
  [(1 / 2, ⟨0x12, 1, 1, 60, 0, 0, 0, 0⟩), (32, ⟨0x12, 2, 2, 60, 0x00, 0xFA, 16, 0⟩)]

/-- The session after `staleFrames`. -/
def staleSession : Session :=
  match decodeAll defaultConsts session60 staleFrames with
  | .ok out => out.1
  | .error _ => session60

/-- The frames of `staleFrames` as Wheel-Torque pages. -/
def wheelStaleFrames : List (ℚ × Payload) :=
  [(1 / 2, ⟨0x11, 1, 1, 60, 0, 0, 0, 0⟩), (32, ⟨0x11, 2, 2, 60, 0x00, 0xFA, 16, 0⟩)]

/-- The session `staleSession` configured a second time, by the same call of
`InitPowerDecoder`. -/
def reconfigured : Session := InitPowerDecoder defaultConsts staleSession 1 0 60

/-- A Crank-Torque page with a new event count whose accumulated period is 65535 ticks
after the one of the last page of `staleFrames` (64000 + 65535 = 63999 modulo 65536). -/
def sentinelAfterConfigure : Payload := ⟨0x12, 3, 3, 60, 0xFF, 0xF9, 16, 0⟩

/-- The decoder states reachable from a configure that found the last record boundary
`ulLastRecordTime` at zero (as it is in the freshly loaded statics; `ResamplerOutput_Init`
does not assign this field) or from a completed `_Resync` in any state whatever, by any
number of returning calls with any arguments.  (The calibration and time-base setters exist
for one variant each; allowing them for all only enlarges the set.) -/
inductive Rebased (c : Consts) (v : Variant) : Decoder → Prop
  | init (d0 : Decoder) (I tb rsI : ℚ) : d0.stState.ulLastRecordTime = 0 →
      Rebased c v (v.Init c d0 I tb rsI).1
  | resync (d d1 : Decoder) (rs : List Record) (ro t : ℚ) (p : Payload) :
      v.Resync c ro d t p = .ok (d1, rs) → Rebased c v d1
  | message (d d1 : Decoder) (rs : List Record) (ro t : ℚ) (p : Payload) :
      Rebased c v d → v.Message c ro d t p = .ok (d1, rs) → Rebased c v d1
  | decode (d d1 : Decoder) (rs : List Record) (ro t : ℚ) (p : Payload) :
      Rebased c v d → v.Decode c ro d t p = .ok (d1, rs) → Rebased c v d1
  | calibration (d : Decoder) (t : ℚ) (p : Payload) :
      Rebased c v d → Rebased c v (DecodeCrankTorqueFreq_Calibration c d t p)
  | setTimeBase (d : Decoder) (tb : ℚ) :
      Rebased c v d → Rebased c v (DecodePowerOnly_SetTimeBase c d tb)

/-- The Crank-Torque decoder of `reconfigured` after a resync at 61 s. -/
def rebasedCrank : Decoder :=
  match DecodeCrankTorque_Resync defaultConsts 1 reconfigured.ct 61
      ⟨0x12, 4, 4, 60, 0xFF, 0xF9, 16, 0⟩ with
  | .ok out => out.1
  | .error _ => reconfigured.ct

/-- The result of the message handler on `rebasedCrank` for a crank revolution of 5000 ticks
that crosses two record boundaries: the new decoder state and the two records. -/
def rebasedCrankStep : Decoder × List Record :=
  match DecodeCrankTorque_Message defaultConsts 1 rebasedCrank (127 / 2)
      ⟨0x12, 5, 5, 60, 0x87, 0x0D, 32, 0⟩ with
  | .ok out => out
  | .error _ => (rebasedCrank, [])

/-! ## The decode steps with a floating division that does not stop

In C a floating division by zero raises no fault: it delivers an infinity or a NaN and the
execution goes on.  To follow the code past such a division, the functions that divide are
given once more with the floating division as a parameter `fd`.  With `fd = fdiv` they are
the functions above, and with `fd = fdivCont nan` no floating division stops the step. -/

/-- Floating division that goes on after a zero divisor: no fault is raised, and the result
(in C an infinity or a NaN) is represented by the value `nan a`, where `a` is the
dividend. -/
def fdivCont (nan : ℚ → ℚ) (a b : ℚ) : Except Fault ℚ :=
  .ok (if b = 0 then nan a else a / b)

/-- Function `RecordOutput_FillGap` with the floating division `fd`. -/
def RecordOutput_FillGapWith (fd : ℚ → ℚ → Except Fault ℚ) (dRecordInterval : ℚ)
    (s : BPSAMPLER) :
    Except Fault (BPSAMPLER × List Record) :=
  if s.ucRecordGapCount > 0 then do
    let fIncEnergy ← fd s.fGapEnergy (s.ucRecordGapCount : ℚ)
    let fIncRotation ← fd s.fGapRotation (s.ucRecordGapCount : ℚ)
    let fAveragePower ← fd fIncEnergy dRecordInterval
    let fAverageCadence ← fd (fIncRotation * 60) dRecordInterval
    let out := fillGapLoop dRecordInterval fIncEnergy fIncRotation fAverageCadence
      fAveragePower s.ucRecordGapCount s
    pure ({ out.1 with ucRecordGapCount := 0 }, out.2)
  else
    pure (s, [])

/-- Function `RecordOutput` with the floating division `fd`. -/
def RecordOutputWith (fd : ℚ → ℚ → Except Fault ℚ) (dRecordInterval : ℚ)
    (s : BPSAMPLER) :
    Except Fault (BPSAMPLER × List Record) := do
  let fAveragePower ← fd s.fPendingEnergy dRecordInterval
  let fAverageCadence ← fd (s.fPendingRotation * 60) dRecordInterval
  let q ← idiv s.ulEventTime s.usRecordInterval
  let s1 : BPSAMPLER :=
    { s with
      dTotalEnergy := s.dTotalEnergy + s.fPendingEnergy,
      dTotalRotation := s.dTotalRotation + s.fPendingRotation,
      dLastRecordTime := s.dLastRecordTime + dRecordInterval,
      ulLastRecordTime := q * s.usRecordInterval }
  let r : Record :=
    ⟨s1.dLastRecordTime, s1.dTotalRotation, s1.dTotalEnergy, fAverageCadence, fAveragePower⟩
  let out ← RecordOutput_FillGapWith fd dRecordInterval s1
  pure (out.1, r :: out.2)

/-- The gap count `(unsigned char)((gap + interval * 0.5) / interval)` of a `_Resync`, with the
floating division `fd`. -/
def resyncGapCountWith (fd : ℚ → ℚ → Except Fault ℚ)
    (gap dRecordInterval : ℚ) : Except Fault Nat := do
  let quot ← fd (gap + dRecordInterval * (1 / 2)) dRecordInterval
  pure (toUChar (truncToInt quot))

/-- The gap count `(unsigned char)(gap + interval * 0.5) / interval` of
`DecodeWheelTorque_Resync`, with the floating division `fd`. -/
def resyncGapCountWTWith (fd : ℚ → ℚ → Except Fault ℚ)
    (gap dRecordInterval : ℚ) : Except Fault Nat := do
  let quot ← fd ((toUChar (truncToInt (gap + dRecordInterval * (1 / 2))) : Nat) : ℚ)
    dRecordInterval
  pure (toUChar (truncToInt quot))

/-- The catch-up staged by every `_Resync`, with the floating division `fd`. -/
def resyncCatchUpWith (fd : ℚ → ℚ → Except Fault ℚ)
    (ro : ℚ) (s : BPSAMPLER) (ucRecordGapCount : Nat) :
    Except Fault (BPSAMPLER × List Record) :=
  RecordOutput_FillGapWith fd ro
    { s with
      ucRecordGapCount := ucRecordGapCount,
      fGapEnergy := s.fAccumEnergy,
      fGapRotation := s.fAccumRotation }

/-- The closing `if`/`else` of the four incremental decoders, with the floating division
`fd`. -/
def recordOrCatchUpWith (fd : ℚ → ℚ → Except Fault ℚ)
    (c : Consts) (ro dRecordInterval step dTime_ : ℚ) (s : BPSAMPLER) :
    Except Fault (BPSAMPLER × List Record) :=
  if crossed c s s.ulEventTime then
    RecordOutputWith fd ro s
  else
    wallClockFill dTime_ dRecordInterval step s

/-- Function `DecodePowerOnly_Resync` with the floating division `fd`. -/
def DecodePowerOnly_ResyncWith (fd : ℚ → ℚ → Except Fault ℚ)
    (c : Consts) (ro : ℚ) (d : Decoder) (dCurrentTime_ : ℚ)
    (p : Payload) : Except Fault (Decoder × List Record) := do
  let quot ← fd dCurrentTime_ d.dRecordInterval
  let dCurrentRecordEpoch : ℚ := (⌊toDouble quot⌋ : ℚ) * d.dRecordInterval
  let s := d.stState
  let out ← (
    if s.dLastRecordTime ≠ 0
        ∧ dCurrentRecordEpoch - s.dLastRecordTime > 0
        ∧ dCurrentRecordEpoch - s.dLastRecordTime < c.MAXIMUM_TIME_GAP then do
      let ucRecordGapCount ← resyncGapCountWith fd (dCurrentRecordEpoch - s.dLastRecordTime)
        d.dRecordInterval
      resyncCatchUpWith fd ro s ucRecordGapCount
    else
      pure (s, []))
  let usCurrentAccumPower := word16 p.b4 p.b5
  pure ({ d with stState :=
      { out.1 with
        ucCadence := p.b3.val,
        fAccumEnergy := 0, fPendingEnergy := 0, fGapEnergy := 0,
        fAccumRotation := 0, fPendingRotation := 0, fGapRotation := 0,
        ucRecordGapCount := 0,
        ulEventTime := 0, ulLastRecordTime := 0,
        dLastMessageTime := dCurrentTime_,
        dLastRecordTime := dCurrentRecordEpoch,
        usLastAccumPeriod := 0,
        ucLastRotationTicks := p.b1.val,
        ucLastEventCount := p.b1.val,
        usLastAccumTorque := usCurrentAccumPower } }, out.2)

/-- The first part of `DecodePowerOnly`, up to and including the store of the new
`stState.ulEventTime`, with the floating division `fd`. -/
def DecodePowerOnly_updateWith (fd : ℚ → ℚ → Except Fault ℚ)
    (c : Consts) (s : BPSAMPLER) (p : Payload) :
    Except Fault BPSAMPLER := do
  let usCurrentAccumPower := word16 p.b4 p.b5
  let usInstPower := word16 p.b6 p.b7
  let usDeltaPower0 := delta16 usCurrentAccumPower s.usLastAccumTorque
  let ucDeltaTicks := delta8 p.b1.val s.ucLastEventCount
  let ucCadence := p.b3.val
  -- Sanity check on delta power vs. instantaneous.
  let usDeltaPower1 :=
    if usInstPower > 0 ∧ usDeltaPower0 > 100 * usInstPower then usInstPower else usDeltaPower0
  let per ← (
    if ucCadence > 0 then do
      let quot ← idiv
        (toULong c ((ucDeltaTicks * c.PO_TIME_QUANTIZATION * 60 + ucCadence / 2 : Nat) : Int))
        ucCadence
      pure (toUShort (quot : Int), usDeltaPower1)
    else
      pure (0xFFFF, 0))
  let usDeltaPeriod : Nat := per.1
  let usDeltaPower : Nat := per.2
  let ev ← (
    if s.usTimeBase ≠ 0 then
      -- time based messages.
      pure (toULong c ((s.ulEventTime + toULong c ((s.usTimeBase * ucDeltaTicks : Nat) : Int)
              : Nat) : Int),
            toUShort ((s.usTimeBase * ucDeltaTicks : Nat) : Int),
            (usDeltaPower : ℚ))
    else do
      -- event based messages
      let e ← fd ((usDeltaPower : ℚ) * usDeltaPeriod / c.PO_TIME_QUANTIZATION) ucDeltaTicks
      pure (toULong c ((s.ulEventTime + usDeltaPeriod : Nat) : Int), usDeltaPeriod, e))
  let ulNewEventTime : Nat := ev.1
  let usDeltaPowerPeriod : Nat := ev.2.1
  let fEventEnergy : ℚ := ev.2.2
  let s1 ← (
    if crossed c s ulNewEventTime then do
      -- The event occurred after the end of the current record epoch.
      let qNew ← idiv ulNewEventTime s.usRecordInterval
      let qLast ← idiv s.ulLastRecordTime s.usRecordInterval
      let ucRecordGapCount := toUChar (toULong c ((qNew : Int) - qLast - 1))
      let rOld ← imod s.ulEventTime s.usRecordInterval
      let before : ℚ := toULong c ((s.usRecordInterval : Int) - rOld)
      let fPendingEnergy ← fd (fEventEnergy * before) usDeltaPowerPeriod
      let rNew ← imod ulNewEventTime s.usRecordInterval
      let fAccumEnergy ← fd (fEventEnergy * (rNew : ℚ)) usDeltaPowerPeriod
      let fGapEnergy ← fd
        (fEventEnergy * ((ucRecordGapCount * s.usRecordInterval : Nat) : ℚ)) usDeltaPowerPeriod
      let fPendingRotation ← fd ((ucDeltaTicks : ℚ) * before) usDeltaPeriod
      let fAccumRotation ← fd ((ucDeltaTicks : ℚ) * (rNew : ℚ)) usDeltaPeriod
      let fGapRotation ← fd
        ((ucDeltaTicks : ℚ) * ((ucRecordGapCount * s.usRecordInterval : Nat) : ℚ)) usDeltaPeriod
      pure { s with
        ucCadence := ucCadence,
        ucRecordGapCount := ucRecordGapCount,
        fPendingEnergy := s.fAccumEnergy + fPendingEnergy,
        fAccumEnergy := fAccumEnergy,
        fGapEnergy := fGapEnergy,
        fPendingRotation := s.fAccumRotation + fPendingRotation,
        fAccumRotation := fAccumRotation,
        fGapRotation := fGapRotation }
    else
      -- This event came in before the next record epoch started.
      pure { s with
        ucCadence := ucCadence,
        fAccumEnergy := s.fAccumEnergy + fEventEnergy,
        fAccumRotation :=
          if s.usTimeBase ≠ 0 then s.fAccumRotation + (ucDeltaTicks : ℚ) * ucCadence / 60
          else s.fAccumRotation + ucDeltaTicks,
        fPendingEnergy := 0,
        fPendingRotation := 0,
        ucRecordGapCount := 0 })
  let s2 : BPSAMPLER := { s1 with ulEventTime := ulNewEventTime }
  pure s2

/-- Function `DecodePowerOnly` with the floating division `fd`. -/
def DecodePowerOnlyWith (fd : ℚ → ℚ → Except Fault ℚ)
    (c : Consts) (ro : ℚ) (d : Decoder) (dTime_ : ℚ) (p : Payload) :
    Except Fault (Decoder × List Record) := do
  let usCurrentAccumPower := word16 p.b4 p.b5
  let s2 ← DecodePowerOnly_updateWith fd c d.stState p
  let out ← recordOrCatchUpWith fd c ro d.dRecordInterval
    ((s2.usRecordInterval : ℚ) / c.PO_TIME_QUANTIZATION) dTime_ s2
  -- Propagate the message state information.
  pure ({ d with stState :=
      { out.1 with
        ucLastRotationTicks := p.b1.val,
        ucLastEventCount := p.b1.val,
        usLastAccumTorque := usCurrentAccumPower } }, out.2)

/-- Function `DecodePowerOnly_Message` with the floating division `fd`. -/
def DecodePowerOnly_MessageWith (fd : ℚ → ℚ → Except Fault ℚ)
    (c : Consts) (ro : ℚ) (d : Decoder) (dTime_ : ℚ) (p : Payload) :
    Except Fault (Decoder × List Record) :=
  -- see if the message is new.
  if d.stState.ucLastEventCount ≠ p.b1.val then do
    let out ← (
      if dTime_ - d.stState.dLastMessageTime > d.dReSyncInterval then
        DecodePowerOnly_ResyncWith fd c ro d dTime_ p
      else
        DecodePowerOnlyWith fd c ro d dTime_ p)
    pure ({ out.1 with stState :=
        { out.1.stState with dLastMessageTime := dTime_, ucLastEventCount := p.b1.val } },
      out.2)
  else
    pure (d, [])

/-- Function `DecodeCrankTorque_Resync` with the floating division `fd`. -/
def DecodeCrankTorque_ResyncWith (fd : ℚ → ℚ → Except Fault ℚ)
    (c : Consts) (ro : ℚ) (d : Decoder) (dCurrentTime_ : ℚ)
    (p : Payload) : Except Fault (Decoder × List Record) := do
  let quot ← fd dCurrentTime_ d.dRecordInterval
  let dCurrentRecordEpoch : ℚ := (⌊toDouble quot⌋ : ℚ) * d.dRecordInterval
  let s := d.stState
  let out ← (
    if s.dLastRecordTime ≠ 0
        ∧ dCurrentRecordEpoch - s.dLastRecordTime < c.MAXIMUM_TIME_GAP then do
      -- Figure out how many records we missed based on the receive timestamps.
      let ucRecordGapCount ← resyncGapCountWith fd (dCurrentRecordEpoch - s.dLastRecordTime)
        d.dRecordInterval
      resyncCatchUpWith fd ro s ucRecordGapCount
    else
      pure (s, []))
  let usCurrentAccumPeriod := word16 p.b4 p.b5
  let usCurrentAccumTorque := word16 p.b6 p.b7
  pure ({ d with stState :=
      { out.1 with
        ucCadence := p.b3.val,
        fAccumEnergy := 0, fPendingEnergy := 0, fGapEnergy := 0,
        fAccumRotation := 0, fPendingRotation := 0, fGapRotation := 0,
        ucRecordGapCount := 0,
        ulEventTime := 0, ulLastRecordTime := 0,
        dLastMessageTime := dCurrentTime_,
        dLastRecordTime := dCurrentRecordEpoch,
        usLastAccumTorque := usCurrentAccumTorque,
        usLastAccumPeriod := usCurrentAccumPeriod,
        ucLastRotationTicks := p.b2.val,
        ucLastEventCount := p.b1.val } }, out.2)

/-- The first part of `DecodeCrankTorque`, up to and including the store of the new
`stState.ulEventTime`, with the floating division `fd`. -/
def DecodeCrankTorque_updateWith (fd : ℚ → ℚ → Except Fault ℚ)
    (c : Consts) (s : BPSAMPLER) (p : Payload) :
    Except Fault BPSAMPLER := do
  let usCurrentAccumPeriod := word16 p.b4 p.b5
  let usCurrentAccumTorque := word16 p.b6 p.b7
  let usDeltaTorque := DecodeCrankTorque_deltaTorque s.usLastAccumTorque p
  let usDeltaPeriod := delta16 usCurrentAccumPeriod s.usLastAccumPeriod
  let ucDeltaEventCount := delta8 p.b1.val s.ucLastEventCount
  let ucDeltaTicks := delta8 p.b2.val s.ucLastRotationTicks
  let ucCadence := p.b3.val
  let ev ← (
    if usDeltaPeriod ≠ 0 ∧ usDeltaPeriod ≠ 0xFFFF then do
      let ulNewEventTime := toULong c ((s.ulEventTime + usDeltaPeriod : Nat) : Int)
      let pw ← idiv ((truncToInt (M_PI * 2048 + 1 / 2)).toNat * usDeltaTorque) usDeltaPeriod
      let ulEventPower := toULong c (((pw + 8) / 16 : Nat) : Int)
      let cad ← idiv (ucDeltaTicks * 60 * c.CT_TIME_QUANTIZATION + usDeltaPeriod / 2)
        usDeltaPeriod
      let ulEventCadence := toULong c (cad : Int)
      pure (ulNewEventTime, M_PI * (usDeltaTorque : ℚ) / 16)
    else
      -- This is basically a non-event.
      pure (s.ulEventTime, 0))
  let ulNewEventTime : Nat := ev.1
  let fEventEnergy : ℚ := ev.2
  let s1 ← (
    if crossed c s ulNewEventTime then do
      -- The event occurred after the end of the current record epoch.
      let qNew ← idiv ulNewEventTime s.usRecordInterval
      let qLast ← idiv s.ulLastRecordTime s.usRecordInterval
      let ucRecordGapCount := toUChar (toULong c ((qNew : Int) - qLast - 1))
      let rOld ← imod s.ulEventTime s.usRecordInterval
      let before : ℚ := toULong c ((s.usRecordInterval : Int) - rOld)
      let fPendingEnergy ← fd (fEventEnergy * before) usDeltaPeriod
      let rNew ← imod ulNewEventTime s.usRecordInterval
      let fAccumEnergy ← fd (fEventEnergy * (rNew : ℚ)) usDeltaPeriod
      let fGapEnergy ← fd
        (fEventEnergy * ((ucRecordGapCount * s.usRecordInterval : Nat) : ℚ)) usDeltaPeriod
      let fPendingRotation ← fd ((ucDeltaTicks : ℚ) * before) usDeltaPeriod
      let fAccumRotation ← fd ((ucDeltaTicks : ℚ) * (rNew : ℚ)) usDeltaPeriod
      let fGapRotation ← fd
        ((ucDeltaTicks : ℚ) * ((ucRecordGapCount * s.usRecordInterval : Nat) : ℚ)) usDeltaPeriod
      pure { s with
        ucCadence := ucCadence,
        ucRecordGapCount := ucRecordGapCount,
        fPendingEnergy := s.fAccumEnergy + fPendingEnergy,
        fAccumEnergy := fAccumEnergy,
        fGapEnergy := fGapEnergy,
        fPendingRotation := s.fAccumRotation + fPendingRotation,
        fAccumRotation := fAccumRotation,
        fGapRotation := fGapRotation }
    else
      -- This event came in before the next record epoch started.
      pure { s with
        ucCadence := ucCadence,
        fAccumEnergy := s.fAccumEnergy + fEventEnergy,
        fAccumRotation := s.fAccumRotation + ucDeltaTicks,
        fPendingEnergy := 0,
        fPendingRotation := 0,
        ucRecordGapCount := 0 })
  let s2 : BPSAMPLER :=
    { s1 with ulEventTime := toULong c ((s1.ulEventTime + usDeltaPeriod : Nat) : Int) }
  pure s2

/-- Function `DecodeCrankTorque` with the floating division `fd`. -/
def DecodeCrankTorqueWith (fd : ℚ → ℚ → Except Fault ℚ)
    (c : Consts) (ro : ℚ) (d : Decoder) (dTime_ : ℚ) (p : Payload) :
    Except Fault (Decoder × List Record) := do
  let usCurrentAccumPeriod := word16 p.b4 p.b5
  let usCurrentAccumTorque := word16 p.b6 p.b7
  let s2 ← DecodeCrankTorque_updateWith fd c d.stState p
  let out ← recordOrCatchUpWith fd c ro d.dRecordInterval d.dRecordInterval dTime_ s2
  -- Propagate the message state information.
  pure ({ d with stState :=
      { out.1 with
        ucLastEventCount := p.b1.val,
        ucLastRotationTicks := p.b2.val,
        usLastAccumPeriod := usCurrentAccumPeriod,
        usLastAccumTorque := usCurrentAccumTorque } }, out.2)

/-- Function `DecodeCrankTorque_Message` with the floating division `fd`. -/
def DecodeCrankTorque_MessageWith (fd : ℚ → ℚ → Except Fault ℚ)
    (c : Consts) (ro : ℚ) (d : Decoder) (dTime_ : ℚ) (p : Payload) :
    Except Fault (Decoder × List Record) :=
  -- see if the message is new.
  if d.stState.ucLastEventCount ≠ p.b1.val then do
    let out ← (
      if dTime_ - d.stState.dLastMessageTime > d.dReSyncInterval then
        DecodeCrankTorque_ResyncWith fd c ro d dTime_ p
      else
        DecodeCrankTorqueWith fd c ro d dTime_ p)
    pure ({ out.1 with stState := { out.1.stState with dLastMessageTime := dTime_ } }, out.2)
  else
    pure (d, [])

/-- Function `DecodeWheelTorque_Resync` with the floating division `fd`. -/
def DecodeWheelTorque_ResyncWith (fd : ℚ → ℚ → Except Fault ℚ)
    (c : Consts) (ro : ℚ) (d : Decoder) (dCurrentTime_ : ℚ)
    (p : Payload) : Except Fault (Decoder × List Record) := do
  let quot ← fd dCurrentTime_ d.dRecordInterval
  let dCurrentRecordEpoch : ℚ := (⌊toDouble quot⌋ : ℚ) * d.dRecordInterval
  let s := d.stState
  let out ← (
    if s.dLastRecordTime ≠ 0
        ∧ dCurrentRecordEpoch - s.dLastRecordTime > 0
        ∧ dCurrentRecordEpoch - s.dLastRecordTime < c.MAXIMUM_TIME_GAP then do
      let ucRecordGapCount ← resyncGapCountWTWith fd (dCurrentRecordEpoch - s.dLastRecordTime)
        d.dRecordInterval
      resyncCatchUpWith fd ro s ucRecordGapCount
    else
      pure (s, []))
  let usCurrentAccumPeriod := word16 p.b4 p.b5
  let usCurrentAccumTorque := word16 p.b6 p.b7
  pure ({ d with stState :=
      { out.1 with
        ucCadence := p.b3.val,
        fAccumEnergy := 0, fPendingEnergy := 0, fGapEnergy := 0,
        fAccumRotation := 0, fPendingRotation := 0, fGapRotation := 0,
        ucRecordGapCount := 0,
        ulEventTime := 0, ulLastRecordTime := 0,
        dLastMessageTime := dCurrentTime_,
        dLastRecordTime := dCurrentRecordEpoch,
        usLastAccumTorque := usCurrentAccumTorque,
        usLastAccumPeriod := usCurrentAccumPeriod,
        ucLastRotationTicks := p.b2.val,
        ucLastEventCount := p.b1.val } }, out.2)

/-- The first part of `DecodeWheelTorque`, up to and including the store of the new
`stState.ulEventTime`, with the floating division `fd`. -/
def DecodeWheelTorque_updateWith (fd : ℚ → ℚ → Except Fault ℚ)
    (c : Consts) (s : BPSAMPLER) (p : Payload) :
    Except Fault BPSAMPLER := do
  let usCurrentAccumPeriod := word16 p.b4 p.b5
  let usCurrentAccumTorque := word16 p.b6 p.b7
  let usDeltaTorque0 := delta16 usCurrentAccumTorque s.usLastAccumTorque
  let usDeltaPeriod := delta16 usCurrentAccumPeriod s.usLastAccumPeriod
  let ucCadence := p.b3.val
  let ucDeltaEventCount := delta8 p.b1.val s.ucLastEventCount
  let ucDeltaTicks0 := delta8 p.b2.val s.ucLastRotationTicks
  -- Unlikely to be right...
  let ucDeltaTicks1 := if ucDeltaTicks0 > 200 then 0 else ucDeltaTicks0
  -- 65535 is an invalid value.
  let usDeltaTorque := if usDeltaTorque0 = 65535 then 0 else usDeltaTorque0
  let ev ← (
    if usDeltaPeriod ≠ 0 ∧ usDeltaPeriod ≠ 0xFFFF then do
      let pw ← idiv ((truncToInt (M_PI * 2048 + 1 / 2)).toNat * usDeltaTorque) usDeltaPeriod
      let ulEventPower := toULong c (((pw + 8) / 16 : Nat) : Int)
      let tb :=
        if s.usTimeBase ≠ 0 then
          -- time based messages.
          (toULong c ((s.ulEventTime + toULong c ((s.usTimeBase * ucDeltaEventCount : Nat) : Int)
              : Nat) : Int),
            s.usTimeBase,
            (ulEventPower : ℚ),
            if ucCadence ≠ 0 then ucDeltaEventCount else 0)
        else
          -- event based messages
          (toULong c ((s.ulEventTime + usDeltaPeriod : Nat) : Int),
            usDeltaPeriod,
            M_PI * (usDeltaTorque : ℚ) / 16,
            ucDeltaTicks1)
      -- This is actually the wheel rotation speed.
      let rpm ← idiv (tb.2.2.2 * 60 * c.WT_TIME_QUANTIZATION + usDeltaPeriod / 2) usDeltaPeriod
      let ulEventWheelRPM := toULong c (rpm : Int)
      pure tb
    else
      -- This is basically a non-event.
      pure (s.ulEventTime, usDeltaPeriod, 0, ucDeltaTicks1))
  let ulNewEventTime : Nat := ev.1
  let usDeltaPowerPeriod : Nat := ev.2.1
  let fEventEnergy : ℚ := ev.2.2.1
  let ucDeltaTicks : Nat := ev.2.2.2
  let s1 ← (
    if crossed c s ulNewEventTime then do
      -- The event occurred after the end of the current record epoch.
      let qNew ← idiv ulNewEventTime s.usRecordInterval
      let qLast ← idiv s.ulLastRecordTime s.usRecordInterval
      let ucRecordGapCount := toUChar (toULong c ((qNew : Int) - qLast - 1))
      let rOld ← imod s.ulEventTime s.usRecordInterval
      let before : ℚ := toULong c ((s.usRecordInterval : Int) - rOld)
      let fPendingEnergy ← fd (fEventEnergy * before) usDeltaPowerPeriod
      let rNew ← imod ulNewEventTime s.usRecordInterval
      let fAccumEnergy ← fd (fEventEnergy * (rNew : ℚ)) usDeltaPowerPeriod
      let fGapEnergy ← fd
        (fEventEnergy * ((ucRecordGapCount * s.usRecordInterval : Nat) : ℚ)) usDeltaPowerPeriod
      -- Same for rotation: the cycling cadence is propagated.
      pure { s with
        ucCadence := ucCadence,
        ucRecordGapCount := ucRecordGapCount,
        fPendingEnergy := s.fAccumEnergy + fPendingEnergy,
        fAccumEnergy := fAccumEnergy,
        fGapEnergy := fGapEnergy,
        fPendingRotation := s.fAccumRotation
          + (ucDeltaTicks : ℚ) * ucCadence / 60 * before / c.WT_TIME_QUANTIZATION,
        fAccumRotation :=
          (ucDeltaTicks : ℚ) * ucCadence / 60 * (rNew : ℚ) / c.WT_TIME_QUANTIZATION,
        fGapRotation :=
          (ucDeltaTicks : ℚ) * ucCadence / 60
            * ((ucRecordGapCount * s.usRecordInterval : Nat) : ℚ) / c.WT_TIME_QUANTIZATION }
    else
      -- This event came in before the next record epoch started.
      pure { s with
        ucCadence := ucCadence,
        fAccumEnergy := s.fAccumEnergy + fEventEnergy,
        fAccumRotation := s.fAccumRotation + (ucDeltaTicks : ℚ) * ucCadence / 60,
        fPendingEnergy := 0,
        fPendingRotation := 0,
        ucRecordGapCount := 0 })
  let s2 : BPSAMPLER := { s1 with ulEventTime := ulNewEventTime }
  pure s2

/-- Function `DecodeWheelTorque` with the floating division `fd`. -/
def DecodeWheelTorqueWith (fd : ℚ → ℚ → Except Fault ℚ)
    (c : Consts) (ro : ℚ) (d : Decoder) (dTime_ : ℚ) (p : Payload) :
    Except Fault (Decoder × List Record) := do
  let usCurrentAccumPeriod := word16 p.b4 p.b5
  let usCurrentAccumTorque := word16 p.b6 p.b7
  let s2 ← DecodeWheelTorque_updateWith fd c d.stState p
  let out ← recordOrCatchUpWith fd c ro d.dRecordInterval
    ((s2.usRecordInterval : ℚ) / c.WT_TIME_QUANTIZATION) dTime_ s2
  -- Propagate the message state information.
  pure ({ d with stState :=
      { out.1 with
        ucLastEventCount := p.b1.val,
        ucLastRotationTicks := p.b2.val,
        usLastAccumPeriod := usCurrentAccumPeriod,
        usLastAccumTorque := usCurrentAccumTorque } }, out.2)

/-- Function `DecodeWheelTorque_Message` with the floating division `fd`. -/
def DecodeWheelTorque_MessageWith (fd : ℚ → ℚ → Except Fault ℚ)
    (c : Consts) (ro : ℚ) (d : Decoder) (dTime_ : ℚ) (p : Payload) :
    Except Fault (Decoder × List Record) :=
  -- see if the message is new.
  if d.stState.ucLastEventCount ≠ p.b1.val then do
    let out ← (
      if dTime_ - d.stState.dLastMessageTime > d.dReSyncInterval then
        DecodeWheelTorque_ResyncWith fd c ro d dTime_ p
      else
        DecodeWheelTorqueWith fd c ro d dTime_ p)
    pure ({ out.1 with stState :=
        { out.1.stState with dLastMessageTime := dTime_, ucLastEventCount := p.b1.val } },
      out.2)
  else
    pure (d, [])

/-- Function `DecodeCrankTorqueFreq_Resync` with the floating division `fd`. -/
def DecodeCrankTorqueFreq_ResyncWith (fd : ℚ → ℚ → Except Fault ℚ)
    (c : Consts) (ro : ℚ) (d : Decoder) (dCurrentTime_ : ℚ)
    (p : Payload) : Except Fault (Decoder × List Record) := do
  let quot ← fd dCurrentTime_ d.dRecordInterval
  let dCurrentRecordEpoch : ℚ := (⌊toDouble quot⌋ : ℚ) * d.dRecordInterval
  let s := d.stState
  let out ← (
    if s.dLastRecordTime ≠ 0
        ∧ dCurrentRecordEpoch - s.dLastRecordTime < c.MAXIMUM_TIME_GAP then do
      -- Figure out how many records we missed.
      let ucRecordGapCount ← resyncGapCountWith fd (dCurrentRecordEpoch - s.dLastRecordTime)
        d.dRecordInterval
      resyncCatchUpWith fd ro s ucRecordGapCount
    else
      pure (s, []))
  let usCurrentTimeStamp := word16 p.b5 p.b4
  let usCurrentTorqueTicks := word16 p.b7 p.b6
  pure ({ d with stState :=
      { out.1 with
        fAccumEnergy := 0, fPendingEnergy := 0, fGapEnergy := 0,
        fAccumRotation := 0, fPendingRotation := 0, fGapRotation := 0,
        ucRecordGapCount := 0,
        ulEventTime := 0, ulLastRecordTime := 0,
        dLastMessageTime := dCurrentTime_,
        dLastRecordTime := dCurrentRecordEpoch,
        usLastAccumTorque := usCurrentTorqueTicks,
        usLastAccumPeriod := usCurrentTimeStamp,
        ucLastRotationTicks := p.b1.val,
        ucLastEventCount := p.b1.val } }, out.2)

/-- The first part of `DecodeCrankTorqueFreq`, up to and including the store of the new
`stState.ulEventTime`, with the floating division `fd`. -/
def DecodeCrankTorqueFreq_updateWith (fd : ℚ → ℚ → Except Fault ℚ)
    (c : Consts) (s : BPSAMPLER) (p : Payload) :
    Except Fault BPSAMPLER := do
  let ucCurrentEventCount := p.b1.val
  let usTorqueSlope := word16 p.b3 p.b2
  let usCurrentTimeStamp := word16 p.b5 p.b4
  let usCurrentTorqueTicks := word16 p.b7 p.b6
  let usDeltaTorque0 := delta16 usCurrentTorqueTicks s.usLastAccumTorque
  let usDeltaPeriod := delta16 usCurrentTimeStamp s.usLastAccumPeriod
  let ucDeltaEventCount := delta8 ucCurrentEventCount s.ucLastEventCount
  -- 65535 is an invalid value.
  let usDeltaTorque := if usDeltaTorque0 = 65535 then 0 else usDeltaTorque0
  let ev ← (
    if usDeltaPeriod ≠ 0 ∧ usDeltaPeriod ≠ 0xFFFF then do
      let ulNewEventTime := toULong c ((s.ulEventTime + usDeltaPeriod : Nat) : Int)
      -- We multiply this up by 32 so that we end up with the torque quantized to 1/32 N*m
      let t0 ← idiv (toULong c ((usDeltaTorque * c.CTF_TIME_QUANTIZATION * 32 : Nat) : Int))
        usDeltaPeriod
      let off := toULong c ((s.usTorqueOffset * 32 : Nat) : Int)
      let t1 := if t0 > off then toULong c ((t0 : Int) - off) else 0
      let t2 := toULong c ((t1 * 10 : Nat) : Int)
      let ulTempTorque ← idiv t2 usTorqueSlope
      let pw ← idiv (toULong c (((truncToInt (M_PI * 2000 + 1 / 2)).toNat * ulTempTorque : Nat)
        : Int)) usDeltaPeriod
      let ulEventPower := toULong c ((pw + 8 : Nat) : Int) / 16
      let cad ← idiv (ucDeltaEventCount * 60 * c.CTF_TIME_QUANTIZATION + usDeltaPeriod / 2)
        usDeltaPeriod
      let ulEventCadence := toULong c (cad : Int)
      pure (ulNewEventTime, M_PI * (ulTempTorque : ℚ) / 16)
    else
      -- This is basically a non-event.
      pure (s.ulEventTime, 0))
  let ulNewEventTime : Nat := ev.1
  let fEventEnergy : ℚ := ev.2
  let s1 ← (
    if crossed c s ulNewEventTime then do
      -- The event occurred after the end of the current record epoch.
      let qNew ← idiv ulNewEventTime s.usRecordInterval
      let qLast ← idiv s.ulLastRecordTime s.usRecordInterval
      let ucRecordGapCount := toUChar (toULong c ((qNew : Int) - qLast - 1))
      let rOld ← imod s.ulEventTime s.usRecordInterval
      let before : ℚ := toULong c ((s.usRecordInterval : Int) - rOld)
      let fPendingEnergy ← fd (fEventEnergy * before) usDeltaPeriod
      let rNew ← imod ulNewEventTime s.usRecordInterval
      let fAccumEnergy ← fd (fEventEnergy * (rNew : ℚ)) usDeltaPeriod
      let fGapEnergy ← fd
        (fEventEnergy * ((ucRecordGapCount * s.usRecordInterval : Nat) : ℚ)) usDeltaPeriod
      let fPendingRotation ← fd ((ucDeltaEventCount : ℚ) * before) usDeltaPeriod
      let fAccumRotation ← fd ((ucDeltaEventCount : ℚ) * (rNew : ℚ)) usDeltaPeriod
      let fGapRotation ← fd
        ((ucDeltaEventCount : ℚ) * ((ucRecordGapCount * s.usRecordInterval : Nat) : ℚ))
        usDeltaPeriod
      pure { s with
        ucRecordGapCount := ucRecordGapCount,
        fPendingEnergy := s.fAccumEnergy + fPendingEnergy,
        fAccumEnergy := fAccumEnergy,
        fGapEnergy := fGapEnergy,
        fPendingRotation := s.fAccumRotation + fPendingRotation,
        fAccumRotation := fAccumRotation,
        fGapRotation := fGapRotation }
    else
      -- This event came in before the next record epoch started.
      pure { s with
        fAccumEnergy := s.fAccumEnergy + fEventEnergy,
        fAccumRotation := s.fAccumRotation + ucDeltaEventCount,
        fPendingEnergy := 0,
        fPendingRotation := 0,
        ucRecordGapCount := 0 })
  let s2 : BPSAMPLER :=
    { s1 with ulEventTime := toULong c ((s1.ulEventTime + usDeltaPeriod : Nat) : Int) }
  pure s2

/-- Function `DecodeCrankTorqueFreq` with the floating division `fd`. -/
def DecodeCrankTorqueFreqWith (fd : ℚ → ℚ → Except Fault ℚ)
    (c : Consts) (ro : ℚ) (d : Decoder) (dTime_ : ℚ) (p : Payload) :
    Except Fault (Decoder × List Record) := do
  let ucCurrentEventCount := p.b1.val
  let usCurrentTimeStamp := word16 p.b5 p.b4
  let usCurrentTorqueTicks := word16 p.b7 p.b6
  let s2 ← DecodeCrankTorqueFreq_updateWith fd c d.stState p
  let out ← recordOrCatchUpWith fd c ro d.dRecordInterval
    ((s2.usRecordInterval : ℚ) / c.CTF_TIME_QUANTIZATION) dTime_ s2
  -- Propagate the message state information.
  pure ({ d with stState :=
      { out.1 with
        ucLastEventCount := ucCurrentEventCount,
        ucLastRotationTicks := ucCurrentEventCount,
        usLastAccumPeriod := usCurrentTimeStamp,
        usLastAccumTorque := usCurrentTorqueTicks } }, out.2)

/-- Function `DecodeCrankTorqueFreq_Message` with the floating division `fd`. -/
def DecodeCrankTorqueFreq_MessageWith (fd : ℚ → ℚ → Except Fault ℚ)
    (c : Consts) (ro : ℚ) (d : Decoder) (dTime_ : ℚ)
    (p : Payload) : Except Fault (Decoder × List Record) :=
  -- see if the message is new.
  if d.stState.ucLastEventCount ≠ p.b1.val then do
    let out ← (
      if dTime_ - d.stState.dLastMessageTime > d.dReSyncInterval then
        DecodeCrankTorqueFreq_ResyncWith fd c ro d dTime_ p
      else
        DecodeCrankTorqueFreqWith fd c ro d dTime_ p)
    pure ({ out.1 with stState := { out.1.stState with dLastMessageTime := dTime_ } }, out.2)
  else
    pure (d, [])

/-- The `_Message` handler of a variant, with the floating division `fd`. -/
def Variant.MessageWith (fd : ℚ → ℚ → Except Fault ℚ) :
    Variant → Consts → ℚ → Decoder → ℚ → Payload → Except Fault (Decoder × List Record)
  | .powerOnly => DecodePowerOnly_MessageWith fd
  | .wheelTorque => DecodeWheelTorque_MessageWith fd
  | .crankTorque => DecodeCrankTorque_MessageWith fd
  | .crankTorqueFreq => DecodeCrankTorqueFreq_MessageWith fd

/-- The `_Resync` function of a variant, with the floating division `fd`. -/
def Variant.ResyncWith (fd : ℚ → ℚ → Except Fault ℚ) :
    Variant → Consts → ℚ → Decoder → ℚ → Payload → Except Fault (Decoder × List Record)
  | .powerOnly => DecodePowerOnly_ResyncWith fd
  | .wheelTorque => DecodeWheelTorque_ResyncWith fd
  | .crankTorque => DecodeCrankTorque_ResyncWith fd
  | .crankTorqueFreq => DecodeCrankTorqueFreq_ResyncWith fd

/-- The incremental decode function of a variant, with the floating division `fd`. -/
def Variant.DecodeWith (fd : ℚ → ℚ → Except Fault ℚ) :
    Variant → Consts → ℚ → Decoder → ℚ → Payload → Except Fault (Decoder × List Record)
  | .powerOnly => DecodePowerOnlyWith fd
  | .wheelTorque => DecodeWheelTorqueWith fd
  | .crankTorque => DecodeCrankTorqueWith fd
  | .crankTorqueFreq => DecodeCrankTorqueFreqWith fd

/-- The first part of the incremental decode of a variant, with the floating division
`fd`. -/
def Variant.updateWith (fd : ℚ → ℚ → Except Fault ℚ) :
    Variant → Consts → BPSAMPLER → Payload → Except Fault BPSAMPLER
  | .powerOnly => DecodePowerOnly_updateWith fd
  | .wheelTorque => DecodeWheelTorque_updateWith fd
  | .crankTorque => DecodeCrankTorque_updateWith fd
  | .crankTorqueFreq => DecodeCrankTorqueFreq_updateWith fd

/-- A step does not end in the fault `e`. -/
def Avoids {α : Type} (e : Fault) (x : Except Fault α) : Prop := x ≠ .error e

/-- A Power-Only page that repeats the event count 0 of the first page of
`poResyncedSession`: decoded directly by `DecodePowerOnly`, its event-count delta is 0 and
the event energy is a floating quotient with the divisor 0. -/
def sameCountPage : Payload := ⟨0x10, 0, 0, 60, 100, 0, 100, 0⟩

/-- Wherever the step `x` returns, the step `y` returns the same result. -/
def Refines {α : Type} (x y : Except Fault α) : Prop := ∀ a, x = .ok a → y = .ok a

/-! # Theorems -/

/-! ## Basic facts about the fallible operations -/

theorem bind_eq_ok {α β : Type} (x : Except Fault α) (f : α → Except Fault β) (b : β) :
    (x >>= f) = .ok b ↔ ∃ a, x = .ok a ∧ f a = .ok b := by
  cases x with
  | error e => simp [bind, Except.bind]
  | ok a => simp [bind, Except.bind]

theorem fdiv_ok (a b : ℚ) (h : b ≠ 0) : fdiv a b = .ok (a / b) := by
  simp [fdiv, h]

theorem idiv_ok (a b : Nat) (h : b ≠ 0) : idiv a b = .ok (a / b) := by
  simp [idiv, h]

theorem imod_ok (a b : Nat) (h : b ≠ 0) : imod a b = .ok (a % b) := by
  simp [imod, h]

/-! ## The resampler -/

/-- Closed form of the gap-fill loop: `n` records, one interval apart, each adding the same
increments to the totals. -/
theorem fillGapLoop_spec (I iE iR cad pw : ℚ) (n : Nat) (s : BPSAMPLER) :
    fillGapLoop I iE iR cad pw n s =
      ({ s with
          dTotalEnergy := s.dTotalEnergy + n * iE,
          dTotalRotation := s.dTotalRotation + n * iR,
          dLastRecordTime := s.dLastRecordTime + n * I },
        (List.range n).map (fun k =>
          (⟨s.dLastRecordTime + (k + 1 : Nat) * I, s.dTotalRotation + (k + 1 : Nat) * iR,
            s.dTotalEnergy + (k + 1 : Nat) * iE, cad, pw⟩ : Record))) := by
  induction n generalizing s with
  | zero => simp [fillGapLoop]
  | succ n ih =>
    simp only [fillGapLoop, ih, List.range_succ_eq_map, List.map_cons, List.map_map]
    refine Prod.ext ?_ ?_
    · simp only
      congr 1 <;> push_cast <;> ring
    · simp only [List.cons.injEq]
      refine ⟨?_, ?_⟩
      · simp
      · apply List.map_congr_left
        intro k _
        simp only [Function.comp]
        congr 1 <;> push_cast <;> ring

/-- The result of `RecordOutput_FillGap` when the gap count is positive. -/
theorem fillGap_pos (I : ℚ) (s : BPSAMPLER) (hI : I ≠ 0) (hn : 0 < s.ucRecordGapCount) :
    RecordOutput_FillGap I s = .ok
      ({ s with
          dTotalEnergy := s.dTotalEnergy + s.fGapEnergy,
          dTotalRotation := s.dTotalRotation + s.fGapRotation,
          dLastRecordTime := s.dLastRecordTime + s.ucRecordGapCount * I,
          ucRecordGapCount := 0 },
        (List.range s.ucRecordGapCount).map (fun k =>
          (⟨s.dLastRecordTime + (k + 1 : Nat) * I,
            s.dTotalRotation + (k + 1 : Nat) * (s.fGapRotation / s.ucRecordGapCount),
            s.dTotalEnergy + (k + 1 : Nat) * (s.fGapEnergy / s.ucRecordGapCount),
            s.fGapRotation * 60 / (s.ucRecordGapCount * I),
            s.fGapEnergy / (s.ucRecordGapCount * I)⟩ : Record))) := by
  have hn0 : (s.ucRecordGapCount : ℚ) ≠ 0 := by
    exact_mod_cast (Nat.pos_iff_ne_zero.mp hn)
  unfold RecordOutput_FillGap
  rw [if_pos hn]
  simp only [fdiv_ok _ _ hn0, fdiv_ok _ _ hI, bind, Except.bind, pure, Except.pure,
    fillGapLoop_spec]
  congr 1
  refine Prod.ext ?_ ?_
  · simp only
    congr 1 <;> field_simp
  · simp only
    apply List.map_congr_left
    intro k _
    congr 1 <;> field_simp

/-- With a zero gap count `RecordOutput_FillGap` does nothing. -/
theorem fillGap_zero (I : ℚ) (s : BPSAMPLER) (hn : s.ucRecordGapCount = 0) :
    RecordOutput_FillGap I s = .ok (s, []) := by
  simp [RecordOutput_FillGap, hn, pure, Except.pure]

/-- With a nonzero record interval `RecordOutput_FillGap` always returns. -/
theorem fillGap_ok (I : ℚ) (s : BPSAMPLER) (hI : I ≠ 0) :
    ∃ out, RecordOutput_FillGap I s = .ok out := by
  by_cases hn : 0 < s.ucRecordGapCount
  · exact ⟨_, fillGap_pos I s hI hn⟩
  · exact ⟨_, fillGap_zero I s (by omega)⟩

/-- Whenever `RecordOutput_FillGap` returns, the gap count of the result is zero. -/
theorem fillGap_count_zero (I : ℚ) (s : BPSAMPLER) (out : BPSAMPLER × List Record)
    (h : RecordOutput_FillGap I s = .ok out) : out.1.ucRecordGapCount = 0 := by
  by_cases hn : 0 < s.ucRecordGapCount
  · unfold RecordOutput_FillGap at h
    rw [if_pos hn] at h
    simp only [bind_eq_ok] at h
    obtain ⟨a, _, b, _, e, _, f, _, h⟩ := h
    simp only [pure, Except.pure, Except.ok.injEq] at h
    rw [← h]
  · have h0 : s.ucRecordGapCount = 0 := by omega
    rw [fillGap_zero I s h0] at h
    simp only [Except.ok.injEq] at h
    rw [← h]; exact h0

/-! ## Duplicate frames, emit and gap-fill -/

/-- C3: for each of the four decoders, a payload whose event-count byte equals the stored
`ucLastEventCount` makes the message handler emit no record and leave the whole decoder
state unchanged, for every receive time and every value of the other bytes. -/
theorem C3_duplicate_frame_no_effect (c : Consts) (ro : ℚ) (d : Decoder) (t : ℚ) (p : Payload)
    (h : p.b1.val = d.stState.ucLastEventCount) :
    DecodePowerOnly_Message c ro d t p = .ok (d, [])
    ∧ DecodeWheelTorque_Message c ro d t p = .ok (d, [])
    ∧ DecodeCrankTorque_Message c ro d t p = .ok (d, [])
    ∧ DecodeCrankTorqueFreq_Message c ro d t p = .ok (d, []) := by
  simp [DecodePowerOnly_Message, DecodeWheelTorque_Message, DecodeCrankTorque_Message,
    DecodeCrankTorqueFreq_Message, h, pure, Except.pure]

theorem C3_duplicate_frame_no_effect_witness :
    dupPayload.b1.val = dupDecoder.stState.ucLastEventCount
    ∧ DecodePowerOnly_Message defaultConsts 1 dupDecoder 500 dupPayload = .ok (dupDecoder, [])
    ∧ DecodeWheelTorque_Message defaultConsts 1 dupDecoder 500 dupPayload = .ok (dupDecoder, [])
    ∧ DecodeCrankTorque_Message defaultConsts 1 dupDecoder 500 dupPayload = .ok (dupDecoder, [])
    ∧ DecodeCrankTorqueFreq_Message defaultConsts 1 dupDecoder 500 dupPayload
        = .ok (dupDecoder, []) :=
  ⟨by decide, C3_duplicate_frame_no_effect defaultConsts 1 dupDecoder 500 dupPayload (by decide)⟩

/-- C7: `RecordOutput` with record interval `I` adds the pending energy and rotation to the
totals, advances `dLastRecordTime` by exactly `I`, sets `ulLastRecordTime` to
`(ulEventTime / usRecordInterval) * usRecordInterval`, hands the receiver a first record
stamped with the old `dLastRecordTime + I` that carries the new totals, the average power
`fPendingEnergy / I` and the average cadence `fPendingRotation * 60 / I`, and then runs
`RecordOutput_FillGap` on that state, which succeeds. -/
theorem C7_record_output_emit (I : ℚ) (s : BPSAMPLER) (hI : I ≠ 0)
    (hq : s.usRecordInterval ≠ 0) :
    ∃ out : BPSAMPLER × List Record,
      RecordOutput_FillGap I
        { s with
          dTotalEnergy := s.dTotalEnergy + s.fPendingEnergy,
          dTotalRotation := s.dTotalRotation + s.fPendingRotation,
          dLastRecordTime := s.dLastRecordTime + I,
          ulLastRecordTime := s.ulEventTime / s.usRecordInterval * s.usRecordInterval }
        = .ok out
      ∧ RecordOutput I s = .ok
          (out.1,
            (⟨s.dLastRecordTime + I, s.dTotalRotation + s.fPendingRotation,
              s.dTotalEnergy + s.fPendingEnergy, s.fPendingRotation * 60 / I,
              s.fPendingEnergy / I⟩ : Record) :: out.2) := by
  obtain ⟨out, hout⟩ := fillGap_ok I
    { s with
      dTotalEnergy := s.dTotalEnergy + s.fPendingEnergy,
      dTotalRotation := s.dTotalRotation + s.fPendingRotation,
      dLastRecordTime := s.dLastRecordTime + I,
      ulLastRecordTime := s.ulEventTime / s.usRecordInterval * s.usRecordInterval } hI
  refine ⟨out, hout, ?_⟩
  unfold RecordOutput
  simp only [fdiv_ok _ _ hI, idiv_ok _ _ hq, bind, Except.bind, pure, Except.pure]
  rw [hout]

theorem C7_record_output_emit_witness :
    (1 : ℚ) ≠ 0 ∧ emitState.usRecordInterval ≠ 0 ∧
    ∃ out : BPSAMPLER × List Record,
      RecordOutput_FillGap 1
        { emitState with
          dTotalEnergy := emitState.dTotalEnergy + emitState.fPendingEnergy,
          dTotalRotation := emitState.dTotalRotation + emitState.fPendingRotation,
          dLastRecordTime := emitState.dLastRecordTime + 1,
          ulLastRecordTime :=
            emitState.ulEventTime / emitState.usRecordInterval * emitState.usRecordInterval }
        = .ok out
      ∧ RecordOutput 1 emitState = .ok
          (out.1,
            (⟨emitState.dLastRecordTime + 1, emitState.dTotalRotation + emitState.fPendingRotation,
              emitState.dTotalEnergy + emitState.fPendingEnergy,
              emitState.fPendingRotation * 60 / 1, emitState.fPendingEnergy / 1⟩ : Record)
              :: out.2) :=
  ⟨by norm_num, by decide, C7_record_output_emit 1 emitState (by norm_num) (by decide)⟩

/-- C8: with a gap count `n > 0`, `RecordOutput_FillGap` emits exactly `n` records stamped
`dLastRecordTime + k * I` for `k = 1..n`, each reporting the average power
`fGapEnergy / (n * I)` and the average cadence `fGapRotation * 60 / (n * I)`; it raises the
total energy by `fGapEnergy` and the total rotation by `fGapRotation`, advances
`dLastRecordTime` by `n * I` and leaves the gap count at zero.  With a gap count of zero it
emits nothing and changes no field. -/
theorem C8_fill_gap (I : ℚ) (s : BPSAMPLER) (hI : I ≠ 0) (hn : 0 < s.ucRecordGapCount) :
    RecordOutput_FillGap I s = .ok
      ({ s with
          dTotalEnergy := s.dTotalEnergy + s.fGapEnergy,
          dTotalRotation := s.dTotalRotation + s.fGapRotation,
          dLastRecordTime := s.dLastRecordTime + s.ucRecordGapCount * I,
          ucRecordGapCount := 0 },
        (List.range s.ucRecordGapCount).map (fun k =>
          (⟨s.dLastRecordTime + (k + 1 : Nat) * I,
            s.dTotalRotation + (k + 1 : Nat) * (s.fGapRotation / s.ucRecordGapCount),
            s.dTotalEnergy + (k + 1 : Nat) * (s.fGapEnergy / s.ucRecordGapCount),
            s.fGapRotation * 60 / (s.ucRecordGapCount * I),
            s.fGapEnergy / (s.ucRecordGapCount * I)⟩ : Record)))
    ∧ ((List.range s.ucRecordGapCount).map (fun k =>
          (⟨s.dLastRecordTime + (k + 1 : Nat) * I,
            s.dTotalRotation + (k + 1 : Nat) * (s.fGapRotation / s.ucRecordGapCount),
            s.dTotalEnergy + (k + 1 : Nat) * (s.fGapEnergy / s.ucRecordGapCount),
            s.fGapRotation * 60 / (s.ucRecordGapCount * I),
            s.fGapEnergy / (s.ucRecordGapCount * I)⟩ : Record))).length = s.ucRecordGapCount
    ∧ RecordOutput_FillGap I { s with ucRecordGapCount := 0 }
        = .ok ({ s with ucRecordGapCount := 0 }, []) :=
  ⟨fillGap_pos I s hI hn, by simp, fillGap_zero I _ rfl⟩

theorem C8_fill_gap_witness :
    (1 / 2 : ℚ) ≠ 0 ∧ 0 < emitState.ucRecordGapCount
    ∧ RecordOutput_FillGap (1 / 2) emitState = .ok
        ({ emitState with
            dTotalEnergy := 130, dTotalRotation := 6, dLastRecordTime := 10,
            ucRecordGapCount := 0 },
          [⟨19 / 2, 5, 115, 120, 30⟩, ⟨10, 6, 130, 120, 30⟩]) := by
  refine ⟨by norm_num, by decide, ?_⟩
  have h := (C8_fill_gap (1 / 2) emitState (by norm_num) (by decide)).1
  rw [h]
  decide!

/-- C9: `RecordOutput_FillGap` is idempotent: running it a second time on the state left by
a first run emits nothing and changes nothing, so two runs in a row produce the same final
state and the same records as one run (and fail exactly when one run fails). -/
theorem C9_fill_gap_idempotent (I : ℚ) (s : BPSAMPLER) :
    (do
      let out1 ← RecordOutput_FillGap I s
      let out2 ← RecordOutput_FillGap I out1.1
      pure (out2.1, out1.2 ++ out2.2)) = RecordOutput_FillGap I s
    ∧ ∀ out1, RecordOutput_FillGap I s = .ok out1 →
        RecordOutput_FillGap I out1.1 = .ok (out1.1, []) := by
  have key : ∀ out1, RecordOutput_FillGap I s = .ok out1 →
      RecordOutput_FillGap I out1.1 = .ok (out1.1, []) := fun out1 h =>
    fillGap_zero I out1.1 (fillGap_count_zero I s out1 h)
  refine ⟨?_, key⟩
  cases h : RecordOutput_FillGap I s with
  | error e => simp [bind, Except.bind]
  | ok out1 =>
    simp only [bind, Except.bind]
    rw [key out1 h]
    simp [pure, Except.pure]

/-! ## The wall-clock catch-up -/

/-- Closed form of the wall-clock loop whenever it returns: `n` zero-power records one
`step` apart that carry the unchanged totals; afterwards the loop condition is false. -/
theorem wallClockLoop_spec (t I step : ℚ) (fuel : Nat) (s : BPSAMPLER)
    (out : BPSAMPLER × List Record) (h : wallClockLoop t I step fuel s = .ok out) :
    ∃ n : Nat,
      out.1 = { s with dLastRecordTime := s.dLastRecordTime + n * step }
      ∧ out.2 = (List.range n).map (fun k =>
          (⟨s.dLastRecordTime + (k + 1 : Nat) * step, s.dTotalRotation, s.dTotalEnergy, 0, 0⟩
            : Record))
      ∧ ¬ (t - out.1.dLastRecordTime > I) := by
  induction fuel generalizing s out with
  | zero =>
    unfold wallClockLoop at h
    split at h
    · simp at h
    · rename_i hc
      simp only [pure, Except.pure, Except.ok.injEq] at h
      subst h
      exact ⟨0, by simp, by simp, hc⟩
  | succ fuel ih =>
    unfold wallClockLoop at h
    split at h
    · simp only [bind_eq_ok, pure, Except.pure, Except.ok.injEq] at h
      obtain ⟨out1, h1, h⟩ := h
      obtain ⟨n, e1, e2, e3⟩ := ih _ _ h1
      subst h
      refine ⟨n + 1, ?_, ?_, ?_⟩
      · simp only [e1]
        congr 1
        push_cast; ring
      · simp only [e2, List.range_succ_eq_map, List.map_cons, List.map_map, List.cons.injEq]
        refine ⟨by simp, ?_⟩
        apply List.map_congr_left
        intro k _
        simp only [Function.comp]
        congr 1
        push_cast; ring
      · simpa using e3
    · rename_i hc
      simp only [pure, Except.pure, Except.ok.injEq] at h
      subst h
      exact ⟨0, by simp, by simp, hc⟩

theorem wallClockLoop_ok (t I step : ℚ) (hstep : 0 < step) (fuel : Nat) (s : BPSAMPLER)
    (hf : t - s.dLastRecordTime - I < fuel * step) :
    ∃ out, wallClockLoop t I step fuel s = .ok out := by
  induction fuel generalizing s with
  | zero =>
    unfold wallClockLoop
    have : ¬ (t - s.dLastRecordTime > I) := by
      simp only [Nat.cast_zero, zero_mul] at hf
      intro hc; linarith
    simp [this, pure, Except.pure]
  | succ fuel ih =>
    unfold wallClockLoop
    split
    · have hf2 : t - (s.dLastRecordTime + step) - I < fuel * step := by
        push_cast at hf; linarith
      obtain ⟨out1, h1⟩ := ih { s with dLastRecordTime := s.dLastRecordTime + step } hf2
      simp only [h1, bind, Except.bind, pure, Except.pure]
      exact ⟨_, rfl⟩
    · exact ⟨_, rfl⟩

/-- With a positive step the wall-clock catch-up terminates. -/
theorem wallClockFill_ok (t I step : ℚ) (hstep : 0 < step) (s : BPSAMPLER) :
    ∃ out, wallClockFill t I step s = .ok out := by
  unfold wallClockFill
  apply wallClockLoop_ok t I step hstep
  unfold wallClockFuel
  rw [if_pos hstep]
  have h1 : (t - s.dLastRecordTime - I) / step ≤ ⌈(t - s.dLastRecordTime - I) / step⌉ :=
    Int.le_ceil _
  have h2 : (⌈(t - s.dLastRecordTime - I) / step⌉ : ℚ)
      ≤ ((⌈(t - s.dLastRecordTime - I) / step⌉).toNat : ℚ) := by
    exact_mod_cast Int.self_le_toNat _
  have h3 : (t - s.dLastRecordTime - I) / step
      < (((⌈(t - s.dLastRecordTime - I) / step⌉).toNat + 1 : Nat) : ℚ) := by
    push_cast; linarith
  rw [div_lt_iff₀ hstep] at h3
  exact h3

/-- When the catch-up condition is false the wall-clock catch-up does nothing. -/
theorem wallClockFill_skip (t I step : ℚ) (s : BPSAMPLER) (h : ¬ (t - s.dLastRecordTime > I)) :
    wallClockFill t I step s = .ok (s, []) := by
  unfold wallClockFill wallClockLoop
  rw [if_neg h]
  rfl

/-- Closed form of the wall-clock catch-up whenever it returns. -/
theorem wallClockFill_spec (t I step : ℚ) (s : BPSAMPLER) (out : BPSAMPLER × List Record)
    (h : wallClockFill t I step s = .ok out) :
    ∃ n : Nat,
      out.1 = { s with dLastRecordTime := s.dLastRecordTime + n * step }
      ∧ out.2 = (List.range n).map (fun k =>
          (⟨s.dLastRecordTime + (k + 1 : Nat) * step, s.dTotalRotation, s.dTotalEnergy, 0, 0⟩
            : Record))
      ∧ ¬ (t - out.1.dLastRecordTime > I) :=
  wallClockLoop_spec t I step _ s out h

/-- The boundary test only reads `ulLastRecordTime` and `usRecordInterval`. -/
theorem crossed_congr (c : Consts) (s s2 : BPSAMPLER) (n : Nat)
    (h1 : s2.ulLastRecordTime = s.ulLastRecordTime)
    (h2 : s2.usRecordInterval = s.usRecordInterval) :
    crossed c s2 n ↔ crossed c s n := by
  unfold crossed
  rw [h1, h2]

/-- Without a boundary crossing the closing step of a decoder is the wall-clock catch-up. -/
theorem recordOrCatchUp_not_crossed (c : Consts) (ro I step t : ℚ) (s : BPSAMPLER)
    (h : ¬ crossed c s s.ulEventTime) :
    recordOrCatchUp c ro I step t s = wallClockFill t I step s := by
  unfold recordOrCatchUp
  rw [if_neg h]

/-- With a boundary crossing the closing step of a decoder is `RecordOutput`. -/
theorem recordOrCatchUp_crossed (c : Consts) (ro I step t : ℚ) (s : BPSAMPLER)
    (h : crossed c s s.ulEventTime) :
    recordOrCatchUp c ro I step t s = RecordOutput ro s := by
  unfold recordOrCatchUp
  rw [if_pos h]

/-! ## The Crank-Torque torque delta -/

/-- The Crank-Torque update when the period delta is a real interval and the event stays
inside the current record epoch: the whole event goes to the accumulated buckets. -/
theorem ct_update_no_cross (c : Consts) (s : BPSAMPLER) (p : Payload)
    (hp0 : delta16 (word16 p.b4 p.b5) s.usLastAccumPeriod ≠ 0)
    (hpF : delta16 (word16 p.b4 p.b5) s.usLastAccumPeriod ≠ 0xFFFF)
    (hnc : ¬ crossed c s (toULong c
      ((s.ulEventTime + delta16 (word16 p.b4 p.b5) s.usLastAccumPeriod : Nat) : Int))) :
    DecodeCrankTorque_update c s p = .ok
      { s with
        ucCadence := p.b3.val,
        fAccumEnergy := s.fAccumEnergy
          + M_PI * (DecodeCrankTorque_deltaTorque s.usLastAccumTorque p : ℚ) / 16,
        fAccumRotation := s.fAccumRotation + delta8 p.b2.val s.ucLastRotationTicks,
        fPendingEnergy := 0,
        fPendingRotation := 0,
        ucRecordGapCount := 0,
        ulEventTime := toULong c
          ((s.ulEventTime + delta16 (word16 p.b4 p.b5) s.usLastAccumPeriod : Nat) : Int) } := by
  unfold DecodeCrankTorque_update
  simp only [hp0, hpF, ne_eq, not_false_eq_true, and_self, if_true, idiv_ok, bind, Except.bind,
    pure, Except.pure, hnc, if_false]

/-- C4 (as stated, refuted): with stored accumulated torque 1 and frame value 0 the
difference modulo 65536 is 65535, but the torque delta the Crank-Torque decode uses is 0,
and the frame adds no energy to `fAccumEnergy` (it stays 5). -/
theorem C4_sentinel_delta_counterexample :
    ((word16 sentinelPayload.b6 sentinelPayload.b7 : Int)
        - sentinelDecoder.stState.usLastAccumTorque) % 65536 = 65535
    ∧ DecodeCrankTorque_deltaTorque sentinelDecoder.stState.usLastAccumTorque sentinelPayload = 0
    ∧ (Except.map (fun out => out.1.stState.fAccumEnergy)
        (DecodeCrankTorque defaultConsts 1 sentinelDecoder 0 sentinelPayload)) = .ok 5 := by
  decide!

/-- C4 (amended): in the Crank-Torque incremental decode the torque delta is
`(frame accum-torque - stored accum-torque) mod 65536`, a value in `0..65535`, except that
the value 65535 is treated as invalid and replaced by 0; with stored 65530 and frame value
20 the delta is 26, and with a nonzero non-sentinel period delta, no boundary crossing and
a positive record interval the decode returns with `fAccumEnergy` grown by `M_PI * 26 / 16`. -/
theorem C4_crank_torque_delta (c : Consts) (ro : ℚ) (d : Decoder) (t : ℚ) (p : Payload)
    (hstored : d.stState.usLastAccumTorque = 65530)
    (hframe : word16 p.b6 p.b7 = 20)
    (hp0 : delta16 (word16 p.b4 p.b5) d.stState.usLastAccumPeriod ≠ 0)
    (hpF : delta16 (word16 p.b4 p.b5) d.stState.usLastAccumPeriod ≠ 0xFFFF)
    (hnc : ¬ crossed c d.stState (toULong c
      ((d.stState.ulEventTime + delta16 (word16 p.b4 p.b5) d.stState.usLastAccumPeriod : Nat)
        : Int)))
    (hI : 0 < d.dRecordInterval) :
    (∀ (last : Nat) (q : Payload),
      (0 : Int) ≤ ((word16 q.b6 q.b7 : Int) - last) % 65536
      ∧ ((word16 q.b6 q.b7 : Int) - last) % 65536 < 65536
      ∧ (DecodeCrankTorque_deltaTorque last q : Int)
          = if ((word16 q.b6 q.b7 : Int) - last) % 65536 = 65535 then 0
            else ((word16 q.b6 q.b7 : Int) - last) % 65536)
    ∧ DecodeCrankTorque_deltaTorque d.stState.usLastAccumTorque p = 26
    ∧ ∃ d1 rs, DecodeCrankTorque c ro d t p = .ok (d1, rs)
        ∧ d1.stState.fAccumEnergy = d.stState.fAccumEnergy + M_PI * 26 / 16 := by
  have hdelta : DecodeCrankTorque_deltaTorque d.stState.usLastAccumTorque p = 26 := by
    simp only [DecodeCrankTorque_deltaTorque, hstored, hframe, delta16, toUShort]
    decide
  refine ⟨?_, hdelta, ?_⟩
  · intro last q
    have hnn : (0 : Int) ≤ ((word16 q.b6 q.b7 : Int) - last) % 65536 :=
      Int.emod_nonneg _ (by decide)
    refine ⟨hnn, Int.emod_lt_of_pos _ (by decide), ?_⟩
    simp only [DecodeCrankTorque_deltaTorque, delta16, toUShort]
    by_cases h : ((word16 q.b6 q.b7 : Int) - last) % 65536 = 65535
    · simp [h]
    · have h2 : (((word16 q.b6 q.b7 : Int) - last) % 65536).toNat ≠ 65535 := by
        intro hc
        apply h
        have := Int.toNat_of_nonneg hnn
        omega
      simp only [h2, h, if_false]
      exact Int.toNat_of_nonneg hnn
  · have hup := ct_update_no_cross c d.stState p hp0 hpF hnc
    generalize hs2 : ({ d.stState with
        ucCadence := p.b3.val,
        fAccumEnergy := d.stState.fAccumEnergy
          + M_PI * (DecodeCrankTorque_deltaTorque d.stState.usLastAccumTorque p : ℚ) / 16,
        fAccumRotation := d.stState.fAccumRotation
          + delta8 p.b2.val d.stState.ucLastRotationTicks,
        fPendingEnergy := 0,
        fPendingRotation := 0,
        ucRecordGapCount := 0,
        ulEventTime := toULong c
          ((d.stState.ulEventTime + delta16 (word16 p.b4 p.b5) d.stState.usLastAccumPeriod
            : Nat) : Int) } : BPSAMPLER) = s2 at hup
    have hev : s2.ulEventTime = toULong c
        ((d.stState.ulEventTime + delta16 (word16 p.b4 p.b5) d.stState.usLastAccumPeriod
          : Nat) : Int) := by rw [← hs2]
    have hacc : s2.fAccumEnergy = d.stState.fAccumEnergy + M_PI * 26 / 16 := by
      rw [← hs2]
      simp only [hdelta]
      norm_num
    have hnc2 : ¬ crossed c s2 s2.ulEventTime := by
      rw [crossed_congr c d.stState s2 _ (by rw [← hs2]) (by rw [← hs2]), hev]
      exact hnc
    obtain ⟨out, hout⟩ := wallClockFill_ok t d.dRecordInterval d.dRecordInterval hI s2
    obtain ⟨n, e1, _, _⟩ := wallClockFill_spec _ _ _ _ _ hout
    unfold DecodeCrankTorque
    simp only [hup, bind, Except.bind, pure, Except.pure]
    rw [recordOrCatchUp_not_crossed c ro d.dRecordInterval d.dRecordInterval t s2 hnc2, hout]
    refine ⟨_, _, rfl, ?_⟩
    simp only [e1, hacc]

theorem C4_crank_torque_delta_witness :
    wrapDecoder.stState.usLastAccumTorque = 65530
    ∧ word16 wrapPayload.b6 wrapPayload.b7 = 20
    ∧ delta16 (word16 wrapPayload.b4 wrapPayload.b5) wrapDecoder.stState.usLastAccumPeriod ≠ 0
    ∧ delta16 (word16 wrapPayload.b4 wrapPayload.b5) wrapDecoder.stState.usLastAccumPeriod
        ≠ 0xFFFF
    ∧ ¬ crossed defaultConsts wrapDecoder.stState (toULong defaultConsts
        ((wrapDecoder.stState.ulEventTime
          + delta16 (word16 wrapPayload.b4 wrapPayload.b5)
              wrapDecoder.stState.usLastAccumPeriod : Nat) : Int))
    ∧ 0 < wrapDecoder.dRecordInterval
    ∧ DecodeCrankTorque_deltaTorque wrapDecoder.stState.usLastAccumTorque wrapPayload = 26
    ∧ ∃ d1 rs, DecodeCrankTorque defaultConsts 1 wrapDecoder 0 wrapPayload = .ok (d1, rs)
        ∧ d1.stState.fAccumEnergy = wrapDecoder.stState.fAccumEnergy + M_PI * 26 / 16 :=
  ⟨by decide, by decide, by decide, by decide, by decide, by decide!,
    (C4_crank_torque_delta defaultConsts 1 wrapDecoder 0 wrapPayload (by decide) (by decide)
      (by decide) (by decide) (by decide) (by decide!)).2⟩

/-! ## The `double` format -/

theorem bitsLoop_spec : ∀ (fuel n : Nat), 0 < n → n ≤ fuel →
    2 ^ bitsLoop fuel n ≤ n ∧ n < 2 ^ (bitsLoop fuel n + 1)
  | 0, n, h0, hf => by omega
  | fuel + 1, n, h0, hf => by
    unfold bitsLoop
    split_ifs with h2
    · constructor
      · simp only [pow_zero]; omega
      · simp only [zero_add, pow_one]; omega
    · have ih := bitsLoop_spec fuel (n / 2) (by omega) (by omega)
      obtain ⟨i1, i2⟩ := ih
      constructor
      · rw [Nat.pow_succ]; omega
      · rw [Nat.pow_succ]; omega

theorem ilog2_spec (n : Nat) (h : 0 < n) : 2 ^ ilog2 n ≤ n ∧ n < 2 ^ (ilog2 n + 1) :=
  bitsLoop_spec n n h (le_refl n)

theorem two_zpow_toNat (k : Int) (h : 0 ≤ k) : ((2 ^ k.toNat : Nat) : ℚ) = (2 : ℚ) ^ k := by
  have e : ((k.toNat : Nat) : Int) = k := Int.toNat_of_nonneg h
  conv_rhs => rw [← e]
  rw [zpow_natCast]
  push_cast
  rfl

theorem abs_eq_natAbs_div (x : ℚ) : |x| = (x.num.natAbs : ℚ) / (x.den : ℚ) := by
  rw [Rat.abs_def, Rat.divInt_eq_div]
  simp only [Int.cast_natCast]

/-- The binade of a nonzero rational holds it. -/
theorem binade_spec (x : ℚ) (hx : x ≠ 0) :
    (2 : ℚ) ^ binade x ≤ |x| ∧ |x| < (2 : ℚ) ^ (binade x + 1) := by
  have hn : 0 < x.num.natAbs := Int.natAbs_pos.mpr (Rat.num_ne_zero.mpr hx)
  have hd : 0 < x.den := x.den_pos
  obtain ⟨a1, a2⟩ := ilog2_spec _ hn
  obtain ⟨b1, b2⟩ := ilog2_spec _ hd
  rw [abs_eq_natAbs_div]
  unfold binade
  simp only []
  generalize x.num.natAbs = n at *
  generalize x.den = d at *
  have hdq : (0 : ℚ) < d := by exact_mod_cast hd
  have hnq : (0 : ℚ) < n := by exact_mod_cast hn
  have A1 : (2 : ℚ) ^ (ilog2 n) ≤ n := by exact_mod_cast a1
  have A2 : (n : ℚ) < (2 : ℚ) ^ (ilog2 n + 1) := by exact_mod_cast a2
  have B1 : (2 : ℚ) ^ (ilog2 d) ≤ d := by exact_mod_cast b1
  have B2 : (d : ℚ) < (2 : ℚ) ^ (ilog2 d + 1) := by exact_mod_cast b2
  have two_pos : (0 : ℚ) < 2 := by norm_num
  -- bounds with the difference of the logarithms
  have hlow : (2 : ℚ) ^ ((ilog2 n : Int) - (ilog2 d : Int) - 1) < (n : ℚ) / d := by
    rw [lt_div_iff₀ hdq]
    have e : (2 : ℚ) ^ ((ilog2 n : Int) - (ilog2 d : Int) - 1) * (2 : ℚ) ^ (ilog2 d + 1)
        = (2 : ℚ) ^ (ilog2 n) := by
      rw [← zpow_natCast, ← zpow_natCast, ← zpow_add₀ (by norm_num : (2 : ℚ) ≠ 0)]
      congr 1
      push_cast
      ring
    have hp : (0 : ℚ) < (2 : ℚ) ^ ((ilog2 n : Int) - (ilog2 d : Int) - 1) := by positivity
    calc (2 : ℚ) ^ ((ilog2 n : Int) - (ilog2 d : Int) - 1) * (d : ℚ)
        < (2 : ℚ) ^ ((ilog2 n : Int) - (ilog2 d : Int) - 1) * (2 : ℚ) ^ (ilog2 d + 1) :=
          mul_lt_mul_of_pos_left B2 hp
      _ = (2 : ℚ) ^ (ilog2 n) := e
      _ ≤ n := A1
  have hhigh : (n : ℚ) / d < (2 : ℚ) ^ ((ilog2 n : Int) - (ilog2 d : Int) + 1) := by
    rw [div_lt_iff₀ hdq]
    have e : (2 : ℚ) ^ ((ilog2 n : Int) - (ilog2 d : Int) + 1) * (2 : ℚ) ^ (ilog2 d)
        = (2 : ℚ) ^ (ilog2 n + 1) := by
      rw [← zpow_natCast, ← zpow_natCast, ← zpow_add₀ (by norm_num : (2 : ℚ) ≠ 0)]
      congr 1
      push_cast
      ring
    have hp : (0 : ℚ) < (2 : ℚ) ^ ((ilog2 n : Int) - (ilog2 d : Int) + 1) := by positivity
    calc (n : ℚ) < (2 : ℚ) ^ (ilog2 n + 1) := A2
      _ = (2 : ℚ) ^ ((ilog2 n : Int) - (ilog2 d : Int) + 1) * (2 : ℚ) ^ (ilog2 d) := e.symm
      _ ≤ (2 : ℚ) ^ ((ilog2 n : Int) - (ilog2 d : Int) + 1) * d :=
          mul_le_mul_of_nonneg_left B1 (le_of_lt hp)
  generalize ((ilog2 n : Int) - (ilog2 d : Int)) = k at *
  have hcheck : (if 0 ≤ k then d * 2 ^ k.toNat ≤ n else d ≤ n * 2 ^ (-k).toNat)
      ↔ (2 : ℚ) ^ k ≤ (n : ℚ) / d := by
    rw [le_div_iff₀ hdq]
    split_ifs with hk
    · rw [← two_zpow_toNat k hk]
      constructor
      · intro h
        have : ((d * 2 ^ k.toNat : Nat) : ℚ) ≤ n := by exact_mod_cast h
        push_cast at this ⊢
        linarith
      · intro h
        have : ((d * 2 ^ k.toNat : Nat) : ℚ) ≤ n := by
          push_cast at h ⊢
          linarith
        exact_mod_cast this
    · have hk2 : 0 ≤ -k := by omega
      have e : (2 : ℚ) ^ k = 1 / ((2 ^ (-k).toNat : Nat) : ℚ) := by
        rw [two_zpow_toNat (-k) hk2, zpow_neg]
        simp
      rw [e]
      have hp : (0 : ℚ) < ((2 ^ (-k).toNat : Nat) : ℚ) := by positivity
      rw [one_div, inv_mul_le_iff₀ hp]
      constructor
      · intro h
        have : ((d : Nat) : ℚ) ≤ ((n * 2 ^ (-k).toNat : Nat) : ℚ) := by exact_mod_cast h
        push_cast at this ⊢
        linarith
      · intro h
        have : ((d : Nat) : ℚ) ≤ ((n * 2 ^ (-k).toNat : Nat) : ℚ) := by
          push_cast at h ⊢
          linarith
        exact_mod_cast this
  by_cases hc : (if 0 ≤ k then d * 2 ^ k.toNat ≤ n else d ≤ n * 2 ^ (-k).toNat)
  · rw [if_pos hc]
    exact ⟨hcheck.mp hc, hhigh⟩
  · rw [if_neg hc]
    refine ⟨le_of_lt hlow, ?_⟩
    have : ¬ (2 : ℚ) ^ k ≤ (n : ℚ) / d := fun h => hc (hcheck.mpr h)
    rw [sub_add_cancel]
    exact lt_of_not_le this

theorem ulp_eq_zpow (x : ℚ) : ulp x = (2 : ℚ) ^ (max (binade x) (-1022) - 52) := by
  unfold ulp
  split_ifs with h
  · exact two_zpow_toNat _ h
  · have h2 : 0 ≤ 52 - max (binade x) (-1022) := by omega
    rw [two_zpow_toNat _ h2, one_div, ← zpow_neg]
    congr 1
    ring

theorem ulp_pos (x : ℚ) : 0 < ulp x := by
  rw [ulp_eq_zpow]
  positivity

theorem roundHalfEven_floor_le (y : ℚ) : ⌊y⌋ ≤ roundHalfEven y := by
  unfold roundHalfEven
  split_ifs <;> omega

theorem roundHalfEven_le_floor_succ (y : ℚ) : roundHalfEven y ≤ ⌊y⌋ + 1 := by
  unfold roundHalfEven
  split_ifs <;> omega

theorem roundHalfEven_intCast (n : ℤ) : roundHalfEven (n : ℚ) = n := by
  unfold roundHalfEven
  rw [Int.floor_intCast]
  simp

theorem roundHalfEven_ge (N : ℤ) (y : ℚ) (h : (N : ℚ) ≤ y) : N ≤ roundHalfEven y :=
  le_trans (Int.le_floor.mpr h) (roundHalfEven_floor_le y)

theorem roundHalfEven_le (M : ℤ) (y : ℚ) (h : y ≤ M) : roundHalfEven y ≤ M := by
  rcases eq_or_lt_of_le h with h | h
  · rw [h, roundHalfEven_intCast]
  · have h1 : ⌊y⌋ < M := Int.floor_lt.mpr h
    have h2 := roundHalfEven_le_floor_succ y
    omega

theorem roundHalfEven_err (y : ℚ) : |(roundHalfEven y : ℚ) - y| ≤ 1 / 2 := by
  unfold roundHalfEven
  have h1 := Int.floor_le y
  have h2 := Int.lt_floor_add_one y
  split_ifs with a b c
  · rw [abs_le]
    constructor <;> linarith
  · push_cast
    rw [abs_le]
    constructor <;> linarith
  · rw [abs_le]
    constructor <;> linarith
  · push_cast
    rw [abs_le]
    constructor <;> linarith

/-- Rounding to `double` moves a value by at most half a unit in the last place. -/
theorem toDouble_err (x : ℚ) : |toDouble x - x| ≤ ulp x / 2 := by
  have hu := ulp_pos x
  unfold toDouble
  split_ifs with h
  · subst h
    simp only [sub_self, abs_zero]
    linarith
  · have e : (roundHalfEven (x / ulp x) : ℚ) * ulp x - x
        = ((roundHalfEven (x / ulp x) : ℚ) - x / ulp x) * ulp x := by
      field_simp
    rw [e, abs_mul, abs_of_pos hu]
    have h2 := roundHalfEven_err (x / ulp x)
    have h3 := abs_nonneg ((roundHalfEven (x / ulp x) : ℚ) - x / ulp x)
    nlinarith

theorem binade_le_of_abs_lt (x : ℚ) (hx : x ≠ 0) (k : ℤ) (h : |x| < (2 : ℚ) ^ (k + 1)) :
    binade x ≤ k := by
  have h1 := (binade_spec x hx).1
  have h2 : (2 : ℚ) ^ binade x < (2 : ℚ) ^ (k + 1) := lt_of_le_of_lt h1 h
  have h3 : binade x < k + 1 := by
    by_contra hc
    have hc2 : k + 1 ≤ binade x := not_lt.mp hc
    have h4 : (2 : ℚ) ^ (k + 1) ≤ (2 : ℚ) ^ binade x :=
      zpow_le_zpow_right₀ (by norm_num) hc2
    linarith
  omega

theorem le_binade_of_le_abs (x : ℚ) (hx : x ≠ 0) (k : ℤ) (h : (2 : ℚ) ^ k ≤ |x|) :
    k ≤ binade x := by
  have h1 := (binade_spec x hx).2
  have h2 : (2 : ℚ) ^ k < (2 : ℚ) ^ (binade x + 1) := lt_of_le_of_lt h h1
  have h3 : k < binade x + 1 := by
    by_contra hc
    have hc2 : binade x + 1 ≤ k := not_lt.mp hc
    have h4 : (2 : ℚ) ^ (binade x + 1) ≤ (2 : ℚ) ^ k :=
      zpow_le_zpow_right₀ (by norm_num) hc2
    linarith
  omega

/-- In the normal range the unit in the last place is at most `2^(-52)` of the value. -/
theorem ulp_le (x : ℚ) (hx : (2 : ℚ) ^ (-1022 : ℤ) ≤ |x|) : ulp x ≤ |x| / 2 ^ 52 := by
  have hx0 : x ≠ 0 := by
    intro h0
    rw [h0, abs_zero] at hx
    have : (0 : ℚ) < (2 : ℚ) ^ (-1022 : ℤ) := by positivity
    linarith
  have hb := le_binade_of_le_abs x hx0 _ hx
  rw [ulp_eq_zpow, max_eq_left hb, zpow_sub₀ (by norm_num : (2 : ℚ) ≠ 0)]
  have h1 := (binade_spec x hx0).1
  have e : (2 : ℚ) ^ (52 : ℤ) = 2 ^ 52 := by norm_num
  rw [e]
  exact div_le_div_of_nonneg_right h1 (by positivity)

theorem ulp_inv_nat (x : ℚ) (h : max (binade x) (-1022) ≤ 52) :
    ∃ K : ℕ, 0 < K ∧ ulp x = 1 / (K : ℚ) := by
  unfold ulp
  split_ifs with h0
  · have e : max (binade x) (-1022) - 52 = 0 := by omega
    refine ⟨1, by norm_num, ?_⟩
    rw [e]
    simp
  · exact ⟨2 ^ (52 - max (binade x) (-1022)).toNat, by positivity, rfl⟩

/-- Below `2^53` rounding to `double` does not cross an integer: integers are `double`
values there. -/
theorem toDouble_int_bounds (x : ℚ) (h53 : |x| < 2 ^ 53) (N : ℤ) :
    ((N : ℚ) ≤ x → (N : ℚ) ≤ toDouble x) ∧ (x ≤ N → toDouble x ≤ N) := by
  by_cases hx : x = 0
  · subst hx
    simp [toDouble]
  · have hb : binade x ≤ 52 := binade_le_of_abs_lt x hx 52 (by
      have e : (2 : ℚ) ^ ((52 : ℤ) + 1) = 2 ^ 53 := by norm_num
      rw [e]
      exact h53)
    obtain ⟨K, hK, hu⟩ := ulp_inv_nat x (by
      rw [max_le_iff]
      exact ⟨hb, by norm_num⟩)
    have hKq : (0 : ℚ) < K := by exact_mod_cast hK
    unfold toDouble
    rw [if_neg hx, hu]
    have e : x / (1 / (K : ℚ)) = x * K := by field_simp
    rw [e]
    constructor
    · intro h
      have h1 : (((N * K : ℤ)) : ℚ) ≤ x * K := by
        push_cast
        exact mul_le_mul_of_nonneg_right h (le_of_lt hKq)
      have h2 := roundHalfEven_ge (N * K) (x * K) h1
      have h3 : (((N * K : ℤ)) : ℚ) ≤ (roundHalfEven (x * K) : ℚ) := by exact_mod_cast h2
      push_cast at h3
      rw [mul_one_div, le_div_iff₀ hKq]
      exact h3
    · intro h
      have h1 : x * K ≤ (((N * K : ℤ)) : ℚ) := by
        push_cast
        exact mul_le_mul_of_nonneg_right h (le_of_lt hKq)
      have h2 := roundHalfEven_le (N * K) (x * K) h1
      have h3 : (roundHalfEven (x * K) : ℚ) ≤ (((N * K : ℤ)) : ℚ) := by exact_mod_cast h2
      push_cast at h3
      rw [mul_one_div, div_le_iff₀ hKq]
      exact h3

/-- An integer below `2^53` in absolute value is a `double`. -/
theorem toDouble_intCast (n : ℤ) (h : |(n : ℚ)| < 2 ^ 53) : toDouble (n : ℚ) = n := by
  obtain ⟨h1, h2⟩ := toDouble_int_bounds (n : ℚ) h n
  exact le_antisymm (h2 (le_refl _)) (h1 (le_refl _))

/-- The integer part of a quotient rounded to `double`: the integer part of the exact
value, or the next integer when the value lies within half a unit in the last place below
it and is rounded up to it. -/
theorem floor_toDouble (x : ℚ) (h53 : |x| < 2 ^ 53) :
    ⌊toDouble x⌋ = ⌊x⌋
    ∨ (⌊toDouble x⌋ = ⌊x⌋ + 1 ∧ toDouble x = (⌊x⌋ : ℚ) + 1
        ∧ (⌊x⌋ : ℚ) + 1 - x ≤ ulp x / 2) := by
  have h1 := (toDouble_int_bounds x h53 ⌊x⌋).1 (Int.floor_le x)
  have h2 := (toDouble_int_bounds x h53 (⌊x⌋ + 1)).2 (by
    push_cast
    exact le_of_lt (Int.lt_floor_add_one x))
  push_cast at h2
  rcases eq_or_lt_of_le h2 with h | h
  · right
    refine ⟨?_, h, ?_⟩
    · rw [h]
      have e : ((⌊x⌋ : ℚ) + 1) = (((⌊x⌋ + 1 : ℤ)) : ℚ) := by push_cast; rfl
      rw [e, Int.floor_intCast]
    · have h3 := toDouble_err x
      rw [h] at h3
      exact le_trans (le_abs_self _) h3
  · left
    rw [Int.floor_eq_iff]
    exact ⟨h1, h⟩

/-- A value that is a `double` already is left alone by the floor of the rounded value. -/
theorem floor_toDouble_of_exact (x : ℚ) (h : toDouble x = x) : ⌊toDouble x⌋ = ⌊x⌋ := by
  rw [h]

/-- Inside the range of `int` the conversion is the truncation toward zero. -/
theorem truncToInt_in_range (x : ℚ) (h1 : -2147483648 ≤ truncate x)
    (h2 : truncate x < 2147483648) : truncToInt x = truncate x := by
  unfold truncToInt
  rw [if_pos ⟨h1, h2⟩]

/-- Outside the range of `int` the conversion delivers `INT_MIN`, whose low 16 bits are 0. -/
theorem truncToInt_out_of_range (x : ℚ)
    (h : ¬ (-2147483648 ≤ truncate x ∧ truncate x < 2147483648)) :
    truncToInt x = -2147483648 ∧ toUShort (truncToInt x) = 0 := by
  unfold truncToInt
  rw [if_neg h]
  exact ⟨rfl, by decide⟩

/-- Values of the rounding to `double`: one tenth and one third are rounded to the nearest
53-bit values, `2^53 + 1` and `2^53 + 3` are ties and go to the even neighbours, values that
are `double`s are left alone, and below `2^(-1022)` the spacing stays `2^(-1074)`. -/
theorem toDouble_values :
    toDouble (1 / 10) = 3602879701896397 / 36028797018963968
    ∧ toDouble (1 / 3) = 6004799503160661 / 18014398509481984
    ∧ toDouble (-1 / 3) = -6004799503160661 / 18014398509481984
    ∧ toDouble (2 ^ 53 + 1) = 2 ^ 53
    ∧ toDouble (2 ^ 53 + 3) = 2 ^ 53 + 4
    ∧ toDouble (-5 / 2) = -5 / 2
    ∧ toDouble (614 + 2 / 5) = 5404319552844595 / 8796093022208
    ∧ toDouble (1 / 2 ^ 1022 + 1 / 2 ^ 1074) = 1 / 2 ^ 1022 + 1 / 2 ^ 1074
    ∧ toDouble (1 / 2 ^ 1022 + 1 / 2 ^ 1075) = 1 / 2 ^ 1022
    ∧ toDouble (3 / 2 ^ 1075) = 1 / 2 ^ 1073
    ∧ toDouble (1 / 2 ^ 1075) = 0
    ∧ (binade 1 = 0 ∧ binade (3 / 4) = -1 ∧ binade (-1024) = 10 ∧ binade 1023 = 9
      ∧ ulp 1 = 1 / 2 ^ 52 ∧ ulp (2 ^ 53) = 2)
    ∧ (roundHalfEven (5 / 2) = 2 ∧ roundHalfEven (7 / 2) = 4 ∧ roundHalfEven (-5 / 2) = -2
      ∧ roundHalfEven (12 / 5) = 2 ∧ roundHalfEven (13 / 5) = 3) := by
  refine ⟨by decide!, by decide!, by decide!, by decide!, by decide!, by decide!, by decide!,
    by decide!, by decide!, by decide!, by decide!, ?_, ?_⟩
  · refine ⟨by decide!, by decide!, by decide!, by decide!, by decide!, by decide!⟩
  · refine ⟨by decide!, by decide!, by decide!, by decide!, by decide!⟩

/-- Values of the conversion to `int`: truncation toward zero inside the range of `int`,
`INT_MIN` outside it. -/
theorem truncToInt_values :
    truncToInt (37 / 10) = 3 ∧ truncToInt (-37 / 10) = -3
    ∧ truncToInt (2147483647 + 1 / 2) = 2147483647
    ∧ truncToInt 2147483648 = -2147483648
    ∧ truncToInt (-2147483648 - 1 / 2) = -2147483648
    ∧ truncToInt (-2147483649) = -2147483648
    ∧ truncToInt (2 ^ 31 + 2048) = -2147483648
    ∧ toUShort (truncToInt (2 ^ 31 + 2048)) = 0
    ∧ toUShort (truncToInt (-2048)) = 63488
    ∧ toUShort (truncToInt 65537) = 1 := by
  refine ⟨by decide!, by decide!, by decide!, by decide!, by decide!, by decide!, by decide!,
    by decide!, by decide!, by decide!⟩

/-! ## Configuration -/

/-- C5 (as stated, refuted): `InitPowerDecoder` called with a record interval of zero, or of
minus one second, reports nothing and initialises the four decoders all the same (the
resync interval and the nominal torque offset 500 are stored); the quantized record interval
is then 0, respectively 63488.  With the zero interval the first power page divides the
receive time by the zero record interval, a floating division (`dCurrentTime_ /
dRecordInterval` in the resync), whose result is not a number; the code goes on, and the
next page of the same decoder (inside the resync interval) is decoded and divides by the
zero quantized record interval, an integer division by zero, as does the message handler
called on the decoder as configured. -/
theorem C5_zero_interval_accepted_counterexample :
    (sessionZero.po.stState.usRecordInterval = 0 ∧ sessionZero.ct.stState.usRecordInterval = 0
      ∧ sessionZero.ctf.stState.usRecordInterval = 0
      ∧ sessionZero.wt.stState.usRecordInterval = 0)
    ∧ (sessionZero.po.dReSyncInterval = 10 ∧ sessionZero.ctf.stState.usTorqueOffset = 500
      ∧ sessionZero.roRecordInterval = 0)
    ∧ (sessionNeg.po.stState.usRecordInterval = 63488 ∧ sessionNeg.po.dRecordInterval = -1
      ∧ sessionNeg.ctf.stState.usTorqueOffset = 500)
    ∧ DecodePowerMessage defaultConsts sessionZero 1 ⟨0x12, 1, 0, 0, 0, 0, 0, 0⟩
        = .error .floatDivByZero
    ∧ (Variant.crankTorque.ResyncWith (fdivCont (fun _ => 0)) defaultConsts 0 sessionZero.ct
          (1 / 2) ⟨0x12, 0, 0, 0, 0, 0, 0, 0⟩).bind (fun out =>
        Variant.crankTorque.MessageWith (fdivCont (fun _ => 0)) defaultConsts 0 out.1 1
          ⟨0x12, 1, 1, 60, 100, 0, 16, 0⟩)
        = .error .intDivByZero
    ∧ DecodeCrankTorque_Message defaultConsts 0 sessionZero.ct 1
        ⟨0x12, 1, 1, 60, 100, 0, 16, 0⟩ = .error .intDivByZero := by
  refine ⟨by decide!, by decide!, by decide!, by decide!, by decide!, by decide!⟩

/-- C5 (amended): `InitPowerDecoder` performs no validation and reports no error: for every
record interval `I`, zero and negative values included, it initialises the four decoders,
storing `I` as their record interval and `(int)(I * quantization)` truncated to 16 bits as
their quantized record interval, the product being a `double` and the conversion the 32-bit
one: the integer part of the product modulo 65536 when it is in the range of `int`, and 0
(the low bits of `INT_MIN`) when it is not, as for `I = 1048577` with 2048 ticks per second.
For `I = 0` the quantized record interval of every decoder is 0. -/
theorem C5_init_accepts_every_interval (c : Consts) (ss : Session) (I tb rs : ℚ) :
    ((InitPowerDecoder c ss I tb rs).po.stState.usRecordInterval
        = toUShort (truncToInt (toDouble (I * c.PO_TIME_QUANTIZATION)))
      ∧ (InitPowerDecoder c ss I tb rs).ct.stState.usRecordInterval
        = toUShort (truncToInt (toDouble (I * c.CT_TIME_QUANTIZATION)))
      ∧ (InitPowerDecoder c ss I tb rs).ctf.stState.usRecordInterval
        = toUShort (truncToInt (toDouble (I * c.CTF_TIME_QUANTIZATION)))
      ∧ (InitPowerDecoder c ss I tb rs).wt.stState.usRecordInterval
        = toUShort (truncToInt (toDouble (I * c.WT_TIME_QUANTIZATION))))
    ∧ (∀ x : ℚ, (-2147483648 ≤ truncate x ∧ truncate x < 2147483648 →
          toUShort (truncToInt x) = (truncate x % 65536).toNat)
        ∧ (¬ (-2147483648 ≤ truncate x ∧ truncate x < 2147483648) →
          toUShort (truncToInt x) = 0))
    ∧ ((InitPowerDecoder c ss I tb rs).po.dRecordInterval = I
      ∧ (InitPowerDecoder c ss I tb rs).ct.dRecordInterval = I
      ∧ (InitPowerDecoder c ss I tb rs).ctf.dRecordInterval = I
      ∧ (InitPowerDecoder c ss I tb rs).wt.dRecordInterval = I
      ∧ (InitPowerDecoder c ss I tb rs).roRecordInterval = I)
    ∧ ((InitPowerDecoder c ss I tb rs).po.dReSyncInterval = rs
      ∧ (InitPowerDecoder c ss I tb rs).ct.dReSyncInterval = rs
      ∧ (InitPowerDecoder c ss I tb rs).ctf.dReSyncInterval = rs
      ∧ (InitPowerDecoder c ss I tb rs).wt.dReSyncInterval = rs)
    ∧ ((InitPowerDecoder c ss 0 tb rs).po.stState.usRecordInterval = 0
      ∧ (InitPowerDecoder c ss 0 tb rs).ct.stState.usRecordInterval = 0
      ∧ (InitPowerDecoder c ss 0 tb rs).ctf.stState.usRecordInterval = 0
      ∧ (InitPowerDecoder c ss 0 tb rs).wt.stState.usRecordInterval = 0)
    ∧ ((InitPowerDecoder defaultConsts ss 1048577 tb rs).po.stState.usRecordInterval = 0
      ∧ (InitPowerDecoder defaultConsts ss 1048577 tb rs).ct.stState.usRecordInterval = 0
      ∧ (InitPowerDecoder defaultConsts ss 1048577 tb rs).wt.stState.usRecordInterval = 0
      ∧ (InitPowerDecoder defaultConsts ss 1048577 tb rs).ctf.stState.usRecordInterval
          = 2000) := by
  refine ⟨⟨rfl, rfl, rfl, rfl⟩, ?_, ⟨rfl, rfl, rfl, rfl, rfl⟩, ⟨rfl, rfl, rfl, rfl⟩, ?_, ?_⟩
  · intro x
    constructor
    · intro h
      rw [truncToInt_in_range x h.1 h.2]
      rfl
    · intro h
      exact (truncToInt_out_of_range x h).2
  · have h0 : toUShort (truncToInt (toDouble 0)) = 0 := by decide!
    simp only [InitPowerDecoder, DecodePowerOnly_Init, DecodeCrankTorque_Init,
      DecodeCrankTorqueFreq_Init, DecodeWheelTorque_Init, ResamplerOutput_Init, zero_mul, h0,
      and_self]
  · have h1 : toUShort (truncToInt (toDouble
        ((1048577 : ℚ) * ((2048 : Nat) : ℚ)))) = 0 := by decide!
    have h2 : toUShort (truncToInt (toDouble
        ((1048577 : ℚ) * ((2000 : Nat) : ℚ)))) = 2000 := by decide!
    exact ⟨h1, h1, h1, h2⟩

/-! ## Crank-Torque-Frequency: the torque slope -/

/-- C6: after `InitPowerDecoder` with a one second record interval, a first
Crank-Torque-Frequency page (resync) followed half a second later by a page with a new event
count, a nonzero period delta and a torque-slope field of zero makes the decode step divide
by zero (`ulTempTorque /= usTorqueSlope`): the step does not complete. -/
theorem C6_ctf_zero_slope_divides_by_zero :
    decodeAll defaultConsts session1 ctfZeroSlopeFrames = .error .intDivByZero := by
  decide!

/-! ## Resync -/

/-- The records and totals produced by the catch-up of a resync. -/
theorem resyncCatchUp_spec (ro : ℚ) (s : BPSAMPLER) (n : Nat) (hro : ro ≠ 0) :
    ∃ out, resyncCatchUp ro s n = .ok out
      ∧ out.2 = (List.range n).map (fun k =>
          (⟨s.dLastRecordTime + (k + 1 : Nat) * ro,
            s.dTotalRotation + (k + 1 : Nat) * (s.fAccumRotation / n),
            s.dTotalEnergy + (k + 1 : Nat) * (s.fAccumEnergy / n),
            s.fAccumRotation * 60 / (n * ro),
            s.fAccumEnergy / (n * ro)⟩ : Record))
      ∧ out.1.dTotalEnergy = s.dTotalEnergy + (if n = 0 then 0 else s.fAccumEnergy)
      ∧ out.1.dTotalRotation = s.dTotalRotation + (if n = 0 then 0 else s.fAccumRotation) := by
  unfold resyncCatchUp
  by_cases hn : 0 < n
  · rw [fillGap_pos ro _ hro hn]
    have hn0 : n ≠ 0 := by omega
    exact ⟨_, rfl, rfl, by simp [hn0], by simp [hn0]⟩
  · have hn0 : n = 0 := by omega
    subst hn0
    rw [fillGap_zero ro _ rfl]
    exact ⟨_, rfl, by simp, by simp, by simp⟩

theorem resyncGapCount_ok (gap I : ℚ) (hI : I ≠ 0) :
    resyncGapCount gap I = .ok (toUChar (truncToInt ((gap + I * (1 / 2)) / I))) := by
  simp [resyncGapCount, fdiv_ok _ _ hI, bind, Except.bind, pure, Except.pure]

theorem resyncGapCountWT_ok (gap I : ℚ) (hI : I ≠ 0) :
    resyncGapCountWT gap I
      = .ok (toUChar (truncToInt
          (((toUChar (truncToInt (gap + I * (1 / 2))) : Nat) : ℚ) / I))) := by
  simp [resyncGapCountWT, fdiv_ok _ _ hI, bind, Except.bind, pure, Except.pure]

theorem variant_resyncGapCount_ok (v : Variant) (gap I : ℚ) (hI : I ≠ 0) :
    ∃ n, v.resyncGapCount gap I = .ok n := by
  cases v
  · exact ⟨_, resyncGapCount_ok gap I hI⟩
  · exact ⟨_, resyncGapCountWT_ok gap I hI⟩
  · exact ⟨_, resyncGapCount_ok gap I hI⟩
  · exact ⟨_, resyncGapCount_ok gap I hI⟩

/-- C10 (as stated, refuted): the Power-Only decoder reached from a session with a 0.3 s
record interval by `driftFrames` has a previous record (`dLastRecordTime = 2303/2560`), and a
resync at 1.05 s finds `0 < epoch - dLastRecordTime < MAXIMUM_TIME_GAP`; the gap rounds to
zero missed records, so no record is emitted and the total energy does not grow although
`6025/256` of energy was accumulated. -/
theorem C10_resync_rounds_to_zero_counterexample :
    Except.map (fun out => out.1.po) (decodeAll defaultConsts session03 driftFrames)
      = .ok driftDecoder
    ∧ driftDecoder.stState.dLastRecordTime ≠ 0
    ∧ 0 < recordEpoch driftDecoder.dRecordInterval (21 / 20)
          - driftDecoder.stState.dLastRecordTime
    ∧ recordEpoch driftDecoder.dRecordInterval (21 / 20) - driftDecoder.stState.dLastRecordTime
        < defaultConsts.MAXIMUM_TIME_GAP
    ∧ driftDecoder.stState.fAccumEnergy = 6025 / 256
    ∧ Except.map
        (fun out => (out.1.stState.dTotalEnergy - driftDecoder.stState.dTotalEnergy, out.2))
        (DecodePowerOnly_Resync defaultConsts (3 / 10) driftDecoder (21 / 20) firstWheelPage)
      = .ok (0, []) := by
  decide!

/-- C10 (amended): when the `_Resync` of any variant runs with nonzero record intervals, a
previous record (`dLastRecordTime ≠ 0`) and `0 < epoch - dLastRecordTime <
MAXIMUM_TIME_GAP`, it returns after emitting exactly `n` filler records, `n` being the gap
count it computed; they are one interval apart and each carries the `n`-th part of the
previously accumulated energy and rotation.  When `n ≠ 0` the total energy and the total
rotation grow by exactly the energy and the rotation accumulated before the resync; when
`n = 0` nothing is emitted and the totals are unchanged. -/
theorem C10_resync_catch_up_energy (c : Consts) (v : Variant) (ro : ℚ) (d : Decoder) (t : ℚ)
    (p : Payload) (hI : d.dRecordInterval ≠ 0) (hro : ro ≠ 0)
    (hprev : d.stState.dLastRecordTime ≠ 0)
    (hpos : 0 < recordEpoch d.dRecordInterval t - d.stState.dLastRecordTime)
    (hmax : recordEpoch d.dRecordInterval t - d.stState.dLastRecordTime < c.MAXIMUM_TIME_GAP) :
    ∃ n d1 rs,
      v.resyncGapCount (recordEpoch d.dRecordInterval t - d.stState.dLastRecordTime)
          d.dRecordInterval = .ok n
      ∧ v.Resync c ro d t p = .ok (d1, rs)
      ∧ rs = (List.range n).map (fun k =>
          (⟨d.stState.dLastRecordTime + (k + 1 : Nat) * ro,
            d.stState.dTotalRotation + (k + 1 : Nat) * (d.stState.fAccumRotation / n),
            d.stState.dTotalEnergy + (k + 1 : Nat) * (d.stState.fAccumEnergy / n),
            d.stState.fAccumRotation * 60 / (n * ro),
            d.stState.fAccumEnergy / (n * ro)⟩ : Record))
      ∧ (n ≠ 0 →
          d1.stState.dTotalEnergy - d.stState.dTotalEnergy = d.stState.fAccumEnergy
          ∧ d1.stState.dTotalRotation - d.stState.dTotalRotation = d.stState.fAccumRotation)
      ∧ (n = 0 →
          d1.stState.dTotalEnergy = d.stState.dTotalEnergy
          ∧ d1.stState.dTotalRotation = d.stState.dTotalRotation) := by
  obtain ⟨n, hn⟩ := variant_resyncGapCount_ok v
    (recordEpoch d.dRecordInterval t - d.stState.dLastRecordTime) d.dRecordInterval hI
  obtain ⟨out, ho, hrs, hE, hR⟩ := resyncCatchUp_spec ro d.stState n hro
  have hlt : recordEpoch d.dRecordInterval t - d.stState.dLastRecordTime > 0 := hpos
  refine ⟨n, ?_⟩
  cases v
  all_goals
    simp only [Variant.resyncGapCount, Variant.Resync] at hn ⊢
    have hn0 := hn
    unfold recordEpoch at hn hpos hmax hlt
    first
      | unfold DecodePowerOnly_Resync
      | unfold DecodeWheelTorque_Resync
      | unfold DecodeCrankTorque_Resync
      | unfold DecodeCrankTorqueFreq_Resync
    simp only [fdiv_ok _ _ hI, bind, Except.bind, pure, Except.pure, hprev, ne_eq,
      not_false_eq_true, hlt, hmax, and_self, if_true, hn, ho, true_and]
    refine ⟨_, _, hn0, rfl, hrs, ?_, ?_⟩
    · intro h0
      simp only [hE, hR, h0, if_false]
      constructor <;> ring
    · intro h0
      simp only [hE, hR, h0, if_true]
      constructor <;> ring

theorem C10_resync_catch_up_energy_witness :
    resyncDecoder.dRecordInterval ≠ 0
    ∧ (1 : ℚ) ≠ 0
    ∧ resyncDecoder.stState.dLastRecordTime ≠ 0
    ∧ 0 < recordEpoch resyncDecoder.dRecordInterval (11 / 2)
          - resyncDecoder.stState.dLastRecordTime
    ∧ recordEpoch resyncDecoder.dRecordInterval (11 / 2)
          - resyncDecoder.stState.dLastRecordTime < defaultConsts.MAXIMUM_TIME_GAP
    ∧ Variant.powerOnly.resyncGapCount
        (recordEpoch resyncDecoder.dRecordInterval (11 / 2)
          - resyncDecoder.stState.dLastRecordTime)
        resyncDecoder.dRecordInterval = .ok 3
    ∧ ∃ n d1 rs,
      Variant.powerOnly.resyncGapCount
          (recordEpoch resyncDecoder.dRecordInterval (11 / 2)
            - resyncDecoder.stState.dLastRecordTime)
          resyncDecoder.dRecordInterval = .ok n
      ∧ Variant.powerOnly.Resync defaultConsts 1 resyncDecoder (11 / 2) dupPayload = .ok (d1, rs)
      ∧ rs = (List.range n).map (fun k =>
          (⟨resyncDecoder.stState.dLastRecordTime + (k + 1 : Nat) * 1,
            resyncDecoder.stState.dTotalRotation
              + (k + 1 : Nat) * (resyncDecoder.stState.fAccumRotation / n),
            resyncDecoder.stState.dTotalEnergy
              + (k + 1 : Nat) * (resyncDecoder.stState.fAccumEnergy / n),
            resyncDecoder.stState.fAccumRotation * 60 / (n * 1),
            resyncDecoder.stState.fAccumEnergy / (n * 1)⟩ : Record))
      ∧ (n ≠ 0 →
          d1.stState.dTotalEnergy - resyncDecoder.stState.dTotalEnergy
            = resyncDecoder.stState.fAccumEnergy
          ∧ d1.stState.dTotalRotation - resyncDecoder.stState.dTotalRotation
            = resyncDecoder.stState.fAccumRotation)
      ∧ (n = 0 →
          d1.stState.dTotalEnergy = resyncDecoder.stState.dTotalEnergy
          ∧ d1.stState.dTotalRotation = resyncDecoder.stState.dTotalRotation) :=
  ⟨by decide!, by decide!, by decide!, by decide!, by decide!, by decide!,
    C10_resync_catch_up_energy defaultConsts .powerOnly 1 resyncDecoder (11 / 2) dupPayload
      (by decide!) (by decide!) (by decide!) (by decide!) (by decide!)⟩

/-! ## The first part of the incremental decoders -/

theorem fdiv_eq_ok (a b x : ℚ) : fdiv a b = .ok x ↔ b ≠ 0 ∧ a / b = x := by
  unfold fdiv
  split <;> simp_all

theorem idiv_eq_ok (a b x : Nat) : idiv a b = .ok x ↔ b ≠ 0 ∧ a / b = x := by
  unfold idiv
  split <;> simp_all

theorem imod_eq_ok (a b x : Nat) : imod a b = .ok x ↔ b ≠ 0 ∧ a % b = x := by
  unfold imod
  split <;> simp_all

theorem pure_eq_ok {α : Type} (a b : α) : (pure a : Except Fault α) = .ok b ↔ a = b := by
  simp [pure, Except.pure]

theorem M_PI_nonneg : 0 ≤ M_PI := by
  unfold M_PI; norm_num

/-- The first part of the Power-Only decode leaves the record clock, the totals and the
configuration alone and keeps the buckets non-negative. -/
theorem po_update_spec (c : Consts) (s s2 : BPSAMPLER) (p : Payload)
    (h : DecodePowerOnly_update c s p = .ok s2) :
    SameBase s s2 ∧ (NonNeg s → NonNeg s2) := by
  unfold DecodePowerOnly_update at h
  simp only [bind_eq_ok, pure_eq_ok] at h
  obtain ⟨per, hper, ev, hev, s1, hs1, h⟩ := h
  subst h
  have hfe : 0 ≤ ev.2.2 := by
    split at hev
    · simp only [pure_eq_ok] at hev
      subst hev
      simp
    · simp only [bind_eq_ok, pure_eq_ok, fdiv_eq_ok] at hev
      obtain ⟨e, ⟨_, he⟩, hev⟩ := hev
      subst hev he
      simp only
      positivity
  split at hs1
  · simp only [bind_eq_ok, pure_eq_ok, fdiv_eq_ok, idiv_eq_ok, imod_eq_ok] at hs1
    obtain ⟨_, ⟨_, rfl⟩, _, ⟨_, rfl⟩, _, ⟨_, rfl⟩, _, ⟨_, rfl⟩, _, ⟨_, rfl⟩, _, ⟨_, rfl⟩,
      _, ⟨_, rfl⟩, _, ⟨_, rfl⟩, _, ⟨_, rfl⟩, _, ⟨_, rfl⟩, rfl⟩ := hs1
    refine ⟨by simp [SameBase], ?_⟩
    rintro ⟨h1, h2, h3, h4, h5, h6⟩
    simp only [NonNeg]
    refine ⟨?_, ?_, ?_, ?_, ?_, ?_⟩ <;> positivity
  · simp only [pure_eq_ok] at hs1
    subst hs1
    refine ⟨by simp [SameBase], ?_⟩
    rintro ⟨h1, h2, h3, h4, h5, h6⟩
    simp only [NonNeg]
    refine ⟨?_, ?_, ?_, ?_, ?_, ?_⟩
    · positivity
    · exact le_refl _
    · exact h3
    · split <;> positivity
    · exact le_refl _
    · exact h6

/-- The first part of the Crank-Torque decode leaves the record clock, the totals and the
configuration alone and keeps the buckets non-negative. -/
theorem ct_update_spec (c : Consts) (s s2 : BPSAMPLER) (p : Payload)
    (h : DecodeCrankTorque_update c s p = .ok s2) :
    SameBase s s2 ∧ (NonNeg s → NonNeg s2) := by
  have hpi := M_PI_nonneg
  unfold DecodeCrankTorque_update at h
  simp only [bind_eq_ok, pure_eq_ok] at h
  obtain ⟨ev, hev, s1, hs1, h⟩ := h
  subst h
  have hfe : 0 ≤ ev.2 := by
    split at hev
    · simp only [bind_eq_ok, pure_eq_ok, idiv_eq_ok] at hev
      obtain ⟨_, ⟨_, rfl⟩, _, ⟨_, rfl⟩, rfl⟩ := hev
      simp only
      positivity
    · simp only [pure_eq_ok] at hev
      subst hev
      simp
  split at hs1
  · simp only [bind_eq_ok, pure_eq_ok, fdiv_eq_ok, idiv_eq_ok, imod_eq_ok] at hs1
    obtain ⟨_, ⟨_, rfl⟩, _, ⟨_, rfl⟩, _, ⟨_, rfl⟩, _, ⟨_, rfl⟩, _, ⟨_, rfl⟩, _, ⟨_, rfl⟩,
      _, ⟨_, rfl⟩, _, ⟨_, rfl⟩, _, ⟨_, rfl⟩, _, ⟨_, rfl⟩, rfl⟩ := hs1
    refine ⟨by simp [SameBase], ?_⟩
    rintro ⟨h1, h2, h3, h4, h5, h6⟩
    simp only [NonNeg]
    refine ⟨?_, ?_, ?_, ?_, ?_, ?_⟩ <;> positivity
  · simp only [pure_eq_ok] at hs1
    subst hs1
    refine ⟨by simp [SameBase], ?_⟩
    rintro ⟨h1, h2, h3, h4, h5, h6⟩
    simp only [NonNeg]
    refine ⟨?_, ?_, ?_, ?_, ?_, ?_⟩
    · positivity
    · exact le_refl _
    · exact h3
    · positivity
    · exact le_refl _
    · exact h6

/-- The first part of the Wheel-Torque decode leaves the record clock, the totals and the
configuration alone and keeps the buckets non-negative. -/
theorem wt_update_spec (c : Consts) (s s2 : BPSAMPLER) (p : Payload)
    (h : DecodeWheelTorque_update c s p = .ok s2) :
    SameBase s s2 ∧ (NonNeg s → NonNeg s2) := by
  have hpi := M_PI_nonneg
  unfold DecodeWheelTorque_update at h
  simp only [bind_eq_ok, pure_eq_ok] at h
  obtain ⟨ev, hev, s1, hs1, h⟩ := h
  subst h
  have hfe : 0 ≤ ev.2.2.1 := by
    split at hev
    · simp only [bind_eq_ok, pure_eq_ok, idiv_eq_ok] at hev
      obtain ⟨_, ⟨_, rfl⟩, _, ⟨_, rfl⟩, rfl⟩ := hev
      split
      · simp
      · simp only
        positivity
    · simp only [pure_eq_ok] at hev
      subst hev
      simp
  split at hs1
  · simp only [bind_eq_ok, pure_eq_ok, fdiv_eq_ok, idiv_eq_ok, imod_eq_ok] at hs1
    obtain ⟨_, ⟨_, rfl⟩, _, ⟨_, rfl⟩, _, ⟨_, rfl⟩, _, ⟨_, rfl⟩, _, ⟨_, rfl⟩, _, ⟨_, rfl⟩,
      _, ⟨_, rfl⟩, rfl⟩ := hs1
    refine ⟨by simp [SameBase], ?_⟩
    rintro ⟨h1, h2, h3, h4, h5, h6⟩
    simp only [NonNeg]
    refine ⟨?_, ?_, ?_, ?_, ?_, ?_⟩ <;> positivity
  · simp only [pure_eq_ok] at hs1
    subst hs1
    refine ⟨by simp [SameBase], ?_⟩
    rintro ⟨h1, h2, h3, h4, h5, h6⟩
    simp only [NonNeg]
    refine ⟨?_, ?_, ?_, ?_, ?_, ?_⟩
    · positivity
    · exact le_refl _
    · exact h3
    · positivity
    · exact le_refl _
    · exact h6

/-- The first part of the Crank-Torque-Frequency decode leaves the record clock, the totals
and the configuration alone and keeps the buckets non-negative. -/
theorem ctf_update_spec (c : Consts) (s s2 : BPSAMPLER) (p : Payload)
    (h : DecodeCrankTorqueFreq_update c s p = .ok s2) :
    SameBase s s2 ∧ (NonNeg s → NonNeg s2) := by
  have hpi := M_PI_nonneg
  unfold DecodeCrankTorqueFreq_update at h
  simp only [bind_eq_ok, pure_eq_ok] at h
  obtain ⟨ev, hev, s1, hs1, h⟩ := h
  subst h
  have hfe : 0 ≤ ev.2 := by
    split at hev
    · simp only [bind_eq_ok, pure_eq_ok, idiv_eq_ok] at hev
      obtain ⟨_, ⟨_, rfl⟩, _, ⟨_, rfl⟩, _, ⟨_, rfl⟩, _, ⟨_, rfl⟩, rfl⟩ := hev
      simp only
      positivity
    · simp only [pure_eq_ok] at hev
      subst hev
      simp
  split at hs1
  · simp only [bind_eq_ok, pure_eq_ok, fdiv_eq_ok, idiv_eq_ok, imod_eq_ok] at hs1
    obtain ⟨_, ⟨_, rfl⟩, _, ⟨_, rfl⟩, _, ⟨_, rfl⟩, _, ⟨_, rfl⟩, _, ⟨_, rfl⟩, _, ⟨_, rfl⟩,
      _, ⟨_, rfl⟩, _, ⟨_, rfl⟩, _, ⟨_, rfl⟩, _, ⟨_, rfl⟩, rfl⟩ := hs1
    refine ⟨by simp [SameBase], ?_⟩
    rintro ⟨h1, h2, h3, h4, h5, h6⟩
    simp only [NonNeg]
    refine ⟨?_, ?_, ?_, ?_, ?_, ?_⟩ <;> positivity
  · simp only [pure_eq_ok] at hs1
    subst hs1
    refine ⟨by simp [SameBase], ?_⟩
    rintro ⟨h1, h2, h3, h4, h5, h6⟩
    simp only [NonNeg]
    refine ⟨?_, ?_, ?_, ?_, ?_, ?_⟩
    · positivity
    · exact le_refl _
    · exact h3
    · positivity
    · exact le_refl _
    · exact h6

/-- Every variant: the first part of the incremental decode leaves the record clock, the
totals and the configuration alone and keeps the buckets non-negative. -/
theorem update_spec (c : Consts) (v : Variant) (s s2 : BPSAMPLER) (p : Payload)
    (h : v.update c s p = .ok s2) : SameBase s s2 ∧ (NonNeg s → NonNeg s2) := by
  cases v
  · exact po_update_spec c s s2 p h
  · exact wt_update_spec c s s2 p h
  · exact ct_update_spec c s s2 p h
  · exact ctf_update_spec c s s2 p h

/-! ## Record lists: spacing of the stamps, growth of the totals -/

theorem spaced_append (I : ℚ) (rs rs2 : List Record) (t0 t1 t2 : ℚ)
    (h1 : SpacedStamps I t0 rs t1) (h2 : SpacedStamps I t1 rs2 t2) :
    SpacedStamps I t0 (rs ++ rs2) t2 := by
  induction rs generalizing t0 with
  | nil =>
    simp only [SpacedStamps] at h1
    subst h1
    simpa using h2
  | cons r rs ih =>
    simp only [SpacedStamps] at h1
    simp only [List.cons_append, SpacedStamps]
    exact ⟨h1.1, ih _ h1.2⟩

/-- Spaced stamps form a chain in which every stamp is the previous one plus `I`. -/
theorem spaced_chain (I : ℚ) (rs : List Record) (t0 t1 : ℚ) (h : SpacedStamps I t0 rs t1) :
    List.Chain (fun a b => b = a + I) t0 (rs.map Record.timestamp) := by
  induction rs generalizing t0 with
  | nil => simp
  | cons r rs ih =>
    simp only [SpacedStamps] at h
    simp only [List.map_cons, List.chain_cons]
    exact ⟨h.1, ih _ h.2⟩

/-- Closed form of spaced stamps. -/
theorem spaced_closed (I : ℚ) (rs : List Record) (t0 t1 : ℚ) (h : SpacedStamps I t0 rs t1) :
    t1 = t0 + rs.length * I
    ∧ rs.map Record.timestamp
        = (List.range rs.length).map (fun k => t0 + ((k + 1 : Nat) : ℚ) * I) := by
  induction rs generalizing t0 with
  | nil =>
    simp only [SpacedStamps] at h
    simp [h]
  | cons r rs ih =>
    simp only [SpacedStamps] at h
    obtain ⟨e1, e2⟩ := ih _ h.2
    refine ⟨?_, ?_⟩
    · rw [e1, h.1]; simp only [List.length_cons]; push_cast; ring
    · simp only [List.map_cons, List.length_cons, List.range_succ_eq_map, List.map_map,
        List.cons.injEq]
      refine ⟨by rw [h.1]; simp, ?_⟩
      rw [e2]
      apply List.map_congr_left
      intro k _
      simp only [Function.comp, h.1]
      push_cast; ring

theorem chain_lt_of_spaced (I : ℚ) (hI : 0 < I) (l : List ℚ) (t0 : ℚ)
    (h : List.Chain (fun a b => b = a + I) t0 l) : List.Chain (· < ·) t0 l := by
  induction l generalizing t0 with
  | nil => simp
  | cons x l ih =>
    simp only [List.chain_cons] at h ⊢
    exact ⟨by rw [h.1]; linarith, ih _ h.2⟩

theorem mono_weaken (a a2 b : ℚ × ℚ) (rs : List Record) (h1 : a.1 ≤ a2.1) (h2 : a.2 ≤ a2.2)
    (h : MonoTotals a2 rs b) : MonoTotals a rs b := by
  cases rs with
  | nil =>
    simp only [MonoTotals] at h ⊢
    exact ⟨le_trans h1 h.1, le_trans h2 h.2⟩
  | cons r rs =>
    simp only [MonoTotals] at h ⊢
    exact ⟨le_trans h1 h.1, le_trans h2 h.2.1, h.2.2⟩

theorem mono_append (a b c : ℚ × ℚ) (rs rs2 : List Record)
    (h1 : MonoTotals a rs b) (h2 : MonoTotals b rs2 c) : MonoTotals a (rs ++ rs2) c := by
  induction rs generalizing a with
  | nil =>
    simp only [MonoTotals] at h1
    simpa using mono_weaken a b c rs2 h1.1 h1.2 h2
  | cons r rs ih =>
    simp only [MonoTotals] at h1
    simp only [List.cons_append, MonoTotals]
    exact ⟨h1.1, h1.2.1, ih _ h1.2.2⟩

theorem mono_refl (a : ℚ × ℚ) : MonoTotals a [] a := by
  simp [MonoTotals]

/-- Growing totals form a chain that is non-decreasing in both components, from the
starting pair through the records to the final pair. -/
theorem mono_chain (a b : ℚ × ℚ) (rs : List Record) (h : MonoTotals a rs b) :
    List.Chain (fun x y => x.1 ≤ y.1 ∧ x.2 ≤ y.2) a
      (rs.map (fun r => (r.cumulativeEnergy, r.cumulativeRotation)) ++ [b]) := by
  induction rs generalizing a with
  | nil =>
    simp only [MonoTotals] at h
    simp [h]
  | cons r rs ih =>
    simp only [MonoTotals] at h
    simp only [List.map_cons, List.cons_append, List.chain_cons]
    exact ⟨⟨h.1, h.2.1⟩, ih _ h.2.2⟩

/-! ## Emission by the resampler and by the wall-clock catch-up -/

theorem fillGapLoop_stamps (I iE iR cad pw : ℚ) (n : Nat) (s : BPSAMPLER) :
    SpacedStamps I s.dLastRecordTime (fillGapLoop I iE iR cad pw n s).2
      (fillGapLoop I iE iR cad pw n s).1.dLastRecordTime := by
  induction n generalizing s with
  | zero => simp [fillGapLoop, SpacedStamps]
  | succ n ih =>
    have h := ih { s with
      dTotalEnergy := s.dTotalEnergy + iE,
      dTotalRotation := s.dTotalRotation + iR,
      dLastRecordTime := s.dLastRecordTime + I }
    simp only [fillGapLoop, SpacedStamps]
    exact ⟨trivial, h⟩

theorem fillGapLoop_mono (I iE iR cad pw : ℚ) (hE : 0 ≤ iE) (hR : 0 ≤ iR) (n : Nat)
    (s : BPSAMPLER) :
    MonoTotals (s.dTotalEnergy, s.dTotalRotation) (fillGapLoop I iE iR cad pw n s).2
      ((fillGapLoop I iE iR cad pw n s).1.dTotalEnergy,
        (fillGapLoop I iE iR cad pw n s).1.dTotalRotation) := by
  induction n generalizing s with
  | zero => simp [fillGapLoop, MonoTotals]
  | succ n ih =>
    have h := ih { s with
      dTotalEnergy := s.dTotalEnergy + iE,
      dTotalRotation := s.dTotalRotation + iR,
      dLastRecordTime := s.dLastRecordTime + I }
    simp only [fillGapLoop, MonoTotals]
    exact ⟨by linarith, by linarith, h⟩

theorem fillGapLoop_nonneg (I iE iR cad pw : ℚ) (n : Nat) (s : BPSAMPLER) (h : NonNeg s) :
    NonNeg (fillGapLoop I iE iR cad pw n s).1 := by
  rw [fillGapLoop_spec]
  exact h

theorem fillGap_stamps (I : ℚ) (s : BPSAMPLER) (out : BPSAMPLER × List Record)
    (h : RecordOutput_FillGap I s = .ok out) : Stamped I s out := by
  unfold RecordOutput_FillGap at h
  split at h
  · simp only [bind_eq_ok, pure_eq_ok, fdiv_eq_ok] at h
    obtain ⟨_, ⟨_, rfl⟩, _, ⟨_, rfl⟩, _, ⟨_, rfl⟩, _, ⟨_, rfl⟩, rfl⟩ := h
    exact fillGapLoop_stamps _ _ _ _ _ _ _
  · simp only [pure_eq_ok] at h
    subst h
    exact rfl

theorem fillGap_totals (I : ℚ) (s : BPSAMPLER) (out : BPSAMPLER × List Record)
    (h : RecordOutput_FillGap I s = .ok out) : TotalsGrow s out := by
  unfold RecordOutput_FillGap at h
  split at h
  · simp only [bind_eq_ok, pure_eq_ok, fdiv_eq_ok] at h
    obtain ⟨_, ⟨_, rfl⟩, _, ⟨_, rfl⟩, _, ⟨_, rfl⟩, _, ⟨_, rfl⟩, rfl⟩ := h
    intro hnn
    obtain ⟨h1, h2, h3, h4, h5, h6⟩ := hnn
    refine ⟨fillGapLoop_mono _ _ _ _ _ (by positivity) (by positivity) _ _, ?_⟩
    exact fillGapLoop_nonneg _ _ _ _ _ _ _ ⟨h1, h2, h3, h4, h5, h6⟩
  · simp only [pure_eq_ok] at h
    subst h
    exact fun hnn => ⟨mono_refl _, hnn⟩

theorem recordOutput_stamps (I : ℚ) (s : BPSAMPLER) (out : BPSAMPLER × List Record)
    (h : RecordOutput I s = .ok out) : Stamped I s out := by
  unfold RecordOutput at h
  simp only [bind_eq_ok, pure_eq_ok, fdiv_eq_ok, idiv_eq_ok] at h
  obtain ⟨_, ⟨_, rfl⟩, _, ⟨_, rfl⟩, _, ⟨_, rfl⟩, out1, h1, rfl⟩ := h
  exact ⟨rfl, fillGap_stamps I _ out1 h1⟩

theorem recordOutput_totals (I : ℚ) (s : BPSAMPLER) (out : BPSAMPLER × List Record)
    (h : RecordOutput I s = .ok out) : TotalsGrow s out := by
  unfold RecordOutput at h
  simp only [bind_eq_ok, pure_eq_ok, fdiv_eq_ok, idiv_eq_ok] at h
  obtain ⟨_, ⟨_, rfl⟩, _, ⟨_, rfl⟩, _, ⟨_, rfl⟩, out1, h1, rfl⟩ := h
  intro hnn
  obtain ⟨m, nn⟩ := fillGap_totals I _ out1 h1 hnn
  obtain ⟨h1, h2, h3, h4, h5, h6⟩ := hnn
  exact ⟨⟨by simp only; linarith, by simp only; linarith, m⟩, nn⟩

theorem wallClockLoop_stamps (t I step : ℚ) (fuel : Nat) (s : BPSAMPLER)
    (out : BPSAMPLER × List Record) (h : wallClockLoop t I step fuel s = .ok out) :
    Stamped step s out := by
  induction fuel generalizing s out with
  | zero =>
    unfold wallClockLoop at h
    split at h
    · simp at h
    · simp only [pure_eq_ok] at h
      subst h
      exact rfl
  | succ fuel ih =>
    unfold wallClockLoop at h
    split at h
    · simp only [bind_eq_ok, pure_eq_ok] at h
      obtain ⟨out1, h1, rfl⟩ := h
      exact ⟨rfl, ih _ _ h1⟩
    · simp only [pure_eq_ok] at h
      subst h
      exact rfl

theorem wallClockLoop_totals (t I step : ℚ) (fuel : Nat) (s : BPSAMPLER)
    (out : BPSAMPLER × List Record) (h : wallClockLoop t I step fuel s = .ok out) :
    TotalsGrow s out := by
  induction fuel generalizing s out with
  | zero =>
    unfold wallClockLoop at h
    split at h
    · simp at h
    · simp only [pure_eq_ok] at h
      subst h
      exact fun hnn => ⟨mono_refl _, hnn⟩
  | succ fuel ih =>
    unfold wallClockLoop at h
    split at h
    · simp only [bind_eq_ok, pure_eq_ok] at h
      obtain ⟨out1, h1, rfl⟩ := h
      intro hnn
      obtain ⟨m, nn⟩ := ih _ _ h1 hnn
      exact ⟨⟨le_refl _, le_refl _, m⟩, nn⟩
    · simp only [pure_eq_ok] at h
      subst h
      exact fun hnn => ⟨mono_refl _, hnn⟩

/-- The closing step of a decoder stamps its records one interval apart when the record
interval of `RecordOutput.c` and the step of the wall-clock catch-up are both `I`. -/
theorem recordOrCatchUp_stamps (c : Consts) (I I2 t : ℚ) (s : BPSAMPLER)
    (out : BPSAMPLER × List Record) (h : recordOrCatchUp c I I2 I t s = .ok out) :
    Stamped I s out := by
  unfold recordOrCatchUp at h
  split at h
  · exact recordOutput_stamps I s out h
  · exact wallClockLoop_stamps t I2 I _ s out h

/-- The closing step of a decoder never lets the totals decrease. -/
theorem recordOrCatchUp_totals (c : Consts) (ro I2 step t : ℚ) (s : BPSAMPLER)
    (out : BPSAMPLER × List Record) (h : recordOrCatchUp c ro I2 step t s = .ok out) :
    TotalsGrow s out := by
  unfold recordOrCatchUp at h
  split at h
  · exact recordOutput_totals ro s out h
  · exact wallClockLoop_totals t I2 step _ s out h

/-! ## The shape of the decoder steps -/

/-- Shape of a successful incremental decode: the first part, then the closing step, then
the store of the raw counters. -/
theorem decode_inv (c : Consts) (v : Variant) (ro : ℚ) (d : Decoder) (t : ℚ) (p : Payload)
    (d1 : Decoder) (rs : List Record) (h : v.Decode c ro d t p = .ok (d1, rs)) :
    ∃ s2 out, v.update c d.stState p = .ok s2
      ∧ recordOrCatchUp c ro d.dRecordInterval (v.catchUpStep c d) t s2 = .ok out
      ∧ rs = out.2
      ∧ d1.dRecordInterval = d.dRecordInterval ∧ d1.dReSyncInterval = d.dReSyncInterval
      ∧ d1.stState.dLastRecordTime = out.1.dLastRecordTime
      ∧ d1.stState.dTotalEnergy = out.1.dTotalEnergy
      ∧ d1.stState.dTotalRotation = out.1.dTotalRotation
      ∧ (NonNeg out.1 → NonNeg d1.stState) := by
  cases v
  all_goals
    simp only [Variant.Decode] at h
    first
      | unfold DecodePowerOnly at h
      | unfold DecodeWheelTorque at h
      | unfold DecodeCrankTorque at h
      | unfold DecodeCrankTorqueFreq at h
    simp only [bind_eq_ok, pure_eq_ok, Prod.mk.injEq] at h
    obtain ⟨s2, hs2, out, hout, rfl, rfl⟩ := h
    have hb : SameBase d.stState s2 := by
      first
        | exact (po_update_spec c d.stState s2 p hs2).1
        | exact (wt_update_spec c d.stState s2 p hs2).1
        | exact (ct_update_spec c d.stState s2 p hs2).1
        | exact (ctf_update_spec c d.stState s2 p hs2).1
    refine ⟨s2, out, hs2, ?_, rfl, rfl, rfl, rfl, rfl, rfl, fun hnn => hnn⟩
    simp only [Variant.catchUpStep]
    first
      | exact hout
      | (rw [← hb.2.2.2.1]; exact hout)

theorem resyncCatchUp_stamps (ro : ℚ) (s : BPSAMPLER) (n : Nat) (out : BPSAMPLER × List Record)
    (h : resyncCatchUp ro s n = .ok out) : Stamped ro s out := by
  unfold resyncCatchUp at h
  have h2 := fillGap_stamps ro _ out h
  exact h2

theorem resyncCatchUp_totals (ro : ℚ) (s : BPSAMPLER) (n : Nat) (out : BPSAMPLER × List Record)
    (h : resyncCatchUp ro s n = .ok out) : TotalsGrow s out := by
  intro hnn
  obtain ⟨h1, h2, h3, h4, h5, h6⟩ := hnn
  unfold resyncCatchUp at h
  have h7 := fillGap_totals ro _ out h ⟨h1, h2, h1, h4, h5, h4⟩
  exact h7

/-- Shape of a successful resync: a catch-up (or nothing) that emits from the old record
clock, then the reset of the buckets and the re-basing of the record clock to the epoch. -/
theorem resync_inv (c : Consts) (v : Variant) (ro : ℚ) (d : Decoder) (t : ℚ) (p : Payload)
    (d1 : Decoder) (rs : List Record) (h : v.Resync c ro d t p = .ok (d1, rs)) :
    d.dRecordInterval ≠ 0
    ∧ ∃ out, Stamped ro d.stState out ∧ TotalsGrow d.stState out ∧ rs = out.2
      ∧ d1.dRecordInterval = d.dRecordInterval ∧ d1.dReSyncInterval = d.dReSyncInterval
      ∧ d1.stState.dTotalEnergy = out.1.dTotalEnergy
      ∧ d1.stState.dTotalRotation = out.1.dTotalRotation
      ∧ d1.stState.dLastRecordTime = recordEpoch d.dRecordInterval t
      ∧ d1.stState.dLastMessageTime = t
      ∧ NonNeg d1.stState := by
  cases v
  all_goals
    simp only [Variant.Resync] at h
    first
      | unfold DecodePowerOnly_Resync at h
      | unfold DecodeWheelTorque_Resync at h
      | unfold DecodeCrankTorque_Resync at h
      | unfold DecodeCrankTorqueFreq_Resync at h
    simp only [bind_eq_ok, pure_eq_ok, fdiv_eq_ok, Prod.mk.injEq] at h
    obtain ⟨_, ⟨hI, rfl⟩, out, hout, rfl, rfl⟩ := h
    refine ⟨hI, out, ?_, ?_, rfl, rfl, rfl, rfl, rfl, rfl, rfl, ?_⟩
    · split at hout
      · simp only [bind_eq_ok] at hout
        obtain ⟨n, _, hfill⟩ := hout
        exact resyncCatchUp_stamps ro _ n out hfill
      · simp only [pure_eq_ok] at hout
        subst hout
        exact rfl
    · split at hout
      · simp only [bind_eq_ok] at hout
        obtain ⟨n, _, hfill⟩ := hout
        exact resyncCatchUp_totals ro _ n out hfill
      · simp only [pure_eq_ok] at hout
        subst hout
        exact fun hnn => ⟨mono_refl _, hnn⟩
    · simp [NonNeg]

/-- Shape of a successful message handler call: a duplicate frame does nothing, a late
frame resyncs, any other frame is decoded incrementally; only the message clock and the
event count are stored afterwards. -/
theorem message_inv (c : Consts) (v : Variant) (ro : ℚ) (d : Decoder) (t : ℚ) (p : Payload)
    (d1 : Decoder) (rs : List Record) (h : v.Message c ro d t p = .ok (d1, rs)) :
    (d.stState.ucLastEventCount = p.b1.val ∧ d1 = d ∧ rs = [])
    ∨ (d.stState.ucLastEventCount ≠ p.b1.val
        ∧ ∃ d2, (if t - d.stState.dLastMessageTime > d.dReSyncInterval
                  then v.Resync c ro d t p else v.Decode c ro d t p) = .ok (d2, rs)
          ∧ d1.dRecordInterval = d2.dRecordInterval ∧ d1.dReSyncInterval = d2.dReSyncInterval
          ∧ d1.stState.dLastRecordTime = d2.stState.dLastRecordTime
          ∧ d1.stState.dTotalEnergy = d2.stState.dTotalEnergy
          ∧ d1.stState.dTotalRotation = d2.stState.dTotalRotation
          ∧ (NonNeg d2.stState → NonNeg d1.stState)) := by
  cases v
  all_goals
    simp only [Variant.Message] at h
    first
      | unfold DecodePowerOnly_Message at h
      | unfold DecodeWheelTorque_Message at h
      | unfold DecodeCrankTorque_Message at h
      | unfold DecodeCrankTorqueFreq_Message at h
    split at h
    · rename_i hne
      simp only [bind_eq_ok, pure_eq_ok, Prod.mk.injEq] at h
      obtain ⟨out, hout, rfl, rfl⟩ := h
      exact Or.inr ⟨hne, out.1, hout, rfl, rfl, rfl, rfl, rfl, fun hnn => hnn⟩
    · rename_i heq
      simp only [pure_eq_ok, Prod.mk.injEq] at h
      obtain ⟨rfl, rfl⟩ := h
      exact Or.inl ⟨by simpa using heq, rfl, rfl⟩

/-! ## The configuration is never written by a decoder step -/

theorem fillGap_config (I : ℚ) (s : BPSAMPLER) (out : BPSAMPLER × List Record)
    (h : RecordOutput_FillGap I s = .ok out) : SameConfig s out.1 := by
  unfold RecordOutput_FillGap at h
  split at h
  · simp only [bind_eq_ok, pure_eq_ok, fdiv_eq_ok] at h
    obtain ⟨_, ⟨_, rfl⟩, _, ⟨_, rfl⟩, _, ⟨_, rfl⟩, _, ⟨_, rfl⟩, rfl⟩ := h
    simp only [fillGapLoop_spec]
    exact ⟨rfl, rfl⟩
  · simp only [pure_eq_ok] at h
    subst h
    exact ⟨rfl, rfl⟩

theorem recordOutput_config (I : ℚ) (s : BPSAMPLER) (out : BPSAMPLER × List Record)
    (h : RecordOutput I s = .ok out) : SameConfig s out.1 := by
  unfold RecordOutput at h
  simp only [bind_eq_ok, pure_eq_ok, fdiv_eq_ok, idiv_eq_ok] at h
  obtain ⟨_, ⟨_, rfl⟩, _, ⟨_, rfl⟩, _, ⟨_, rfl⟩, out1, h1, rfl⟩ := h
  have hc := fillGap_config I _ out1 h1
  exact hc

theorem wallClockFill_config (t I step : ℚ) (s : BPSAMPLER) (out : BPSAMPLER × List Record)
    (h : wallClockFill t I step s = .ok out) : SameConfig s out.1 := by
  obtain ⟨n, e, _, _⟩ := wallClockFill_spec t I step s out h
  rw [e]
  exact ⟨rfl, rfl⟩

theorem recordOrCatchUp_config (c : Consts) (ro I step t : ℚ) (s : BPSAMPLER)
    (out : BPSAMPLER × List Record) (h : recordOrCatchUp c ro I step t s = .ok out) :
    SameConfig s out.1 := by
  unfold recordOrCatchUp at h
  split at h
  · exact recordOutput_config ro s out h
  · exact wallClockFill_config t I step s out h

theorem decode_config (c : Consts) (v : Variant) (ro : ℚ) (d : Decoder) (t : ℚ) (p : Payload)
    (d1 : Decoder) (rs : List Record) (h : v.Decode c ro d t p = .ok (d1, rs)) :
    SameConfig d.stState d1.stState := by
  cases v
  all_goals
    simp only [Variant.Decode] at h
    first
      | unfold DecodePowerOnly at h
      | unfold DecodeWheelTorque at h
      | unfold DecodeCrankTorque at h
      | unfold DecodeCrankTorqueFreq at h
    simp only [bind_eq_ok, pure_eq_ok, Prod.mk.injEq] at h
    obtain ⟨s2, hs2, out, hout, rfl, rfl⟩ := h
    have hb : SameBase d.stState s2 := by
      first
        | exact (po_update_spec c d.stState s2 p hs2).1
        | exact (wt_update_spec c d.stState s2 p hs2).1
        | exact (ct_update_spec c d.stState s2 p hs2).1
        | exact (ctf_update_spec c d.stState s2 p hs2).1
    have hc := recordOrCatchUp_config c _ _ _ _ s2 out hout
    exact ⟨hc.1.trans hb.2.2.2.1, hc.2.trans hb.2.2.2.2.1⟩

theorem resync_config (c : Consts) (v : Variant) (ro : ℚ) (d : Decoder) (t : ℚ) (p : Payload)
    (d1 : Decoder) (rs : List Record) (h : v.Resync c ro d t p = .ok (d1, rs)) :
    SameConfig d.stState d1.stState := by
  cases v
  all_goals
    simp only [Variant.Resync] at h
    first
      | unfold DecodePowerOnly_Resync at h
      | unfold DecodeWheelTorque_Resync at h
      | unfold DecodeCrankTorque_Resync at h
      | unfold DecodeCrankTorqueFreq_Resync at h
    simp only [bind_eq_ok, pure_eq_ok, fdiv_eq_ok, Prod.mk.injEq] at h
    obtain ⟨_, ⟨hI, rfl⟩, out, hout, rfl, rfl⟩ := h
    split at hout
    · simp only [bind_eq_ok] at hout
      obtain ⟨n, _, hfill⟩ := hout
      unfold resyncCatchUp at hfill
      have hc := fillGap_config ro _ out hfill
      exact hc
    · simp only [pure_eq_ok] at hout
      subst hout
      exact ⟨rfl, rfl⟩

/-- A message handler call leaves the intervals of the decoder as they are. -/
theorem message_config (c : Consts) (v : Variant) (ro : ℚ) (d : Decoder) (t : ℚ) (p : Payload)
    (d1 : Decoder) (rs : List Record) (h : v.Message c ro d t p = .ok (d1, rs)) :
    SameConfig d.stState d1.stState ∧ d1.dRecordInterval = d.dRecordInterval
      ∧ d1.dReSyncInterval = d.dReSyncInterval := by
  have key : ∀ d2, (if t - d.stState.dLastMessageTime > d.dReSyncInterval
      then v.Resync c ro d t p else v.Decode c ro d t p) = .ok (d2, rs) →
      SameConfig d.stState d2.stState ∧ d2.dRecordInterval = d.dRecordInterval
        ∧ d2.dReSyncInterval = d.dReSyncInterval := by
    intro d2 h2
    by_cases hr : t - d.stState.dLastMessageTime > d.dReSyncInterval
    · rw [if_pos hr] at h2
      obtain ⟨_, out, _, _, _, e1, e2, _⟩ := resync_inv c v ro d t p d2 rs h2
      exact ⟨resync_config c v ro d t p d2 rs h2, e1, e2⟩
    · rw [if_neg hr] at h2
      obtain ⟨s2, out, _, _, _, e1, e2, _⟩ := decode_inv c v ro d t p d2 rs h2
      exact ⟨decode_config c v ro d t p d2 rs h2, e1, e2⟩
  cases v
  all_goals
    simp only [Variant.Message] at h
    first
      | unfold DecodePowerOnly_Message at h
      | unfold DecodeWheelTorque_Message at h
      | unfold DecodeCrankTorque_Message at h
      | unfold DecodeCrankTorqueFreq_Message at h
    split at h
    · simp only [bind_eq_ok, pure_eq_ok, Prod.mk.injEq] at h
      obtain ⟨out, hout, rfl, rfl⟩ := h
      exact key out.1 hout
    · simp only [pure_eq_ok, Prod.mk.injEq] at h
      obtain ⟨rfl, rfl⟩ := h
      exact ⟨⟨rfl, rfl⟩, rfl, rfl⟩

/-- The step of the wall-clock catch-up only depends on the intervals of the decoder. -/
theorem catchUpStep_congr (c : Consts) (v : Variant) (d d1 : Decoder)
    (h1 : SameConfig d.stState d1.stState) (h2 : d1.dRecordInterval = d.dRecordInterval) :
    v.catchUpStep c d1 = v.catchUpStep c d := by
  cases v <;> simp only [Variant.catchUpStep, h1.1, h2]

/-! ## The record stream of a decoder -/

/-- Stamps of the records of one message handler call, with the record clock left behind
when the call did not resync. -/
theorem message_stamps (c : Consts) (v : Variant) (d : Decoder) (t : ℚ) (p : Payload)
    (d1 : Decoder) (rs : List Record)
    (hstep : v.catchUpStep c d = d.dRecordInterval)
    (h : v.Message c d.dRecordInterval d t p = .ok (d1, rs)) :
    ∃ t1, SpacedStamps d.dRecordInterval d.stState.dLastRecordTime rs t1
      ∧ (¬ (t - d.stState.dLastMessageTime > d.dReSyncInterval) →
          d1.stState.dLastRecordTime = t1) := by
  rcases message_inv c v _ d t p d1 rs h with ⟨_, rfl, rfl⟩ | ⟨_, d2, h2, _, _, hl, _, _, _⟩
  · exact ⟨_, rfl, fun _ => rfl⟩
  · by_cases hr : t - d.stState.dLastMessageTime > d.dReSyncInterval
    · rw [if_pos hr] at h2
      obtain ⟨_, out, hs, _, rfl, _⟩ := resync_inv c v _ d t p d2 _ h2
      exact ⟨_, hs, fun hn => absurd hr hn⟩
    · rw [if_neg hr] at h2
      obtain ⟨s2, out, hu, ho, rfl, _, _, hl2, _⟩ := decode_inv c v _ d t p d2 _ h2
      rw [hstep] at ho
      have hs := recordOrCatchUp_stamps c _ _ t s2 out ho
      have hb := (update_spec c v d.stState s2 p hu).1
      unfold Stamped at hs
      rw [hb.1] at hs
      exact ⟨_, hs, fun _ => by rw [hl, hl2]⟩

/-- Totals through the records of one message handler call. -/
theorem message_totals (c : Consts) (v : Variant) (ro : ℚ) (d : Decoder) (t : ℚ) (p : Payload)
    (d1 : Decoder) (rs : List Record) (hnn : NonNeg d.stState)
    (h : v.Message c ro d t p = .ok (d1, rs)) :
    MonoTotals (d.stState.dTotalEnergy, d.stState.dTotalRotation) rs
      (d1.stState.dTotalEnergy, d1.stState.dTotalRotation)
    ∧ NonNeg d1.stState := by
  rcases message_inv c v _ d t p d1 rs h with ⟨_, rfl, rfl⟩ | ⟨_, d2, h2, _, _, _, hE, hR, hn⟩
  · exact ⟨mono_refl _, hnn⟩
  · rw [hE, hR]
    by_cases hr : t - d.stState.dLastMessageTime > d.dReSyncInterval
    · rw [if_pos hr] at h2
      obtain ⟨_, out, _, ht, rfl, _, _, hE2, hR2, _, _, hn2⟩ := resync_inv c v _ d t p d2 _ h2
      rw [hE2, hR2]
      exact ⟨(ht hnn).1, hn hn2⟩
    · rw [if_neg hr] at h2
      obtain ⟨s2, out, hu, ho, rfl, _, _, _, hE2, hR2, hn2⟩ := decode_inv c v _ d t p d2 _ h2
      obtain ⟨hb, hnn2⟩ := update_spec c v d.stState s2 p hu
      have ht := recordOrCatchUp_totals c _ _ _ t s2 out ho (hnn2 hnn)
      rw [hb.2.1, hb.2.2.1] at ht
      rw [hE2, hR2]
      exact ⟨ht.1, hn (hn2 ht.2)⟩

/-- C1 (as stated, refuted): after `InitPowerDecoder` with a one second record interval, the
Power-Only pages of `silenceFrames` make the record sink receive the stamps 1 s and 301 s:
after 299 s of silence, beyond the maximum-gap ceiling, the decoder resyncs without filling
the gap, so the second stamp is not one record interval after the first.  With a ceiling as
large as 100000 s the gap is filled, but the 8-bit gap count holds 299 mod 256 = 43, so the
stamps are 1 s, 2 s, ..., 44 s and then 301 s. -/
theorem C1_resync_breaks_spacing_counterexample :
    Except.map (fun out => out.2.map Record.timestamp)
        (decodeAll defaultConsts session1 silenceFrames) = .ok [1, 301]
    ∧ ¬ List.Chain' (fun a b : ℚ => b = a + 1) [1, 301]
    ∧ Except.map (fun out => out.2.map Record.timestamp)
        (decodeAll wideGapConsts (InitPowerDecoder wideGapConsts Session.initial 1 0 10)
          silenceFrames)
        = .ok ((List.range 44).map (fun k => ((k + 1 : Nat) : ℚ)) ++ [301])
    ∧ ¬ List.Chain' (fun a b : ℚ => b = a + 1)
        ((List.range 44).map (fun k => ((k + 1 : Nat) : ℚ)) ++ [301]) := by
  refine ⟨by decide!, ?_, by decide!, ?_⟩
  · simp only [List.chain'_cons, List.chain'_singleton, and_true]
    norm_num
  · intro h
    rw [List.chain'_append] at h
    have h2 := h.2.2 44 (by decide!) 301 (by simp)
    norm_num at h2

/-- C1 (amended): for every decoder with a positive record interval `I` whose wall-clock
catch-up step equals `I`, the records one call of the message handler hands to the sink,
whether they come from emit, gap-fill, a resync catch-up or the wall-clock filler, are
stamped `dLastRecordTime + k * I` for `k = 1, 2, ...`: every stamp is exactly `I` after the
previous one (the first one `I` after the decoder's last record time) and the stamps are
strictly increasing.  When the call does not resync, it leaves `dLastRecordTime` at the last
stamp, and the decoder keeps its record interval and its catch-up step, so the spacing
continues into the next call. -/
theorem C1_timestamps_spaced_within_decoder (c : Consts) (v : Variant) (d : Decoder) (t : ℚ)
    (p : Payload) (d1 : Decoder) (rs : List Record)
    (hI : 0 < d.dRecordInterval)
    (hstep : v.catchUpStep c d = d.dRecordInterval)
    (h : v.Message c d.dRecordInterval d t p = .ok (d1, rs)) :
    List.Chain (fun a b => b = a + d.dRecordInterval) d.stState.dLastRecordTime
        (rs.map Record.timestamp)
    ∧ List.Chain (· < ·) d.stState.dLastRecordTime (rs.map Record.timestamp)
    ∧ rs.map Record.timestamp = (List.range rs.length).map
        (fun k => d.stState.dLastRecordTime + ((k + 1 : Nat) : ℚ) * d.dRecordInterval)
    ∧ (¬ (t - d.stState.dLastMessageTime > d.dReSyncInterval) →
        d1.stState.dLastRecordTime
          = d.stState.dLastRecordTime + rs.length * d.dRecordInterval)
    ∧ d1.dRecordInterval = d.dRecordInterval
    ∧ v.catchUpStep c d1 = d1.dRecordInterval := by
  obtain ⟨t1, hs, hl⟩ := message_stamps c v d t p d1 rs hstep h
  have hc := spaced_chain _ _ _ _ hs
  obtain ⟨e1, e2⟩ := spaced_closed _ _ _ _ hs
  obtain ⟨g1, g2, _⟩ := message_config c v _ d t p d1 rs h
  exact ⟨hc, chain_lt_of_spaced _ hI _ _ hc, e2, fun hn => by rw [hl hn, e1], g2,
    by rw [catchUpStep_congr c v d d1 g1 g2, hstep, g2]⟩

theorem C1_timestamps_spaced_within_decoder_witness :
    0 < resyncDecoder.dRecordInterval
    ∧ Variant.powerOnly.catchUpStep defaultConsts resyncDecoder = resyncDecoder.dRecordInterval
    ∧ Variant.powerOnly.Message defaultConsts resyncDecoder.dRecordInterval resyncDecoder
        (7 / 2) steadyPage = .ok (steadyAfter, [steadyRecord])
    ∧ List.Chain (fun a b => b = a + resyncDecoder.dRecordInterval)
        resyncDecoder.stState.dLastRecordTime ([steadyRecord].map Record.timestamp)
    ∧ List.Chain (· < ·) resyncDecoder.stState.dLastRecordTime
        ([steadyRecord].map Record.timestamp)
    ∧ [steadyRecord].map Record.timestamp = (List.range [steadyRecord].length).map
        (fun k => resyncDecoder.stState.dLastRecordTime
          + ((k + 1 : Nat) : ℚ) * resyncDecoder.dRecordInterval)
    ∧ (¬ (7 / 2 - resyncDecoder.stState.dLastMessageTime > resyncDecoder.dReSyncInterval) →
        steadyAfter.stState.dLastRecordTime
          = resyncDecoder.stState.dLastRecordTime
            + [steadyRecord].length * resyncDecoder.dRecordInterval)
    ∧ steadyAfter.dRecordInterval = resyncDecoder.dRecordInterval
    ∧ Variant.powerOnly.catchUpStep defaultConsts steadyAfter = steadyAfter.dRecordInterval :=
  ⟨by decide!, by decide!, by decide!,
    C1_timestamps_spaced_within_decoder defaultConsts .powerOnly resyncDecoder (7 / 2)
      steadyPage steadyAfter [steadyRecord] (by decide!) (by decide!) (by decide!)⟩

/-- C2 (as stated, refuted): after `InitPowerDecoder` with a one second record interval, the
pages of `typeChangeFrames` make the record sink receive the cumulative energy and rotation
pairs (100, 1), (100, 1) and then (0, 0): the first two records come from the Power-Only
decoder, the third one from the Wheel-Torque decoder that becomes active when the meter type
changes and reports its own totals. -/
theorem C2_type_change_decreases_totals_counterexample :
    Except.map (fun out => out.2.map (fun r => (r.cumulativeEnergy, r.cumulativeRotation)))
        (decodeAll defaultConsts session1 typeChangeFrames) = .ok [(100, 1), (100, 1), (0, 0)]
    ∧ ¬ List.Chain' (fun x y : ℚ × ℚ => x.1 ≤ y.1 ∧ x.2 ≤ y.2) [(100, 1), (100, 1), (0, 0)] := by
  refine ⟨by decide!, ?_⟩
  simp only [List.chain'_cons, List.chain'_singleton, and_true]
  norm_num

/-- C2 (amended): every decoder keeps its own totals.  Within one decoder whose energy and
rotation buckets are non-negative (as they are after `InitPowerDecoder`), every call of the
message handler hands the sink records whose cumulative energy and cumulative rotation never
decrease, from the decoder's totals before the call through every record to its totals after
the call, and leaves the buckets non-negative. -/
theorem C2_totals_nondecreasing_within_decoder (c : Consts) (v : Variant) (ro : ℚ)
    (d : Decoder) (t : ℚ) (p : Payload) (d1 : Decoder) (rs : List Record)
    (hnn : NonNeg d.stState) (h : v.Message c ro d t p = .ok (d1, rs)) :
    List.Chain (fun x y => x.1 ≤ y.1 ∧ x.2 ≤ y.2)
        (d.stState.dTotalEnergy, d.stState.dTotalRotation)
        (rs.map (fun r => (r.cumulativeEnergy, r.cumulativeRotation))
          ++ [(d1.stState.dTotalEnergy, d1.stState.dTotalRotation)])
    ∧ NonNeg d1.stState
    ∧ (∀ (ss : Session) (I tb rsy : ℚ),
        NonNeg (InitPowerDecoder c ss I tb rsy).po.stState
        ∧ NonNeg (InitPowerDecoder c ss I tb rsy).wt.stState
        ∧ NonNeg (InitPowerDecoder c ss I tb rsy).ct.stState
        ∧ NonNeg (InitPowerDecoder c ss I tb rsy).ctf.stState) := by
  obtain ⟨hm, hn⟩ := message_totals c v ro d t p d1 rs hnn h
  refine ⟨mono_chain _ _ _ hm, hn, ?_⟩
  intro ss I tb rsy
  simp [NonNeg, InitPowerDecoder, DecodePowerOnly_Init, DecodeWheelTorque_Init,
    DecodeCrankTorque_Init, DecodeCrankTorqueFreq_Init, ResamplerOutput_Init]

theorem C2_totals_nondecreasing_within_decoder_witness :
    NonNeg resyncDecoder.stState
    ∧ Variant.powerOnly.Message defaultConsts 1 resyncDecoder (7 / 2) steadyPage
        = .ok (steadyAfter, [steadyRecord])
    ∧ List.Chain (fun x y => x.1 ≤ y.1 ∧ x.2 ≤ y.2)
        (resyncDecoder.stState.dTotalEnergy, resyncDecoder.stState.dTotalRotation)
        ([steadyRecord].map (fun r => (r.cumulativeEnergy, r.cumulativeRotation))
          ++ [(steadyAfter.stState.dTotalEnergy, steadyAfter.stState.dTotalRotation)])
    ∧ NonNeg steadyAfter.stState :=
  ⟨by unfold NonNeg; decide!, by decide!,
    (C2_totals_nondecreasing_within_decoder defaultConsts .powerOnly 1 resyncDecoder (7 / 2)
      steadyPage steadyAfter [steadyRecord] (by unfold NonNeg; decide!) (by decide!)).1,
    (C2_totals_nondecreasing_within_decoder defaultConsts .powerOnly 1 resyncDecoder (7 / 2)
      steadyPage steadyAfter [steadyRecord] (by unfold NonNeg; decide!) (by decide!)).2.1⟩


/-! ## Resync: what is reset, what is stored from the frame -/

theorem word16_val (a b : Fin 256) : word16 a b = a.val + 256 * b.val := by
  unfold word16
  have ha := a.isLt
  have hb := b.isLt
  omega

/-- Every `_Resync` returns when the record intervals are not zero. -/
theorem resync_ok (c : Consts) (v : Variant) (ro : ℚ) (d : Decoder) (t : ℚ) (p : Payload)
    (hI : d.dRecordInterval ≠ 0) (hro : ro ≠ 0) : ∃ out, v.Resync c ro d t p = .ok out := by
  cases v
  all_goals
    simp only [Variant.Resync]
    first
      | unfold DecodePowerOnly_Resync
      | unfold DecodeWheelTorque_Resync
      | unfold DecodeCrankTorque_Resync
      | unfold DecodeCrankTorqueFreq_Resync
    rw [fdiv_ok _ _ hI]
    simp only [bind, Except.bind]
    split_ifs with hc
    · first
        | rw [resyncGapCount_ok _ _ hI]
        | rw [resyncGapCountWT_ok _ _ hI]
      simp only []
      obtain ⟨out, hout, _⟩ := resyncCatchUp_spec ro d.stState
        (toUChar (truncToInt _)) hro
      rw [hout]
      exact ⟨_, rfl⟩
    · exact ⟨_, rfl⟩

/-- What every `_Resync` leaves in the sampler. -/
theorem resync_fields (c : Consts) (v : Variant) (ro : ℚ) (d : Decoder) (t : ℚ) (p : Payload)
    (d1 : Decoder) (rs : List Record) (h : v.Resync c ro d t p = .ok (d1, rs)) :
    d1.stState.fAccumEnergy = 0 ∧ d1.stState.fPendingEnergy = 0 ∧ d1.stState.fGapEnergy = 0
    ∧ d1.stState.fAccumRotation = 0 ∧ d1.stState.fPendingRotation = 0
    ∧ d1.stState.fGapRotation = 0
    ∧ d1.stState.ucRecordGapCount = 0 ∧ d1.stState.ulEventTime = 0
    ∧ d1.stState.ulLastRecordTime = 0
    ∧ d1.stState.dLastMessageTime = t
    ∧ d1.stState.dLastRecordTime = recordEpoch d.dRecordInterval t
    ∧ d1.stState.ucLastEventCount = p.b1.val
    ∧ d1.stState.ucLastRotationTicks = v.frameTicks p
    ∧ d1.stState.usLastAccumTorque = v.frameTorque p
    ∧ d1.stState.usLastAccumPeriod = v.framePeriod p := by
  cases v
  all_goals
    simp only [Variant.Resync] at h
    first
      | unfold DecodePowerOnly_Resync at h
      | unfold DecodeWheelTorque_Resync at h
      | unfold DecodeCrankTorque_Resync at h
      | unfold DecodeCrankTorqueFreq_Resync at h
    simp only [bind_eq_ok, pure_eq_ok, fdiv_eq_ok, Prod.mk.injEq] at h
    obtain ⟨_, ⟨hI, rfl⟩, out, hout, rfl, rfl⟩ := h
    simp only [Variant.frameTicks, Variant.frameTorque, Variant.framePeriod, word16_val,
      recordEpoch, add_comm, and_self]

/-- A `_Resync` of a decoder that has no previous record emits nothing and changes neither
the totals nor the configuration. -/
theorem resync_fresh (c : Consts) (v : Variant) (ro : ℚ) (d : Decoder) (t : ℚ) (p : Payload)
    (d1 : Decoder) (rs : List Record) (h : v.Resync c ro d t p = .ok (d1, rs))
    (h0 : d.stState.dLastRecordTime = 0) :
    rs = [] ∧ d1.stState.dTotalEnergy = d.stState.dTotalEnergy
    ∧ d1.stState.dTotalRotation = d.stState.dTotalRotation
    ∧ d1.dRecordInterval = d.dRecordInterval ∧ d1.dReSyncInterval = d.dReSyncInterval
    ∧ d1.stState.usRecordInterval = d.stState.usRecordInterval
    ∧ d1.stState.usTimeBase = d.stState.usTimeBase
    ∧ d1.stState.usTorqueOffset = d.stState.usTorqueOffset := by
  cases v
  all_goals
    simp only [Variant.Resync] at h
    first
      | unfold DecodePowerOnly_Resync at h
      | unfold DecodeWheelTorque_Resync at h
      | unfold DecodeCrankTorque_Resync at h
      | unfold DecodeCrankTorqueFreq_Resync at h
    simp only [bind_eq_ok, pure_eq_ok, fdiv_eq_ok, Prod.mk.injEq] at h
    obtain ⟨_, ⟨hI, rfl⟩, out, hout, rfl, rfl⟩ := h
    simp only [h0, ne_eq, not_true_eq_false, false_and, if_false, pure_eq_ok] at hout
    subst hout
    simp

/-- A frame that repeats the stored event count is dropped by every message handler. -/
theorem message_dup (c : Consts) (v : Variant) (ro : ℚ) (d : Decoder) (t : ℚ) (p : Payload)
    (h : d.stState.ucLastEventCount = p.b1.val) : v.Message c ro d t p = .ok (d, []) := by
  cases v <;>
    simp [Variant.Message, DecodePowerOnly_Message, DecodeWheelTorque_Message,
      DecodeCrankTorque_Message, DecodeCrankTorqueFreq_Message, h, pure, Except.pure]

/-- A second Power-Only resync with the same time and frame changes nothing. -/
theorem po_resync_again (c : Consts) (ro ro2 : ℚ) (d : Decoder) (t : ℚ) (p : Payload)
    (d1 : Decoder) (rs : List Record) (h : DecodePowerOnly_Resync c ro d t p = .ok (d1, rs)) :
    DecodePowerOnly_Resync c ro2 d1 t p = .ok (d1, []) := by
  unfold DecodePowerOnly_Resync at h
  simp only [bind_eq_ok, pure_eq_ok, fdiv_eq_ok, Prod.mk.injEq] at h
  obtain ⟨_, ⟨hI, rfl⟩, out, hout, rfl, rfl⟩ := h
  unfold DecodePowerOnly_Resync
  simp only [fdiv_ok _ _ hI, bind, Except.bind, sub_self, gt_iff_lt, lt_self_iff_false,
    false_and, and_false, if_false, pure, Except.pure]


/-! ## The dispatcher -/

/-- The first statement of `DecodePowerMessage` written with `bundleBaseline`. -/
theorem decodePowerMessage_baseline (c : Consts) (ss : Session) (t : ℚ) (p : Payload) :
    DecodePowerMessage c ss t p
      = DecodePowerMessage c { ss with dPowerOnlyBundleRxTime := bundleBaseline ss t } t p := by
  unfold DecodePowerMessage bundleBaseline
  by_cases h : ss.dPowerOnlyBundleRxTime < 0 ∨ t - ss.dPowerOnlyBundleRxTime > 30
  · by_cases h2 : t < 0 ∨ t - t > 30
    · simp only [if_pos h, if_pos h2]
    · simp only [if_pos h, if_neg h2]
  · simp only [if_neg h]

/-- C14: a payload whose tag byte is none of 0x10, 0x11, 0x12, 0x20, 0x13 and 0x01 makes
`DecodePowerMessage` return without a record; the active meter type, both resync flags, the
stored Power-Only event count and the four decoders are what they were (only the receive
time baseline is adjusted by the thirty second rule). -/
theorem C14_unrecognised_page_ignored (c : Consts) (ss : Session) (t : ℚ) (p : Payload)
    (h10 : p.b0.val ≠ 0x10) (h11 : p.b0.val ≠ 0x11) (h12 : p.b0.val ≠ 0x12)
    (h20 : p.b0.val ≠ 0x20) (h13 : p.b0.val ≠ 0x13) (h01 : p.b0.val ≠ 0x01) :
    ∃ ss1, DecodePowerMessage c ss t p = .ok (ss1, [])
      ∧ ss1 = { ss with dPowerOnlyBundleRxTime := bundleBaseline ss t }
      ∧ ss1.ucPowerMeterType = ss.ucPowerMeterType
      ∧ ss1.bResyncPowerChannel = ss.bResyncPowerChannel
      ∧ ss1.bResyncPowerOnlyChannel = ss.bResyncPowerOnlyChannel
      ∧ ss1.ucPowerOnlyEventCount = ss.ucPowerOnlyEventCount
      ∧ ss1.po = ss.po ∧ ss1.wt = ss.wt ∧ ss1.ct = ss.ct ∧ ss1.ctf = ss.ctf := by
  refine ⟨{ ss with dPowerOnlyBundleRxTime := bundleBaseline ss t }, ?_, rfl, rfl, rfl, rfl, rfl,
    rfl, rfl, rfl, rfl⟩
  unfold DecodePowerMessage bundleBaseline
  simp only [ANT_POWERONLY, ANT_WHEELTORQUE, ANT_CRANKTORQUE, ANT_CRANKFREQ, ANT_TEPS,
    ANT_CALIBRATION_MESSAGE, if_neg h10, if_neg h11, if_neg h12, if_neg h20, if_neg h13,
    if_neg h01]
  split <;> rfl

theorem C14_unrecognised_page_ignored_witness :
    unknownPage.b0.val ≠ 0x10 ∧ unknownPage.b0.val ≠ 0x11 ∧ unknownPage.b0.val ≠ 0x12
    ∧ unknownPage.b0.val ≠ 0x20 ∧ unknownPage.b0.val ≠ 0x13 ∧ unknownPage.b0.val ≠ 0x01
    ∧ ∃ ss1, DecodePowerMessage defaultConsts session1 4 unknownPage = .ok (ss1, [])
      ∧ ss1 = { session1 with dPowerOnlyBundleRxTime := bundleBaseline session1 4 }
      ∧ ss1.ucPowerMeterType = session1.ucPowerMeterType
      ∧ ss1.bResyncPowerChannel = session1.bResyncPowerChannel
      ∧ ss1.bResyncPowerOnlyChannel = session1.bResyncPowerOnlyChannel
      ∧ ss1.ucPowerOnlyEventCount = session1.ucPowerOnlyEventCount
      ∧ ss1.po = session1.po ∧ ss1.wt = session1.wt ∧ ss1.ct = session1.ct
      ∧ ss1.ctf = session1.ctf :=
  ⟨by decide, by decide, by decide, by decide, by decide, by decide,
    C14_unrecognised_page_ignored defaultConsts session1 4 unknownPage (by decide) (by decide)
      (by decide) (by decide) (by decide) (by decide)⟩


/-! ## The dispatcher, case by case -/

theorem decode_powerOnly_page (c : Consts) (ss : Session) (t : ℚ) (p : Payload)
    (h : p.b0.val = ANT_POWERONLY) :
    DecodePowerMessage c ss t p = dispatchPowerOnly c (afterBaseline ss t) t p := by
  unfold DecodePowerMessage afterBaseline bundleBaseline
  simp only [if_pos h]
  split <;> rfl

theorem decode_torque_page (c : Consts) (v : Variant) (ss : Session) (t : ℚ) (p : Payload)
    (hv : v ≠ .powerOnly) (h : p.b0.val = v.tag) :
    DecodePowerMessage c ss t p
      = dispatchTorque c v.decoder v.setDecoder v.Resync v.Message (afterBaseline ss t) t p := by
  unfold DecodePowerMessage afterBaseline bundleBaseline
  cases v
  · exact absurd rfl hv
  all_goals
    simp only [Variant.tag, ANT_WHEELTORQUE, ANT_CRANKTORQUE, ANT_CRANKFREQ] at h
    simp only [h, ANT_POWERONLY, ANT_WHEELTORQUE, ANT_CRANKTORQUE, ANT_CRANKFREQ,
      Nat.reduceEqDiff, if_false, if_true]
    split <;> rfl

theorem decode_teps_page (c : Consts) (ss : Session) (t : ℚ) (p : Payload)
    (h : p.b0.val = ANT_TEPS) :
    DecodePowerMessage c ss t p = .ok (correlateBundle (afterBaseline ss t) t p, []) := by
  unfold DecodePowerMessage afterBaseline bundleBaseline correlateBundle
  simp only [ANT_TEPS] at h
  simp only [h, ANT_POWERONLY, ANT_WHEELTORQUE, ANT_CRANKTORQUE, ANT_CRANKFREQ, ANT_TEPS,
    Nat.reduceEqDiff, if_false, if_true]
  split <;> split <;> rfl

theorem decode_calibration_page (c : Consts) (ss : Session) (t : ℚ) (p : Payload)
    (h : p.b0.val = ANT_CALIBRATION_MESSAGE) :
    DecodePowerMessage c ss t p
      = .ok (if ss.ucPowerMeterType = ANT_CRANKFREQ then
               { afterBaseline ss t with
                 ctf := DecodeCrankTorqueFreq_Calibration c ss.ctf t p }
             else afterBaseline ss t, []) := by
  unfold DecodePowerMessage afterBaseline bundleBaseline
  simp only [ANT_CALIBRATION_MESSAGE] at h
  simp only [h, ANT_POWERONLY, ANT_WHEELTORQUE, ANT_CRANKTORQUE, ANT_CRANKFREQ, ANT_TEPS,
    ANT_CALIBRATION_MESSAGE, Nat.reduceEqDiff, if_false, if_true]
  split <;> split <;> rfl

theorem decode_other_page (c : Consts) (ss : Session) (t : ℚ) (p : Payload)
    (h10 : p.b0.val ≠ ANT_POWERONLY) (h11 : p.b0.val ≠ ANT_WHEELTORQUE)
    (h12 : p.b0.val ≠ ANT_CRANKTORQUE) (h20 : p.b0.val ≠ ANT_CRANKFREQ)
    (h13 : p.b0.val ≠ ANT_TEPS) (h01 : p.b0.val ≠ ANT_CALIBRATION_MESSAGE) :
    DecodePowerMessage c ss t p = .ok (afterBaseline ss t, []) := by
  unfold DecodePowerMessage afterBaseline bundleBaseline
  simp only [if_neg h10, if_neg h11, if_neg h12, if_neg h20, if_neg h13, if_neg h01]
  split <;> rfl

/-- The Power-Only case written with `correlateBundle`. -/
theorem dispatchPowerOnly_eq (c : Consts) (ss0 : Session) (t : ℚ) (p : Payload) :
    dispatchPowerOnly c ss0 t p = (do
      let ss2 := correlateBundle ss0 t p
      let r3 ← (
        if ss2.ucPowerMeterType = 255 then do
          let out ← DecodePowerOnly_Resync c ss2.roRecordInterval ss2.po
            ss2.dPowerOnlyBundleRxTime p
          pure ({ ss2 with ucPowerMeterType := p.b0.val, po := out.1 }, out.2)
        else pure (ss2, []))
      let r4 ← (
        if r3.1.bResyncPowerOnlyChannel then do
          let out ← DecodePowerOnly_Resync c r3.1.roRecordInterval r3.1.po
            r3.1.dPowerOnlyBundleRxTime p
          pure ({ r3.1 with po := out.1, bResyncPowerOnlyChannel := false }, out.2)
        else pure (r3.1, []))
      let r5 ← (
        if r4.1.ucPowerMeterType = ANT_POWERONLY then do
          let out ← DecodePowerOnly_Message c r4.1.roRecordInterval r4.1.po
            r4.1.dPowerOnlyBundleRxTime p
          pure ({ r4.1 with po := out.1 }, out.2)
        else pure (r4.1, []))
      pure (r5.1, r3.2 ++ r4.2 ++ r5.2)) := by
  unfold dispatchPowerOnly correlateBundle
  rfl


theorem setDecoder_fields (v : Variant) (ss : Session) (d : Decoder) :
    (v.setDecoder ss d).ucPowerOnlyEventCount = ss.ucPowerOnlyEventCount
    ∧ (v.setDecoder ss d).dPowerOnlyBundleRxTime = ss.dPowerOnlyBundleRxTime
    ∧ (v.setDecoder ss d).ucPowerMeterType = ss.ucPowerMeterType
    ∧ (v.setDecoder ss d).roRecordInterval = ss.roRecordInterval
    ∧ (v.setDecoder ss d).bResyncPowerChannel = ss.bResyncPowerChannel
    ∧ (v.setDecoder ss d).bResyncPowerOnlyChannel = ss.bResyncPowerOnlyChannel
    ∧ v.decoder (v.setDecoder ss d) = d := by
  cases v <;> exact ⟨rfl, rfl, rfl, rfl, rfl, rfl, rfl⟩

/-- The dispatcher fields after a torque page: the page's tag is the active type, the
torque resync flag is clear, the event-count correlation is untouched. -/
theorem dispatchTorque_session (c : Consts) (v : Variant)
    (R M : Consts → ℚ → Decoder → ℚ → Payload → Except Fault (Decoder × List Record))
    (ss0 : Session) (t : ℚ) (p : Payload) (ss1 : Session) (rs : List Record)
    (h : dispatchTorque c v.decoder v.setDecoder R M ss0 t p = .ok (ss1, rs)) :
    ss1.ucPowerOnlyEventCount = ss0.ucPowerOnlyEventCount
    ∧ ss1.dPowerOnlyBundleRxTime = ss0.dPowerOnlyBundleRxTime
    ∧ ss1.ucPowerMeterType = p.b0.val
    ∧ ss1.roRecordInterval = ss0.roRecordInterval
    ∧ ss1.bResyncPowerChannel = false := by
  unfold dispatchTorque at h
  simp only [bind_eq_ok, pure_eq_ok, Prod.mk.injEq] at h
  obtain ⟨r1, h1, r2, h2, outM, hM, rfl, rfl⟩ := h
  have e1 : r1.1.ucPowerOnlyEventCount = ss0.ucPowerOnlyEventCount
      ∧ r1.1.dPowerOnlyBundleRxTime = ss0.dPowerOnlyBundleRxTime
      ∧ r1.1.ucPowerMeterType = p.b0.val
      ∧ r1.1.roRecordInterval = ss0.roRecordInterval := by
    split at h1
    · simp only [bind_eq_ok, pure_eq_ok] at h1
      obtain ⟨outPo, _, outT, _, rfl⟩ := h1
      simp only [(setDecoder_fields v _ _).1, (setDecoder_fields v _ _).2.1,
        (setDecoder_fields v _ _).2.2.2.1, and_self]
    · rename_i hty
      simp only [pure_eq_ok] at h1
      subst h1
      exact ⟨rfl, rfl, by simpa using hty, rfl⟩
  have e2 : r2.1.ucPowerOnlyEventCount = r1.1.ucPowerOnlyEventCount
      ∧ r2.1.dPowerOnlyBundleRxTime = r1.1.dPowerOnlyBundleRxTime
      ∧ r2.1.ucPowerMeterType = r1.1.ucPowerMeterType
      ∧ r2.1.roRecordInterval = r1.1.roRecordInterval
      ∧ r2.1.bResyncPowerChannel = false := by
    split at h2
    · simp only [bind_eq_ok, pure_eq_ok] at h2
      obtain ⟨outT, _, rfl⟩ := h2
      simp only [(setDecoder_fields v _ _).1, (setDecoder_fields v _ _).2.1,
        (setDecoder_fields v _ _).2.2.1, (setDecoder_fields v _ _).2.2.2.1, and_self]
    · rename_i hfl
      simp only [pure_eq_ok] at h2
      subst h2
      exact ⟨rfl, rfl, rfl, rfl, by simpa using hfl⟩
  obtain ⟨a1, a2, a3, a4⟩ := e1
  obtain ⟨b1, b2, b3, b4, b5⟩ := e2
  obtain ⟨s1, s2, s3, s4, s5, _, _⟩ := setDecoder_fields v r2.1 outM.1
  exact ⟨by rw [s1, b1, a1], by rw [s2, b2, a2], by rw [s3, b3, a3], by rw [s4, b4, a4],
    by rw [s5, b5]⟩

/-- The dispatcher fields after a Power-Only page. -/
theorem dispatchPowerOnly_session (c : Consts) (ss0 : Session) (t : ℚ) (p : Payload)
    (ss1 : Session) (rs : List Record) (h : dispatchPowerOnly c ss0 t p = .ok (ss1, rs)) :
    ss1.ucPowerOnlyEventCount = (correlateBundle ss0 t p).ucPowerOnlyEventCount
    ∧ ss1.dPowerOnlyBundleRxTime = (correlateBundle ss0 t p).dPowerOnlyBundleRxTime
    ∧ ss1.ucPowerMeterType = (if ss0.ucPowerMeterType = 255 then p.b0.val
        else ss0.ucPowerMeterType)
    ∧ ss1.roRecordInterval = ss0.roRecordInterval := by
  rw [dispatchPowerOnly_eq] at h
  simp only [bind_eq_ok, pure_eq_ok, Prod.mk.injEq] at h
  obtain ⟨r3, h3, r4, h4, r5, h5, rfl, rfl⟩ := h
  have c0 : (correlateBundle ss0 t p).ucPowerMeterType = ss0.ucPowerMeterType
      ∧ (correlateBundle ss0 t p).roRecordInterval = ss0.roRecordInterval := by
    unfold correlateBundle
    split <;> exact ⟨rfl, rfl⟩
  have e3 : r3.1.ucPowerOnlyEventCount = (correlateBundle ss0 t p).ucPowerOnlyEventCount
      ∧ r3.1.dPowerOnlyBundleRxTime = (correlateBundle ss0 t p).dPowerOnlyBundleRxTime
      ∧ r3.1.ucPowerMeterType = (if ss0.ucPowerMeterType = 255 then p.b0.val
          else ss0.ucPowerMeterType)
      ∧ r3.1.roRecordInterval = ss0.roRecordInterval := by
    split at h3
    · rename_i hty
      simp only [bind_eq_ok, pure_eq_ok] at h3
      obtain ⟨out, _, rfl⟩ := h3
      rw [c0.1] at hty
      exact ⟨rfl, rfl, by simp [hty], c0.2⟩
    · rename_i hty
      simp only [pure_eq_ok] at h3
      subst h3
      rw [c0.1] at hty
      exact ⟨rfl, rfl, by simp [hty, c0.1], c0.2⟩
  have e4 : r4.1.ucPowerOnlyEventCount = r3.1.ucPowerOnlyEventCount
      ∧ r4.1.dPowerOnlyBundleRxTime = r3.1.dPowerOnlyBundleRxTime
      ∧ r4.1.ucPowerMeterType = r3.1.ucPowerMeterType
      ∧ r4.1.roRecordInterval = r3.1.roRecordInterval := by
    split at h4
    · simp only [bind_eq_ok, pure_eq_ok] at h4
      obtain ⟨out, _, rfl⟩ := h4
      exact ⟨rfl, rfl, rfl, rfl⟩
    · simp only [pure_eq_ok] at h4
      subst h4
      exact ⟨rfl, rfl, rfl, rfl⟩
  have e5 : r5.1.ucPowerOnlyEventCount = r4.1.ucPowerOnlyEventCount
      ∧ r5.1.dPowerOnlyBundleRxTime = r4.1.dPowerOnlyBundleRxTime
      ∧ r5.1.ucPowerMeterType = r4.1.ucPowerMeterType
      ∧ r5.1.roRecordInterval = r4.1.roRecordInterval := by
    split at h5
    · simp only [bind_eq_ok, pure_eq_ok] at h5
      obtain ⟨out, _, rfl⟩ := h5
      exact ⟨rfl, rfl, rfl, rfl⟩
    · simp only [pure_eq_ok] at h5
      subst h5
      exact ⟨rfl, rfl, rfl, rfl⟩
  obtain ⟨a1, a2, a3, a4⟩ := e3
  obtain ⟨b1, b2, b3, b4⟩ := e4
  obtain ⟨d1, d2, d3, d4⟩ := e5
  exact ⟨by rw [d1, b1, a1], by rw [d2, b2, a2], by rw [d3, b3, a3], by rw [d4, b4, a4]⟩


theorem correlateBundle_fields (ss0 : Session) (t : ℚ) (p : Payload) :
    (correlateBundle ss0 t p).ucPowerMeterType = ss0.ucPowerMeterType
    ∧ (correlateBundle ss0 t p).roRecordInterval = ss0.roRecordInterval
    ∧ (correlateBundle ss0 t p).bResyncPowerOnlyChannel = ss0.bResyncPowerOnlyChannel
    ∧ (correlateBundle ss0 t p).bResyncPowerChannel = ss0.bResyncPowerChannel
    ∧ (correlateBundle ss0 t p).po = ss0.po ∧ (correlateBundle ss0 t p).wt = ss0.wt
    ∧ (correlateBundle ss0 t p).ct = ss0.ct ∧ (correlateBundle ss0 t p).ctf = ss0.ctf := by
  unfold correlateBundle
  split <;> exact ⟨rfl, rfl, rfl, rfl, rfl, rfl, rfl, rfl⟩

/-- A torque page whose tag is not the active type: both decoders are resynced, the frame
itself is then a duplicate for the message handler. -/
theorem dispatchTorque_type_change (c : Consts) (v : Variant) (ss0 : Session) (t : ℚ)
    (p : Payload) (hv : v ≠ .powerOnly) (hty : ss0.ucPowerMeterType ≠ p.b0.val)
    (dpo dv : Decoder) (rpo rv : List Record)
    (hpo : DecodePowerOnly_Resync c ss0.roRecordInterval ss0.po t p = .ok (dpo, rpo))
    (hT : v.Resync c ss0.roRecordInterval (v.decoder ss0) t p = .ok (dv, rv)) :
    dispatchTorque c v.decoder v.setDecoder v.Resync v.Message ss0 t p
      = .ok (v.setDecoder { ss0 with po := dpo, bResyncPowerOnlyChannel := false,
                                     bResyncPowerChannel := false,
                                     ucPowerMeterType := p.b0.val } dv, rpo ++ rv) := by
  have hev : dv.stState.ucLastEventCount = p.b1.val :=
    (resync_fields c v _ _ t p dv rv hT).2.2.2.2.2.2.2.2.2.2.2.1
  have hdup := message_dup c v ss0.roRecordInterval dv t p hev
  cases v
  · exact absurd rfl hv
  all_goals
    simp only [Variant.decoder, Variant.Resync, Variant.Message] at hT hdup
    unfold dispatchTorque
    simp only [Variant.decoder, Variant.setDecoder, Variant.Resync, Variant.Message, ne_eq,
      hty, not_false_eq_true, if_true, hpo, hT, hdup, bind, Except.bind, pure, Except.pure,
      Bool.false_eq_true, if_false, List.append_nil]

/-- A torque page of the active type while the torque resync flag is set: its decoder is
resynced, the frame itself is then a duplicate for the message handler. -/
theorem dispatchTorque_flag (c : Consts) (v : Variant) (ss0 : Session) (t : ℚ)
    (p : Payload) (hv : v ≠ .powerOnly) (hty : ss0.ucPowerMeterType = p.b0.val)
    (hfl : ss0.bResyncPowerChannel = true) (dv : Decoder) (rv : List Record)
    (hT : v.Resync c ss0.roRecordInterval (v.decoder ss0) t p = .ok (dv, rv)) :
    dispatchTorque c v.decoder v.setDecoder v.Resync v.Message ss0 t p
      = .ok (v.setDecoder { ss0 with bResyncPowerChannel := false } dv, rv) := by
  have hev : dv.stState.ucLastEventCount = p.b1.val :=
    (resync_fields c v _ _ t p dv rv hT).2.2.2.2.2.2.2.2.2.2.2.1
  have hdup := message_dup c v ss0.roRecordInterval dv t p hev
  cases v
  · exact absurd rfl hv
  all_goals
    simp only [Variant.decoder, Variant.Resync, Variant.Message] at hT hdup
    unfold dispatchTorque
    simp only [Variant.decoder, Variant.setDecoder, Variant.Resync, Variant.Message, ne_eq,
      hty, not_true_eq_false, if_true, hfl, hT, hdup, bind, Except.bind, pure, Except.pure,
      Bool.false_eq_true, if_false, List.append_nil, List.nil_append]

/-- A Power-Only page while the active type is unknown or the Power-Only resync flag is set:
the Power-Only decoder is resynced at the bundle receive time, the frame itself is then a
duplicate for the message handler. -/
theorem dispatchPowerOnly_resync (c : Consts) (ss0 : Session) (t : ℚ) (p : Payload)
    (hcond : ss0.ucPowerMeterType = 255 ∨ ss0.bResyncPowerOnlyChannel = true)
    (d1 : Decoder) (rs : List Record)
    (hres : DecodePowerOnly_Resync c ss0.roRecordInterval ss0.po
      (correlateBundle ss0 t p).dPowerOnlyBundleRxTime p = .ok (d1, rs)) :
    dispatchPowerOnly c ss0 t p
      = .ok ({ correlateBundle ss0 t p with
               ucPowerMeterType := if ss0.ucPowerMeterType = 255 then p.b0.val
                 else ss0.ucPowerMeterType,
               po := d1, bResyncPowerOnlyChannel := false }, rs) := by
  rw [dispatchPowerOnly_eq]
  obtain ⟨f1, f2, f3, _, f5, _, _, _⟩ := correlateBundle_fields ss0 t p
  rw [← f1, ← f3] at hcond
  rw [← f2, ← f5] at hres
  rw [← f1]
  generalize correlateBundle ss0 t p = ss2 at *
  have hev : d1.stState.ucLastEventCount = p.b1.val :=
    (resync_fields c .powerOnly _ _ _ p d1 rs hres).2.2.2.2.2.2.2.2.2.2.2.1
  have hdup : ∀ ro t2, DecodePowerOnly_Message c ro d1 t2 p = .ok (d1, []) :=
    fun ro t2 => message_dup c .powerOnly ro d1 t2 p hev
  have hagain := po_resync_again c _ ss2.roRecordInterval _ _ p d1 rs hres
  obtain ⟨po, ct, ctf, wt, ro, ty, fl, flpo, cnt, bt, nw⟩ := ss2
  simp only at hcond hres hagain
  clear f1 f2 f3 f5
  by_cases h255 : ty = 255
  · subst h255
    cases flpo
    · simp only [if_true, hres, bind, Except.bind, pure, Except.pure, Bool.false_eq_true,
        if_false, List.append_nil]
      split_ifs <;> simp only [hdup, List.append_nil]
    · simp only [if_true, hres, hagain, bind, Except.bind, pure, Except.pure,
        List.append_nil]
      split_ifs <;> simp only [hdup, List.append_nil]
  · have hfl : flpo = true := by
      rcases hcond with h | h
      · exact absurd h h255
      · exact h
    subst hfl
    simp only [if_neg h255, if_true, hres, bind, Except.bind, pure, Except.pure,
      List.nil_append]
    split_ifs <;> simp only [hdup, List.append_nil]


/-- A Power-Only page when the active type is known and the Power-Only resync flag is
clear: the message handler runs only if the active type is Power-Only. -/
theorem dispatchPowerOnly_steady (c : Consts) (ss0 : Session) (t : ℚ) (p : Payload)
    (hty : ss0.ucPowerMeterType ≠ 255) (hfl : ss0.bResyncPowerOnlyChannel = false) :
    dispatchPowerOnly c ss0 t p
      = if ss0.ucPowerMeterType = ANT_POWERONLY then
          (DecodePowerOnly_Message c ss0.roRecordInterval ss0.po
            (correlateBundle ss0 t p).dPowerOnlyBundleRxTime p).map
            (fun out => ({ correlateBundle ss0 t p with po := out.1 }, out.2))
        else .ok (correlateBundle ss0 t p, []) := by
  rw [dispatchPowerOnly_eq]
  obtain ⟨f1, f2, f3, _, f5, _, _, _⟩ := correlateBundle_fields ss0 t p
  rw [← f1] at hty
  rw [← f3] at hfl
  rw [← f1, ← f2, ← f5]
  generalize correlateBundle ss0 t p = ss2 at *
  simp only [if_neg hty, hfl, bind, Except.bind, pure, Except.pure, Bool.false_eq_true,
    if_false, List.nil_append]
  split_ifs
  · cases DecodePowerOnly_Message c ss2.roRecordInterval ss2.po ss2.dPowerOnlyBundleRxTime p
    · rfl
    · rfl
  · rfl

theorem baseline_le (ss : Session) (t : ℚ) : t - bundleBaseline ss t ≤ 30 := by
  unfold bundleBaseline
  split_ifs with h
  · simp
  · push_neg at h
    exact h.2

/-- The event-count correlation after any `DecodePowerMessage` call. -/
theorem decode_session (c : Consts) (ss : Session) (t : ℚ) (p : Payload) (ss1 : Session)
    (rs : List Record) (h : DecodePowerMessage c ss t p = .ok (ss1, rs)) :
    ((p.b0.val = ANT_POWERONLY ∨ p.b0.val = ANT_TEPS) ∧ p.b1.val ≠ ss.ucPowerOnlyEventCount →
      ss1.ucPowerOnlyEventCount = p.b1.val ∧ ss1.dPowerOnlyBundleRxTime = t)
    ∧ (¬ ((p.b0.val = ANT_POWERONLY ∨ p.b0.val = ANT_TEPS)
          ∧ p.b1.val ≠ ss.ucPowerOnlyEventCount) →
      ss1.ucPowerOnlyEventCount = ss.ucPowerOnlyEventCount
      ∧ ss1.dPowerOnlyBundleRxTime = bundleBaseline ss t) := by
  have hcor : ∀ q : Payload,
      (q.b1.val ≠ ss.ucPowerOnlyEventCount →
        (correlateBundle (afterBaseline ss t) t q).ucPowerOnlyEventCount = q.b1.val
        ∧ (correlateBundle (afterBaseline ss t) t q).dPowerOnlyBundleRxTime = t)
      ∧ (¬ q.b1.val ≠ ss.ucPowerOnlyEventCount →
        (correlateBundle (afterBaseline ss t) t q).ucPowerOnlyEventCount
          = ss.ucPowerOnlyEventCount
        ∧ (correlateBundle (afterBaseline ss t) t q).dPowerOnlyBundleRxTime
          = bundleBaseline ss t) := by
    intro q
    unfold correlateBundle afterBaseline
    constructor
    · intro hne
      simp only [hne, ne_eq, not_false_eq_true, if_true, and_self]
    · intro hne
      simp only [hne, if_false, and_self]
  by_cases h10 : p.b0.val = ANT_POWERONLY
  · rw [decode_powerOnly_page c ss t p h10] at h
    obtain ⟨e1, e2, _, _⟩ := dispatchPowerOnly_session c _ t p ss1 rs h
    rw [e1, e2]
    simp only [h10, true_or, true_and]
    exact hcor p
  by_cases h13 : p.b0.val = ANT_TEPS
  · rw [decode_teps_page c ss t p h13] at h
    simp only [Except.ok.injEq, Prod.mk.injEq] at h
    obtain ⟨rfl, _⟩ := h
    simp only [h13, or_true, true_and]
    exact hcor p
  have hno : ¬ ((p.b0.val = ANT_POWERONLY ∨ p.b0.val = ANT_TEPS)
      ∧ p.b1.val ≠ ss.ucPowerOnlyEventCount) := by
    rintro ⟨h1 | h1, _⟩
    · exact h10 h1
    · exact h13 h1
  refine ⟨fun hyes => absurd hyes hno, fun _ => ?_⟩
  have htorque : ∀ v : Variant, v ≠ .powerOnly → p.b0.val = v.tag →
      ss1.ucPowerOnlyEventCount = ss.ucPowerOnlyEventCount
      ∧ ss1.dPowerOnlyBundleRxTime = bundleBaseline ss t := by
    intro v hv hp
    rw [decode_torque_page c v ss t p hv hp] at h
    obtain ⟨e1, e2, _⟩ := dispatchTorque_session c v _ _ _ t p ss1 rs h
    exact ⟨e1, e2⟩
  by_cases h11 : p.b0.val = ANT_WHEELTORQUE
  · exact htorque .wheelTorque (by decide) h11
  by_cases h12 : p.b0.val = ANT_CRANKTORQUE
  · exact htorque .crankTorque (by decide) h12
  by_cases h20 : p.b0.val = ANT_CRANKFREQ
  · exact htorque .crankTorqueFreq (by decide) h20
  by_cases h01 : p.b0.val = ANT_CALIBRATION_MESSAGE
  · rw [decode_calibration_page c ss t p h01] at h
    simp only [Except.ok.injEq, Prod.mk.injEq] at h
    obtain ⟨rfl, _⟩ := h
    split <;> exact ⟨rfl, rfl⟩
  · rw [decode_other_page c ss t p h10 h11 h12 h20 h13 h01] at h
    simp only [Except.ok.injEq, Prod.mk.injEq] at h
    obtain ⟨rfl, _⟩ := h
    exact ⟨rfl, rfl⟩

/-- C19: after every `DecodePowerMessage` call that returns, whatever the page, the receive
time is at most thirty seconds past the stored receive time baseline; and when the baseline
was never set (negative) or is more than thirty seconds old, the page is decoded exactly as
if the baseline had been the receive time. -/
theorem C19_bundle_time_within_thirty_seconds (c : Consts) (ss : Session) (t : ℚ)
    (p : Payload) (ss1 : Session) (rs : List Record)
    (h : DecodePowerMessage c ss t p = .ok (ss1, rs)) :
    t - ss1.dPowerOnlyBundleRxTime ≤ 30
    ∧ (ss.dPowerOnlyBundleRxTime < 0 ∨ t - ss.dPowerOnlyBundleRxTime > 30 →
        bundleBaseline ss t = t
        ∧ DecodePowerMessage c ss t p
          = DecodePowerMessage c { ss with dPowerOnlyBundleRxTime := t } t p) := by
  constructor
  · obtain ⟨h1, h2⟩ := decode_session c ss t p ss1 rs h
    by_cases hc : (p.b0.val = ANT_POWERONLY ∨ p.b0.val = ANT_TEPS)
        ∧ p.b1.val ≠ ss.ucPowerOnlyEventCount
    · rw [(h1 hc).2]
      simp
    · rw [(h2 hc).2]
      exact baseline_le ss t
  · intro hc
    have hb : bundleBaseline ss t = t := by
      unfold bundleBaseline
      rw [if_pos hc]
    refine ⟨hb, ?_⟩
    rw [decodePowerMessage_baseline c ss t p, hb]

theorem C19_bundle_time_within_thirty_seconds_witness :
    DecodePowerMessage defaultConsts session1 40 tepsPage
      = .ok ({ session1 with ucNewPowerOnlyEventCount := 7, ucPowerOnlyEventCount := 7,
                             dPowerOnlyBundleRxTime := 40 }, [])
    ∧ (40 : ℚ) - 40 ≤ 30
    ∧ (session1.dPowerOnlyBundleRxTime < 0 ∨ (40 : ℚ) - session1.dPowerOnlyBundleRxTime > 30 →
        bundleBaseline session1 40 = 40
        ∧ DecodePowerMessage defaultConsts session1 40 tepsPage
          = DecodePowerMessage defaultConsts
              { session1 with dPowerOnlyBundleRxTime := 40 } 40 tepsPage) :=
  ⟨by decide!, C19_bundle_time_within_thirty_seconds defaultConsts session1 40 tepsPage
    { session1 with ucNewPowerOnlyEventCount := 7, ucPowerOnlyEventCount := 7,
                    dPowerOnlyBundleRxTime := 40 } [] (by decide!)⟩


/-- C20: a Calibration page (tag 0x01) never emits a record and leaves the Power-Only,
Wheel-Torque and Crank-Torque decoders alone.  When the active type is not
Crank-Torque-Frequency the fourth decoder is unchanged as well.  When it is, a page with the
calibration id and the zero-offset sub-type overwrites `usTorqueOffset` with the 16-bit value
whose low byte is the payload byte at `ANT_CTF_CAL_ZERO_LSB_BYTE` and whose high byte is the
one at `ANT_CTF_CAL_ZERO_MSB_BYTE` (low byte first in the layout of the specification's frame
table), nothing else in the decoder being touched; a wrong calibration id or any other
sub-type changes nothing. -/
theorem C20_calibration_page (c : Consts) (ss : Session) (t : ℚ) (p : Payload)
    (h : p.b0.val = 0x01) :
    ∃ ss1, DecodePowerMessage c ss t p = .ok (ss1, [])
      ∧ ss1.po = ss.po ∧ ss1.wt = ss.wt ∧ ss1.ct = ss.ct
      ∧ (ss.ucPowerMeterType ≠ 0x20 → ss1.ctf = ss.ctf)
      ∧ (ss.ucPowerMeterType = 0x20 →
          (p.byte c.CALIBRATION_ID_BYTE = c.ANT_CTF_CALIBRATION_ID
            ∧ p.byte c.ANT_CTF_CAL_TYPE_BYTE = c.ANT_CTF_CAL_ZERO →
            ss1.ctf = { ss.ctf with stState := { ss.ctf.stState with
              usTorqueOffset := p.byte c.ANT_CTF_CAL_ZERO_LSB_BYTE
                + 256 * p.byte c.ANT_CTF_CAL_ZERO_MSB_BYTE } })
          ∧ (¬ (p.byte c.CALIBRATION_ID_BYTE = c.ANT_CTF_CALIBRATION_ID
              ∧ p.byte c.ANT_CTF_CAL_TYPE_BYTE = c.ANT_CTF_CAL_ZERO) →
            ss1.ctf = ss.ctf)) := by
  rw [decode_calibration_page c ss t p h]
  refine ⟨_, rfl, ?_, ?_, ?_, ?_, ?_⟩
  · split <;> rfl
  · split <;> rfl
  · split <;> rfl
  · intro hty
    rw [if_neg (show ¬ ss.ucPowerMeterType = ANT_CRANKFREQ from hty)]
    rfl
  · intro hty
    rw [if_pos (show ss.ucPowerMeterType = ANT_CRANKFREQ from hty)]
    have hlt : ∀ i : Fin 8, p.byte i < 256 := by
      intro i
      unfold Payload.byte
      split <;> exact Fin.isLt _
    constructor
    · rintro ⟨hid, hsub⟩
      have h1 := hlt c.ANT_CTF_CAL_ZERO_LSB_BYTE
      have h2 := hlt c.ANT_CTF_CAL_ZERO_MSB_BYTE
      have e : (p.byte c.ANT_CTF_CAL_ZERO_LSB_BYTE
          + p.byte c.ANT_CTF_CAL_ZERO_MSB_BYTE * 256) % 65536
          = p.byte c.ANT_CTF_CAL_ZERO_LSB_BYTE + 256 * p.byte c.ANT_CTF_CAL_ZERO_MSB_BYTE := by
        omega
      simp only [DecodeCrankTorqueFreq_Calibration, hid, hsub, ne_eq, not_true_eq_false,
        if_false, if_true, e]
    · intro hno
      simp only [DecodeCrankTorqueFreq_Calibration]
      by_cases hid : p.byte c.CALIBRATION_ID_BYTE = c.ANT_CTF_CALIBRATION_ID
      · have hsub : ¬ p.byte c.ANT_CTF_CAL_TYPE_BYTE = c.ANT_CTF_CAL_ZERO :=
          fun hs => hno ⟨hid, hs⟩
        simp only [hid, ne_eq, not_true_eq_false, if_false, if_neg hsub]
      · simp only [ne_eq, hid, not_false_eq_true, if_true]

theorem C20_calibration_page_witness :
    calibrationPage.b0.val = 0x01
    ∧ sessionCtf.ucPowerMeterType = 0x20
    ∧ calibrationPage.byte calConsts.ANT_CTF_CAL_ZERO_LSB_BYTE
        + 256 * calibrationPage.byte calConsts.ANT_CTF_CAL_ZERO_MSB_BYTE = 500
    ∧ ∃ ss1, DecodePowerMessage calConsts sessionCtf 3 calibrationPage = .ok (ss1, [])
      ∧ ss1.po = sessionCtf.po ∧ ss1.wt = sessionCtf.wt ∧ ss1.ct = sessionCtf.ct
      ∧ (sessionCtf.ucPowerMeterType ≠ 0x20 → ss1.ctf = sessionCtf.ctf)
      ∧ (sessionCtf.ucPowerMeterType = 0x20 →
          (calibrationPage.byte calConsts.CALIBRATION_ID_BYTE
              = calConsts.ANT_CTF_CALIBRATION_ID
            ∧ calibrationPage.byte calConsts.ANT_CTF_CAL_TYPE_BYTE
              = calConsts.ANT_CTF_CAL_ZERO →
            ss1.ctf = { sessionCtf.ctf with stState := { sessionCtf.ctf.stState with
              usTorqueOffset := calibrationPage.byte calConsts.ANT_CTF_CAL_ZERO_LSB_BYTE
                + 256 * calibrationPage.byte calConsts.ANT_CTF_CAL_ZERO_MSB_BYTE } })
          ∧ (¬ (calibrationPage.byte calConsts.CALIBRATION_ID_BYTE
                = calConsts.ANT_CTF_CALIBRATION_ID
              ∧ calibrationPage.byte calConsts.ANT_CTF_CAL_TYPE_BYTE
                = calConsts.ANT_CTF_CAL_ZERO) →
            ss1.ctf = sessionCtf.ctf)) :=
  ⟨by decide, by decide, by decide,
    C20_calibration_page calConsts sessionCtf 3 calibrationPage (by decide)⟩


theorem tag_ne_unknown (v : Variant) : v.tag ≠ 255 := by
  cases v <;> decide

/-- C15: when the active meter type is Unknown (255), a power page of any of the four
decoded types (tag 0x10, 0x11, 0x12 or 0x20; record intervals not zero) is processed and
leaves the active meter type equal to the page's tag; and whenever a Power-Only page is
processed while the active type is already known, the active type is what it was. -/
theorem C15_active_meter_type (c : Consts) (ss : Session) (t : ℚ) (p : Payload) (v : Variant)
    (hp : p.b0.val = v.tag) :
    (ss.ucPowerMeterType = 255 → ss.po.dRecordInterval ≠ 0 → (v.decoder ss).dRecordInterval ≠ 0
      → ss.roRecordInterval ≠ 0 →
      ∃ ss1 rs, DecodePowerMessage c ss t p = .ok (ss1, rs) ∧ ss1.ucPowerMeterType = v.tag)
    ∧ (v = .powerOnly → ss.ucPowerMeterType ≠ 255 →
      ∀ ss1 rs, DecodePowerMessage c ss t p = .ok (ss1, rs) →
        ss1.ucPowerMeterType = ss.ucPowerMeterType) := by
  constructor
  · intro hty hIpo hIv hro
    by_cases hv : v = .powerOnly
    · subst hv
      rw [decode_powerOnly_page c ss t p hp]
      obtain ⟨out, hout⟩ := resync_ok c .powerOnly ss.roRecordInterval ss.po
        (correlateBundle (afterBaseline ss t) t p).dPowerOnlyBundleRxTime p hIpo hro
      have hres := dispatchPowerOnly_resync c (afterBaseline ss t) t p (Or.inl hty) out.1 out.2
        hout
      rw [hres]
      refine ⟨_, _, rfl, ?_⟩
      show (if ss.ucPowerMeterType = 255 then p.b0.val else ss.ucPowerMeterType) = _
      rw [if_pos hty, hp]
    · rw [decode_torque_page c v ss t p hv hp]
      obtain ⟨outPo, hpo⟩ := resync_ok c .powerOnly ss.roRecordInterval ss.po t p hIpo hro
      obtain ⟨outT, hT⟩ := resync_ok c v ss.roRecordInterval (v.decoder ss) t p hIv hro
      have hne : (afterBaseline ss t).ucPowerMeterType ≠ p.b0.val := by
        show ss.ucPowerMeterType ≠ p.b0.val
        rw [hty, hp]
        exact fun h => tag_ne_unknown v h.symm
      have hv2 : v.decoder (afterBaseline ss t) = v.decoder ss := by
        cases v <;> rfl
      rw [← hv2] at hT
      rw [dispatchTorque_type_change c v (afterBaseline ss t) t p hv hne outPo.1 outT.1 outPo.2
        outT.2 hpo hT]
      refine ⟨_, _, rfl, ?_⟩
      rw [(setDecoder_fields v _ _).2.2.1]
      exact hp
  · intro hv hty ss1 rs h
    subst hv
    rw [decode_powerOnly_page c ss t p hp] at h
    obtain ⟨_, _, e3, _⟩ := dispatchPowerOnly_session c _ t p ss1 rs h
    rw [e3]
    show (if ss.ucPowerMeterType = 255 then p.b0.val else ss.ucPowerMeterType) = _
    rw [if_neg hty]

theorem C15_active_meter_type_witness :
    firstCrankPage.b0.val = Variant.crankTorque.tag
    ∧ session1.ucPowerMeterType = 255
    ∧ (∃ ss1 rs, DecodePowerMessage defaultConsts session1 (1 / 2) firstCrankPage = .ok (ss1, rs)
        ∧ ss1.ucPowerMeterType = Variant.crankTorque.tag)
    ∧ powerPage7.b0.val = Variant.powerOnly.tag
    ∧ crankActiveSession.ucPowerMeterType ≠ 255
    ∧ DecodePowerMessage defaultConsts crankActiveSession 1 powerPage7
        = .ok ({ crankActiveSession with
                 ucNewPowerOnlyEventCount := 7, ucPowerOnlyEventCount := 7,
                 dPowerOnlyBundleRxTime := 1 }, [])
    ∧ ({ crankActiveSession with
         ucNewPowerOnlyEventCount := 7, ucPowerOnlyEventCount := 7,
         dPowerOnlyBundleRxTime := 1 } : Session).ucPowerMeterType
        = crankActiveSession.ucPowerMeterType :=
  ⟨by decide, by decide,
    (C15_active_meter_type defaultConsts session1 (1 / 2) firstCrankPage .crankTorque
      (by decide)).1 (by decide) (by decide!) (by decide!) (by decide!),
    by decide, by decide, by decide!,
    (C15_active_meter_type defaultConsts crankActiveSession 1 powerPage7 .powerOnly
      (by decide)).2 rfl (by decide) _ [] (by decide!)⟩


/-- C16 (as stated, refuted): with Crank-Torque the active type (the session reached from
`session1` by a first Crank-Torque page), a Power-Only page with the new event count 7 is
not handed to the Power-Only message handler: the Power-Only decoder is exactly what it was
(event count 3, message time 0.5 s, no accumulated energy), although the handler would have
stored the new event count and message time. -/
theorem C16_power_only_page_not_decoded_counterexample :
    DecodePowerMessage defaultConsts session1 (1 / 2) firstCrankPage
      = .ok (crankActiveSession, [])
    ∧ crankActiveSession.ucPowerMeterType = ANT_CRANKTORQUE
    ∧ powerPage7.b1.val ≠ crankActiveSession.ucPowerOnlyEventCount
    ∧ powerPage7.b1.val ≠ crankActiveSession.po.stState.ucLastEventCount
    ∧ (DecodePowerMessage defaultConsts crankActiveSession 1 powerPage7).map
        (fun out => (out.1.po, out.2)) = .ok (crankActiveSession.po, [])
    ∧ crankActiveSession.po.stState.ucLastEventCount = 3
    ∧ crankActiveSession.po.stState.dLastMessageTime = 1 / 2
    ∧ crankActiveSession.po.stState.fAccumEnergy = 0
    ∧ (DecodePowerOnly_Message defaultConsts 1 crankActiveSession.po 1 powerPage7).map
        (fun out => (out.1.stState.ucLastEventCount, out.1.stState.dLastMessageTime))
        = .ok (7, 1) := by
  decide!

/-- C16 (amended): once a torque page type is the active type, a Power-Only page is never
handed to the Power-Only message handler.  With the Power-Only resync flag clear the page
only runs the event-count correlation of the dispatcher: no record is emitted and the four
decoders are unchanged.  With the flag still set the page resyncs the Power-Only decoder
at the bundle receive time and clears the flag, and nothing else. -/
theorem C16_power_only_page_under_torque_type (c : Consts) (ss : Session) (t : ℚ)
    (p : Payload) (hp : p.b0.val = 0x10)
    (hty : ss.ucPowerMeterType = 0x11 ∨ ss.ucPowerMeterType = 0x12
      ∨ ss.ucPowerMeterType = 0x20) :
    (ss.bResyncPowerOnlyChannel = false →
      DecodePowerMessage c ss t p = .ok (correlateBundle (afterBaseline ss t) t p, [])
      ∧ (correlateBundle (afterBaseline ss t) t p).po = ss.po
      ∧ (correlateBundle (afterBaseline ss t) t p).wt = ss.wt
      ∧ (correlateBundle (afterBaseline ss t) t p).ct = ss.ct
      ∧ (correlateBundle (afterBaseline ss t) t p).ctf = ss.ctf
      ∧ (correlateBundle (afterBaseline ss t) t p).ucPowerMeterType = ss.ucPowerMeterType)
    ∧ (ss.bResyncPowerOnlyChannel = true → ss.po.dRecordInterval ≠ 0
      → ss.roRecordInterval ≠ 0 →
      ∃ d1 rs, DecodePowerOnly_Resync c ss.roRecordInterval ss.po
          (correlateBundle (afterBaseline ss t) t p).dPowerOnlyBundleRxTime p = .ok (d1, rs)
        ∧ DecodePowerMessage c ss t p
          = .ok ({ correlateBundle (afterBaseline ss t) t p with
                   po := d1, bResyncPowerOnlyChannel := false }, rs)) := by
  have h255 : ss.ucPowerMeterType ≠ 255 := by
    rcases hty with h | h | h <;> rw [h] <;> decide
  have hpo : ss.ucPowerMeterType ≠ ANT_POWERONLY := by
    rcases hty with h | h | h <;> rw [h] <;> decide
  rw [decode_powerOnly_page c ss t p hp]
  obtain ⟨f1, _, _, _, f5, f6, f7, f8⟩ := correlateBundle_fields (afterBaseline ss t) t p
  constructor
  · intro hfl
    rw [dispatchPowerOnly_steady c (afterBaseline ss t) t p h255 hfl]
    rw [if_neg (show ¬ (afterBaseline ss t).ucPowerMeterType = ANT_POWERONLY from hpo)]
    exact ⟨rfl, f5, f6, f7, f8, f1⟩
  · intro hfl hI hro
    obtain ⟨out, hout⟩ := resync_ok c .powerOnly ss.roRecordInterval ss.po
      (correlateBundle (afterBaseline ss t) t p).dPowerOnlyBundleRxTime p hI hro
    refine ⟨out.1, out.2, hout, ?_⟩
    rw [dispatchPowerOnly_resync c (afterBaseline ss t) t p (Or.inr hfl) out.1 out.2 hout]
    have e : (if (afterBaseline ss t).ucPowerMeterType = 255 then p.b0.val
        else (afterBaseline ss t).ucPowerMeterType)
        = (correlateBundle (afterBaseline ss t) t p).ucPowerMeterType := by
      rw [f1]
      exact if_neg h255
    rw [e]

theorem C16_power_only_page_under_torque_type_witness :
    powerPage7.b0.val = 0x10
    ∧ (crankActiveSession.ucPowerMeterType = 0x11 ∨ crankActiveSession.ucPowerMeterType = 0x12
        ∨ crankActiveSession.ucPowerMeterType = 0x20)
    ∧ crankActiveSession.bResyncPowerOnlyChannel = false
    ∧ DecodePowerMessage defaultConsts crankActiveSession 1 powerPage7
        = .ok (correlateBundle (afterBaseline crankActiveSession 1) 1 powerPage7, [])
    ∧ (correlateBundle (afterBaseline crankActiveSession 1) 1 powerPage7).po
        = crankActiveSession.po
    ∧ (correlateBundle (afterBaseline crankActiveSession 1) 1 powerPage7).wt
        = crankActiveSession.wt
    ∧ (correlateBundle (afterBaseline crankActiveSession 1) 1 powerPage7).ct
        = crankActiveSession.ct
    ∧ (correlateBundle (afterBaseline crankActiveSession 1) 1 powerPage7).ctf
        = crankActiveSession.ctf
    ∧ (correlateBundle (afterBaseline crankActiveSession 1) 1 powerPage7).ucPowerMeterType
        = crankActiveSession.ucPowerMeterType :=
  ⟨by decide, by decide, by decide,
    (C16_power_only_page_under_torque_type defaultConsts crankActiveSession 1 powerPage7
      (by decide) (by decide)).1 (by decide)⟩


theorem setDecoder_other (v w : Variant) (ss : Session) (d : Decoder) (h : w ≠ v) :
    w.decoder (v.setDecoder ss d) = w.decoder ss := by
  cases v <;> cases w <;> first | rfl | exact absurd rfl h

/-- C17: a torque page (tag 0x11, 0x12 or 0x20) whose tag is not the active meter type
(record intervals not zero) makes `DecodePowerMessage` resync the Power-Only decoder and the
decoder of the page at the receive time of the frame: afterwards the two decoders are
exactly the results of their `_Resync` (buckets empty, message time the receive time), the
records are those of the two resyncs, the other two decoders are untouched, both resync
flags are clear and the active type is the tag.  The frame itself is not decoded. -/
theorem C17_torque_type_change (c : Consts) (ss : Session) (t : ℚ) (p : Payload) (v : Variant)
    (hv : v ≠ .powerOnly) (hp : p.b0.val = v.tag) (hty : ss.ucPowerMeterType ≠ v.tag)
    (hIpo : ss.po.dRecordInterval ≠ 0) (hIv : (v.decoder ss).dRecordInterval ≠ 0)
    (hro : ss.roRecordInterval ≠ 0) :
    ∃ dpo rpo dv rv ss1,
      DecodePowerOnly_Resync c ss.roRecordInterval ss.po t p = .ok (dpo, rpo)
      ∧ v.Resync c ss.roRecordInterval (v.decoder ss) t p = .ok (dv, rv)
      ∧ DecodePowerMessage c ss t p = .ok (ss1, rpo ++ rv)
      ∧ ss1.po = dpo ∧ v.decoder ss1 = dv
      ∧ (∀ w : Variant, w ≠ v → w ≠ .powerOnly → w.decoder ss1 = w.decoder ss)
      ∧ ss1.bResyncPowerChannel = false ∧ ss1.bResyncPowerOnlyChannel = false
      ∧ ss1.ucPowerMeterType = v.tag
      ∧ dpo.stState.dLastMessageTime = t ∧ dv.stState.dLastMessageTime = t
      ∧ dpo.stState.fAccumEnergy = 0 ∧ dpo.stState.fPendingEnergy = 0
      ∧ dpo.stState.fGapEnergy = 0 ∧ dpo.stState.fAccumRotation = 0
      ∧ dpo.stState.fPendingRotation = 0 ∧ dpo.stState.fGapRotation = 0
      ∧ dv.stState.fAccumEnergy = 0 ∧ dv.stState.fPendingEnergy = 0
      ∧ dv.stState.fGapEnergy = 0 ∧ dv.stState.fAccumRotation = 0
      ∧ dv.stState.fPendingRotation = 0 ∧ dv.stState.fGapRotation = 0 := by
  obtain ⟨outPo, hpo⟩ := resync_ok c .powerOnly ss.roRecordInterval ss.po t p hIpo hro
  obtain ⟨outT, hT⟩ := resync_ok c v ss.roRecordInterval (v.decoder ss) t p hIv hro
  have hne : (afterBaseline ss t).ucPowerMeterType ≠ p.b0.val := by
    show ss.ucPowerMeterType ≠ p.b0.val
    rw [hp]
    exact hty
  have hv2 : v.decoder (afterBaseline ss t) = v.decoder ss := by
    cases v <;> rfl
  have hT2 := hT
  rw [← hv2] at hT2
  have hdec := dispatchTorque_type_change c v (afterBaseline ss t) t p hv hne outPo.1 outT.1
    outPo.2 outT.2 hpo hT2
  rw [← decode_torque_page c v ss t p hv hp] at hdec
  obtain ⟨a1, a2, a3, a4, a5, a6, _, _, _, a10, _⟩ :=
    resync_fields c .powerOnly _ _ t p outPo.1 outPo.2 hpo
  obtain ⟨b1, b2, b3, b4, b5, b6, _, _, _, b10, _⟩ :=
    resync_fields c v _ _ t p outT.1 outT.2 hT
  refine ⟨outPo.1, outPo.2, outT.1, outT.2, _, hpo, hT, hdec, ?_, ?_, ?_, ?_, ?_, ?_,
    a10, b10, a1, a2, a3, a4, a5, a6, b1, b2, b3, b4, b5, b6⟩
  · cases v
    · exact absurd rfl hv
    all_goals rfl
  · exact (setDecoder_fields v _ _).2.2.2.2.2.2
  · intro w hw hwpo
    rw [setDecoder_other v w _ _ hw]
    cases w
    · exact absurd rfl hwpo
    all_goals rfl
  · rw [(setDecoder_fields v _ _).2.2.2.2.1]
  · rw [(setDecoder_fields v _ _).2.2.2.2.2.1]
  · rw [(setDecoder_fields v _ _).2.2.1]
    exact hp


theorem C17_torque_type_change_witness :
    Variant.wheelTorque ≠ .powerOnly
    ∧ firstWheelPage.b0.val = Variant.wheelTorque.tag
    ∧ crankActiveSession.ucPowerMeterType ≠ Variant.wheelTorque.tag
    ∧ crankActiveSession.po.dRecordInterval ≠ 0
    ∧ (Variant.wheelTorque.decoder crankActiveSession).dRecordInterval ≠ 0
    ∧ crankActiveSession.roRecordInterval ≠ 0
    ∧ ∃ dpo rpo dv rv ss1,
      DecodePowerOnly_Resync defaultConsts crankActiveSession.roRecordInterval
        crankActiveSession.po 3 firstWheelPage = .ok (dpo, rpo)
      ∧ Variant.wheelTorque.Resync defaultConsts crankActiveSession.roRecordInterval
        (Variant.wheelTorque.decoder crankActiveSession) 3 firstWheelPage = .ok (dv, rv)
      ∧ DecodePowerMessage defaultConsts crankActiveSession 3 firstWheelPage
        = .ok (ss1, rpo ++ rv)
      ∧ ss1.po = dpo ∧ Variant.wheelTorque.decoder ss1 = dv
      ∧ (∀ w : Variant, w ≠ .wheelTorque → w ≠ .powerOnly →
          w.decoder ss1 = w.decoder crankActiveSession)
      ∧ ss1.bResyncPowerChannel = false ∧ ss1.bResyncPowerOnlyChannel = false
      ∧ ss1.ucPowerMeterType = Variant.wheelTorque.tag
      ∧ dpo.stState.dLastMessageTime = 3 ∧ dv.stState.dLastMessageTime = 3
      ∧ dpo.stState.fAccumEnergy = 0 ∧ dpo.stState.fPendingEnergy = 0
      ∧ dpo.stState.fGapEnergy = 0 ∧ dpo.stState.fAccumRotation = 0
      ∧ dpo.stState.fPendingRotation = 0 ∧ dpo.stState.fGapRotation = 0
      ∧ dv.stState.fAccumEnergy = 0 ∧ dv.stState.fPendingEnergy = 0
      ∧ dv.stState.fGapEnergy = 0 ∧ dv.stState.fAccumRotation = 0
      ∧ dv.stState.fPendingRotation = 0 ∧ dv.stState.fGapRotation = 0 :=
  ⟨by decide, by decide, by decide, by decide!, by decide!, by decide!,
    C17_torque_type_change defaultConsts crankActiveSession 3 firstWheelPage .wheelTorque
      (by decide) (by decide) (by decide) (by decide!) (by decide!) (by decide!)⟩

/-- C12: every `_Resync` called with time `t` on a decoder whose record intervals are not
zero returns, and afterwards the accumulated, pending and gap buckets of energy and rotation
are zero, `ucRecordGapCount`, `ulEventTime` and `ulLastRecordTime` are zero,
`dLastMessageTime` is `t`, `dLastRecordTime` is `floor(t / I) * I` as the code evaluates it,
the floor being taken of the quotient in `double` arithmetic, and the stored raw
counters are the values read from the frame itself, no delta being computed: the event count
is byte 1; the ticks are byte 2 (Wheel-Torque, Crank-Torque) or the event count (Power-Only,
Crank-Torque-Frequency); the accumulated torque is the 16-bit field of bytes 6-7 (bytes 4-5,
the accumulated power, for Power-Only); the accumulated period is the 16-bit field of bytes
4-5 (zero for Power-Only, whose page has none); Crank-Torque-Frequency reads its two fields
high byte first.  When `dLastRecordTime` was zero before the call no record is emitted and
the totals and the configured intervals are unchanged.

In terms of the exact quotient (below `2^53`): `dLastRecordTime` is `floor(t / I) * I`
whenever `t / I` is a `double`, and in general either that or, when `t / I` lies within half
a unit in the last place below the next integer and the division delivers that integer, one
interval more (`t = 0.5` with `I` the `double` nearest to `0.1`: the quotient is `5.0` and the
epoch `5 * I`). -/
theorem C12_resync_resets_and_rebaselines (c : Consts) (v : Variant) (ro : ℚ) (d : Decoder)
    (t : ℚ) (p : Payload) (hI : d.dRecordInterval ≠ 0) (hro : ro ≠ 0) :
    ∃ d1 rs, v.Resync c ro d t p = .ok (d1, rs)
      ∧ d1.stState.fAccumEnergy = 0 ∧ d1.stState.fPendingEnergy = 0
      ∧ d1.stState.fGapEnergy = 0
      ∧ d1.stState.fAccumRotation = 0 ∧ d1.stState.fPendingRotation = 0
      ∧ d1.stState.fGapRotation = 0
      ∧ d1.stState.ucRecordGapCount = 0 ∧ d1.stState.ulEventTime = 0
      ∧ d1.stState.ulLastRecordTime = 0
      ∧ d1.stState.dLastMessageTime = t
      ∧ d1.stState.dLastRecordTime
          = (⌊toDouble (t / d.dRecordInterval)⌋ : ℚ) * d.dRecordInterval
      ∧ (toDouble (t / d.dRecordInterval) = t / d.dRecordInterval →
          d1.stState.dLastRecordTime = (⌊t / d.dRecordInterval⌋ : ℚ) * d.dRecordInterval)
      ∧ (|t / d.dRecordInterval| < 2 ^ 53 →
          d1.stState.dLastRecordTime = (⌊t / d.dRecordInterval⌋ : ℚ) * d.dRecordInterval
          ∨ (d1.stState.dLastRecordTime
                = ((⌊t / d.dRecordInterval⌋ : ℚ) + 1) * d.dRecordInterval
              ∧ toDouble (t / d.dRecordInterval) = (⌊t / d.dRecordInterval⌋ : ℚ) + 1
              ∧ (⌊t / d.dRecordInterval⌋ : ℚ) + 1 - t / d.dRecordInterval
                  ≤ ulp (t / d.dRecordInterval) / 2))
      ∧ d1.stState.ucLastEventCount = p.b1.val
      ∧ d1.stState.ucLastRotationTicks = v.frameTicks p
      ∧ d1.stState.usLastAccumTorque = v.frameTorque p
      ∧ d1.stState.usLastAccumPeriod = v.framePeriod p
      ∧ (d.stState.dLastRecordTime = 0 →
          rs = [] ∧ d1.stState.dTotalEnergy = d.stState.dTotalEnergy
          ∧ d1.stState.dTotalRotation = d.stState.dTotalRotation
          ∧ d1.dRecordInterval = d.dRecordInterval ∧ d1.dReSyncInterval = d.dReSyncInterval
          ∧ d1.stState.usRecordInterval = d.stState.usRecordInterval
          ∧ d1.stState.usTimeBase = d.stState.usTimeBase) := by
  obtain ⟨out, hout⟩ := resync_ok c v ro d t p hI hro
  obtain ⟨a1, a2, a3, a4, a5, a6, a7, a8, a9, a10, a11, a12, a13, a14, a15⟩ :=
    resync_fields c v ro d t p out.1 out.2 hout
  have a11b : out.1.stState.dLastRecordTime
      = (⌊toDouble (t / d.dRecordInterval)⌋ : ℚ) * d.dRecordInterval := a11
  refine ⟨out.1, out.2, hout, a1, a2, a3, a4, a5, a6, a7, a8, a9, a10, a11b, ?_, ?_, a12, a13,
    a14, a15, ?_⟩
  · intro hex
    rw [a11b, hex]
  · intro h53
    rcases floor_toDouble (t / d.dRecordInterval) h53 with hf | ⟨hf, hv, herr⟩
    · left
      rw [a11b, hf]
    · right
      refine ⟨?_, hv, herr⟩
      rw [a11b, hf]
      push_cast
      rfl
  · intro h0
    obtain ⟨b1, b2, b3, b4, b5, b6, b7, _⟩ := resync_fresh c v ro d t p out.1 out.2 hout h0
    exact ⟨b1, b2, b3, b4, b5, b6, b7⟩

theorem C12_resync_resets_and_rebaselines_witness :
    sessionTenth.po.dRecordInterval ≠ 0 ∧ sessionTenth.roRecordInterval ≠ 0
    ∧ sessionTenth.po.stState.dLastRecordTime = 0
    ∧ toDouble (1 / 10) = sessionTenth.po.dRecordInterval
    ∧ ⌊toDouble ((1 / 2 : ℚ) / sessionTenth.po.dRecordInterval)⌋ = 5
    ∧ ⌊(1 / 2 : ℚ) / sessionTenth.po.dRecordInterval⌋ = 4
    ∧ ∃ d1 rs, Variant.powerOnly.Resync defaultConsts sessionTenth.roRecordInterval
          sessionTenth.po (1 / 2) steadyPage = .ok (d1, rs)
      ∧ d1.stState.fAccumEnergy = 0 ∧ d1.stState.fPendingEnergy = 0
      ∧ d1.stState.fGapEnergy = 0
      ∧ d1.stState.fAccumRotation = 0 ∧ d1.stState.fPendingRotation = 0
      ∧ d1.stState.fGapRotation = 0
      ∧ d1.stState.ucRecordGapCount = 0 ∧ d1.stState.ulEventTime = 0
      ∧ d1.stState.ulLastRecordTime = 0
      ∧ d1.stState.dLastMessageTime = 1 / 2
      ∧ d1.stState.dLastRecordTime
          = (⌊toDouble ((1 / 2 : ℚ) / sessionTenth.po.dRecordInterval)⌋ : ℚ)
            * sessionTenth.po.dRecordInterval
      ∧ (toDouble ((1 / 2 : ℚ) / sessionTenth.po.dRecordInterval)
            = (1 / 2 : ℚ) / sessionTenth.po.dRecordInterval →
          d1.stState.dLastRecordTime
            = (⌊(1 / 2 : ℚ) / sessionTenth.po.dRecordInterval⌋ : ℚ)
              * sessionTenth.po.dRecordInterval)
      ∧ (|(1 / 2 : ℚ) / sessionTenth.po.dRecordInterval| < 2 ^ 53 →
          d1.stState.dLastRecordTime
            = (⌊(1 / 2 : ℚ) / sessionTenth.po.dRecordInterval⌋ : ℚ)
              * sessionTenth.po.dRecordInterval
          ∨ (d1.stState.dLastRecordTime
                = ((⌊(1 / 2 : ℚ) / sessionTenth.po.dRecordInterval⌋ : ℚ) + 1)
                  * sessionTenth.po.dRecordInterval
              ∧ toDouble ((1 / 2 : ℚ) / sessionTenth.po.dRecordInterval)
                  = (⌊(1 / 2 : ℚ) / sessionTenth.po.dRecordInterval⌋ : ℚ) + 1
              ∧ (⌊(1 / 2 : ℚ) / sessionTenth.po.dRecordInterval⌋ : ℚ) + 1
                    - (1 / 2 : ℚ) / sessionTenth.po.dRecordInterval
                  ≤ ulp ((1 / 2 : ℚ) / sessionTenth.po.dRecordInterval) / 2))
      ∧ d1.stState.ucLastEventCount = steadyPage.b1.val
      ∧ d1.stState.ucLastRotationTicks = Variant.powerOnly.frameTicks steadyPage
      ∧ d1.stState.usLastAccumTorque = Variant.powerOnly.frameTorque steadyPage
      ∧ d1.stState.usLastAccumPeriod = Variant.powerOnly.framePeriod steadyPage
      ∧ (sessionTenth.po.stState.dLastRecordTime = 0 →
          rs = [] ∧ d1.stState.dTotalEnergy = sessionTenth.po.stState.dTotalEnergy
          ∧ d1.stState.dTotalRotation = sessionTenth.po.stState.dTotalRotation
          ∧ d1.dRecordInterval = sessionTenth.po.dRecordInterval
          ∧ d1.dReSyncInterval = sessionTenth.po.dReSyncInterval
          ∧ d1.stState.usRecordInterval = sessionTenth.po.stState.usRecordInterval
          ∧ d1.stState.usTimeBase = sessionTenth.po.stState.usTimeBase) :=
  ⟨by decide!, by decide!, by decide!, by decide!, by decide!, by decide!,
    C12_resync_resets_and_rebaselines defaultConsts .powerOnly sessionTenth.roRecordInterval
      sessionTenth.po (1 / 2) steadyPage (by decide!) (by decide!)⟩


/-- A session whose decoders have no previous record and whose resync flags are set: the
first page of a decoded type resyncs the decoder of that type and emits nothing. -/
theorem first_page_resync (c : Consts) (ss : Session) (I t : ℚ) (p : Payload) (v : Variant)
    (hI : I ≠ 0) (hp : p.b0.val = v.tag) (hro : ss.roRecordInterval = I)
    (hdI : ∀ w : Variant, (w.decoder ss).dRecordInterval = I)
    (hlast : ∀ w : Variant, (w.decoder ss).stState.dLastRecordTime = 0)
    (hfl : ss.bResyncPowerChannel = true) (hflpo : ss.bResyncPowerOnlyChannel = true)
    (hb : ss.dPowerOnlyBundleRxTime < 0) :
    ∃ dv ss1, v.Resync c I (v.decoder ss) t p = .ok (dv, [])
      ∧ DecodePowerMessage c ss t p = .ok (ss1, [])
      ∧ v.decoder ss1 = dv
      ∧ (v ≠ .powerOnly → ss1.bResyncPowerChannel = false)
      ∧ (v = .powerOnly → ss1.bResyncPowerOnlyChannel = false) := by
  have hres : ∀ w : Variant, ∃ dw, w.Resync c I (w.decoder ss) t p = .ok (dw, []) := by
    intro w
    obtain ⟨out, hout⟩ := resync_ok c w I (w.decoder ss) t p (by rw [hdI w]; exact hI) hI
    have hnil := (resync_fresh c w I _ t p out.1 out.2 hout (hlast w)).1
    refine ⟨out.1, ?_⟩
    rw [hout, ← hnil]
  obtain ⟨dv, hdv⟩ := hres v
  by_cases hv : v = .powerOnly
  · subst hv
    have hτ : (correlateBundle (afterBaseline ss t) t p).dPowerOnlyBundleRxTime = t := by
      unfold correlateBundle afterBaseline bundleBaseline
      rw [if_pos (Or.inl hb)]
      split <;> rfl
    have hres2 : DecodePowerOnly_Resync c (afterBaseline ss t).roRecordInterval
        (afterBaseline ss t).po (correlateBundle (afterBaseline ss t) t p).dPowerOnlyBundleRxTime
        p = .ok (dv, []) := by
      rw [hτ]
      show DecodePowerOnly_Resync c ss.roRecordInterval ss.po t p = .ok (dv, [])
      rw [hro]
      exact hdv
    rw [decode_powerOnly_page c ss t p hp,
      dispatchPowerOnly_resync c (afterBaseline ss t) t p (Or.inr hflpo) dv [] hres2]
    exact ⟨dv, _, hdv, rfl, rfl, fun h => absurd rfl h, fun _ => rfl⟩
  · have hv2 : v.decoder (afterBaseline ss t) = v.decoder ss := by
      cases v <;> rfl
    have hT : v.Resync c (afterBaseline ss t).roRecordInterval (v.decoder (afterBaseline ss t))
        t p = .ok (dv, []) := by
      rw [hv2]
      show v.Resync c ss.roRecordInterval (v.decoder ss) t p = .ok (dv, [])
      rw [hro]
      exact hdv
    rw [decode_torque_page c v ss t p hv hp]
    by_cases hty : (afterBaseline ss t).ucPowerMeterType = p.b0.val
    · rw [dispatchTorque_flag c v (afterBaseline ss t) t p hv hty hfl dv [] hT]
      refine ⟨dv, _, hdv, rfl, (setDecoder_fields v _ _).2.2.2.2.2.2, fun _ => ?_,
        fun h => absurd h hv⟩
      rw [(setDecoder_fields v _ _).2.2.2.2.1]
    · obtain ⟨dpo, hdpo⟩ := hres .powerOnly
      have hpo : DecodePowerOnly_Resync c (afterBaseline ss t).roRecordInterval
          (afterBaseline ss t).po t p = .ok (dpo, []) := by
        show DecodePowerOnly_Resync c ss.roRecordInterval ss.po t p = .ok (dpo, [])
        rw [hro]
        exact hdpo
      rw [dispatchTorque_type_change c v (afterBaseline ss t) t p hv hty dpo dv [] [] hpo hT]
      refine ⟨dv, _, hdv, rfl, (setDecoder_fields v _ _).2.2.2.2.2.2, fun _ => ?_,
        fun h => absurd h hv⟩
      rw [(setDecoder_fields v _ _).2.2.2.2.1]

/-- C13: in a fresh session (`InitPowerDecoder` on the load-time statics with a record
interval that is not zero, and `SetPowerMeterType` with any hint before or after it; the
hint 255 is the same as no hint), the first page of any decoded type (tag 0x10, 0x11, 0x12 or 0x20) makes
`DecodePowerMessage` return no record and leave the decoder of that page type exactly as its
`_Resync` at the receive time leaves it, with the resync flag of that decoder cleared,
whatever the event count and the receive time. -/
theorem C13_first_page_forces_resync (c : Consts) (I tb rsI : ℚ) (hint : Nat) (t : ℚ)
    (p : Payload) (v : Variant) (hI : I ≠ 0) (hp : p.b0.val = v.tag) :
    SetPowerMeterType (InitPowerDecoder c Session.initial I tb rsI) 255
      = InitPowerDecoder c Session.initial I tb rsI
    ∧ InitPowerDecoder c (SetPowerMeterType Session.initial hint) I tb rsI
      = SetPowerMeterType (InitPowerDecoder c Session.initial I tb rsI) hint
    ∧ ∃ dv ss1,
      v.Resync c I
        (v.decoder (SetPowerMeterType (InitPowerDecoder c Session.initial I tb rsI) hint)) t p
        = .ok (dv, [])
      ∧ DecodePowerMessage c
        (SetPowerMeterType (InitPowerDecoder c Session.initial I tb rsI) hint) t p
        = .ok (ss1, [])
      ∧ v.decoder ss1 = dv
      ∧ dv.stState.dLastMessageTime = t ∧ dv.stState.ucLastEventCount = p.b1.val
      ∧ (v ≠ .powerOnly → ss1.bResyncPowerChannel = false)
      ∧ (v = .powerOnly → ss1.bResyncPowerOnlyChannel = false) := by
  refine ⟨rfl, rfl, ?_⟩
  obtain ⟨dv, ss1, h1, h2, h3, h4, h5⟩ := first_page_resync c
    (SetPowerMeterType (InitPowerDecoder c Session.initial I tb rsI) hint) I t p v hI hp rfl
    (fun w => by cases w <;> rfl) (fun w => by cases w <;> rfl) rfl rfl
    (by show (-1 : ℚ) < 0; norm_num)
  obtain ⟨_, _, _, _, _, _, _, _, _, a10, _, a12, _⟩ := resync_fields c v _ _ t p dv [] h1
  exact ⟨dv, ss1, h1, h2, h3, a10, a12, h4, h5⟩

theorem C13_first_page_forces_resync_witness :
    (1 : ℚ) ≠ 0 ∧ firstWheelPage.b0.val = Variant.wheelTorque.tag
    ∧ SetPowerMeterType (InitPowerDecoder defaultConsts Session.initial 1 0 10) 255
      = InitPowerDecoder defaultConsts Session.initial 1 0 10
    ∧ InitPowerDecoder defaultConsts (SetPowerMeterType Session.initial 0x11) 1 0 10
      = SetPowerMeterType (InitPowerDecoder defaultConsts Session.initial 1 0 10) 0x11
    ∧ ∃ dv ss1,
      Variant.wheelTorque.Resync defaultConsts 1
        (Variant.wheelTorque.decoder
          (SetPowerMeterType (InitPowerDecoder defaultConsts Session.initial 1 0 10) 0x11))
        (7 / 2) firstWheelPage = .ok (dv, [])
      ∧ DecodePowerMessage defaultConsts
        (SetPowerMeterType (InitPowerDecoder defaultConsts Session.initial 1 0 10) 0x11)
        (7 / 2) firstWheelPage = .ok (ss1, [])
      ∧ Variant.wheelTorque.decoder ss1 = dv
      ∧ dv.stState.dLastMessageTime = 7 / 2
      ∧ dv.stState.ucLastEventCount = firstWheelPage.b1.val
      ∧ (Variant.wheelTorque ≠ .powerOnly → ss1.bResyncPowerChannel = false)
      ∧ (Variant.wheelTorque = .powerOnly → ss1.bResyncPowerOnlyChannel = false) :=
  ⟨by decide, by decide,
    C13_first_page_forces_resync defaultConsts 1 0 10 0x11 (7 / 2) firstWheelPage .wheelTorque
      (by decide) (by decide)⟩


/-- On a Power-Only page the time handed to the Power-Only decoder, by the resync calls and
by the message handler, is the bundle receive time left by the event-count correlation. -/
theorem powerOnly_page_handoff (c : Consts) (ss : Session) (t : ℚ) (p : Payload)
    (hp : p.b0.val = ANT_POWERONLY) :
    (∀ ss1 rs, DecodePowerMessage c ss t p = .ok (ss1, rs) →
      ss1.dPowerOnlyBundleRxTime
        = (correlateBundle (afterBaseline ss t) t p).dPowerOnlyBundleRxTime)
    ∧ (ss.ucPowerMeterType = 255 ∨ ss.bResyncPowerOnlyChannel = true →
      ∀ d1 rs, DecodePowerOnly_Resync c ss.roRecordInterval ss.po
          (correlateBundle (afterBaseline ss t) t p).dPowerOnlyBundleRxTime p = .ok (d1, rs) →
        ∃ ss1, DecodePowerMessage c ss t p = .ok (ss1, rs) ∧ ss1.po = d1)
    ∧ (ss.ucPowerMeterType = ANT_POWERONLY → ss.bResyncPowerOnlyChannel = false →
      ∀ d1 rs, DecodePowerOnly_Message c ss.roRecordInterval ss.po
          (correlateBundle (afterBaseline ss t) t p).dPowerOnlyBundleRxTime p = .ok (d1, rs) →
        ∃ ss1, DecodePowerMessage c ss t p = .ok (ss1, rs) ∧ ss1.po = d1) := by
  rw [decode_powerOnly_page c ss t p hp]
  refine ⟨?_, ?_, ?_⟩
  · intro ss1 rs h
    exact (dispatchPowerOnly_session c _ t p ss1 rs h).2.1
  · intro hcond d1 rs hres
    rw [dispatchPowerOnly_resync c (afterBaseline ss t) t p hcond d1 rs hres]
    exact ⟨_, rfl, rfl⟩
  · intro hty hfl d1 rs hmsg
    have h255 : (afterBaseline ss t).ucPowerMeterType ≠ 255 := by
      show ss.ucPowerMeterType ≠ 255
      rw [hty]
      decide
    rw [dispatchPowerOnly_steady c (afterBaseline ss t) t p h255 hfl,
      if_pos (show (afterBaseline ss t).ucPowerMeterType = ANT_POWERONLY from hty)]
    have hmsg2 : DecodePowerOnly_Message c (afterBaseline ss t).roRecordInterval
        (afterBaseline ss t).po
        (correlateBundle (afterBaseline ss t) t p).dPowerOnlyBundleRxTime p = .ok (d1, rs) :=
      hmsg
    rw [hmsg2]
    exact ⟨_, rfl, rfl⟩

/-- C18 (as stated, refuted): after the TE/PS page `tepsPage` at 1 s the bundle receive time
is 1 s; a Crank-Torque page received at 5 s changes the meter type and resyncs the
Power-Only decoder with the receive time 5 s of that frame, not with the bundle receive
time, which is still 1 s afterwards.  And when the TE/PS page is repeated at 2 s (its event
count is then the stored one) and a Power-Only page with the same count follows at 3 s, the
Power-Only decoder is resynced with the bundle receive time 1 s, not with 2 s. -/
theorem C18_torque_page_hands_receive_time_counterexample :
    DecodePowerMessage defaultConsts session1 1 tepsPage = .ok (tepsSession, [])
    ∧ tepsSession.dPowerOnlyBundleRxTime = 1
    ∧ (DecodePowerMessage defaultConsts tepsSession 5 firstCrankPage).map
        (fun out => (out.1.dPowerOnlyBundleRxTime, out.1.po))
      = (DecodePowerOnly_Resync defaultConsts 1 tepsSession.po 5 firstCrankPage).map
        (fun out => ((1 : ℚ), out.1))
    ∧ (DecodePowerMessage defaultConsts tepsSession 5 firstCrankPage).map
        (fun out => (out.1.dPowerOnlyBundleRxTime, out.1.po.stState.dLastMessageTime,
          out.1.po.stState.dLastRecordTime)) = .ok (1, 5, 5)
    ∧ (DecodePowerOnly_Resync defaultConsts 1 tepsSession.po 1 firstCrankPage).map
        (fun out => (out.1.stState.dLastMessageTime, out.1.stState.dLastRecordTime))
      = .ok (1, 1)
    ∧ DecodePowerMessage defaultConsts tepsSession 2 tepsPage = .ok (tepsSession, [])
    ∧ (DecodePowerMessage defaultConsts tepsSession 3 powerPage7).map
        (fun out => (out.1.dPowerOnlyBundleRxTime, out.1.po.stState.dLastMessageTime))
      = .ok (1, 1) := by
  decide!

/-- C18 (amended): after any `DecodePowerMessage` call, the stored Power-Only event count
and the bundle receive time are `(payload[1], rx_time)` when the page is a Power-Only or
TE/PS page whose event count differs from the stored one; in every other case the count is
kept and the bundle receive time is the baseline left by the thirty second rule.  On a
Power-Only page the Power-Only decoder, resync and message handler alike, is handed that
bundle receive time (a torque page that changes the meter type resyncs it at the receive
time of its own frame instead).  So when a TE/PS page with a new event count arrives at
`t1 ≥ 0` and a Power-Only page with the same count arrives next at `t2` with
`t2 - t1 ≤ 30`, the Power-Only decoder is called with `t1`: the outcome of the second call
is the outcome of the resync, or of the message handler, at time `t1`. -/
theorem C18_bundle_receive_time (c : Consts) (ss : Session) (q p : Payload) (t1 t2 : ℚ)
    (hq : q.b0.val = 0x13) (hnew : q.b1.val ≠ ss.ucPowerOnlyEventCount)
    (hp : p.b0.val = 0x10) (hsame : p.b1.val = q.b1.val)
    (h0 : 0 ≤ t1) (h2 : t2 - t1 ≤ 30) :
    (∀ (ss0 : Session) (t0 : ℚ) (p0 : Payload) (ss1 : Session) (rs : List Record),
      DecodePowerMessage c ss0 t0 p0 = .ok (ss1, rs) →
        ((p0.b0.val = 0x10 ∨ p0.b0.val = 0x13) ∧ p0.b1.val ≠ ss0.ucPowerOnlyEventCount →
          ss1.ucPowerOnlyEventCount = p0.b1.val ∧ ss1.dPowerOnlyBundleRxTime = t0)
        ∧ (¬ ((p0.b0.val = 0x10 ∨ p0.b0.val = 0x13)
              ∧ p0.b1.val ≠ ss0.ucPowerOnlyEventCount) →
          ss1.ucPowerOnlyEventCount = ss0.ucPowerOnlyEventCount
          ∧ ss1.dPowerOnlyBundleRxTime = bundleBaseline ss0 t0))
    ∧ (∀ (ss0 : Session) (t0 : ℚ) (p0 : Payload), p0.b0.val = 0x10 →
        (∀ ss1 rs, DecodePowerMessage c ss0 t0 p0 = .ok (ss1, rs) →
          ss1.dPowerOnlyBundleRxTime
            = (correlateBundle (afterBaseline ss0 t0) t0 p0).dPowerOnlyBundleRxTime)
        ∧ (ss0.ucPowerMeterType = 255 ∨ ss0.bResyncPowerOnlyChannel = true →
          ∀ d1 rs, DecodePowerOnly_Resync c ss0.roRecordInterval ss0.po
              (correlateBundle (afterBaseline ss0 t0) t0 p0).dPowerOnlyBundleRxTime p0
              = .ok (d1, rs) →
            ∃ ss1, DecodePowerMessage c ss0 t0 p0 = .ok (ss1, rs) ∧ ss1.po = d1)
        ∧ (ss0.ucPowerMeterType = 0x10 → ss0.bResyncPowerOnlyChannel = false →
          ∀ d1 rs, DecodePowerOnly_Message c ss0.roRecordInterval ss0.po
              (correlateBundle (afterBaseline ss0 t0) t0 p0).dPowerOnlyBundleRxTime p0
              = .ok (d1, rs) →
            ∃ ss1, DecodePowerMessage c ss0 t0 p0 = .ok (ss1, rs) ∧ ss1.po = d1))
    ∧ ∃ ssT, DecodePowerMessage c ss t1 q = .ok (ssT, [])
        ∧ ssT.ucPowerOnlyEventCount = q.b1.val ∧ ssT.dPowerOnlyBundleRxTime = t1
        ∧ (ss.ucPowerMeterType = 255 ∨ ss.bResyncPowerOnlyChannel = true →
          ∀ d1 rs, DecodePowerOnly_Resync c ss.roRecordInterval ss.po t1 p = .ok (d1, rs) →
            ∃ ss1, DecodePowerMessage c ssT t2 p = .ok (ss1, rs) ∧ ss1.po = d1
              ∧ ss1.dPowerOnlyBundleRxTime = t1)
        ∧ (ss.ucPowerMeterType = 0x10 → ss.bResyncPowerOnlyChannel = false →
          ∀ d1 rs, DecodePowerOnly_Message c ss.roRecordInterval ss.po t1 p = .ok (d1, rs) →
            ∃ ss1, DecodePowerMessage c ssT t2 p = .ok (ss1, rs) ∧ ss1.po = d1
              ∧ ss1.dPowerOnlyBundleRxTime = t1) := by
  refine ⟨fun ss0 t0 p0 ss1 rs h => decode_session c ss0 t0 p0 ss1 rs h,
    fun ss0 t0 p0 hp0 => powerOnly_page_handoff c ss0 t0 p0 hp0, ?_⟩
  have hT : DecodePowerMessage c ss t1 q
      = .ok ({ afterBaseline ss t1 with
               ucNewPowerOnlyEventCount := q.b1.val, ucPowerOnlyEventCount := q.b1.val,
               dPowerOnlyBundleRxTime := t1 }, []) := by
    rw [decode_teps_page c ss t1 q hq]
    unfold correlateBundle
    rw [if_pos (show q.b1.val ≠ (afterBaseline ss t1).ucPowerOnlyEventCount from hnew)]
  refine ⟨_, hT, rfl, rfl, ?_, ?_⟩
  all_goals
    generalize hssT : ({ afterBaseline ss t1 with
      ucNewPowerOnlyEventCount := q.b1.val, ucPowerOnlyEventCount := q.b1.val,
      dPowerOnlyBundleRxTime := t1 } : Session) = ssT
    have e1 : ssT.dPowerOnlyBundleRxTime = t1 := by rw [← hssT]
    have e2 : ssT.ucPowerOnlyEventCount = q.b1.val := by rw [← hssT]
    have e3 : ssT.ucPowerMeterType = ss.ucPowerMeterType := by rw [← hssT]; rfl
    have e4 : ssT.bResyncPowerOnlyChannel = ss.bResyncPowerOnlyChannel := by rw [← hssT]; rfl
    have e5 : ssT.roRecordInterval = ss.roRecordInterval := by rw [← hssT]; rfl
    have e6 : ssT.po = ss.po := by rw [← hssT]; rfl
    have hτ : (correlateBundle (afterBaseline ssT t2) t2 p).dPowerOnlyBundleRxTime = t1 := by
      have hb : bundleBaseline ssT t2 = t1 := by
        unfold bundleBaseline
        rw [e1, if_neg]
        push_neg
        exact ⟨h0, h2⟩
      unfold correlateBundle afterBaseline
      rw [hb]
      simp only [e2, hsame, ne_eq, not_true_eq_false, if_false]
    obtain ⟨g1, g2, g3⟩ := powerOnly_page_handoff c ssT t2 p hp
    rw [hτ] at g1 g2 g3
    rw [e3, e4, e5, e6] at g2 g3
  · intro hcond d1 rs hres
    obtain ⟨ss1, hd, hpo⟩ := g2 hcond d1 rs hres
    exact ⟨ss1, hd, hpo, g1 ss1 rs hd⟩
  · intro hty hfl d1 rs hmsg
    obtain ⟨ss1, hd, hpo⟩ := g3 hty hfl d1 rs hmsg
    exact ⟨ss1, hd, hpo, g1 ss1 rs hd⟩

theorem C18_bundle_receive_time_witness :
    tepsPage.b0.val = 0x13 ∧ tepsPage.b1.val ≠ session1.ucPowerOnlyEventCount
    ∧ powerPage7.b0.val = 0x10 ∧ powerPage7.b1.val = tepsPage.b1.val
    ∧ (0 : ℚ) ≤ 1 ∧ (3 : ℚ) - 1 ≤ 30
    ∧ ∃ ssT, DecodePowerMessage defaultConsts session1 1 tepsPage = .ok (ssT, [])
        ∧ ssT.ucPowerOnlyEventCount = tepsPage.b1.val ∧ ssT.dPowerOnlyBundleRxTime = 1
        ∧ DecodePowerOnly_Resync defaultConsts session1.roRecordInterval session1.po 1
            powerPage7 = .ok (powerOnlyResyncedAt1, [])
        ∧ ∃ ss1, DecodePowerMessage defaultConsts ssT 3 powerPage7 = .ok (ss1, [])
            ∧ ss1.po = powerOnlyResyncedAt1 ∧ ss1.dPowerOnlyBundleRxTime = 1 := by
  obtain ⟨ssT, hT, hc, hb, hres, _⟩ :=
    (C18_bundle_receive_time defaultConsts session1 tepsPage powerPage7 1 3 (by decide)
      (by decide) (by decide) (by decide) (by decide) (by decide!)).2.2
  exact ⟨by decide, by decide, by decide, by decide, by decide, by decide!, ssT, hT, hc, hb,
    by decide!, hres (Or.inl (by decide)) powerOnlyResyncedAt1 [] (by decide!)⟩


/-- C11 (code fault in the Wheel-Torque resync): with a record interval of 0.5 s, a first
Wheel-Torque page at 0.6 s puts the record clock at 0.5 s; a second page after 12.6 s of
silence resyncs at the epoch 13 s, a gap of 12.5 s.  The gap rounded to whole intervals,
`floor((12.5 + 0.25) / 0.5)`, is 25, and that is the count the Power-Only, Crank-Torque and
Crank-Torque-Frequency formula gives; `DecodeWheelTorque_Resync` casts the numerator to
`unsigned char` before dividing and gets 24, so 24 filler records are emitted where the
same frames sent as Power-Only pages give 25. -/
theorem C11_wheel_torque_gap_count_not_rounded :
    (decodeAll defaultConsts session05 (wtGapFrames.take 1)).map
        (fun out => (out.1.wt.stState.dLastRecordTime, out.1.wt.dRecordInterval, out.2))
      = .ok (1 / 2, 1 / 2, [])
    ∧ recordEpoch (1 / 2) (66 / 5) = 13
    ∧ ⌊((13 - 1 / 2 : ℚ) + (1 / 2) / 2) / (1 / 2)⌋ = 25
    ∧ resyncGapCountWT (13 - 1 / 2) (1 / 2) = .ok 24
    ∧ resyncGapCount (13 - 1 / 2) (1 / 2) = .ok 25
    ∧ (decodeAll defaultConsts session05 wtGapFrames).map
        (fun out => (out.2.length, out.1.wt.stState.dLastRecordTime)) = .ok (24, 13)
    ∧ (decodeAll defaultConsts session05 poGapFrames).map
        (fun out => (out.2.length, out.1.po.stState.dLastRecordTime)) = .ok (25, 13) := by
  decide!


/-! ## The event of an incremental decode and its split between the buckets -/

theorem po_update_event (c : Consts) (s s2 : BPSAMPLER) (p : Payload)
    (h : DecodePowerOnly_update c s p = .ok s2) :
    ∃ ev, DecodePowerOnly_event c s p = .ok ev ∧ EnergySplit c s ev s2 := by
  unfold DecodePowerOnly_update at h
  simp only [bind_eq_ok, pure_eq_ok] at h
  obtain ⟨per, hper, ev, hev, s1, hs1, rfl⟩ := h
  refine ⟨⟨ev.1, ev.2.1, ev.2.2, ev.1⟩, ?_, ?_, ?_, ?_⟩
  · unfold DecodePowerOnly_event
    simp only [bind_eq_ok, pure_eq_ok]
    exact ⟨per, hper, ev, hev, rfl⟩
  · rfl
  · intro hc
    rw [if_pos hc] at hs1
    simp only [bind_eq_ok, pure_eq_ok, fdiv_eq_ok, idiv_eq_ok, imod_eq_ok] at hs1
    obtain ⟨_, ⟨hI, rfl⟩, _, ⟨_, rfl⟩, _, ⟨_, rfl⟩, _, ⟨hd, rfl⟩, _, ⟨_, rfl⟩, _, ⟨_, rfl⟩,
      _, ⟨_, rfl⟩, _, ⟨_, rfl⟩, _, ⟨_, rfl⟩, _, ⟨_, rfl⟩, rfl⟩ := hs1
    exact ⟨hI, by exact_mod_cast hd, rfl, rfl, rfl, rfl⟩
  · intro hc
    rw [if_neg hc] at hs1
    simp only [pure_eq_ok] at hs1
    subst hs1
    exact ⟨rfl, rfl, rfl, rfl⟩

theorem wt_update_event (c : Consts) (s s2 : BPSAMPLER) (p : Payload)
    (h : DecodeWheelTorque_update c s p = .ok s2) :
    ∃ ev, DecodeWheelTorque_event c s p = .ok ev ∧ EnergySplit c s ev s2 := by
  unfold DecodeWheelTorque_update at h
  simp only [bind_eq_ok, pure_eq_ok] at h
  obtain ⟨ev, hev, s1, hs1, rfl⟩ := h
  refine ⟨⟨ev.1, ev.2.1, ev.2.2.1, ev.1⟩, ?_, ?_, ?_, ?_⟩
  · unfold DecodeWheelTorque_event
    simp only [bind_eq_ok, pure_eq_ok]
    exact ⟨ev, hev, rfl⟩
  · rfl
  · intro hc
    rw [if_pos hc] at hs1
    simp only [bind_eq_ok, pure_eq_ok, fdiv_eq_ok, idiv_eq_ok, imod_eq_ok] at hs1
    obtain ⟨_, ⟨hI, rfl⟩, _, ⟨_, rfl⟩, _, ⟨_, rfl⟩, _, ⟨hd, rfl⟩, _, ⟨_, rfl⟩, _, ⟨_, rfl⟩,
      _, ⟨_, rfl⟩, rfl⟩ := hs1
    exact ⟨hI, by exact_mod_cast hd, rfl, rfl, rfl, rfl⟩
  · intro hc
    rw [if_neg hc] at hs1
    simp only [pure_eq_ok] at hs1
    subst hs1
    exact ⟨rfl, rfl, rfl, rfl⟩

theorem ct_update_event (c : Consts) (s s2 : BPSAMPLER) (p : Payload)
    (h : DecodeCrankTorque_update c s p = .ok s2) :
    ∃ ev, DecodeCrankTorque_event c s p = .ok ev ∧ EnergySplit c s ev s2 := by
  unfold DecodeCrankTorque_update at h
  simp only [bind_eq_ok, pure_eq_ok] at h
  obtain ⟨ev, hev, s1, hs1, rfl⟩ := h
  refine ⟨⟨ev.1, delta16 (word16 p.b4 p.b5) s.usLastAccumPeriod, ev.2,
    toULong c ((s.ulEventTime + delta16 (word16 p.b4 p.b5) s.usLastAccumPeriod : Nat) : Int)⟩,
    ?_, ?_, ?_, ?_⟩
  · unfold DecodeCrankTorque_event
    simp only [bind_eq_ok, pure_eq_ok]
    exact ⟨ev, hev, rfl⟩
  · split at hs1
    · simp only [bind_eq_ok, pure_eq_ok] at hs1
      obtain ⟨_, _, _, _, _, _, _, _, _, _, _, _, _, _, _, _, _, _, _, _, rfl⟩ := hs1
      rfl
    · simp only [pure_eq_ok] at hs1
      subst hs1
      rfl
  · intro hc
    rw [if_pos hc] at hs1
    simp only [bind_eq_ok, pure_eq_ok, fdiv_eq_ok, idiv_eq_ok, imod_eq_ok] at hs1
    obtain ⟨_, ⟨hI, rfl⟩, _, ⟨_, rfl⟩, _, ⟨_, rfl⟩, _, ⟨hd, rfl⟩, _, ⟨_, rfl⟩, _, ⟨_, rfl⟩,
      _, ⟨_, rfl⟩, _, ⟨_, rfl⟩, _, ⟨_, rfl⟩, _, ⟨_, rfl⟩, rfl⟩ := hs1
    exact ⟨hI, by exact_mod_cast hd, rfl, rfl, rfl, rfl⟩
  · intro hc
    rw [if_neg hc] at hs1
    simp only [pure_eq_ok] at hs1
    subst hs1
    exact ⟨rfl, rfl, rfl, rfl⟩

theorem ctf_update_event (c : Consts) (s s2 : BPSAMPLER) (p : Payload)
    (h : DecodeCrankTorqueFreq_update c s p = .ok s2) :
    ∃ ev, DecodeCrankTorqueFreq_event c s p = .ok ev ∧ EnergySplit c s ev s2 := by
  unfold DecodeCrankTorqueFreq_update at h
  simp only [bind_eq_ok, pure_eq_ok] at h
  obtain ⟨ev, hev, s1, hs1, rfl⟩ := h
  refine ⟨⟨ev.1, delta16 (word16 p.b5 p.b4) s.usLastAccumPeriod, ev.2,
    toULong c ((s.ulEventTime + delta16 (word16 p.b5 p.b4) s.usLastAccumPeriod : Nat) : Int)⟩,
    ?_, ?_, ?_, ?_⟩
  · unfold DecodeCrankTorqueFreq_event
    simp only [bind_eq_ok, pure_eq_ok]
    exact ⟨ev, hev, rfl⟩
  · split at hs1
    · simp only [bind_eq_ok, pure_eq_ok] at hs1
      obtain ⟨_, _, _, _, _, _, _, _, _, _, _, _, _, _, _, _, _, _, _, _, rfl⟩ := hs1
      rfl
    · simp only [pure_eq_ok] at hs1
      subst hs1
      rfl
  · intro hc
    rw [if_pos hc] at hs1
    simp only [bind_eq_ok, pure_eq_ok, fdiv_eq_ok, idiv_eq_ok, imod_eq_ok] at hs1
    obtain ⟨_, ⟨hI, rfl⟩, _, ⟨_, rfl⟩, _, ⟨_, rfl⟩, _, ⟨hd, rfl⟩, _, ⟨_, rfl⟩, _, ⟨_, rfl⟩,
      _, ⟨_, rfl⟩, _, ⟨_, rfl⟩, _, ⟨_, rfl⟩, _, ⟨_, rfl⟩, rfl⟩ := hs1
    exact ⟨hI, by exact_mod_cast hd, rfl, rfl, rfl, rfl⟩
  · intro hc
    rw [if_neg hc] at hs1
    simp only [pure_eq_ok] at hs1
    subst hs1
    exact ⟨rfl, rfl, rfl, rfl⟩

/-- Every variant: the first part of the incremental decode settles on an event and splits
its energy between the buckets. -/
theorem update_event (c : Consts) (v : Variant) (s s2 : BPSAMPLER) (p : Payload)
    (h : v.update c s p = .ok s2) : ∃ ev, v.event c s p = .ok ev ∧ EnergySplit c s ev s2 := by
  cases v
  · exact po_update_event c s s2 p h
  · exact wt_update_event c s s2 p h
  · exact ct_update_event c s s2 p h
  · exact ctf_update_event c s s2 p h


/-! ## The emit path and the shape of a decode step, field by field -/

/-- The sampler `RecordOutput` leaves, field by field, and the number of records. -/
theorem recordOutput_fields (ro : ℚ) (s : BPSAMPLER) (out : BPSAMPLER × List Record)
    (h : RecordOutput ro s = .ok out) :
    ro ≠ 0 ∧ s.usRecordInterval ≠ 0
    ∧ out.1.ulEventTime = s.ulEventTime
    ∧ out.1.ulLastRecordTime = s.ulEventTime / s.usRecordInterval * s.usRecordInterval
    ∧ out.1.usRecordInterval = s.usRecordInterval
    ∧ out.1.ucRecordGapCount = 0
    ∧ out.1.fAccumEnergy = s.fAccumEnergy
    ∧ out.1.dTotalEnergy = s.dTotalEnergy + s.fPendingEnergy
        + (if s.ucRecordGapCount = 0 then 0 else s.fGapEnergy)
    ∧ out.1.dLastRecordTime = s.dLastRecordTime + (s.ucRecordGapCount + 1 : Nat) * ro
    ∧ out.2.length = s.ucRecordGapCount + 1
    ∧ out.2.head? = some ⟨s.dLastRecordTime + ro, s.dTotalRotation + s.fPendingRotation,
        s.dTotalEnergy + s.fPendingEnergy, s.fPendingRotation * 60 / ro,
        s.fPendingEnergy / ro⟩ := by
  unfold RecordOutput at h
  simp only [bind_eq_ok, pure_eq_ok, fdiv_eq_ok, idiv_eq_ok] at h
  obtain ⟨_, ⟨hro, rfl⟩, _, ⟨_, rfl⟩, _, ⟨hI, rfl⟩, out1, h1, rfl⟩ := h
  refine ⟨hro, hI, ?_⟩
  by_cases hn : 0 < s.ucRecordGapCount
  · have e1 := fillGap_pos ro
      { s with
        dTotalEnergy := s.dTotalEnergy + s.fPendingEnergy,
        dTotalRotation := s.dTotalRotation + s.fPendingRotation,
        dLastRecordTime := s.dLastRecordTime + ro,
        ulLastRecordTime := s.ulEventTime / s.usRecordInterval * s.usRecordInterval } hro hn
    rw [e1] at h1
    simp only [Except.ok.injEq] at h1
    subst h1
    have hn0 : s.ucRecordGapCount ≠ 0 := by omega
    refine ⟨rfl, rfl, rfl, rfl, rfl, ?_, ?_, ?_, rfl⟩
    · simp only [if_neg hn0]
    · simp only
      push_cast
      ring
    · simp
  · have hn0 : s.ucRecordGapCount = 0 := by omega
    have e1 := fillGap_zero ro
      { s with
        dTotalEnergy := s.dTotalEnergy + s.fPendingEnergy,
        dTotalRotation := s.dTotalRotation + s.fPendingRotation,
        dLastRecordTime := s.dLastRecordTime + ro,
        ulLastRecordTime := s.ulEventTime / s.usRecordInterval * s.usRecordInterval } hn0
    rw [e1] at h1
    simp only [Except.ok.injEq] at h1
    subst h1
    refine ⟨rfl, rfl, rfl, hn0, rfl, ?_, ?_, ?_, rfl⟩
    · simp only [if_pos hn0, add_zero]
    · simp only [hn0]
      push_cast
      ring
    · simp [hn0]

/-- With nonzero intervals `RecordOutput` returns. -/
theorem recordOutput_ok (ro : ℚ) (s : BPSAMPLER) (hro : ro ≠ 0) (hI : s.usRecordInterval ≠ 0) :
    ∃ out, RecordOutput ro s = .ok out := by
  unfold RecordOutput
  obtain ⟨out1, h1⟩ := fillGap_ok ro
    { s with
      dTotalEnergy := s.dTotalEnergy + s.fPendingEnergy,
      dTotalRotation := s.dTotalRotation + s.fPendingRotation,
      dLastRecordTime := s.dLastRecordTime + ro,
      ulLastRecordTime := s.ulEventTime / s.usRecordInterval * s.usRecordInterval } hro
  simp only [fdiv_ok _ _ hro, idiv_ok _ _ hI, bind, Except.bind, h1]
  exact ⟨_, rfl⟩

/-- Shape of a successful incremental decode with the fields of the sampler: the first part,
then the closing step, whose sampler is kept but for the raw counters of the frame. -/
theorem decode_shape (c : Consts) (v : Variant) (ro : ℚ) (d : Decoder) (t : ℚ) (p : Payload)
    (d1 : Decoder) (rs : List Record) (h : v.Decode c ro d t p = .ok (d1, rs)) :
    ∃ s2 out, v.update c d.stState p = .ok s2
      ∧ recordOrCatchUp c ro d.dRecordInterval (v.catchUpStep c d) t s2 = .ok out
      ∧ rs = out.2
      ∧ d1.stState.ulEventTime = out.1.ulEventTime
      ∧ d1.stState.ulLastRecordTime = out.1.ulLastRecordTime
      ∧ d1.stState.usRecordInterval = out.1.usRecordInterval
      ∧ d1.stState.ucRecordGapCount = out.1.ucRecordGapCount
      ∧ d1.stState.fAccumEnergy = out.1.fAccumEnergy
      ∧ d1.stState.dTotalEnergy = out.1.dTotalEnergy
      ∧ d1.stState.dLastRecordTime = out.1.dLastRecordTime := by
  cases v
  all_goals
    simp only [Variant.Decode] at h
    first
      | unfold DecodePowerOnly at h
      | unfold DecodeWheelTorque at h
      | unfold DecodeCrankTorque at h
      | unfold DecodeCrankTorqueFreq at h
    simp only [bind_eq_ok, pure_eq_ok, Prod.mk.injEq] at h
    obtain ⟨s2, hs2, out, hout, rfl, rfl⟩ := h
    have hb : SameBase d.stState s2 := by
      first
        | exact (po_update_spec c d.stState s2 p hs2).1
        | exact (wt_update_spec c d.stState s2 p hs2).1
        | exact (ct_update_spec c d.stState s2 p hs2).1
        | exact (ctf_update_spec c d.stState s2 p hs2).1
    refine ⟨s2, out, hs2, ?_, rfl, rfl, rfl, rfl, rfl, rfl, rfl, rfl⟩
    simp only [Variant.catchUpStep]
    first
      | exact hout
      | (rw [← hb.2.2.2.1]; exact hout)

/-- The event time a step stores is the new event time it tested, except for a non-event of
the Crank-Torque and Crank-Torque-Frequency decoders, whose tested time is the old one. -/
theorem event_after (c : Consts) (v : Variant) (s : BPSAMPLER) (p : Payload) (ev : Event)
    (h : v.event c s p = .ok ev) :
    ev.ulEventTime = ev.ulNewEventTime ∨ ev.ulNewEventTime = s.ulEventTime := by
  cases v
  · simp only [Variant.event] at h
    unfold DecodePowerOnly_event at h
    simp only [bind_eq_ok, pure_eq_ok] at h
    obtain ⟨_, _, _, _, rfl⟩ := h
    exact Or.inl rfl
  · simp only [Variant.event] at h
    unfold DecodeWheelTorque_event at h
    simp only [bind_eq_ok, pure_eq_ok] at h
    obtain ⟨_, _, rfl⟩ := h
    exact Or.inl rfl
  all_goals
    simp only [Variant.event] at h
    first
      | unfold DecodeCrankTorque_event at h
      | unfold DecodeCrankTorqueFreq_event at h
    simp only [bind_eq_ok, pure_eq_ok] at h
    obtain ⟨ev0, hev0, rfl⟩ := h
    split at hev0
    · simp only [bind_eq_ok, pure_eq_ok] at hev0
      first
        | (obtain ⟨_, _, _, _, rfl⟩ := hev0; exact Or.inl rfl)
        | (obtain ⟨_, _, _, _, _, _, _, _, rfl⟩ := hev0; exact Or.inl rfl)
    · simp only [pure_eq_ok] at hev0
      subst hev0
      exact Or.inr rfl


/-! ## Frame layouts -/

/-- C22 (code fault in `Example::ProcessMessage`): the right pedal smoothness handed to the
TE/PS sink is read from payload byte 4, the byte of the left-or-combined pedal smoothness,
not from byte 5: for every TE/PS page the four values are `payload[2]/2`, `payload[3]/2`,
`payload[4]/2` and again `payload[4]/2`, whatever byte 5 holds; the page `tePsValuesPage`
with bytes 4 and 5 equal to 40 and 60 reports a right pedal smoothness of 20, not 30. -/
theorem C22_teps_right_smoothness_reads_byte_four :
    (∀ e a b x y g h : Fin 256,
      ProcessMessage_TePs ⟨0x13, e, a, b, x, y, g, h⟩
        = some ((a.val : ℚ) / 2, (b.val : ℚ) / 2, (x.val : ℚ) / 2, (x.val : ℚ) / 2))
    ∧ ProcessMessage_TePs tePsValuesPage = some (50, 45, 20, 20)
    ∧ (tePsValuesPage.b5.val : ℚ) / 2 = 30 := by
  refine ⟨fun e a b x y g h => rfl, by decide!, by decide!⟩

/-- C26: every call of `RecordOutput` that returns was made with a nonzero quantized record
interval and leaves `ulLastRecordTime ≤ ulEventTime` and
`ulEventTime - ulLastRecordTime < usRecordInterval`, with one record and then one more
for every gap interval; with a quantized record interval of at least 1 and a nonzero
record interval the call does return. -/
theorem C26_emit_realigns_record_clock (ro : ℚ) (s : BPSAMPLER)
    (hI : 1 ≤ s.usRecordInterval) :
    (∀ out, RecordOutput ro s = .ok out →
      out.1.ulLastRecordTime ≤ out.1.ulEventTime
      ∧ out.1.ulEventTime - out.1.ulLastRecordTime < out.1.usRecordInterval
      ∧ out.1.ucRecordGapCount = 0
      ∧ out.2.length = s.ucRecordGapCount + 1)
    ∧ (ro ≠ 0 → ∃ out, RecordOutput ro s = .ok out) := by
  refine ⟨?_, fun hro => recordOutput_ok ro s hro (by omega)⟩
  intro out h
  obtain ⟨_, _, h1, h2, h3, h4, _, _, _, h5, _⟩ := recordOutput_fields ro s out h
  rw [h1, h2, h3]
  have hpos : 0 < s.usRecordInterval := by omega
  have hle : s.ulEventTime / s.usRecordInterval * s.usRecordInterval ≤ s.ulEventTime :=
    Nat.div_mul_le_self _ _
  have hmod := Nat.mod_lt s.ulEventTime hpos
  have hdm := Nat.div_add_mod s.ulEventTime s.usRecordInterval
  refine ⟨hle, ?_, h4, h5⟩
  have e : s.ulEventTime / s.usRecordInterval * s.usRecordInterval
      = s.usRecordInterval * (s.ulEventTime / s.usRecordInterval) := Nat.mul_comm _ _
  omega

theorem C26_emit_realigns_record_clock_witness :
    1 ≤ emitState.usRecordInterval ∧ (1 : ℚ) ≠ 0
    ∧ ∃ out, RecordOutput 1 emitState = .ok out
        ∧ out.1.ulLastRecordTime ≤ out.1.ulEventTime
        ∧ out.1.ulEventTime - out.1.ulLastRecordTime < out.1.usRecordInterval
        ∧ out.1.ucRecordGapCount = 0
        ∧ out.2.length = emitState.ucRecordGapCount + 1 := by
  obtain ⟨h1, h2⟩ := C26_emit_realigns_record_clock 1 emitState (by decide)
  obtain ⟨out, ho⟩ := h2 (by decide)
  exact ⟨by decide, by decide, out, ho, h1 out ho⟩

/-- C21 (as stated, refuted): the first Crank-Torque-Frequency page of a session, with
time-stamp bytes `payload[4] = 1`, `payload[5] = 2` and torque-tick bytes `payload[6] = 3`,
`payload[7] = 4`, leaves the stored period counter at `256 * 1 + 2 = 258` and the stored
torque-tick counter at `256 * 3 + 4 = 772`; read low byte first they would be 513 and
1027. -/
theorem C21_ctf_fields_high_byte_first_counterexample :
    (DecodePowerMessage defaultConsts session1 (1 / 2) ctfPage1234).map
        (fun out => (out.1.ctf.stState.usLastAccumPeriod, out.1.ctf.stState.usLastAccumTorque))
      = .ok (258, 772)
    ∧ (DecodeCrankTorqueFreq_Resync defaultConsts 1 session1.ctf (1 / 2) ctfPage1234).map
        (fun out => (out.1.stState.usLastAccumPeriod, out.1.stState.usLastAccumTorque))
      = .ok (258, 772)
    ∧ ctfPage1234.b4.val + 256 * ctfPage1234.b5.val = 513
    ∧ ctfPage1234.b6.val + 256 * ctfPage1234.b7.val = 1027 := by
  decide!

/-- C21 (amended): the Crank-Torque-Frequency decoder reads the torque slope, the time stamp
and the torque ticks as 16-bit values with the high byte first, from payload bytes 2-3, 4-5
and 6-7.  For every payload a resync (record intervals not zero) returns and stores
`256 * payload[4] + payload[5]` as period counter and `256 * payload[6] + payload[7]` as
torque-tick counter, and so does every incremental decode that returns; and whenever the
event of an incremental decode has a valid period delta, the slope `256 * payload[2] +
payload[3]` is not zero and is the divisor of the offset-corrected torque the event energy
is computed from. -/
theorem C21_ctf_fields_high_byte_first (c : Consts) (ro : ℚ) (d : Decoder) (t : ℚ)
    (p : Payload) (hI : d.dRecordInterval ≠ 0) (hro : ro ≠ 0) :
    (∃ d1 rs, DecodeCrankTorqueFreq_Resync c ro d t p = .ok (d1, rs)
      ∧ d1.stState.usLastAccumPeriod = 256 * p.b4.val + p.b5.val
      ∧ d1.stState.usLastAccumTorque = 256 * p.b6.val + p.b7.val)
    ∧ (∀ d1 rs, DecodeCrankTorqueFreq c ro d t p = .ok (d1, rs) →
      d1.stState.usLastAccumPeriod = 256 * p.b4.val + p.b5.val
      ∧ d1.stState.usLastAccumTorque = 256 * p.b6.val + p.b7.val)
    ∧ (∀ ev, DecodeCrankTorqueFreq_event c d.stState p = .ok ev →
      delta16 (256 * p.b4.val + p.b5.val) d.stState.usLastAccumPeriod ≠ 0 →
      delta16 (256 * p.b4.val + p.b5.val) d.stState.usLastAccumPeriod ≠ 0xFFFF →
      256 * p.b2.val + p.b3.val ≠ 0
      ∧ ∃ t2 : Nat,
        t2 = toULong c (((if
            toULong c (((if delta16 (256 * p.b6.val + p.b7.val) d.stState.usLastAccumTorque
                  = 65535 then 0
                else delta16 (256 * p.b6.val + p.b7.val) d.stState.usLastAccumTorque)
                * c.CTF_TIME_QUANTIZATION * 32 : Nat) : Int)
              / delta16 (256 * p.b4.val + p.b5.val) d.stState.usLastAccumPeriod
              > toULong c ((d.stState.usTorqueOffset * 32 : Nat) : Int)
          then toULong c (((toULong c (((if
                delta16 (256 * p.b6.val + p.b7.val) d.stState.usLastAccumTorque = 65535 then 0
                else delta16 (256 * p.b6.val + p.b7.val) d.stState.usLastAccumTorque)
                * c.CTF_TIME_QUANTIZATION * 32 : Nat) : Int)
              / delta16 (256 * p.b4.val + p.b5.val) d.stState.usLastAccumPeriod : Nat) : Int)
            - toULong c ((d.stState.usTorqueOffset * 32 : Nat) : Int))
          else 0) * 10 : Nat) : Int)
        ∧ ev.fEventEnergy = M_PI * ((t2 / (256 * p.b2.val + p.b3.val) : Nat) : ℚ) / 16) := by
  refine ⟨?_, ?_, ?_⟩
  · obtain ⟨out, hout⟩ := resync_ok c .crankTorqueFreq ro d t p hI hro
    obtain ⟨_, _, _, _, _, _, _, _, _, _, _, _, _, a14, a15⟩ :=
      resync_fields c .crankTorqueFreq ro d t p out.1 out.2 hout
    exact ⟨out.1, out.2, hout, a15, a14⟩
  · intro d1 rs h
    unfold DecodeCrankTorqueFreq at h
    simp only [bind_eq_ok, pure_eq_ok, Prod.mk.injEq] at h
    obtain ⟨s2, _, out, _, rfl, rfl⟩ := h
    simp only [word16_val]
    constructor <;> ring
  · intro ev h hd0 hdF
    unfold DecodeCrankTorqueFreq_event at h
    simp only [word16_val, add_comm (p.b5.val) _, add_comm (p.b7.val) _,
      add_comm (p.b3.val) _, bind_eq_ok, pure_eq_ok] at h
    obtain ⟨ev0, hev0, rfl⟩ := h
    rw [if_pos ⟨hd0, hdF⟩] at hev0
    simp only [bind_eq_ok, pure_eq_ok, idiv_eq_ok] at hev0
    obtain ⟨_, ⟨_, rfl⟩, _, ⟨hs, rfl⟩, _, ⟨_, rfl⟩, _, ⟨_, rfl⟩, rfl⟩ := hev0
    exact ⟨hs, _, rfl, rfl⟩

theorem C21_ctf_fields_high_byte_first_witness :
    session1.ctf.dRecordInterval ≠ 0 ∧ (1 : ℚ) ≠ 0
    ∧ ∃ d1 rs, DecodeCrankTorqueFreq_Resync defaultConsts 1 session1.ctf (1 / 2) ctfPage1234
        = .ok (d1, rs)
      ∧ d1.stState.usLastAccumPeriod = 256 * ctfPage1234.b4.val + ctfPage1234.b5.val
      ∧ d1.stState.usLastAccumTorque = 256 * ctfPage1234.b6.val + ctfPage1234.b7.val :=
  ⟨by decide!, by decide,
    (C21_ctf_fields_high_byte_first defaultConsts 1 session1.ctf (1 / 2) ctfPage1234
      (by decide!) (by decide)).1⟩


/-! ## Non-events, clamps and the boundary test -/

/-- C29 (code fault in the Crank-Torque and Crank-Torque-Frequency decoders): a frame whose
period delta is the sentinel `0xFFFF` is tested against the record boundary with the old
event time (a non-event, event energy 0), but the step then executes
`stState.ulEventTime += usDeltaPeriod`: the event time goes from 0 to 65535, the second
boundary test fires and `RecordOutput` emits a record.  The Wheel-Torque decoder, which
stores `ulNewEventTime`, leaves the event time at 0 for the same frames and emits
nothing. -/
theorem C29_sentinel_period_advances_event_time :
    DecodeCrankTorque_event defaultConsts
        (BPSAMPLER.zero) ⟨0x12, 1, 1, 60, 0xFF, 0xFF, 10, 0⟩ = .ok ⟨0, 65535, 0, 65535⟩
    ∧ DecodeCrankTorqueFreq_event defaultConsts
        (BPSAMPLER.zero) ⟨0x20, 1, 1, 60, 0xFF, 0xFF, 10, 0⟩ = .ok ⟨0, 65535, 0, 65535⟩
    ∧ DecodeWheelTorque_event defaultConsts
        (BPSAMPLER.zero) ⟨0x11, 1, 1, 60, 0xFF, 0xFF, 10, 0⟩ = .ok ⟨0, 65535, 0, 0⟩
    ∧ (decodeAll defaultConsts session1 (sentinelPeriodFrames 0x12)).map
        (fun out => (out.1.ct.stState.ulEventTime, out.1.ct.stState.fAccumEnergy,
          out.2.map (fun r => (r.timestamp, r.averagePower)))) = .ok (65535, 0, [(1, 0)])
    ∧ (decodeAll defaultConsts session1 (sentinelPeriodFrames 0x20)).map
        (fun out => (out.1.ctf.stState.ulEventTime, out.1.ctf.stState.fAccumEnergy,
          out.2.map (fun r => (r.timestamp, r.averagePower)))) = .ok (65535, 0, [(1, 0)])
    ∧ (decodeAll defaultConsts session1 (sentinelPeriodFrames 0x11)).map
        (fun out => (out.1.wt.stState.ulEventTime, out.1.wt.stState.fAccumEnergy,
          out.2.map (fun r => (r.timestamp, r.averagePower)))) = .ok (0, 0, []) := by
  refine ⟨by decide!, by decide!, by decide!, by decide!, by decide!, by decide!⟩

/-- C30 (as stated, refuted): in time-based mode (time base 1 s) a Wheel-Torque frame whose
wheel-tick delta is 201 still adds rotation: the clamped tick delta is replaced by the
event-count delta, and the frame's record reports one revolution and a cadence of 60.  The
same frames decoded in event-based mode add no rotation. -/
theorem C30_time_based_ignores_tick_clamp_counterexample :
    delta8 201 0 > 200
    ∧ (decodeAll defaultConsts sessionTb tickJumpFrames).map
        (fun out => (out.1.wt.stState.dTotalRotation,
          out.2.map (fun r => (r.cumulativeRotation, r.averageCadence))))
      = .ok (1, [(1, 60)])
    ∧ (decodeAll defaultConsts session1 tickJumpFrames).map
        (fun out => (out.1.wt.stState.dTotalRotation, out.1.wt.stState.fAccumRotation,
          out.2.map (fun r => (r.cumulativeRotation, r.averageCadence))))
      = .ok (0, 0, [(0, 0)]) := by
  decide!

/-- C30 (amended): in the Wheel-Torque decoder a wheel-tick delta above 200 is clamped to
zero, and in event-based mode the frame then adds nothing to the rotation buckets: across a
record boundary the pending rotation is the old accumulated rotation and the accumulated
and gap rotation are zero, otherwise the accumulated rotation is unchanged.  In time-based
mode a frame with a valid period delta and a nonzero cadence does not use the tick delta:
its rotation is the event-count delta times `cadence / 60`. -/
theorem C30_tick_clamp_event_based (c : Consts) (s s2 : BPSAMPLER) (p : Payload)
    (hclamp : delta8 p.b2.val s.ucLastRotationTicks > 200)
    (h : DecodeWheelTorque_update c s p = .ok s2) :
    (s.usTimeBase = 0 →
      (crossed c s s2.ulEventTime →
        s2.fPendingRotation = s.fAccumRotation ∧ s2.fAccumRotation = 0
        ∧ s2.fGapRotation = 0)
      ∧ (¬ crossed c s s2.ulEventTime →
        s2.fAccumRotation = s.fAccumRotation ∧ s2.fPendingRotation = 0
        ∧ s2.fGapRotation = s.fGapRotation))
    ∧ (s.usTimeBase ≠ 0 → p.b3.val ≠ 0 →
      delta16 (word16 p.b4 p.b5) s.usLastAccumPeriod ≠ 0 →
      delta16 (word16 p.b4 p.b5) s.usLastAccumPeriod ≠ 0xFFFF →
      (crossed c s s2.ulEventTime →
        s2.fPendingRotation = s.fAccumRotation
          + (delta8 p.b1.val s.ucLastEventCount : ℚ) * p.b3.val / 60
            * (toULong c ((s.usRecordInterval : Int)
                - (s.ulEventTime % s.usRecordInterval : Nat)) : ℚ) / c.WT_TIME_QUANTIZATION)
      ∧ (¬ crossed c s s2.ulEventTime →
        s2.fAccumRotation = s.fAccumRotation
          + (delta8 p.b1.val s.ucLastEventCount : ℚ) * p.b3.val / 60)) := by
  unfold DecodeWheelTorque_update at h
  simp only [bind_eq_ok, pure_eq_ok, if_pos hclamp] at h
  obtain ⟨ev, hev, s1, hs1, rfl⟩ := h
  constructor
  · intro htb
    have hticks : ev.2.2.2 = 0 := by
      split at hev
      · simp only [bind_eq_ok, pure_eq_ok, htb, ne_eq, not_true_eq_false, if_false] at hev
        obtain ⟨_, _, _, _, rfl⟩ := hev
        rfl
      · simp only [pure_eq_ok] at hev
        subst hev
        rfl
    constructor
    · intro hc
      rw [if_pos hc] at hs1
      simp only [bind_eq_ok, pure_eq_ok, hticks] at hs1
      obtain ⟨_, _, _, _, _, _, _, _, _, _, _, _, _, _, rfl⟩ := hs1
      simp
    · intro hc
      rw [if_neg hc] at hs1
      simp only [pure_eq_ok, hticks] at hs1
      subst hs1
      simp
  · intro htb hcad hd0 hdF
    have hticks : ev.2.2.2 = delta8 p.b1.val s.ucLastEventCount := by
      rw [if_pos ⟨hd0, hdF⟩] at hev
      simp only [bind_eq_ok, pure_eq_ok, htb, ne_eq, not_false_eq_true, if_true, hcad] at hev
      obtain ⟨_, _, _, _, rfl⟩ := hev
      rfl
    constructor
    · intro hc
      rw [if_pos hc] at hs1
      simp only [bind_eq_ok, pure_eq_ok, imod_eq_ok, hticks] at hs1
      obtain ⟨_, _, _, _, _, ⟨_, rfl⟩, _, _, _, _, _, _, _, _, rfl⟩ := hs1
      rfl
    · intro hc
      rw [if_neg hc] at hs1
      simp only [pure_eq_ok, hticks] at hs1
      subst hs1
      rfl


theorem C30_tick_clamp_event_based_witness :
    delta8 tickJumpPage.b2.val session1.wt.stState.ucLastRotationTicks > 200
    ∧ session1.wt.stState.usTimeBase = 0
    ∧ ∃ s2, DecodeWheelTorque_update defaultConsts session1.wt.stState tickJumpPage
        = .ok s2
      ∧ crossed defaultConsts session1.wt.stState s2.ulEventTime
      ∧ s2.fPendingRotation = session1.wt.stState.fAccumRotation ∧ s2.fAccumRotation = 0
      ∧ s2.fGapRotation = 0 := by
  have hok : (DecodeWheelTorque_update defaultConsts session1.wt.stState
      tickJumpPage).toBool = true := by decide!
  have hev : (DecodeWheelTorque_update defaultConsts session1.wt.stState
      tickJumpPage).map (fun s2 => s2.ulEventTime) = .ok 2048 := by decide!
  match hres : DecodeWheelTorque_update defaultConsts session1.wt.stState
      tickJumpPage with
  | .error e =>
    rw [hres] at hok
    exact absurd hok (by simp [Except.toBool])
  | .ok s2 =>
    rw [hres] at hev
    have he : s2.ulEventTime = 2048 := by simpa [Except.map] using hev
    have hc : crossed defaultConsts session1.wt.stState s2.ulEventTime := by
      rw [he]
      decide!
    exact ⟨by decide!, by decide!, s2, rfl, hc,
      ((C30_tick_clamp_event_based defaultConsts session1.wt.stState s2
        tickJumpPage (by decide!) hres).1 (by decide!)).1 hc⟩


/-- The boundary test compares the low 16 bits of the distance from the last record
boundary with the quantized record interval. -/
theorem not_crossed_lt (c : Consts) (s : BPSAMPLER) (h : ¬ crossed c s s.ulEventTime)
    (hle : s.ulLastRecordTime ≤ s.ulEventTime)
    (h16 : s.ulEventTime - s.ulLastRecordTime < 65536) :
    s.ulEventTime - s.ulLastRecordTime < s.usRecordInterval := by
  unfold crossed at h
  have hb : (65536 : Nat) ≤ 2 ^ c.ULONG_BITS :=
    le_trans (by norm_num) (Nat.pow_le_pow_right (by norm_num) c.ulong_bits)
  have e1 : toULong c ((s.ulEventTime : Int) - s.ulLastRecordTime)
      = s.ulEventTime - s.ulLastRecordTime := by
    unfold toULong
    have h2 : ((s.ulEventTime : Int) - s.ulLastRecordTime)
        = ((s.ulEventTime - s.ulLastRecordTime : Nat) : Int) := by
      omega
    rw [h2, ← Int.natCast_mod, Int.toNat_natCast]
    exact Nat.mod_eq_of_lt (by omega)
  have e2 : toUShort ((s.ulEventTime - s.ulLastRecordTime : Nat) : Int)
      = s.ulEventTime - s.ulLastRecordTime := by
    unfold toUShort
    have h3 : ((s.ulEventTime - s.ulLastRecordTime : Nat) : Int) % 65536
        = ((s.ulEventTime - s.ulLastRecordTime : Nat) : Int) := by
      omega
    rw [h3, Int.toNat_natCast]
  rw [e1, e2] at h
  omega

/-- C27 (as stated, refuted): a coasting Power-Only frame (cadence 0) sets the period delta
to `0xFFFF`; decoded after an event that left the event time 1365 ticks past the last record
boundary, it moves the event time to 68948 while the last boundary is 2048 and the
quantized record interval 2048: the event time is far beyond the next boundary, yet the
step emits nothing, because the test only sees the low 16 bits of the distance, 1364. -/
theorem C27_boundary_test_truncates_counterexample :
    (decodeAll defaultConsts session1 (coastingFrames.take 3)).map
        (fun out => (out.1.po.stState.ulEventTime, out.1.po.stState.ulLastRecordTime,
          out.1.po.stState.usRecordInterval, out.2.length)) = .ok (3413, 2048, 2048, 1)
    ∧ (decodeAll defaultConsts session1 coastingFrames).map
        (fun out => (out.1.po.stState.ulEventTime, out.1.po.stState.ulLastRecordTime,
          out.1.po.stState.usRecordInterval, out.2.length)) = .ok (68948, 2048, 2048, 1)
    ∧ 2048 + 2048 ≤ 68948
    ∧ toUShort (toULong defaultConsts ((68948 : Int) - 2048)) = 1364 := by
  refine ⟨by decide!, by decide!, by decide, by decide!⟩

/-- C27 (amended): an incremental decode step of any variant invokes the emit path exactly
when the low 16 bits of the distance of the new event time from `ulLastRecordTime` have
reached the quantized record interval.  After a step that did not emit, the only records
are wall-clock fillers and those low 16 bits are below the quantized record interval, so
`ulEventTime - ulLastRecordTime < usRecordInterval` whenever that distance is below 65536;
after a step that did emit, the distance itself is below the quantized record interval. -/
theorem C27_boundary_test_low_sixteen_bits (c : Consts) (v : Variant) (ro : ℚ) (d : Decoder)
    (t : ℚ) (p : Payload) (d1 : Decoder) (rs : List Record)
    (h : v.Decode c ro d t p = .ok (d1, rs)) :
    ∃ s2, v.update c d.stState p = .ok s2
      ∧ (crossed c s2 s2.ulEventTime →
          (∃ out, RecordOutput ro s2 = .ok out ∧ rs = out.2 ∧ rs ≠ [])
          ∧ d1.stState.ulLastRecordTime ≤ d1.stState.ulEventTime
          ∧ d1.stState.ulEventTime - d1.stState.ulLastRecordTime
              < d1.stState.usRecordInterval)
      ∧ (¬ crossed c s2 s2.ulEventTime →
          (∃ out, wallClockFill t d.dRecordInterval (v.catchUpStep c d) s2 = .ok out
            ∧ rs = out.2 ∧ ∀ r ∈ rs, r.averagePower = 0 ∧ r.averageCadence = 0)
          ∧ toUShort (toULong c ((d1.stState.ulEventTime : Int)
              - d1.stState.ulLastRecordTime)) < d1.stState.usRecordInterval
          ∧ (d1.stState.ulLastRecordTime ≤ d1.stState.ulEventTime →
              d1.stState.ulEventTime - d1.stState.ulLastRecordTime < 65536 →
              d1.stState.ulEventTime - d1.stState.ulLastRecordTime
                < d1.stState.usRecordInterval)) := by
  obtain ⟨s2, out, hs2, hout, hrs, e1, e2, e3, _, _, _, _⟩ := decode_shape c v ro d t p d1 rs h
  refine ⟨s2, hs2, ?_, ?_⟩
  · intro hc
    rw [recordOrCatchUp_crossed c ro _ _ t s2 hc] at hout
    obtain ⟨_, hI, f1, f2, f3, _, _, _, _, f4, _⟩ := recordOutput_fields ro s2 out hout
    rw [e1, e2, e3, f1, f2, f3]
    refine ⟨⟨out, hout, hrs, ?_⟩, Nat.div_mul_le_self _ _, ?_⟩
    · rw [hrs]
      intro hnil
      rw [hnil] at f4
      simp at f4
    · have hpos : 0 < s2.usRecordInterval := Nat.pos_of_ne_zero hI
      have hmod := Nat.mod_lt s2.ulEventTime hpos
      have hdm := Nat.div_add_mod s2.ulEventTime s2.usRecordInterval
      have e : s2.ulEventTime / s2.usRecordInterval * s2.usRecordInterval
          = s2.usRecordInterval * (s2.ulEventTime / s2.usRecordInterval) := Nat.mul_comm _ _
      omega
  · intro hc
    rw [recordOrCatchUp_not_crossed c ro _ _ t s2 hc] at hout
    obtain ⟨n, ho1, ho2, _⟩ := wallClockFill_spec t _ _ s2 out hout
    have g1 : d1.stState.ulEventTime = s2.ulEventTime := by rw [e1, ho1]
    have g2 : d1.stState.ulLastRecordTime = s2.ulLastRecordTime := by rw [e2, ho1]
    have g3 : d1.stState.usRecordInterval = s2.usRecordInterval := by rw [e3, ho1]
    have hc1 : ¬ crossed c d1.stState d1.stState.ulEventTime := by
      rw [g1]
      intro hx
      exact hc ((crossed_congr c s2 d1.stState s2.ulEventTime g2 g3).mp hx)
    refine ⟨⟨out, hout, hrs, ?_⟩, ?_, ?_⟩
    · rw [hrs, ho2]
      intro r hr
      simp only [List.mem_map] at hr
      obtain ⟨k, _, rfl⟩ := hr
      exact ⟨rfl, rfl⟩
    · unfold crossed at hc1
      omega
    · intro hle h16
      exact not_crossed_lt c d1.stState hc1 hle h16


theorem C27_boundary_test_low_sixteen_bits_witness :
    ∃ d1 rs s2, Variant.powerOnly.Decode defaultConsts 1 session1.po 1 steadyPage = .ok (d1, rs)
      ∧ Variant.powerOnly.update defaultConsts session1.po.stState steadyPage = .ok s2
      ∧ (crossed defaultConsts s2 s2.ulEventTime →
          d1.stState.ulEventTime - d1.stState.ulLastRecordTime < d1.stState.usRecordInterval)
      ∧ (¬ crossed defaultConsts s2 s2.ulEventTime →
          toUShort (toULong defaultConsts ((d1.stState.ulEventTime : Int)
            - d1.stState.ulLastRecordTime)) < d1.stState.usRecordInterval) := by
  have hok : (Variant.powerOnly.Decode defaultConsts 1 session1.po 1 steadyPage).toBool
      = true := by decide!
  match hres : Variant.powerOnly.Decode defaultConsts 1 session1.po 1 steadyPage with
  | .error e =>
    rw [hres] at hok
    exact absurd hok (by simp [Except.toBool])
  | .ok (d1, rs) =>
    obtain ⟨s2, hs2, h1, h2⟩ := C27_boundary_test_low_sixteen_bits defaultConsts .powerOnly 1
      session1.po 1 steadyPage d1 rs hres
    exact ⟨d1, rs, s2, rfl, hs2, fun hc => (h1 hc).2.2, fun hc => (h2 hc).2.1⟩


/-! ## Between two steps: the reachable states -/

theorem toUShort_toULong_le (c : Consts) (n : Nat) :
    toUShort ((toULong c (n : Int) : Nat) : Int) ≤ n := by
  unfold toUShort toULong
  have h1 : ((n : Int) % ((2 ^ c.ULONG_BITS : Nat) : Int)).toNat = n % 2 ^ c.ULONG_BITS := by
    rw [← Int.natCast_mod, Int.toNat_natCast]
  rw [h1]
  have h2 : (((n % 2 ^ c.ULONG_BITS : Nat) : Int) % 65536).toNat
      = n % 2 ^ c.ULONG_BITS % 65536 := by
    have : ((65536 : Nat) : Int) = 65536 := rfl
    rw [← this, ← Int.natCast_mod, Int.toNat_natCast]
  rw [h2]
  exact le_trans (Nat.mod_le _ _) (Nat.mod_le _ _)

/-- Right after `RecordOutput` the boundary test fails. -/
theorem not_crossed_after_emit (c : Consts) (s : BPSAMPLER)
    (hL : s.ulLastRecordTime = s.ulEventTime / s.usRecordInterval * s.usRecordInterval)
    (hI : s.usRecordInterval ≠ 0) : ¬ crossed c s s.ulEventTime := by
  unfold crossed
  have hpos : 0 < s.usRecordInterval := Nat.pos_of_ne_zero hI
  have hmod := Nat.mod_lt s.ulEventTime hpos
  have hdm := Nat.div_add_mod s.ulEventTime s.usRecordInterval
  have e : s.ulEventTime / s.usRecordInterval * s.usRecordInterval
      = s.usRecordInterval * (s.ulEventTime / s.usRecordInterval) := Nat.mul_comm _ _
  have h2 : ((s.ulEventTime : Int) - s.ulLastRecordTime)
      = ((s.ulEventTime % s.usRecordInterval : Nat) : Int) := by
    rw [hL]
    omega
  rw [h2]
  have := toUShort_toULong_le c (s.ulEventTime % s.usRecordInterval)
  omega

/-- An incremental decode that returns leaves the sampler settled when it found it so. -/
theorem decode_settled (c : Consts) (v : Variant) (ro : ℚ) (d : Decoder) (t : ℚ) (p : Payload)
    (d1 : Decoder) (rs : List Record) (h : v.Decode c ro d t p = .ok (d1, rs))
    (hs : Settled c d.stState) : Settled c d1.stState := by
  obtain ⟨s2, out, hs2, hout, hrs, e1, e2, e3, e4, _, _, _⟩ := decode_shape c v ro d t p d1 rs h
  obtain ⟨ev, hev, hsplit⟩ := update_event c v d.stState s2 p hs2
  obtain ⟨_, _, _, b4, _, _, b7⟩ := (update_spec c v d.stState s2 p hs2).1
  obtain ⟨hdvd, hgap, hnc⟩ := hs
  unfold Settled
  rw [e2, e3, e4]
  by_cases hc : crossed c s2 s2.ulEventTime
  · rw [recordOrCatchUp_crossed c ro _ _ t s2 hc] at hout
    obtain ⟨_, hI, f1, f2, f3, f4, _⟩ := recordOutput_fields ro s2 out hout
    refine ⟨?_, f4, fun _ => ?_⟩
    · rw [f2, f3]
      exact Dvd.intro_left _ rfl
    · have hx : ¬ crossed c out.1 out.1.ulEventTime :=
        not_crossed_after_emit c out.1 (by rw [f1, f2, f3]) (by rw [f3]; exact hI)
      rw [e1]
      intro hy
      exact hx ((crossed_congr c out.1 d1.stState out.1.ulEventTime e2 e3).mp hy)
  · rw [recordOrCatchUp_not_crossed c ro _ _ t s2 hc] at hout
    obtain ⟨n, ho1, _, _⟩ := wallClockFill_spec t _ _ s2 out hout
    have g1 : out.1.ulEventTime = s2.ulEventTime := by rw [ho1]
    have g2 : out.1.ulLastRecordTime = s2.ulLastRecordTime := by rw [ho1]
    have g3 : out.1.usRecordInterval = s2.usRecordInterval := by rw [ho1]
    have g4 : out.1.ucRecordGapCount = s2.ucRecordGapCount := by rw [ho1]
    rw [g2, g3, g4, b4, b7]
    refine ⟨hdvd, ?_, fun _ => ?_⟩
    · by_cases hc0 : crossed c d.stState ev.ulNewEventTime
      · exfalso
        have hI := (hsplit.2.1 hc0).1
        rcases event_after c v d.stState p ev hev with ha | ha
        · apply hc
          rw [hsplit.1, ha]
          exact (crossed_congr c d.stState s2 ev.ulNewEventTime b7 b4).mpr hc0
        · rw [ha] at hc0
          exact hnc (Nat.pos_of_ne_zero hI) hc0
      · exact (hsplit.2.2 hc0).1
    · rw [e1, g1]
      intro hy
      apply hc
      have hz := (crossed_congr c s2 d1.stState s2.ulEventTime (by rw [e2, g2])
        (by rw [e3, g3])).mp hy
      exact hz


/-- After its dispatch a message handler stores only the message clock and the event
count: the event clock and the buckets are those the resync or the decode left. -/
theorem message_clock (c : Consts) (v : Variant) (ro : ℚ) (d : Decoder) (t : ℚ) (p : Payload)
    (d1 : Decoder) (rs : List Record) (h : v.Message c ro d t p = .ok (d1, rs)) :
    (d.stState.ucLastEventCount = p.b1.val ∧ d1 = d ∧ rs = [])
    ∨ (d.stState.ucLastEventCount ≠ p.b1.val
        ∧ ∃ d2, (if t - d.stState.dLastMessageTime > d.dReSyncInterval
                  then v.Resync c ro d t p else v.Decode c ro d t p) = .ok (d2, rs)
          ∧ d1.stState.ulEventTime = d2.stState.ulEventTime
          ∧ d1.stState.ulLastRecordTime = d2.stState.ulLastRecordTime
          ∧ d1.stState.usRecordInterval = d2.stState.usRecordInterval
          ∧ d1.stState.ucRecordGapCount = d2.stState.ucRecordGapCount
          ∧ d1.stState.fAccumEnergy = d2.stState.fAccumEnergy
          ∧ d1.stState.dTotalEnergy = d2.stState.dTotalEnergy
          ∧ d1.stState.dLastRecordTime = d2.stState.dLastRecordTime
          ∧ d1.stState.dLastMessageTime = t
          ∧ d1.dRecordInterval = d2.dRecordInterval
          ∧ d1.dReSyncInterval = d2.dReSyncInterval) := by
  cases v
  all_goals
    simp only [Variant.Message] at h
    first
      | unfold DecodePowerOnly_Message at h
      | unfold DecodeWheelTorque_Message at h
      | unfold DecodeCrankTorque_Message at h
      | unfold DecodeCrankTorqueFreq_Message at h
    split at h
    · rename_i hne
      simp only [bind_eq_ok, pure_eq_ok, Prod.mk.injEq] at h
      obtain ⟨out, hout, rfl, rfl⟩ := h
      exact Or.inr ⟨hne, out.1, hout, rfl, rfl, rfl, rfl, rfl, rfl, rfl, rfl, rfl, rfl⟩
    · rename_i heq
      simp only [pure_eq_ok, Prod.mk.injEq] at h
      obtain ⟨rfl, rfl⟩ := h
      exact Or.inl ⟨by simpa using heq, rfl, rfl⟩

/-- A resync leaves the sampler settled. -/
theorem resync_settled (c : Consts) (v : Variant) (ro : ℚ) (d : Decoder) (t : ℚ) (p : Payload)
    (d1 : Decoder) (rs : List Record) (h : v.Resync c ro d t p = .ok (d1, rs)) :
    Settled c d1.stState := by
  obtain ⟨_, _, _, _, _, _, hg, he, hl, _⟩ := resync_fields c v ro d t p d1 rs h
  refine ⟨by rw [hl]; exact dvd_zero _, hg, fun hI => ?_⟩
  unfold crossed
  rw [he, hl]
  have : toUShort ((toULong c (((0 : Nat) : Int) - ((0 : Nat) : Int)) : Nat) : Int) = 0 := by
    simp [toUShort, toULong]
  rw [this]
  omega

/-- A message handler call that returns leaves the sampler settled when it found it so. -/
theorem message_settled (c : Consts) (v : Variant) (ro : ℚ) (d : Decoder) (t : ℚ)
    (p : Payload) (d1 : Decoder) (rs : List Record) (h : v.Message c ro d t p = .ok (d1, rs))
    (hs : Settled c d.stState) : Settled c d1.stState := by
  rcases message_clock c v ro d t p d1 rs h with ⟨_, rfl, _⟩ | ⟨_, d2, h2, e1, e2, e3, e4, _⟩
  · exact hs
  · have hs2 : Settled c d2.stState := by
      by_cases hr : t - d.stState.dLastMessageTime > d.dReSyncInterval
      · rw [if_pos hr] at h2
        exact resync_settled c v ro d t p d2 rs h2
      · rw [if_neg hr] at h2
        exact decode_settled c v ro d t p d2 rs h2 hs
    obtain ⟨a1, a2, a3⟩ := hs2
    refine ⟨by rw [e2, e3]; exact a1, by rw [e4]; exact a2, fun hI => ?_⟩
    rw [e1]
    intro hy
    exact a3 (by rw [← e3]; exact hI)
      ((crossed_congr c d2.stState d1.stState d2.stState.ulEventTime e2 e3).mp hy)

/-- A first part that computes a nonzero gap count from a settled sampler leaves the
boundary test true on the stored event time, so that the closing step emits. -/
theorem gap_needs_crossing (c : Consts) (v : Variant) (s s2 : BPSAMPLER) (p : Payload)
    (hs : Settled c s) (h : v.update c s p = .ok s2) (hg : s2.ucRecordGapCount ≠ 0) :
    crossed c s2 s2.ulEventTime := by
  obtain ⟨ev, hev, hsplit⟩ := update_event c v s s2 p h
  obtain ⟨_, _, _, b4, _, _, b7⟩ := (update_spec c v s s2 p h).1
  by_cases hc0 : crossed c s ev.ulNewEventTime
  · have hI := (hsplit.2.1 hc0).1
    rcases event_after c v s p ev hev with ha | ha
    · rw [hsplit.1, ha]
      exact (crossed_congr c s s2 ev.ulNewEventTime b7 b4).mpr hc0
    · rw [ha] at hc0
      exact absurd hc0 (hs.2.2 (Nat.pos_of_ne_zero hI))
  · exact absurd (hsplit.2.2 hc0).1 hg

/-- Every state reachable from the first configure is reachable in the wider sense. -/
theorem reachable_rebased (c : Consts) (v : Variant) (d : Decoder) (hr : Reachable c v d) :
    Rebased c v d := by
  induction hr with
  | init I tb rsI => exact Rebased.init Decoder.zero I tb rsI rfl
  | resync d d1 rs ro t p _ h _ => exact Rebased.resync d d1 rs ro t p h
  | message d d1 rs ro t p _ h ih => exact Rebased.message d d1 rs ro t p ih h
  | decode d d1 rs ro t p _ h ih => exact Rebased.decode d d1 rs ro t p ih h
  | calibration d t p _ ih => exact Rebased.calibration d t p ih
  | setTimeBase d tb _ ih => exact Rebased.setTimeBase d tb ih

/-- Every state reached from a configure with the last record boundary at zero, or from a
resync, is settled. -/
theorem rebased_settled (c : Consts) (v : Variant) (d : Decoder) (hr : Rebased c v d) :
    Settled c d.stState := by
  induction hr with
  | init d0 I tb rsI h0 =>
    have hL : (v.Init c d0 I tb rsI).1.stState.ulLastRecordTime = 0 := by
      cases v <;> exact h0
    have hE : (v.Init c d0 I tb rsI).1.stState.ulEventTime = 0 := by
      cases v <;> rfl
    have hG : (v.Init c d0 I tb rsI).1.stState.ucRecordGapCount = 0 := by
      cases v <;> rfl
    refine ⟨by rw [hL]; exact dvd_zero _, hG, fun hI => ?_⟩
    unfold crossed
    rw [hL, hE]
    have : toUShort ((toULong c (((0 : Nat) : Int) - ((0 : Nat) : Int)) : Nat) : Int) = 0 := by
      simp [toUShort, toULong]
    rw [this]
    omega
  | resync d d1 rs ro t p h => exact resync_settled c v ro d t p d1 rs h
  | message d d1 rs ro t p _ h ih => exact message_settled c v ro d t p d1 rs h ih
  | decode d d1 rs ro t p _ h ih => exact decode_settled c v ro d t p d1 rs h ih
  | calibration d t p _ ih =>
    unfold DecodeCrankTorqueFreq_Calibration
    split_ifs
    · exact ih
    · exact ih
    · exact ih
  | setTimeBase d tb _ ih => exact ih

/-- C28 (code fault in the Crank-Torque decoder, after a second configure): a session is
configured (one second record interval, quantized 2048), decodes two Crank-Torque pages, the
second one ending a crank revolution in the 32nd record interval, so that the last record
boundary `ulLastRecordTime` is 63488 ticks, and is configured again by the same call.  The
second configure resets the event time and the gap count but not `ulLastRecordTime`, which
every `_Resync` resets together with the event time.  A Crank-Torque page received half a
second later, with a new event count and a period delta of `0xFFFF`, is decoded by the
message handler: the first part finds the boundary test true on the old event time
(0 - 63488 is 2048 in 16 bits) and computes a gap count of 224, then adds `0xFFFF` to the
event time (the non-event of C29), on which the boundary test fails (65535 - 63488 = 2047),
so that `RecordOutput`, which fills the gap and clears the count, is not called.  The call
completes with no record and `ucRecordGapCount = 224` (received at 32.5 s instead, with the
receive clock running on, the page leaves the same count and the wall-clock loop emits 32
fillers).  The Wheel-Torque decoder, taken
through the same steps with its own pages, stores the event time it tested: its two boundary
tests agree, `RecordOutput` runs (the boundary record and 224 fillers) and the count is
cleared. -/
theorem C28_gap_count_left_after_second_configure :
    Except.map (fun out => out.1) (decodeAll defaultConsts session60 staleFrames)
      = .ok staleSession
    ∧ (staleSession.ct.stState.ucRecordGapCount = 0
      ∧ staleSession.ct.stState.ulLastRecordTime = 63488)
    ∧ reconfigured = InitPowerDecoder defaultConsts staleSession 1 0 60
    ∧ (reconfigured.ct.stState.usRecordInterval = 2048
      ∧ reconfigured.ct.stState.ucRecordGapCount = 0
      ∧ reconfigured.ct.stState.ulEventTime = 0
      ∧ reconfigured.ct.stState.ulLastRecordTime = 63488)
    ∧ Except.map
        (fun s2 => (s2.ucRecordGapCount, s2.ulEventTime,
          decide (crossed defaultConsts s2 s2.ulEventTime)))
        (DecodeCrankTorque_update defaultConsts reconfigured.ct.stState sentinelAfterConfigure)
      = .ok (224, 65535, false)
    ∧ Except.map (fun out => (out.1.stState.ucRecordGapCount, out.2))
        (Variant.crankTorque.Message defaultConsts 1 reconfigured.ct (1 / 2)
          sentinelAfterConfigure)
      = .ok (224, [])
    ∧ Except.map (fun out => (out.1.ct.stState.ucRecordGapCount, out.2))
        (DecodePowerMessage defaultConsts reconfigured (1 / 2) sentinelAfterConfigure)
      = .ok (224, [])
    ∧ Except.map (fun out => (out.1.ct.stState.ucRecordGapCount, out.2.length))
        (DecodePowerMessage defaultConsts reconfigured (65 / 2) sentinelAfterConfigure)
      = .ok (224, 32)
    ∧ Except.map (fun out => (out.1.wt.stState.ucRecordGapCount, out.2.length))
        ((decodeAll defaultConsts session60 wheelStaleFrames).bind (fun out =>
          DecodePowerMessage defaultConsts (InitPowerDecoder defaultConsts out.1 1 0 60)
            (1 / 2) ⟨0x11, 3, 3, 60, 0xFF, 0xF9, 16, 0⟩))
      = .ok (0, 225) := by
  refine ⟨by decide!, by decide!, rfl, by decide!, by decide!, by decide!, by decide!,
    by decide!, by decide!⟩

/-- Where the gap count is cleared within the step: in every decoder state reachable from a
configure that found the last record boundary `ulLastRecordTime` at zero (the first
configure of a session, on the loaded statics) or from a completed resync in any state, by
any returning calls with any arguments, the gap count is 0, whatever the quantized record
interval; so it is 0 after every completed call of the message handler, of the resync and
of the incremental decode, for all four variants.  Whenever the first part of a decode
computes a nonzero gap count `g`, the same call runs `RecordOutput`, which emits `g + 1`
records (the boundary record and the `g` fillers) and clears the count. -/
theorem gap_count_zero_between_steps (c : Consts) (v : Variant) (d : Decoder)
    (hr : Rebased c v d) :
    d.stState.ucRecordGapCount = 0
    ∧ (∀ ro t p d1 rs, v.Message c ro d t p = .ok (d1, rs) →
        d1.stState.ucRecordGapCount = 0)
    ∧ (∀ ro t p d1 rs, v.Resync c ro d t p = .ok (d1, rs) →
        d1.stState.ucRecordGapCount = 0)
    ∧ (∀ ro t p d1 rs, v.Decode c ro d t p = .ok (d1, rs) →
        d1.stState.ucRecordGapCount = 0
        ∧ ∃ s2, v.update c d.stState p = .ok s2
          ∧ (s2.ucRecordGapCount ≠ 0 →
              ∃ out, RecordOutput ro s2 = .ok out ∧ rs = out.2
                ∧ rs.length = s2.ucRecordGapCount + 1
                ∧ out.1.ucRecordGapCount = 0)) := by
  have hs := rebased_settled c v d hr
  refine ⟨hs.2.1, ?_, ?_, ?_⟩
  · intro ro t p d1 rs h
    exact (message_settled c v ro d t p d1 rs h hs).2.1
  · intro ro t p d1 rs h
    exact (resync_settled c v ro d t p d1 rs h).2.1
  · intro ro t p d1 rs h
    refine ⟨(decode_settled c v ro d t p d1 rs h hs).2.1, ?_⟩
    obtain ⟨s2, out, hs2, hout, hrs, _⟩ := decode_shape c v ro d t p d1 rs h
    refine ⟨s2, hs2, fun hg => ?_⟩
    have hc := gap_needs_crossing c v d.stState s2 p hs hs2 hg
    rw [recordOrCatchUp_crossed c ro _ _ t s2 hc] at hout
    obtain ⟨_, _, _, _, _, f4, _, _, _, f8, _⟩ := recordOutput_fields ro s2 out hout
    exact ⟨out, hout, hrs, by rw [hrs]; exact f8, f4⟩

/-- The decoder of the second configure is settled again by a resync: the gap count is zero
after the resync and after a decode that crosses two record boundaries. -/
theorem gap_count_zero_between_steps_example :
    Rebased defaultConsts Variant.crankTorque rebasedCrankStep.1
    ∧ (rebasedCrankStep.1.stState.ulLastRecordTime = 4096 ∧ rebasedCrankStep.2.length = 2)
    ∧ (rebasedCrankStep.1.stState.ucRecordGapCount = 0
      ∧ (∀ ro t p d1 rs,
          Variant.crankTorque.Message defaultConsts ro rebasedCrankStep.1 t p = .ok (d1, rs) →
          d1.stState.ucRecordGapCount = 0)
      ∧ (∀ ro t p d1 rs,
          Variant.crankTorque.Resync defaultConsts ro rebasedCrankStep.1 t p = .ok (d1, rs) →
          d1.stState.ucRecordGapCount = 0)
      ∧ (∀ ro t p d1 rs,
          Variant.crankTorque.Decode defaultConsts ro rebasedCrankStep.1 t p = .ok (d1, rs) →
          d1.stState.ucRecordGapCount = 0
          ∧ ∃ s2, Variant.crankTorque.update defaultConsts rebasedCrankStep.1.stState p
              = .ok s2
            ∧ (s2.ucRecordGapCount ≠ 0 →
                ∃ out, RecordOutput ro s2 = .ok out ∧ rs = out.2
                  ∧ rs.length = s2.ucRecordGapCount + 1
                  ∧ out.1.ucRecordGapCount = 0))) :=
  have h1 : Rebased defaultConsts Variant.crankTorque rebasedCrank :=
    Rebased.resync reconfigured.ct rebasedCrank [] 1 61 ⟨0x12, 4, 4, 60, 0xFF, 0xF9, 16, 0⟩
      (by decide!)
  have h2 : Rebased defaultConsts Variant.crankTorque rebasedCrankStep.1 :=
    Rebased.message rebasedCrank rebasedCrankStep.1 rebasedCrankStep.2 1 (127 / 2)
      ⟨0x12, 5, 5, 60, 0x87, 0x0D, 32, 0⟩ h1 (by decide!)
  ⟨h2, by decide!,
    gap_count_zero_between_steps defaultConsts Variant.crankTorque _ h2⟩


/-! ## The three shares of an event that crosses a record boundary -/

theorem toULong_nat (c : Consts) (n : Nat) : toULong c (n : Int) = n % 2 ^ c.ULONG_BITS := by
  unfold toULong
  rw [← Int.natCast_mod, Int.toNat_natCast]

theorem ok_bind {α β : Type} (a : α) (f : α → Except Fault β) :
    ((Except.ok a : Except Fault α) >>= f) = f a := rfl

/-- The first part of an event-based Crank-Torque decode returns as soon as its event is
defined and neither the quantized record interval nor the period delta is zero. -/
theorem ct_update_ok (c : Consts) (s : BPSAMPLER) (p : Payload) (ev : Event)
    (hev : DecodeCrankTorque_event c s p = .ok ev) (hI : s.usRecordInterval ≠ 0)
    (hd : ev.usDeltaPowerPeriod ≠ 0) : ∃ s2, DecodeCrankTorque_update c s p = .ok s2 := by
  unfold DecodeCrankTorque_event at hev
  simp only [bind_eq_ok, pure_eq_ok] at hev
  obtain ⟨ev0, h0, rfl⟩ := hev
  have hd2 : ((delta16 (word16 p.b4 p.b5) s.usLastAccumPeriod : Nat) : ℚ) ≠ 0 := by
    exact_mod_cast hd
  unfold DecodeCrankTorque_update
  simp only [h0]
  simp only [bind, Except.bind]
  split_ifs
  · simp only [idiv_ok _ _ hI, imod_ok _ _ hI, fdiv_ok _ _ hd2]
    exact ⟨_, rfl⟩
  · exact ⟨_, rfl⟩

theorem po_update_ok (c : Consts) (s : BPSAMPLER) (p : Payload) (ev : Event)
    (hev : DecodePowerOnly_event c s p = .ok ev) (htb : s.usTimeBase = 0)
    (hI : s.usRecordInterval ≠ 0)
    (hd : ev.usDeltaPowerPeriod ≠ 0) : ∃ s2, DecodePowerOnly_update c s p = .ok s2 := by
  unfold DecodePowerOnly_event at hev
  simp only [bind_eq_ok, pure_eq_ok] at hev
  obtain ⟨per, hper, ev0, h0, rfl⟩ := hev
  have hper1 : ev0.2.1 = per.1 := by
    rw [if_neg (by simpa using htb)] at h0
    simp only [bind_eq_ok, pure_eq_ok] at h0
    obtain ⟨_, _, rfl⟩ := h0
    rfl
  have hd2 : ((ev0.2.1 : Nat) : ℚ) ≠ 0 := by
    exact_mod_cast hd
  have hd3 : ((per.1 : Nat) : ℚ) ≠ 0 := by
    rw [← hper1]
    exact hd2
  unfold DecodePowerOnly_update
  simp only [hper, ok_bind]
  simp only [h0]
  simp only [bind, Except.bind]
  split_ifs <;>
    first
      | exact ⟨_, rfl⟩
      | (simp only [idiv_ok _ _ hI, imod_ok _ _ hI, fdiv_ok _ _ hd2, fdiv_ok _ _ hd3]
         exact ⟨_, rfl⟩)

/-- An incremental decode returns when its two parts do. -/
theorem decode_ok (c : Consts) (v : Variant) (ro : ℚ) (d : Decoder) (t : ℚ) (p : Payload)
    (s2 : BPSAMPLER) (out : BPSAMPLER × List Record) (h : v.update c d.stState p = .ok s2)
    (hout : recordOrCatchUp c ro d.dRecordInterval (v.catchUpStep c d) t s2 = .ok out) :
    ∃ d1, v.Decode c ro d t p = .ok (d1, out.2) := by
  have hb := (update_spec c v d.stState s2 p h).1
  cases v
  all_goals
    simp only [Variant.update] at h
    simp only [Variant.catchUpStep] at hout
    simp only [Variant.Decode]
    first
      | unfold DecodePowerOnly
      | unfold DecodeWheelTorque
      | unfold DecodeCrankTorque
      | unfold DecodeCrankTorqueFreq
    simp only [h]
    simp only [bind, Except.bind]
    first
      | (simp only [hout]; exact ⟨_, rfl⟩)
      | (rw [hb.2.2.2.1]; simp only [hout]; exact ⟨_, rfl⟩)


/-- C23 (counterexample): a Wheel-Torque stream that produced five Records of exactly 5 W at
a 1 s record interval (time-based session, 25 torque counts per second) falls silent for
15 s and resumes: 15 filler Records stamped 6 s to 20 s are emitted, each reporting 0 W and
cadence 0 with the totals unchanged (25 J, 5 revolutions), not 5 W; the next page is decoded
as before.  The same stream in the event-based session gives five Records of
`M_PI * 25 / 16` W, then the same 15 fillers of 0 W. -/
theorem C23_dropout_fillers_report_five_watts_counterexample :
    (decodeAll defaultConsts sessionTb wtDropoutFrames).map
        (fun out => out.2.map (fun r => (r.timestamp, r.averagePower, r.cumulativeEnergy)))
      = .ok ([(1, 5, 5), (2, 5, 10), (3, 5, 15), (4, 5, 20), (5, 5, 25)]
          ++ [(6, 0, 25), (7, 0, 25), (8, 0, 25), (9, 0, 25), (10, 0, 25), (11, 0, 25),
              (12, 0, 25), (13, 0, 25), (14, 0, 25), (15, 0, 25), (16, 0, 25), (17, 0, 25),
              (18, 0, 25), (19, 0, 25), (20, 0, 25)]
          ++ [(21, 5, 30)])
    ∧ (decodeAll defaultConsts sessionTb wtDropoutFrames).map
        (fun out => out.2.map (fun r => (r.averageCadence, r.cumulativeRotation)))
      = .ok ([(60, 1), (60, 2), (60, 3), (60, 4), (60, 5)]
          ++ List.replicate 15 (0, 5) ++ [(60, 6)])
    ∧ (decodeAll defaultConsts session1 wtDropoutFrames).map
        (fun out => out.2.map (fun r => (r.timestamp, r.averagePower)))
      = .ok ([(1, M_PI * 25 / 16), (2, M_PI * 25 / 16), (3, M_PI * 25 / 16),
              (4, M_PI * 25 / 16), (5, M_PI * 25 / 16)]
          ++ [(6, 0), (7, 0), (8, 0), (9, 0), (10, 0), (11, 0), (12, 0), (13, 0), (14, 0),
              (15, 0), (16, 0), (17, 0), (18, 0), (19, 0), (20, 0)]
          ++ [(21, M_PI * 25 / 16)]) := by
  refine ⟨by decide!, by decide!, by decide!⟩

theorem wt_gap_fifteen : resyncGapCountWT 15 1 = .ok 15 := by
  decide!

/-- C23 (amended): when a Wheel-Torque decoder with a 1 s record interval and a previous
record receives a new frame after a silence longer than the resync interval, the record
epoch of the frame lying 15 s after the last record (below the gap ceiling), the message
handler returns after emitting exactly 15 filler Records, one second apart; each reports the
fifteenth part of the energy and of the rotation accumulated since the last record
(`fAccumEnergy / 15` W, cadence `fAccumRotation * 60 / 15`), so 0 W and no rotation when
nothing was accumulated, whatever the power of the earlier Records; the totals grow by the
accumulated energy and the decoder is rebaselined at the record epoch with empty buckets. -/
theorem C23_dropout_fillers_spread_accumulated (c : Consts) (d : Decoder) (t : ℚ)
    (p : Payload) (hnew : d.stState.ucLastEventCount ≠ p.b1.val)
    (hsil : t - d.stState.dLastMessageTime > d.dReSyncInterval)
    (hI : d.dRecordInterval = 1) (hprev : d.stState.dLastRecordTime ≠ 0)
    (hgap : recordEpoch 1 t - d.stState.dLastRecordTime = 15)
    (hmax : (15 : ℚ) < c.MAXIMUM_TIME_GAP) :
    ∃ d1 rs, DecodeWheelTorque_Message c 1 d t p = .ok (d1, rs)
      ∧ rs = (List.range 15).map (fun k =>
          (⟨d.stState.dLastRecordTime + (k + 1 : Nat) * 1,
            d.stState.dTotalRotation + (k + 1 : Nat) * (d.stState.fAccumRotation / (15 : Nat)),
            d.stState.dTotalEnergy + (k + 1 : Nat) * (d.stState.fAccumEnergy / (15 : Nat)),
            d.stState.fAccumRotation * 60 / ((15 : Nat) * 1),
            d.stState.fAccumEnergy / ((15 : Nat) * 1)⟩ : Record))
      ∧ rs.length = 15
      ∧ (∀ r ∈ rs, r.averagePower = d.stState.fAccumEnergy / 15
          ∧ r.averageCadence = d.stState.fAccumRotation * 60 / 15)
      ∧ (d.stState.fAccumEnergy = 0 → ∀ r ∈ rs, r.averagePower = 0)
      ∧ d1.stState.dTotalEnergy = d.stState.dTotalEnergy + d.stState.fAccumEnergy
      ∧ d1.stState.fAccumEnergy = 0
      ∧ d1.stState.dLastRecordTime = recordEpoch 1 t := by
  obtain ⟨out, ho, hrs, hE, _⟩ := resyncCatchUp_spec 1 d.stState 15 one_ne_zero
  have h1 : (1 : ℚ) ≠ 0 := one_ne_zero
  have hpow : ∀ r ∈ out.2, r.averagePower = d.stState.fAccumEnergy / 15
      ∧ r.averageCadence = d.stState.fAccumRotation * 60 / 15 := by
    intro r hr
    rw [hrs] at hr
    obtain ⟨k, _, rfl⟩ := List.mem_map.mp hr
    constructor <;> simp
  unfold recordEpoch at hgap ⊢
  unfold DecodeWheelTorque_Message
  rw [if_pos hnew, if_pos hsil]
  unfold DecodeWheelTorque_Resync
  have h15 : (15 : ℚ) > 0 := by norm_num
  simp only [hI, fdiv_ok _ _ h1, bind, Except.bind, pure, Except.pure, hprev, ne_eq,
    not_false_eq_true, and_self, if_true, hgap, h15, hmax, wt_gap_fifteen, ho, true_and]
  refine ⟨_, _, rfl, hrs, ?_, hpow, ?_, ?_, rfl, rfl⟩
  · rw [hrs]
    simp
  · intro h0 r hr
    rw [(hpow r hr).1, h0]
    simp
  · simp only [hE]
    simp

theorem C23_dropout_fillers_spread_accumulated_witness :
    afterSteady.wt.stState.ucLastEventCount ≠ (wtSteadyPage 6).b1.val
    ∧ (41 / 2 : ℚ) - afterSteady.wt.stState.dLastMessageTime > afterSteady.wt.dReSyncInterval
    ∧ afterSteady.wt.stState.dLastRecordTime = 5
    ∧ afterSteady.wt.stState.fAccumEnergy = 0
    ∧ (∃ d1 rs, DecodeWheelTorque_Message defaultConsts 1 afterSteady.wt (41 / 2)
        (wtSteadyPage 6) = .ok (d1, rs)
      ∧ rs = (List.range 15).map (fun k =>
          (⟨afterSteady.wt.stState.dLastRecordTime + (k + 1 : Nat) * 1,
            afterSteady.wt.stState.dTotalRotation
              + (k + 1 : Nat) * (afterSteady.wt.stState.fAccumRotation / (15 : Nat)),
            afterSteady.wt.stState.dTotalEnergy
              + (k + 1 : Nat) * (afterSteady.wt.stState.fAccumEnergy / (15 : Nat)),
            afterSteady.wt.stState.fAccumRotation * 60 / ((15 : Nat) * 1),
            afterSteady.wt.stState.fAccumEnergy / ((15 : Nat) * 1)⟩ : Record))
      ∧ rs.length = 15
      ∧ (∀ r ∈ rs, r.averagePower = afterSteady.wt.stState.fAccumEnergy / 15
          ∧ r.averageCadence = afterSteady.wt.stState.fAccumRotation * 60 / 15)
      ∧ (afterSteady.wt.stState.fAccumEnergy = 0 → ∀ r ∈ rs, r.averagePower = 0)
      ∧ d1.stState.dTotalEnergy
          = afterSteady.wt.stState.dTotalEnergy + afterSteady.wt.stState.fAccumEnergy
      ∧ d1.stState.fAccumEnergy = 0
      ∧ d1.stState.dLastRecordTime = recordEpoch 1 (41 / 2)) :=
  ⟨by decide!, by decide!, by decide!, by decide!,
    C23_dropout_fillers_spread_accumulated defaultConsts afterSteady.wt (41 / 2)
      (wtSteadyPage 6) (by decide!) (by decide!) (by decide!) (by decide!) (by decide!)
      (by decide!)⟩


/-! ## A steady Crank-Torque stream -/

/-- A new frame that arrives within the resync interval and whose event crosses the record
boundary: the message handler returns what `RecordOutput` emits on the sampler of the first
part, and stores the raw counters of the frame. -/
theorem ct_message_emit (c : Consts) (ro : ℚ) (d : Decoder) (t : ℚ) (p : Payload)
    (s2 : BPSAMPLER) (out : BPSAMPLER × List Record)
    (hnew : d.stState.ucLastEventCount ≠ p.b1.val)
    (hfresh : ¬ (t - d.stState.dLastMessageTime > d.dReSyncInterval))
    (hs2 : DecodeCrankTorque_update c d.stState p = .ok s2)
    (hc : crossed c s2 s2.ulEventTime) (hout : RecordOutput ro s2 = .ok out) :
    ∃ d1, DecodeCrankTorque_Message c ro d t p = .ok (d1, out.2)
      ∧ d1.stState.ulEventTime = out.1.ulEventTime
      ∧ d1.stState.ulLastRecordTime = out.1.ulLastRecordTime
      ∧ d1.stState.usRecordInterval = out.1.usRecordInterval
      ∧ d1.stState.fAccumEnergy = out.1.fAccumEnergy
      ∧ d1.stState.dTotalEnergy = out.1.dTotalEnergy
      ∧ d1.stState.dLastRecordTime = out.1.dLastRecordTime
      ∧ d1.stState.ucLastEventCount = p.b1.val
      ∧ d1.stState.usLastAccumPeriod = word16 p.b4 p.b5
      ∧ d1.stState.usLastAccumTorque = word16 p.b6 p.b7
      ∧ d1.stState.dLastMessageTime = t
      ∧ d1.dReSyncInterval = d.dReSyncInterval := by
  unfold DecodeCrankTorque_Message
  rw [if_pos hnew, if_neg hfresh]
  unfold DecodeCrankTorque
  simp only [hs2, ok_bind]
  rw [recordOrCatchUp_crossed c ro _ _ t s2 hc]
  simp only [hout, ok_bind]
  exact ⟨_, rfl, rfl, rfl, rfl, rfl, rfl, rfl, rfl, rfl, rfl, rfl, rfl⟩


/-- The event of a Crank-Torque frame whose period delta is a real interval. -/
theorem ct_event_steady (c : Consts) (s : BPSAMPLER) (p : Payload) (P T : Nat)
    (hper : delta16 (word16 p.b4 p.b5) s.usLastAccumPeriod = P)
    (htq : delta16 (word16 p.b6 p.b7) s.usLastAccumTorque = T)
    (hP0 : P ≠ 0) (hP1 : P ≠ 65535) (hT : T ≠ 65535) :
    DecodeCrankTorque_event c s p
      = .ok ⟨toULong c ((s.ulEventTime + P : Nat) : Int), P, M_PI * (T : ℚ) / 16,
          toULong c ((s.ulEventTime + P : Nat) : Int)⟩ := by
  have hdt : DecodeCrankTorque_deltaTorque s.usLastAccumTorque p = T := by
    unfold DecodeCrankTorque_deltaTorque
    simp only [htq, if_neg hT]
  unfold DecodeCrankTorque_event
  simp only [hper, hdt]
  rw [if_pos ⟨hP0, hP1⟩]
  simp only [idiv_ok _ _ hP0, ok_bind]
  rfl

/-- One frame of a steady Crank-Torque stream on a decoder whose event clock stands on the
last record boundary with an empty accumulator: exactly one record, of the event energy. -/
theorem ct_steady_step (c : Consts) (ro : ℚ) (d : Decoder) (t : ℚ) (p : Payload) (T k : Nat)
    (hI1 : 1 ≤ d.stState.usRecordInterval) (hI2 : d.stState.usRecordInterval < 65535)
    (hT : T ≠ 65535) (hro : ro ≠ 0)
    (he : d.stState.ulEventTime = k * d.stState.usRecordInterval)
    (hL : d.stState.ulLastRecordTime = k * d.stState.usRecordInterval)
    (hacc : d.stState.fAccumEnergy = 0)
    (hwrap : (k + 1) * d.stState.usRecordInterval < 2 ^ c.ULONG_BITS)
    (hnew : d.stState.ucLastEventCount ≠ p.b1.val)
    (hfresh : ¬ (t - d.stState.dLastMessageTime > d.dReSyncInterval))
    (hper : delta16 (word16 p.b4 p.b5) d.stState.usLastAccumPeriod
      = d.stState.usRecordInterval)
    (htq : delta16 (word16 p.b6 p.b7) d.stState.usLastAccumTorque = T) :
    ∃ d1 r, DecodeCrankTorque_Message c ro d t p = .ok (d1, [r])
      ∧ r.averagePower = M_PI * (T : ℚ) / 16 / ro
      ∧ r.timestamp = d.stState.dLastRecordTime + ro
      ∧ r.cumulativeEnergy = d.stState.dTotalEnergy + M_PI * (T : ℚ) / 16
      ∧ d1.stState.ulEventTime = (k + 1) * d.stState.usRecordInterval
      ∧ d1.stState.ulLastRecordTime = (k + 1) * d.stState.usRecordInterval
      ∧ d1.stState.usRecordInterval = d.stState.usRecordInterval
      ∧ d1.stState.fAccumEnergy = 0
      ∧ d1.stState.dTotalEnergy = d.stState.dTotalEnergy + M_PI * (T : ℚ) / 16
      ∧ d1.stState.dLastRecordTime = d.stState.dLastRecordTime + ro
      ∧ d1.stState.ucLastEventCount = p.b1.val
      ∧ d1.stState.usLastAccumPeriod = word16 p.b4 p.b5
      ∧ d1.stState.usLastAccumTorque = word16 p.b6 p.b7
      ∧ d1.stState.dLastMessageTime = t
      ∧ d1.dReSyncInterval = d.dReSyncInterval := by
  have hI0 : d.stState.usRecordInterval ≠ 0 := by omega
  have hsucc : (k + 1) * d.stState.usRecordInterval
      = k * d.stState.usRecordInterval + d.stState.usRecordInterval := by ring
  have hnewt : toULong c ((d.stState.ulEventTime + d.stState.usRecordInterval : Nat) : Int)
      = (k + 1) * d.stState.usRecordInterval := by
    rw [toULong_nat, he, ← hsucc]
    exact Nat.mod_eq_of_lt hwrap
  have hev := ct_event_steady c d.stState p d.stState.usRecordInterval T hper htq hI0
    (by omega) hT
  rw [hnewt] at hev
  obtain ⟨s2, hs2⟩ := ct_update_ok c d.stState p _ hev hI0 hI0
  obtain ⟨ev1, hev1, hsplit⟩ := ct_update_event c d.stState s2 p hs2
  have hevq : ev1 = ⟨(k + 1) * d.stState.usRecordInterval, d.stState.usRecordInterval,
      M_PI * (T : ℚ) / 16, (k + 1) * d.stState.usRecordInterval⟩ := by
    rw [hev] at hev1
    exact (Except.ok.inj hev1).symm
  subst hevq
  obtain ⟨b1, b2, _, b4, _, _, b7⟩ := (ct_update_spec c d.stState s2 p hs2).1
  have hshort : toUShort ((toULong c ((((k + 1) * d.stState.usRecordInterval : Nat) : Int)
      - d.stState.ulLastRecordTime) : Nat) : Int) = d.stState.usRecordInterval := by
    have e1 : ((((k + 1) * d.stState.usRecordInterval : Nat) : Int)
        - d.stState.ulLastRecordTime) = ((d.stState.usRecordInterval : Nat) : Int) := by
      rw [hL, hsucc]
      push_cast
      ring
    rw [e1, toULong_nat, Nat.mod_eq_of_lt (by omega)]
    unfold toUShort
    omega
  have hx : crossed c d.stState ((k + 1) * d.stState.usRecordInterval) := by
    unfold crossed
    rw [hshort]
  obtain ⟨_, _, g1, g2, g3, g4⟩ := hsplit.2.1 hx
  have hse : s2.ulEventTime = (k + 1) * d.stState.usRecordInterval := hsplit.1
  have hc2 : crossed c s2 s2.ulEventTime := by
    rw [hse]
    exact (crossed_congr c d.stState s2 _ b7 b4).mpr hx
  have hq1 : (k + 1) * d.stState.usRecordInterval / d.stState.usRecordInterval = k + 1 :=
    Nat.mul_div_cancel _ (by omega)
  have hq0 : d.stState.ulLastRecordTime / d.stState.usRecordInterval = k := by
    rw [hL]
    exact Nat.mul_div_cancel _ (by omega)
  have hm1 : (k + 1) * d.stState.usRecordInterval % d.stState.usRecordInterval = 0 :=
    Nat.mul_mod_left _ _
  have hm0 : d.stState.ulEventTime % d.stState.usRecordInterval = 0 := by
    rw [he]
    exact Nat.mul_mod_left _ _
  have hgap0 : s2.ucRecordGapCount = 0 := by
    rw [g1]
    dsimp only
    rw [hq1, hq0]
    have : (((k + 1 : Nat) : Int) - (k : Nat) - 1) = ((0 : Nat) : Int) := by
      push_cast
      ring
    rw [this, toULong_nat]
    simp [toUChar]
  have hIq : ((d.stState.usRecordInterval : Nat) : ℚ) ≠ 0 := by exact_mod_cast hI0
  have hpend : s2.fPendingEnergy = M_PI * (T : ℚ) / 16 := by
    rw [g2, hacc]
    dsimp only
    rw [hm0]
    have : toULong c ((d.stState.usRecordInterval : Int) - ((0 : Nat) : Int))
        = d.stState.usRecordInterval := by
      have e1 : ((d.stState.usRecordInterval : Int) - ((0 : Nat) : Int))
          = ((d.stState.usRecordInterval : Nat) : Int) := by simp
      rw [e1, toULong_nat]
      exact Nat.mod_eq_of_lt (by omega)
    rw [this]
    field_simp
    ring
  have hacc2 : s2.fAccumEnergy = 0 := by
    rw [g3]
    dsimp only
    rw [hm1]
    simp
  obtain ⟨out, hout⟩ := recordOutput_ok ro s2 hro (by rw [b4]; exact hI0)
  obtain ⟨_, _, f1, f2, f3, _, f5, f6, f7, f8, f9⟩ := recordOutput_fields ro s2 out hout
  obtain ⟨d1, hd1, m1, m2, m3, m4, m5, m6, m7, m8, m9, m10, m11⟩ :=
    ct_message_emit c ro d t p s2 out hnew hfresh hs2 hc2 hout
  have hlist : out.2 = [⟨s2.dLastRecordTime + ro, s2.dTotalRotation + s2.fPendingRotation,
      s2.dTotalEnergy + s2.fPendingEnergy, s2.fPendingRotation * 60 / ro,
      s2.fPendingEnergy / ro⟩] := by
    have hlen : out.2.length = 1 := by rw [f8, hgap0]
    obtain ⟨r, hr⟩ := List.length_eq_one.mp hlen
    rw [hr] at f9
    simp only [List.head?_cons, Option.some.injEq] at f9
    rw [hr, f9]
  rw [hlist] at hd1
  refine ⟨d1, _, hd1, ?_, ?_, ?_, ?_, ?_, ?_, ?_, ?_, ?_, m7, m8, m9, m10, m11⟩
  · show s2.fPendingEnergy / ro = _
    rw [hpend]
  · show s2.dLastRecordTime + ro = _
    rw [b1]
  · show s2.dTotalEnergy + s2.fPendingEnergy = _
    rw [hpend, b2]
  · rw [m1, f1, hse]
  · rw [m2, f2, hse, b4, hq1]
  · rw [m3, f3, b4]
  · rw [m4, f5, hacc2]
  · rw [m5, f6, hgap0, hpend, b2]
    simp
  · rw [m6, f7, hgap0, b1]
    simp


/-- A steady Crank-Torque stream on a decoder whose event clock stands on the last record
boundary with an empty accumulator: every frame gives exactly one record, of the event
energy. -/
theorem ct_steady_stream (c : Consts) (ro : ℚ) (T : Nat) (hT : T ≠ 65535) (hro : ro ≠ 0) :
    ∀ (frames : List (ℚ × Payload)) (d : Decoder) (k : Nat),
      1 ≤ d.stState.usRecordInterval → d.stState.usRecordInterval < 65535 →
      d.stState.ulEventTime = k * d.stState.usRecordInterval →
      d.stState.ulLastRecordTime = k * d.stState.usRecordInterval →
      d.stState.fAccumEnergy = 0 →
      (k + frames.length) * d.stState.usRecordInterval < 2 ^ c.ULONG_BITS →
      SteadyCrankStream d.stState.usRecordInterval T d.dReSyncInterval
        d.stState.ucLastEventCount d.stState.usLastAccumPeriod d.stState.usLastAccumTorque
        d.stState.dLastMessageTime frames →
      ∃ dN rss, messageAll c .crankTorque ro d frames = .ok (dN, rss)
        ∧ rss.length = frames.length
        ∧ (∀ rs ∈ rss, ∃ r, rs = [r] ∧ r.averagePower = M_PI * (T : ℚ) / 16 / ro)
        ∧ dN.stState.dTotalEnergy
            = d.stState.dTotalEnergy + (frames.length : ℚ) * (M_PI * (T : ℚ) / 16) := by
  intro frames
  induction frames with
  | nil =>
    intro d k _ _ _ _ _ _ _
    exact ⟨d, [], rfl, rfl, by simp, by simp⟩
  | cons f rest ih =>
    intro d k hI1 hI2 he hL hacc hwrap hst
    obtain ⟨t, p⟩ := f
    obtain ⟨hnew, hfresh, hper, htq, hrest⟩ := hst
    have hlen : (t, p) :: rest = (t, p) :: rest := rfl
    have hw1 : (k + 1) * d.stState.usRecordInterval < 2 ^ c.ULONG_BITS := by
      refine lt_of_le_of_lt (Nat.mul_le_mul_right _ ?_) hwrap
      simp
    obtain ⟨d1, r, hd1, hp, _, _, n1, n2, n3, n4, n5, _, n7, n8, n9, n10, n11⟩ :=
      ct_steady_step c ro d t p T k hI1 hI2 hT hro he hL hacc hw1 hnew hfresh hper htq
    have hw2 : (k + 1 + rest.length) * d1.stState.usRecordInterval < 2 ^ c.ULONG_BITS := by
      rw [n3]
      have : k + 1 + rest.length = k + ((t, p) :: rest).length := by
        simp only [List.length_cons]
        omega
      rw [this]
      exact hwrap
    have hst1 : SteadyCrankStream d1.stState.usRecordInterval T d1.dReSyncInterval
        d1.stState.ucLastEventCount d1.stState.usLastAccumPeriod d1.stState.usLastAccumTorque
        d1.stState.dLastMessageTime rest := by
      rw [n3, n7, n8, n9, n10, n11]
      exact hrest
    obtain ⟨dN, rss, hN, hlenN, hall, htot⟩ := ih d1 (k + 1) (by rw [n3]; exact hI1)
      (by rw [n3]; exact hI2) (by rw [n3]; exact n1) (by rw [n3]; exact n2) n4 hw2 hst1
    refine ⟨dN, [r] :: rss, ?_, by simp [hlenN], ?_, ?_⟩
    · have hm : Variant.crankTorque.Message c ro d t p = .ok (d1, [r]) := hd1
      simp only [messageAll, hm, ok_bind, hN]
      rfl
    · intro rs hrs
      rcases List.mem_cons.mp hrs with h | h
      · exact ⟨r, h, hp⟩
      · exact hall rs h
    · rw [htot, n5]
      simp only [List.length_cons]
      push_cast
      ring

/-- C24 (counterexample): with a record interval of 65535 / 2048 s the quantized record
interval of the Crank-Torque decoder is 65535 ticks; after the resync on the first page,
the two frames of `sentinelSteadyFrames`, whose period delta is the quantized record
interval and whose torque delta is 16, each yield exactly one Record, but it reports 0 W,
not `(M_PI * 16 / 16) / (65535 / 2048)`: a period delta of 0xFFFF is treated as a non-event
of energy 0. -/
theorem C24_steady_crank_stream_power_counterexample :
    session32.ct.stState.usRecordInterval = 65535
    ∧ (decodeAll defaultConsts session32 sentinelSteadyFrames).map
        (fun out => out.2.map (fun r => (r.timestamp, r.averagePower, r.cumulativeEnergy)))
      = .ok [(65535 / 2048, 0, 0), (65535 / 1024, 0, 0)]
    ∧ M_PI * 16 / 16 / (65535 / 2048 : ℚ) ≠ 0 := by
  refine ⟨by decide!, by decide!, by decide!⟩

/-- C24 (amended): for the Crank-Torque decoder right after a resync, with a quantized record
interval `Iq` of at least one tick and below the sentinel 65535 and a nonzero record
interval `ro` (seconds), a stream of new frames, each within the resync interval of the
previous one, whose period delta always equals `Iq` and whose torque delta is a constant
`T ≠ 65535`, is decoded (every message handler call returns) and yields exactly one Record
per frame, each reporting the average power `(M_PI * T / 16) / ro` in exact arithmetic, as
long as the event clock does not wrap (`frames.length * Iq < 2 ^ ULONG_BITS`); the total
energy grows by `M_PI * T / 16` per frame. -/
theorem C24_steady_crank_stream (c : Consts) (ro : ℚ) (d0 : Decoder) (t0 : ℚ) (p0 : Payload)
    (d : Decoder) (rs0 : List Record) (T : Nat) (frames : List (ℚ × Payload))
    (hres : DecodeCrankTorque_Resync c ro d0 t0 p0 = .ok (d, rs0))
    (hI1 : 1 ≤ d.stState.usRecordInterval) (hI2 : d.stState.usRecordInterval < 65535)
    (hT : T ≠ 65535) (hro : ro ≠ 0)
    (hwrap : frames.length * d.stState.usRecordInterval < 2 ^ c.ULONG_BITS)
    (hst : SteadyCrankStream d.stState.usRecordInterval T d.dReSyncInterval
      d.stState.ucLastEventCount d.stState.usLastAccumPeriod d.stState.usLastAccumTorque
      d.stState.dLastMessageTime frames) :
    ∃ dN rss, messageAll c .crankTorque ro d frames = .ok (dN, rss)
      ∧ rss.length = frames.length
      ∧ (∀ rs ∈ rss, ∃ r, rs = [r] ∧ r.averagePower = M_PI * (T : ℚ) / 16 / ro)
      ∧ dN.stState.dTotalEnergy
          = d.stState.dTotalEnergy + (frames.length : ℚ) * (M_PI * (T : ℚ) / 16) := by
  obtain ⟨ha, _, _, _, _, _, _, he, hl, _⟩ :=
    resync_fields c .crankTorque ro d0 t0 p0 d rs0 hres
  exact ct_steady_stream c ro T hT hro frames d 0 hI1 hI2 (by rw [he]; simp)
    (by rw [hl]; simp) ha (by simpa using hwrap) hst

theorem C24_steady_crank_stream_witness :
    DecodeCrankTorque_Resync defaultConsts 1 session1.ct (1 / 2) ⟨0x12, 0, 0, 0, 0, 0, 0, 0⟩
      = .ok (crankResynced, [])
    ∧ crankResynced.stState.usRecordInterval = 2048
    ∧ SteadyCrankStream crankResynced.stState.usRecordInterval 16 crankResynced.dReSyncInterval
        crankResynced.stState.ucLastEventCount crankResynced.stState.usLastAccumPeriod
        crankResynced.stState.usLastAccumTorque crankResynced.stState.dLastMessageTime
        crankSteadyFrames
    ∧ ∃ dN rss, messageAll defaultConsts .crankTorque 1 crankResynced crankSteadyFrames
          = .ok (dN, rss)
      ∧ rss.length = crankSteadyFrames.length
      ∧ (∀ rs ∈ rss, ∃ r, rs = [r] ∧ r.averagePower = M_PI * ((16 : Nat) : ℚ) / 16 / 1)
      ∧ dN.stState.dTotalEnergy
          = crankResynced.stState.dTotalEnergy
            + (crankSteadyFrames.length : ℚ) * (M_PI * ((16 : Nat) : ℚ) / 16) :=
  ⟨by decide!, by decide!,
    ⟨by decide!, by decide!, by decide!, by decide!, by decide!, by decide!, by decide!,
      by decide!, trivial⟩,
    C24_steady_crank_stream defaultConsts 1 session1.ct (1 / 2) ⟨0x12, 0, 0, 0, 0, 0, 0, 0⟩
      crankResynced [] 16 crankSteadyFrames (by decide!) (by decide!) (by decide!)
      (by decide) (by norm_num) (by decide!)
      ⟨by decide!, by decide!, by decide!, by decide!, by decide!, by decide!, by decide!,
        by decide!, trivial⟩⟩


/-! ## The sinks of the example program -/

theorem low_seven_bits (b : Fin 256) : 0x7F &&& b.val = b.val % 128 := by
  rw [Nat.land_comm]
  exact Nat.and_pow_two_sub_one_eq_mod b.val 7

/-- C39 (code fault in `Example::ProcessMessage`): the right pedal indicator handed to the
power-balance sink is computed as `0x80 & stMessage.aucData[ucDataOffset + 2] != 0`; `!=`
binds tighter than `&`, so the value is `0x80 & 1` or `0x80 & 0`, which is 0 for every byte:
for every Power-Only page the sink receives the low 7 bits of the pedal-balance byte as
balance and `false` as indicator, also when bit 7 of the byte is set, as in
`rightPedalPage` (byte `0xB2`: balance 50, indicator false). -/
theorem C39_right_pedal_indicator_always_false :
    (∀ e b x y z g h : Fin 256,
      ProcessMessage_PowerBalance ⟨0x10, e, b, x, y, z, g, h⟩
        = some (((b.val % 128 : Nat) : ℚ), false))
    ∧ ProcessMessage_PowerBalance rightPedalPage = some (50, false)
    ∧ rightPedalPage.b2.val / 128 = 1 := by
  refine ⟨?_, by decide!, by decide⟩
  intro e b x y z g h
  unfold ProcessMessage_PowerBalance
  have h0 : (⟨0x10, e, b, x, y, z, g, h⟩ : Payload).b0.val = ANT_POWERONLY := rfl
  rw [if_pos h0]
  simp only [low_seven_bits]
  by_cases hb : b.val ≠ 0
  · rw [if_pos hb]
    rfl
  · rw [if_neg hb]
    rfl

/-! ## The Power-Only event -/

/-- The event energy of `DecodePowerOnly`: zero for a frame without cadence, the checked
power delta in time-based mode, and the checked power delta over the period of the event
(divided by the quantization and by the event-count delta) in event-based mode, where a
frame without cadence has the period `0xFFFF`. -/
theorem po_event_shape (c : Consts) (s : BPSAMPLER) (p : Payload) (ev : Event)
    (h : DecodePowerOnly_event c s p = .ok ev) :
    (p.b3.val = 0 → ev.fEventEnergy = 0
      ∧ (s.usTimeBase = 0 → ev.usDeltaPowerPeriod = 0xFFFF
          ∧ ev.ulNewEventTime = toULong c ((s.ulEventTime + 0xFFFF : Nat) : Int)))
    ∧ (0 < p.b3.val → s.usTimeBase ≠ 0 →
        ev.fEventEnergy = DecodePowerOnly_deltaPower s.usLastAccumTorque p)
    ∧ (0 < p.b3.val → s.usTimeBase = 0 →
        ev.fEventEnergy = (DecodePowerOnly_deltaPower s.usLastAccumTorque p : ℚ)
          * ev.usDeltaPowerPeriod / c.PO_TIME_QUANTIZATION
          / (delta8 p.b1.val s.ucLastEventCount : Nat)) := by
  unfold DecodePowerOnly_event at h
  simp only [bind_eq_ok, pure_eq_ok] at h
  obtain ⟨per, hper, ev0, hev0, rfl⟩ := h
  refine ⟨fun hc => ?_, fun hc htb => ?_, fun hc htb => ?_⟩
  · rw [if_neg (by omega)] at hper
    simp only [pure_eq_ok] at hper
    subst hper
    constructor
    · split at hev0
      · simp only [pure_eq_ok] at hev0
        subst hev0
        simp
      · simp only [bind_eq_ok, pure_eq_ok, fdiv_eq_ok] at hev0
        obtain ⟨_, ⟨_, rfl⟩, rfl⟩ := hev0
        simp
    · intro htb
      rw [if_neg (by simpa using htb)] at hev0
      simp only [bind_eq_ok, pure_eq_ok] at hev0
      obtain ⟨_, _, rfl⟩ := hev0
      exact ⟨rfl, rfl⟩
  · rw [if_pos hc] at hper
    simp only [bind_eq_ok, pure_eq_ok] at hper
    obtain ⟨_, _, rfl⟩ := hper
    rw [if_pos htb] at hev0
    simp only [pure_eq_ok] at hev0
    subst hev0
    rfl
  · rw [if_pos hc] at hper
    simp only [bind_eq_ok, pure_eq_ok] at hper
    obtain ⟨_, _, rfl⟩ := hper
    rw [if_neg (by simpa using htb)] at hev0
    simp only [bind_eq_ok, pure_eq_ok, fdiv_eq_ok] at hev0
    obtain ⟨_, ⟨_, rfl⟩, rfl⟩ := hev0
    rfl

/-- C31 (as stated, refuted): a Power-Only page whose instantaneous power is 0 and whose
accumulated power is 500 above the stored one: the power delta 500 exceeds 100 × 0 and is
used unchanged; the record of the frame reports 500 J, in time-based and in event-based
mode. -/
theorem C31_zero_inst_power_unclamped_counterexample :
    word16 zeroInstPage.b6 zeroInstPage.b7 = 0
    ∧ DecodePowerOnly_deltaPower 0 zeroInstPage = 500
    ∧ ¬ (DecodePowerOnly_deltaPower 0 zeroInstPage
          ≤ 100 * word16 zeroInstPage.b6 zeroInstPage.b7)
    ∧ (decodeAll defaultConsts sessionTb zeroInstFrames).map
        (fun out => (out.1.po.stState.dTotalEnergy,
          out.2.map (fun r => (r.timestamp, r.averagePower, r.cumulativeEnergy))))
      = .ok (500, [(1, 500, 500)])
    ∧ (decodeAll defaultConsts session1 zeroInstFrames).map
        (fun out => (out.1.po.stState.dTotalEnergy,
          out.2.map (fun r => (r.timestamp, r.averagePower, r.cumulativeEnergy))))
      = .ok (500, [(1, 500, 500)]) := by
  refine ⟨by decide, by decide, by decide, by decide!, by decide!⟩

/-- C31 (amended): in the Power-Only incremental decode the 16-bit power delta is checked
against 100 times the instantaneous power of the frame only when that power is not zero:
with a positive instantaneous power a delta above the bound is replaced by the instantaneous
power, so the delta used never exceeds the bound; with an instantaneous power of zero the
delta is used as it is.  The checked delta is the one the event energy is computed from (it
is the event energy in time-based mode), unless the cadence byte is zero, which makes the
event energy zero. -/
theorem C31_power_delta_clamp (c : Consts) (s : BPSAMPLER) (p : Payload) (ev : Event)
    (h : DecodePowerOnly_event c s p = .ok ev) :
    (0 < word16 p.b6 p.b7 →
      DecodePowerOnly_deltaPower s.usLastAccumTorque p ≤ 100 * word16 p.b6 p.b7
      ∧ (delta16 (word16 p.b4 p.b5) s.usLastAccumTorque > 100 * word16 p.b6 p.b7 →
          DecodePowerOnly_deltaPower s.usLastAccumTorque p = word16 p.b6 p.b7)
      ∧ (delta16 (word16 p.b4 p.b5) s.usLastAccumTorque ≤ 100 * word16 p.b6 p.b7 →
          DecodePowerOnly_deltaPower s.usLastAccumTorque p
            = delta16 (word16 p.b4 p.b5) s.usLastAccumTorque))
    ∧ (word16 p.b6 p.b7 = 0 →
        DecodePowerOnly_deltaPower s.usLastAccumTorque p
          = delta16 (word16 p.b4 p.b5) s.usLastAccumTorque)
    ∧ (p.b3.val = 0 → ev.fEventEnergy = 0)
    ∧ (0 < p.b3.val → s.usTimeBase ≠ 0 →
        ev.fEventEnergy = DecodePowerOnly_deltaPower s.usLastAccumTorque p)
    ∧ (0 < p.b3.val → s.usTimeBase = 0 →
        ev.fEventEnergy = (DecodePowerOnly_deltaPower s.usLastAccumTorque p : ℚ)
          * ev.usDeltaPowerPeriod / c.PO_TIME_QUANTIZATION
          / (delta8 p.b1.val s.ucLastEventCount : Nat)) := by
  obtain ⟨h1, h2, h3⟩ := po_event_shape c s p ev h
  refine ⟨fun hi => ?_, fun hi => ?_, fun hc => (h1 hc).1, h2, h3⟩
  · unfold DecodePowerOnly_deltaPower
    refine ⟨?_, fun hgt => ?_, fun hle => ?_⟩
    · dsimp only
      split_ifs with hcond
      · omega
      · have : ¬ delta16 (word16 p.b4 p.b5) s.usLastAccumTorque > 100 * word16 p.b6 p.b7 :=
          fun hgt => hcond ⟨hi, hgt⟩
        omega
    · dsimp only
      rw [if_pos ⟨hi, hgt⟩]
    · dsimp only
      rw [if_neg (fun hcond => absurd hcond.2 (by omega))]
  · unfold DecodePowerOnly_deltaPower
    dsimp only
    rw [if_neg (fun hcond => absurd hcond.1 (by omega))]

theorem C31_power_delta_clamp_witness :
    DecodePowerOnly_event defaultConsts sessionTb.po.stState clampedPage
      = .ok ⟨2048, 2048, 3, 2048⟩
    ∧ word16 clampedPage.b6 clampedPage.b7 = 3
    ∧ delta16 (word16 clampedPage.b4 clampedPage.b5) sessionTb.po.stState.usLastAccumTorque
        = 500
    ∧ DecodePowerOnly_deltaPower sessionTb.po.stState.usLastAccumTorque clampedPage = 3 := by
  have h := C31_power_delta_clamp defaultConsts sessionTb.po.stState clampedPage
    ⟨2048, 2048, 3, 2048⟩ (by decide!)
  exact ⟨by decide!, by decide!, by decide!, (h.1 (by decide!)).2.1 (by decide!)⟩


/-! ## The torque of the Crank-Torque-Frequency event -/

/-- C33 (as stated, refuted): a torque-tick delta of 65535 is treated as invalid and replaced
by 0 before the torque is computed, so the frame `ctfSentinelTorquePage` (period delta 2000,
slope 10, torque offset 500) has event energy 0, where the formula of the claim gives the
torque value 2081120.  With a 32-bit `unsigned long` the multiplication by 10 wraps for the
frame `ctfFastTorquePage` (torque-tick delta 7000 in one tick): the torque value used is
18487270, not 447984000. -/
theorem C33_ctf_torque_formula_counterexample :
    delta16 (word16 ctfSentinelTorquePage.b7 ctfSentinelTorquePage.b6)
        session1.ctf.stState.usLastAccumTorque = 65535
    ∧ (DecodeCrankTorqueFreq_event defaultConsts session1.ctf.stState
        ctfSentinelTorquePage).map (fun ev => (ev.usDeltaPowerPeriod, ev.fEventEnergy))
      = .ok (2000, 0)
    ∧ session1.ctf.stState.usTorqueOffset = 500
    ∧ (65535 * 2000 * 32 / 2000 - 32 * 500) * 10 / 10 = 2081120
    ∧ (DecodeCrankTorqueFreq_event defaultConsts session1.ctf.stState
        ctfFastTorquePage).map (fun ev => (ev.usDeltaPowerPeriod, ev.fEventEnergy))
      = .ok (1, M_PI * 18487270 / 16)
    ∧ (7000 * 2000 * 32 / 1 - 32 * 500) * 10 / 10 = 447984000 := by
  refine ⟨by decide, by decide!, by decide!, by decide, by decide!, by decide⟩

/-- C33 (amended): in the Crank-Torque-Frequency incremental decode with a period delta `dP`
that is neither 0 nor `0xFFFF` and a nonzero slope, the event is defined and, provided none
of the three `unsigned long` products overflows, the torque value used is
`(dT * Q * 32 / dP - 32 * usTorqueOffset) * 10 / slope` with truncated subtraction (the
offset-corrected torque is floored at zero) and integer divisions, where `Q` is the
quantization constant and `dT` the 16-bit torque-tick delta with 65535 replaced by 0; the
event energy is `M_PI` times that value divided by 16. -/
theorem C33_ctf_torque_formula (c : Consts) (s : BPSAMPLER) (p : Payload)
    (hd0 : delta16 (word16 p.b5 p.b4) s.usLastAccumPeriod ≠ 0)
    (hdF : delta16 (word16 p.b5 p.b4) s.usLastAccumPeriod ≠ 0xFFFF)
    (hslope : word16 p.b3 p.b2 ≠ 0)
    (h1 : (if delta16 (word16 p.b7 p.b6) s.usLastAccumTorque = 65535 then 0
        else delta16 (word16 p.b7 p.b6) s.usLastAccumTorque) * c.CTF_TIME_QUANTIZATION * 32
        < 2 ^ c.ULONG_BITS)
    (h2 : s.usTorqueOffset * 32 < 2 ^ c.ULONG_BITS)
    (h3 : ((if delta16 (word16 p.b7 p.b6) s.usLastAccumTorque = 65535 then 0
        else delta16 (word16 p.b7 p.b6) s.usLastAccumTorque) * c.CTF_TIME_QUANTIZATION * 32
          / delta16 (word16 p.b5 p.b4) s.usLastAccumPeriod - 32 * s.usTorqueOffset) * 10
        < 2 ^ c.ULONG_BITS) :
    ∃ ev, DecodeCrankTorqueFreq_event c s p = .ok ev
      ∧ ev.usDeltaPowerPeriod = delta16 (word16 p.b5 p.b4) s.usLastAccumPeriod
      ∧ ev.fEventEnergy = M_PI
          * ((((if delta16 (word16 p.b7 p.b6) s.usLastAccumTorque = 65535 then 0
              else delta16 (word16 p.b7 p.b6) s.usLastAccumTorque)
                * c.CTF_TIME_QUANTIZATION * 32
              / delta16 (word16 p.b5 p.b4) s.usLastAccumPeriod - 32 * s.usTorqueOffset) * 10
            / word16 p.b3 p.b2 : Nat) : ℚ) / 16 := by
  generalize hdT : (if delta16 (word16 p.b7 p.b6) s.usLastAccumTorque = 65535 then 0
    else delta16 (word16 p.b7 p.b6) s.usLastAccumTorque) = dT at h1 h3 ⊢
  generalize hdP : delta16 (word16 p.b5 p.b4) s.usLastAccumPeriod = dP at hd0 hdF h3 ⊢
  have e1 : toULong c ((dT * c.CTF_TIME_QUANTIZATION * 32 : Nat) : Int)
      = dT * c.CTF_TIME_QUANTIZATION * 32 := by
    rw [toULong_nat]
    exact Nat.mod_eq_of_lt h1
  have e2 : toULong c ((s.usTorqueOffset * 32 : Nat) : Int) = s.usTorqueOffset * 32 := by
    rw [toULong_nat]
    exact Nat.mod_eq_of_lt h2
  have hpos : 0 < 2 ^ c.ULONG_BITS := Nat.pow_pos (by decide)
  have e3 : (if dT * c.CTF_TIME_QUANTIZATION * 32 / dP > s.usTorqueOffset * 32
      then toULong c (((dT * c.CTF_TIME_QUANTIZATION * 32 / dP : Nat) : Int)
        - ((s.usTorqueOffset * 32 : Nat) : Int)) else 0)
      = dT * c.CTF_TIME_QUANTIZATION * 32 / dP - 32 * s.usTorqueOffset := by
    split_ifs with hgt
    · have e : (((dT * c.CTF_TIME_QUANTIZATION * 32 / dP : Nat) : Int)
          - ((s.usTorqueOffset * 32 : Nat) : Int))
          = ((dT * c.CTF_TIME_QUANTIZATION * 32 / dP - 32 * s.usTorqueOffset : Nat) : Int) := by
        omega
      rw [e, toULong_nat]
      exact Nat.mod_eq_of_lt (by omega)
    · omega
  have e4 : toULong c (((dT * c.CTF_TIME_QUANTIZATION * 32 / dP - 32 * s.usTorqueOffset) * 10
      : Nat) : Int)
      = (dT * c.CTF_TIME_QUANTIZATION * 32 / dP - 32 * s.usTorqueOffset) * 10 := by
    rw [toULong_nat]
    exact Nat.mod_eq_of_lt h3
  unfold DecodeCrankTorqueFreq_event
  simp only [hdT, hdP]
  rw [if_pos ⟨hd0, hdF⟩]
  simp only [idiv_ok _ _ hd0, idiv_ok _ _ hslope, ok_bind, e1, e2, e3, e4]
  exact ⟨_, rfl, rfl, rfl⟩

theorem C33_ctf_torque_formula_witness :
    ∃ ev, DecodeCrankTorqueFreq_event defaultConsts session1.ctf.stState ctfTorquePage = .ok ev
      ∧ ev.usDeltaPowerPeriod
          = delta16 (word16 ctfTorquePage.b5 ctfTorquePage.b4)
              session1.ctf.stState.usLastAccumPeriod
      ∧ ev.fEventEnergy = M_PI
          * ((((if delta16 (word16 ctfTorquePage.b7 ctfTorquePage.b6)
                session1.ctf.stState.usLastAccumTorque = 65535 then 0
              else delta16 (word16 ctfTorquePage.b7 ctfTorquePage.b6)
                session1.ctf.stState.usLastAccumTorque)
                * defaultConsts.CTF_TIME_QUANTIZATION * 32
              / delta16 (word16 ctfTorquePage.b5 ctfTorquePage.b4)
                  session1.ctf.stState.usLastAccumPeriod
              - 32 * session1.ctf.stState.usTorqueOffset) * 10
            / word16 ctfTorquePage.b3 ctfTorquePage.b2 : Nat) : ℚ) / 16 :=
  C33_ctf_torque_formula defaultConsts session1.ctf.stState ctfTorquePage (by decide!) (by decide!)
    (by decide!) (by decide!) (by decide!) (by decide!)


/-! ## Coasting frames of the Power-Only decoder -/

/-- An event of energy zero leaves `dTotalEnergy + fAccumEnergy` as it was, for every
variant: across a record boundary the accumulated energy is emitted, otherwise nothing
changes. -/
theorem decode_zero_energy (c : Consts) (v : Variant) (ro : ℚ) (d : Decoder) (t : ℚ)
    (p : Payload) (d1 : Decoder) (rs : List Record) (ev : Event)
    (h : v.Decode c ro d t p = .ok (d1, rs)) (hev : v.event c d.stState p = .ok ev)
    (hnew : ev.ulEventTime = ev.ulNewEventTime) (hE : ev.fEventEnergy = 0) :
    d1.stState.dTotalEnergy + d1.stState.fAccumEnergy
      = d.stState.dTotalEnergy + d.stState.fAccumEnergy := by
  obtain ⟨s2, out, hs2, hout, _, _, _, _, _, e5, e6, _⟩ := decode_shape c v ro d t p d1 rs h
  obtain ⟨ev1, hev1, hsplit⟩ := update_event c v d.stState s2 p hs2
  have hevq : ev1 = ev := by
    rw [hev] at hev1
    exact (Except.ok.inj hev1).symm
  subst hevq
  obtain ⟨_, b2, _, b4, _, _, b7⟩ := (update_spec c v d.stState s2 p hs2).1
  rw [e5, e6]
  by_cases hx : crossed c d.stState ev1.ulNewEventTime
  · obtain ⟨_, _, _, g2, g3, g4⟩ := hsplit.2.1 hx
    have hc2 : crossed c s2 s2.ulEventTime := by
      rw [hsplit.1, hnew]
      exact (crossed_congr c d.stState s2 ev1.ulNewEventTime b7 b4).mpr hx
    rw [recordOrCatchUp_crossed c ro _ _ t s2 hc2] at hout
    obtain ⟨_, _, _, _, _, _, f5, f6, _⟩ := recordOutput_fields ro s2 out hout
    rw [f5, f6, g2, g3, g4, hE, b2]
    simp
  · obtain ⟨_, g2, _, _⟩ := hsplit.2.2 hx
    have hc2 : ¬ crossed c s2 s2.ulEventTime := by
      rw [hsplit.1, hnew]
      intro hy
      exact hx ((crossed_congr c d.stState s2 ev1.ulNewEventTime b7 b4).mp hy)
    rw [recordOrCatchUp_not_crossed c ro _ _ t s2 hc2] at hout
    obtain ⟨n, ho1, _, _⟩ := wallClockFill_spec t _ _ s2 out hout
    rw [ho1]
    dsimp only
    rw [g2, hE, b2]
    simp

/-- C32: in the Power-Only incremental decode a frame whose cadence byte is 0 has an event of
energy 0, in event-based and in time-based mode, and in event-based mode the period of the
event is the sentinel `0xFFFF`; whenever the decode returns, `dTotalEnergy + fAccumEnergy`
is the same after the step as before it.  In event-based mode the decode of such a frame
does return when the frame carries a new event count (the 8-bit event-count delta is not 0)
and the quantized record interval, the record interval of `RecordOutput.c` and the
quantization constant are not zero. -/
theorem C32_coasting_frame_adds_no_energy (c : Consts) (ro : ℚ) (d : Decoder) (t : ℚ)
    (p : Payload) (hcad : p.b3.val = 0) :
    (∀ d1 rs, DecodePowerOnly c ro d t p = .ok (d1, rs) →
      ∃ ev, DecodePowerOnly_event c d.stState p = .ok ev
        ∧ ev.fEventEnergy = 0
        ∧ (d.stState.usTimeBase = 0 → ev.usDeltaPowerPeriod = 0xFFFF)
        ∧ d1.stState.dTotalEnergy + d1.stState.fAccumEnergy
            = d.stState.dTotalEnergy + d.stState.fAccumEnergy)
    ∧ (d.stState.usTimeBase = 0 → delta8 p.b1.val d.stState.ucLastEventCount ≠ 0 →
        1 ≤ d.stState.usRecordInterval → ro ≠ 0 → 0 < c.PO_TIME_QUANTIZATION →
        ∃ d1 rs, DecodePowerOnly c ro d t p = .ok (d1, rs)) := by
  constructor
  · intro d1 rs h
    obtain ⟨s2, out, hs2, _⟩ := decode_shape c .powerOnly ro d t p d1 rs h
    obtain ⟨ev, hev, _⟩ := update_event c .powerOnly d.stState s2 p hs2
    obtain ⟨hz, _, _⟩ := po_event_shape c d.stState p ev hev
    have hnew : ev.ulEventTime = ev.ulNewEventTime := by
      have hev2 : DecodePowerOnly_event c d.stState p = .ok ev := hev
      unfold DecodePowerOnly_event at hev2
      simp only [bind_eq_ok, pure_eq_ok] at hev2
      obtain ⟨_, _, _, _, rfl⟩ := hev2
      rfl
    exact ⟨ev, hev, (hz hcad).1, fun htb => ((hz hcad).2 htb).1,
      decode_zero_energy c .powerOnly ro d t p d1 rs ev h hev hnew (hz hcad).1⟩
  · intro htb hcnt hI hro hQ
    have hticks : ((delta8 p.b1.val d.stState.ucLastEventCount : Nat) : ℚ) ≠ 0 := by
      exact_mod_cast hcnt
    have hev : DecodePowerOnly_event c d.stState p
        = .ok ⟨toULong c ((d.stState.ulEventTime + 0xFFFF : Nat) : Int), 0xFFFF, 0,
            toULong c ((d.stState.ulEventTime + 0xFFFF : Nat) : Int)⟩ := by
      unfold DecodePowerOnly_event
      simp only [hcad, gt_iff_lt, lt_self_iff_false, if_false, pure, Except.pure, ok_bind, htb,
        ne_eq, not_true_eq_false, fdiv_ok _ _ hticks]
      simp
    have hI0 : d.stState.usRecordInterval ≠ 0 := by omega
    obtain ⟨s2, hs2⟩ := po_update_ok c d.stState p _ hev htb hI0
      (show (65535 : Nat) ≠ 0 by decide)
    obtain ⟨_, _, _, b4, _⟩ := (po_update_spec c d.stState s2 p hs2).1
    have hout : ∃ out, recordOrCatchUp c ro d.dRecordInterval
        (Variant.powerOnly.catchUpStep c d) t s2 = .ok out := by
      by_cases hc : crossed c s2 s2.ulEventTime
      · rw [recordOrCatchUp_crossed c ro _ _ t s2 hc]
        exact recordOutput_ok ro s2 hro (by rw [b4]; exact hI0)
      · rw [recordOrCatchUp_not_crossed c ro _ _ t s2 hc]
        apply wallClockFill_ok
        simp only [Variant.catchUpStep]
        have h1 : (0 : ℚ) < d.stState.usRecordInterval := by exact_mod_cast hI
        have h2 : (0 : ℚ) < c.PO_TIME_QUANTIZATION := by exact_mod_cast hQ
        exact div_pos h1 h2
    obtain ⟨out, ho⟩ := hout
    obtain ⟨d1, hd1⟩ := decode_ok c .powerOnly ro d t p s2 out hs2 ho
    exact ⟨d1, out.2, hd1⟩

theorem C32_coasting_frame_adds_no_energy_witness :
    coastPage.b3.val = 0
    ∧ ∃ d1 rs, DecodePowerOnly defaultConsts 1 poResyncedSession.po (3 / 2) coastPage
          = .ok (d1, rs)
      ∧ d1.stState.dTotalEnergy + d1.stState.fAccumEnergy
          = poResyncedSession.po.stState.dTotalEnergy
            + poResyncedSession.po.stState.fAccumEnergy := by
  obtain ⟨h1, h2⟩ := C32_coasting_frame_adds_no_energy defaultConsts 1 poResyncedSession.po
    (3 / 2) coastPage rfl
  obtain ⟨d1, rs, h⟩ := h2 (by decide!) (by decide!) (by decide!) (by norm_num) (by decide!)
  obtain ⟨ev, _, _, _, hsum⟩ := h1 d1 rs h
  exact ⟨rfl, d1, rs, h, hsum⟩

/-- C36 (code fault in `DecodePowerOnly`): a frame with cadence 0 gets the period `0xFFFF`,
the value the sibling decoders treat as no interval, but in event-based mode it is added to
the event time like a real period of 32 s.  Right after the resync on the first page (event
time and last boundary 0, last record time 0 s) the coasting page `coastPage`, received at
1.5 s, moves the event time to 65535: the boundary test is true, the gap count is 30 and
`RecordOutput` emits 31 records of 0 W stamped 1 s to 31 s; the last record time is then
31 s, far beyond the receive time. -/
theorem C36_coasting_frame_emits_after_resync :
    (poResyncedSession.po.stState.ulEventTime, poResyncedSession.po.stState.ulLastRecordTime,
      poResyncedSession.po.stState.dLastRecordTime, poResyncedSession.po.stState.usTimeBase)
      = (0, 0, 0, 0)
    ∧ (DecodePowerOnly_update defaultConsts poResyncedSession.po.stState coastPage).map
        (fun s => (s.ulEventTime, s.ucRecordGapCount,
          decide (crossed defaultConsts s s.ulEventTime))) = .ok (65535, 30, true)
    ∧ (decodeAll defaultConsts session1 coastAfterResyncFrames).map
        (fun out => (out.1.po.stState.dLastRecordTime, out.1.po.stState.ulEventTime,
          out.1.po.stState.ulLastRecordTime, out.2.length)) = .ok (31, 65535, 63488, 31)
    ∧ (decodeAll defaultConsts session1 coastAfterResyncFrames).map
        (fun out => out.2.map (fun r => (r.timestamp, r.averagePower)))
      = .ok ((List.range 31).map (fun k => (((k + 1 : Nat) : ℚ), 0)))
    ∧ ¬ ((31 : ℚ) ≤ max 0 (3 / 2)) := by
  refine ⟨by decide!, by decide!, by decide!, by decide!, by norm_num⟩


/-! ## A resync applied twice -/

theorem resyncGapCount_zero (I : ℚ) (hI : I ≠ 0) : resyncGapCount 0 I = .ok 0 := by
  rw [resyncGapCount_ok 0 I hI]
  have h : (0 + I * (1 / 2)) / I = 1 / 2 := by
    field_simp
    ring
  rw [h]
  decide!

theorem resyncCatchUp_zero (ro : ℚ) (s : BPSAMPLER) :
    resyncCatchUp ro s 0
      = .ok ({ s with
          ucRecordGapCount := 0,
          fGapEnergy := s.fAccumEnergy,
          fGapRotation := s.fAccumRotation }, []) := by
  unfold resyncCatchUp
  exact fillGap_zero ro _ rfl

/-- C38: the resync of every variant is idempotent: when a resync returns the decoder `d1`
(after emitting the records `rs`), a second resync of `d1` with the same time and payload
returns `d1` again and emits nothing, whatever record interval `RecordOutput.c` holds; so
resyncing twice in a row gives the same decoder and the same records as resyncing once.
This is what happens to the first Power-Only page of a session, which the dispatcher
resyncs twice. -/
theorem C38_resync_idempotent (c : Consts) (v : Variant) (ro ro2 : ℚ) (d : Decoder) (t : ℚ)
    (p : Payload) (d1 : Decoder) (rs : List Record)
    (h : v.Resync c ro d t p = .ok (d1, rs)) :
    v.Resync c ro2 d1 t p = .ok (d1, [])
    ∧ (v.Resync c ro d t p >>= fun out =>
        v.Resync c ro2 out.1 t p >>= fun out2 => pure (out2.1, out.2 ++ out2.2))
      = .ok (d1, rs) := by
  have key : v.Resync c ro2 d1 t p = .ok (d1, []) := by
    cases v
    · exact po_resync_again c ro ro2 d t p d1 rs h
    · simp only [Variant.Resync] at h ⊢
      unfold DecodeWheelTorque_Resync at h
      simp only [bind_eq_ok, pure_eq_ok, fdiv_eq_ok, Prod.mk.injEq] at h
      obtain ⟨_, ⟨hI, rfl⟩, out, hout, rfl, rfl⟩ := h
      unfold DecodeWheelTorque_Resync
      simp only [fdiv_ok _ _ hI, bind, Except.bind, sub_self, gt_iff_lt, lt_self_iff_false,
        false_and, and_false, if_false, pure, Except.pure]
    all_goals
      simp only [Variant.Resync] at h ⊢
      first
        | unfold DecodeCrankTorque_Resync at h
        | unfold DecodeCrankTorqueFreq_Resync at h
      simp only [bind_eq_ok, pure_eq_ok, fdiv_eq_ok, Prod.mk.injEq] at h
      obtain ⟨_, ⟨hI, rfl⟩, out, hout, rfl, rfl⟩ := h
      first
        | unfold DecodeCrankTorque_Resync
        | unfold DecodeCrankTorqueFreq_Resync
      simp only [fdiv_ok _ _ hI, ok_bind, sub_self, resyncGapCount_zero _ hI,
        resyncCatchUp_zero]
      split_ifs <;> rfl
  refine ⟨key, ?_⟩
  simp only [h, ok_bind, key]
  simp [pure, Except.pure]

theorem C38_resync_idempotent_witness :
    Variant.crankTorque.Resync defaultConsts 1 crankResynced (7 / 2)
        ⟨0x12, 1, 1, 60, 0, 8, 16, 0⟩ = .ok (crankResyncedLate, [])
    ∧ crankResyncedLate.stState.dLastRecordTime = 3
    ∧ Variant.crankTorque.Resync defaultConsts 1 crankResyncedLate (7 / 2)
        ⟨0x12, 1, 1, 60, 0, 8, 16, 0⟩ = .ok (crankResyncedLate, []) :=
  ⟨by decide!, by decide!,
    (C38_resync_idempotent defaultConsts .crankTorque 1 1 crankResynced (7 / 2)
      ⟨0x12, 1, 1, 60, 0, 8, 16, 0⟩ crankResyncedLate [] (by decide!)).1⟩


/-! ## The wall-clock catch-up, once more -/

/-- An incremental decode never lets the totals decrease and keeps the buckets
non-negative. -/
theorem decode_totals (c : Consts) (v : Variant) (ro : ℚ) (d : Decoder) (t : ℚ) (p : Payload)
    (d1 : Decoder) (rs : List Record) (hnn : NonNeg d.stState)
    (h : v.Decode c ro d t p = .ok (d1, rs)) :
    MonoTotals (d.stState.dTotalEnergy, d.stState.dTotalRotation) rs
      (d1.stState.dTotalEnergy, d1.stState.dTotalRotation)
    ∧ NonNeg d1.stState := by
  obtain ⟨s2, out, hu, ho, rfl, _, _, _, hE, hR, hn⟩ := decode_inv c v ro d t p d1 rs h
  obtain ⟨hb, hnn2⟩ := update_spec c v d.stState s2 p hu
  obtain ⟨hm, hn2⟩ := recordOrCatchUp_totals c ro _ _ t s2 out ho (hnn2 hnn)
  rw [hb.2.1, hb.2.2.1] at hm
  rw [hE, hR]
  exact ⟨hm, hn hn2⟩

/-- A resync never lets the totals decrease and leaves the buckets empty. -/
theorem resync_totals (c : Consts) (v : Variant) (ro : ℚ) (d : Decoder) (t : ℚ) (p : Payload)
    (d1 : Decoder) (rs : List Record) (hnn : NonNeg d.stState)
    (h : v.Resync c ro d t p = .ok (d1, rs)) :
    MonoTotals (d.stState.dTotalEnergy, d.stState.dTotalRotation) rs
      (d1.stState.dTotalEnergy, d1.stState.dTotalRotation)
    ∧ NonNeg d1.stState := by
  obtain ⟨_, out, _, ht, rfl, _, _, hE, hR, _, _, hn⟩ := resync_inv c v ro d t p d1 rs h
  rw [hE, hR]
  exact ⟨(ht hnn).1, hn⟩

/-- The buckets of every reachable decoder state are non-negative. -/
theorem reachable_nonneg (c : Consts) (v : Variant) (d : Decoder) (hr : Reachable c v d) :
    NonNeg d.stState := by
  induction hr with
  | init I tb rsI =>
    cases v <;>
      simp [NonNeg, Variant.Init, DecodePowerOnly_Init, DecodeWheelTorque_Init,
        DecodeCrankTorque_Init, DecodeCrankTorqueFreq_Init, ResamplerOutput_Init]
  | resync d d1 rs ro t p _ h ih => exact (resync_totals c v ro d t p d1 rs ih h).2
  | message d d1 rs ro t p _ h ih => exact (message_totals c v ro d t p d1 rs ih h).2
  | decode d d1 rs ro t p _ h ih => exact (decode_totals c v ro d t p d1 rs ih h).2
  | calibration d t p _ ih =>
    unfold DecodeCrankTorqueFreq_Calibration
    split_ifs
    · exact ih
    · exact ih
    · exact ih
  | setTimeBase d tb _ ih => exact ih

/-- C37: in every reachable state of a decoder (the `_Init` of the loaded statics followed by
any returning calls, with any arguments) the six energy and rotation buckets are
non-negative, and no operation lets `dTotalEnergy` or `dTotalRotation` decrease: for a
resync (which does not reset them), an incremental decode and a message handler call, the
totals are non-decreasing from those before the call through every emitted record to those
after the call; the first part of a decode leaves the totals untouched and the buckets
non-negative, and `RecordOutput`, `RecordOutput_FillGap` and the wall-clock catch-up, run
on a sampler with non-negative buckets, only add non-negative amounts. -/
theorem C37_totals_never_decrease (c : Consts) (v : Variant) (d : Decoder)
    (hr : Reachable c v d) :
    NonNeg d.stState
    ∧ (∀ ro t p d1 rs, v.Resync c ro d t p = .ok (d1, rs) →
        List.Chain (fun x y => x.1 ≤ y.1 ∧ x.2 ≤ y.2)
          (d.stState.dTotalEnergy, d.stState.dTotalRotation)
          (rs.map (fun r => (r.cumulativeEnergy, r.cumulativeRotation))
            ++ [(d1.stState.dTotalEnergy, d1.stState.dTotalRotation)]))
    ∧ (∀ ro t p d1 rs, v.Decode c ro d t p = .ok (d1, rs) →
        List.Chain (fun x y => x.1 ≤ y.1 ∧ x.2 ≤ y.2)
          (d.stState.dTotalEnergy, d.stState.dTotalRotation)
          (rs.map (fun r => (r.cumulativeEnergy, r.cumulativeRotation))
            ++ [(d1.stState.dTotalEnergy, d1.stState.dTotalRotation)]))
    ∧ (∀ ro t p d1 rs, v.Message c ro d t p = .ok (d1, rs) →
        List.Chain (fun x y => x.1 ≤ y.1 ∧ x.2 ≤ y.2)
          (d.stState.dTotalEnergy, d.stState.dTotalRotation)
          (rs.map (fun r => (r.cumulativeEnergy, r.cumulativeRotation))
            ++ [(d1.stState.dTotalEnergy, d1.stState.dTotalRotation)]))
    ∧ (∀ p s2, v.update c d.stState p = .ok s2 →
        NonNeg s2 ∧ s2.dTotalEnergy = d.stState.dTotalEnergy
        ∧ s2.dTotalRotation = d.stState.dTotalRotation)
    ∧ (∀ (ro : ℚ) (s : BPSAMPLER) (out : BPSAMPLER × List Record), NonNeg s →
        RecordOutput ro s = .ok out →
        NonNeg out.1
        ∧ List.Chain (fun x y => x.1 ≤ y.1 ∧ x.2 ≤ y.2) (s.dTotalEnergy, s.dTotalRotation)
          (out.2.map (fun r => (r.cumulativeEnergy, r.cumulativeRotation))
            ++ [(out.1.dTotalEnergy, out.1.dTotalRotation)]))
    ∧ (∀ (ro : ℚ) (s : BPSAMPLER) (out : BPSAMPLER × List Record), NonNeg s →
        RecordOutput_FillGap ro s = .ok out →
        NonNeg out.1
        ∧ List.Chain (fun x y => x.1 ≤ y.1 ∧ x.2 ≤ y.2) (s.dTotalEnergy, s.dTotalRotation)
          (out.2.map (fun r => (r.cumulativeEnergy, r.cumulativeRotation))
            ++ [(out.1.dTotalEnergy, out.1.dTotalRotation)]))
    ∧ (∀ (t I step : ℚ) (s : BPSAMPLER) (out : BPSAMPLER × List Record), NonNeg s →
        wallClockFill t I step s = .ok out →
        NonNeg out.1
        ∧ List.Chain (fun x y => x.1 ≤ y.1 ∧ x.2 ≤ y.2) (s.dTotalEnergy, s.dTotalRotation)
          (out.2.map (fun r => (r.cumulativeEnergy, r.cumulativeRotation))
            ++ [(out.1.dTotalEnergy, out.1.dTotalRotation)])) := by
  have hnn := reachable_nonneg c v d hr
  refine ⟨hnn, ?_, ?_, ?_, ?_, ?_, ?_, ?_⟩
  · intro ro t p d1 rs h
    exact mono_chain _ _ _ (resync_totals c v ro d t p d1 rs hnn h).1
  · intro ro t p d1 rs h
    exact mono_chain _ _ _ (decode_totals c v ro d t p d1 rs hnn h).1
  · intro ro t p d1 rs h
    exact mono_chain _ _ _ (message_totals c v ro d t p d1 rs hnn h).1
  · intro p s2 h
    obtain ⟨hb, hn⟩ := update_spec c v d.stState s2 p h
    exact ⟨hn hnn, hb.2.1, hb.2.2.1⟩
  · intro ro s out hs h
    obtain ⟨hm, hn⟩ := recordOutput_totals ro s out h hs
    exact ⟨hn, mono_chain _ _ _ hm⟩
  · intro ro s out hs h
    obtain ⟨hm, hn⟩ := fillGap_totals ro s out h hs
    exact ⟨hn, mono_chain _ _ _ hm⟩
  · intro t I step s out hs h
    obtain ⟨hm, hn⟩ := wallClockLoop_totals t I step _ s out h hs
    exact ⟨hn, mono_chain _ _ _ hm⟩

theorem C37_totals_never_decrease_witness :
    Reachable defaultConsts .crankTorque crankResynced
    ∧ NonNeg crankResynced.stState
    ∧ (∀ ro t p d1 rs,
        Variant.crankTorque.Message defaultConsts ro crankResynced t p = .ok (d1, rs) →
        List.Chain (fun x y => x.1 ≤ y.1 ∧ x.2 ≤ y.2)
          (crankResynced.stState.dTotalEnergy, crankResynced.stState.dTotalRotation)
          (rs.map (fun r => (r.cumulativeEnergy, r.cumulativeRotation))
            ++ [(d1.stState.dTotalEnergy, d1.stState.dTotalRotation)])) :=
  have hr : Reachable defaultConsts .crankTorque crankResynced :=
    Reachable.resync session1.ct crankResynced [] 1 (1 / 2) ⟨0x12, 0, 0, 0, 0, 0, 0, 0⟩
      (Reachable.init 1 0 10) (by decide!)
  have h := C37_totals_never_decrease defaultConsts .crankTorque crankResynced hr
  ⟨hr, h.1, h.2.2.2.1⟩


/-! ## No integer division by zero -/

theorem intSafe_ok {α : Type} (a : α) : IntSafe (Except.ok a : Except Fault α) := by
  intro h
  cases h

theorem intSafe_pure {α : Type} (a : α) : IntSafe (pure a : Except Fault α) :=
  intSafe_ok a

theorem intSafe_bind {α β : Type} (x : Except Fault α) (f : α → Except Fault β)
    (hx : IntSafe x) (hf : ∀ a, x = .ok a → IntSafe (f a)) : IntSafe (x >>= f) := by
  cases x with
  | error e =>
    intro h
    have h2 : (Except.error e : Except Fault β) = .error .intDivByZero := h
    cases h2
    exact hx rfl
  | ok a => exact hf a rfl

theorem intSafe_ite {α : Type} (cnd : Prop) [Decidable cnd] (x y : Except Fault α)
    (hx : cnd → IntSafe x) (hy : ¬ cnd → IntSafe y) : IntSafe (if cnd then x else y) := by
  split_ifs with h
  · exact hx h
  · exact hy h

theorem intSafe_fdiv (a b : ℚ) : IntSafe (fdiv a b) := by
  unfold fdiv IntSafe
  split_ifs
  · intro h
    cases h
  · intro h
    cases h

theorem intSafe_idiv (a b : Nat) (hb : b ≠ 0) : IntSafe (idiv a b) := by
  rw [idiv_ok a b hb]
  exact intSafe_ok _

theorem intSafe_imod (a b : Nat) (hb : b ≠ 0) : IntSafe (imod a b) := by
  rw [imod_ok a b hb]
  exact intSafe_ok _

theorem intSafe_fillGap (ro : ℚ) (s : BPSAMPLER) : IntSafe (RecordOutput_FillGap ro s) := by
  unfold RecordOutput_FillGap
  repeat' first
    | exact intSafe_pure _
    | exact intSafe_fdiv _ _
    | apply intSafe_bind
    | apply intSafe_ite
    | intro _

theorem intSafe_recordOutput (ro : ℚ) (s : BPSAMPLER) (hI : 1 ≤ s.usRecordInterval) :
    IntSafe (RecordOutput ro s) := by
  unfold RecordOutput
  repeat' first
    | exact intSafe_pure _
    | exact intSafe_fdiv _ _
    | exact intSafe_fillGap _ _
    | exact intSafe_idiv _ _ (by omega)
    | apply intSafe_bind
    | intro _

theorem intSafe_wallClockLoop (t I step : ℚ) (fuel : Nat) (s : BPSAMPLER) :
    IntSafe (wallClockLoop t I step fuel s) := by
  induction fuel generalizing s with
  | zero =>
    unfold wallClockLoop
    apply intSafe_ite
    · intro _ h
      cases h
    · intro _
      exact intSafe_pure _
  | succ fuel ih =>
    unfold wallClockLoop
    apply intSafe_ite
    · intro _
      apply intSafe_bind
      · exact ih _
      · intro _ _
        exact intSafe_pure _
    · intro _
      exact intSafe_pure _

theorem intSafe_recordOrCatchUp (c : Consts) (ro I step t : ℚ) (s : BPSAMPLER)
    (hI : 1 ≤ s.usRecordInterval) : IntSafe (recordOrCatchUp c ro I step t s) := by
  unfold recordOrCatchUp
  apply intSafe_ite
  · intro _
    exact intSafe_recordOutput ro s hI
  · intro _
    exact intSafe_wallClockLoop _ _ _ _ _

theorem intSafe_update (c : Consts) (v : Variant) (hv : v ≠ .crankTorqueFreq) (s : BPSAMPLER)
    (p : Payload) (hI : 1 ≤ s.usRecordInterval) : IntSafe (v.update c s p) := by
  cases v
  · simp only [Variant.update]
    unfold DecodePowerOnly_update
    repeat' first
      | exact intSafe_pure _
      | exact intSafe_fdiv _ _
      | exact intSafe_idiv _ _ (by omega)
      | exact intSafe_imod _ _ (by omega)
      | apply intSafe_bind
      | apply intSafe_ite
      | intro _
  · simp only [Variant.update]
    unfold DecodeWheelTorque_update
    repeat' first
      | exact intSafe_pure _
      | exact intSafe_fdiv _ _
      | exact intSafe_idiv _ _ (by omega)
      | exact intSafe_imod _ _ (by omega)
      | apply intSafe_bind
      | apply intSafe_ite
      | intro _
  · simp only [Variant.update]
    unfold DecodeCrankTorque_update
    repeat' first
      | exact intSafe_pure _
      | exact intSafe_fdiv _ _
      | exact intSafe_idiv _ _ (by omega)
      | exact intSafe_imod _ _ (by omega)
      | apply intSafe_bind
      | apply intSafe_ite
      | intro _
  · exact absurd rfl hv


theorem intSafe_decode (c : Consts) (v : Variant) (hv : v ≠ .crankTorqueFreq) (ro : ℚ)
    (d : Decoder) (t : ℚ) (p : Payload) (hI : 1 ≤ d.stState.usRecordInterval) :
    IntSafe (v.Decode c ro d t p) := by
  have hu := intSafe_update c v hv d.stState p hI
  have hs : ∀ s2, v.update c d.stState p = .ok s2 → 1 ≤ s2.usRecordInterval := by
    intro s2 h
    rw [(update_spec c v d.stState s2 p h).1.2.2.2.1]
    exact hI
  cases v
  · simp only [Variant.Decode, Variant.update] at hu hs ⊢
    unfold DecodePowerOnly
    apply intSafe_bind _ _ hu
    intro s2 h2
    apply intSafe_bind _ _ (intSafe_recordOrCatchUp c ro _ _ t s2 (hs s2 h2))
    intro _ _
    exact intSafe_pure _
  · simp only [Variant.Decode, Variant.update] at hu hs ⊢
    unfold DecodeWheelTorque
    apply intSafe_bind _ _ hu
    intro s2 h2
    apply intSafe_bind _ _ (intSafe_recordOrCatchUp c ro _ _ t s2 (hs s2 h2))
    intro _ _
    exact intSafe_pure _
  · simp only [Variant.Decode, Variant.update] at hu hs ⊢
    unfold DecodeCrankTorque
    apply intSafe_bind _ _ hu
    intro s2 h2
    apply intSafe_bind _ _ (intSafe_recordOrCatchUp c ro _ _ t s2 (hs s2 h2))
    intro _ _
    exact intSafe_pure _
  · exact absurd rfl hv

theorem intSafe_resyncCatchUp (ro : ℚ) (s : BPSAMPLER) (n : Nat) :
    IntSafe (resyncCatchUp ro s n) := by
  unfold resyncCatchUp
  exact intSafe_fillGap _ _

theorem intSafe_resync (c : Consts) (v : Variant) (ro : ℚ) (d : Decoder) (t : ℚ)
    (p : Payload) : IntSafe (v.Resync c ro d t p) := by
  cases v
  all_goals
    simp only [Variant.Resync]
    first
      | unfold DecodePowerOnly_Resync
      | unfold DecodeWheelTorque_Resync
      | unfold DecodeCrankTorque_Resync
      | unfold DecodeCrankTorqueFreq_Resync
    repeat' first
      | exact intSafe_pure _
      | exact intSafe_fdiv _ _
      | exact intSafe_resyncCatchUp _ _ _
      | (unfold resyncGapCount)
      | (unfold resyncGapCountWT)
      | apply intSafe_bind
      | apply intSafe_ite
      | intro _

theorem intSafe_message (c : Consts) (v : Variant) (hv : v ≠ .crankTorqueFreq) (ro : ℚ)
    (d : Decoder) (t : ℚ) (p : Payload) (hI : 1 ≤ d.stState.usRecordInterval) :
    IntSafe (v.Message c ro d t p) := by
  have hd := intSafe_decode c v hv ro d t p hI
  have hr := intSafe_resync c v ro d t p
  cases v
  · simp only [Variant.Message, Variant.Decode, Variant.Resync] at hd hr ⊢
    unfold DecodePowerOnly_Message
    apply intSafe_ite
    · intro _
      apply intSafe_bind
      · exact intSafe_ite _ _ _ (fun _ => hr) (fun _ => hd)
      · intro _ _
        exact intSafe_pure _
    · intro _
      exact intSafe_pure _
  · simp only [Variant.Message, Variant.Decode, Variant.Resync] at hd hr ⊢
    unfold DecodeWheelTorque_Message
    apply intSafe_ite
    · intro _
      apply intSafe_bind
      · exact intSafe_ite _ _ _ (fun _ => hr) (fun _ => hd)
      · intro _ _
        exact intSafe_pure _
    · intro _
      exact intSafe_pure _
  · simp only [Variant.Message, Variant.Decode, Variant.Resync] at hd hr ⊢
    unfold DecodeCrankTorque_Message
    apply intSafe_ite
    · intro _
      apply intSafe_bind
      · exact intSafe_ite _ _ _ (fun _ => hr) (fun _ => hd)
      · intro _ _
        exact intSafe_pure _
    · intro _
      exact intSafe_pure _
  · exact absurd rfl hv

/-! ## Divisions by zero -/

/-- With `fdiv` as the floating division the functions are those of the embedding. -/
theorem with_fdiv :
    RecordOutput_FillGapWith fdiv = RecordOutput_FillGap
    ∧ RecordOutputWith fdiv = RecordOutput
    ∧ Variant.updateWith fdiv = Variant.update
    ∧ Variant.ResyncWith fdiv = Variant.Resync
    ∧ Variant.DecodeWith fdiv = Variant.Decode
    ∧ Variant.MessageWith fdiv = Variant.Message := by
  refine ⟨rfl, rfl, ?_, ?_, ?_, ?_⟩
  · funext v; cases v <;> rfl
  · funext v; cases v <;> rfl
  · funext v; cases v <;> rfl
  · funext v; cases v <;> rfl

theorem avoids_ok {α : Type} (e : Fault) (a : α) : Avoids e (Except.ok a : Except Fault α) := by
  intro h
  cases h

theorem avoids_pure {α : Type} (e : Fault) (a : α) : Avoids e (pure a : Except Fault α) :=
  avoids_ok e a

theorem avoids_bind {α β : Type} (e : Fault) (x : Except Fault α) (f : α → Except Fault β)
    (hx : Avoids e x) (hf : ∀ a, x = .ok a → Avoids e (f a)) : Avoids e (x >>= f) := by
  cases x with
  | error e2 =>
    intro h
    have h2 : (Except.error e2 : Except Fault β) = .error e := h
    cases h2
    exact hx rfl
  | ok a => exact hf a rfl

theorem avoids_ite {α : Type} (e : Fault) (cnd : Prop) [Decidable cnd] (x y : Except Fault α)
    (hx : cnd → Avoids e x) (hy : ¬ cnd → Avoids e y) : Avoids e (if cnd then x else y) := by
  split_ifs with h
  · exact hx h
  · exact hy h

theorem avoids_fdivCont (e : Fault) (nan : ℚ → ℚ) (a b : ℚ) : Avoids e (fdivCont nan a b) :=
  avoids_ok e _

theorem avoids_idiv (e : Fault) (a b : Nat) (hb : b ≠ 0) : Avoids e (idiv a b) := by
  rw [idiv_ok a b hb]
  exact avoids_ok e _

theorem avoids_imod (e : Fault) (a b : Nat) (hb : b ≠ 0) : Avoids e (imod a b) := by
  rw [imod_ok a b hb]
  exact avoids_ok e _

/-- A step that avoids every fault returns. -/
theorem ok_of_avoids {α : Type} (x : Except Fault α) (h : ∀ e, Avoids e x) :
    ∃ a, x = .ok a := by
  cases x with
  | error e => exact absurd rfl (h e)
  | ok a => exact ⟨a, rfl⟩

theorem avoids_fillGapWith (e : Fault) (fd : ℚ → ℚ → Except Fault ℚ)
    (hfd : ∀ a b, Avoids e (fd a b)) (ro : ℚ) (s : BPSAMPLER) :
    Avoids e (RecordOutput_FillGapWith fd ro s) := by
  unfold RecordOutput_FillGapWith
  repeat' first
    | exact avoids_pure _ _
    | exact hfd _ _
    | apply avoids_bind
    | apply avoids_ite
    | intro _

theorem avoids_recordOutputWith (e : Fault) (fd : ℚ → ℚ → Except Fault ℚ)
    (hfd : ∀ a b, Avoids e (fd a b)) (ro : ℚ) (s : BPSAMPLER) (hI : 1 ≤ s.usRecordInterval) :
    Avoids e (RecordOutputWith fd ro s) := by
  unfold RecordOutputWith
  repeat' first
    | exact avoids_pure _ _
    | exact hfd _ _
    | exact avoids_fillGapWith e fd hfd _ _
    | exact avoids_idiv _ _ _ (by omega)
    | apply avoids_bind
    | intro _

theorem avoids_wallClockLoop (e : Fault) (he : e ≠ .nonTermination) (t I step : ℚ) (fuel : Nat)
    (s : BPSAMPLER) : Avoids e (wallClockLoop t I step fuel s) := by
  induction fuel generalizing s with
  | zero =>
    unfold wallClockLoop
    apply avoids_ite
    · intro _ h
      cases h
      exact he rfl
    · intro _
      exact avoids_pure _ _
  | succ fuel ih =>
    unfold wallClockLoop
    apply avoids_ite
    · intro _
      apply avoids_bind
      · exact ih _
      · intro _ _
        exact avoids_pure _ _
    · intro _
      exact avoids_pure _ _

theorem avoids_recordOrCatchUpWith (e : Fault) (he : e ≠ .nonTermination)
    (fd : ℚ → ℚ → Except Fault ℚ) (hfd : ∀ a b, Avoids e (fd a b)) (c : Consts)
    (ro I step t : ℚ) (s : BPSAMPLER) (hI : 1 ≤ s.usRecordInterval) :
    Avoids e (recordOrCatchUpWith fd c ro I step t s) := by
  unfold recordOrCatchUpWith
  apply avoids_ite
  · intro _
    exact avoids_recordOutputWith e fd hfd ro s hI
  · intro _
    exact avoids_wallClockLoop e he _ _ _ _ _

/-- Every divisor of the first part of a decode is nonzero on its branch: with a quantized
record interval of at least 1 the first part of the Power-Only, Wheel-Torque and
Crank-Torque decode ends in no fault that its floating division does not raise. -/
theorem avoids_updateWith (e : Fault) (fd : ℚ → ℚ → Except Fault ℚ)
    (hfd : ∀ a b, Avoids e (fd a b)) (c : Consts) (v : Variant) (hv : v ≠ .crankTorqueFreq)
    (s : BPSAMPLER) (p : Payload) (hI : 1 ≤ s.usRecordInterval) :
    Avoids e (v.updateWith fd c s p) := by
  cases v
  · simp only [Variant.updateWith]
    unfold DecodePowerOnly_updateWith
    repeat' first
      | exact avoids_pure _ _
      | exact hfd _ _
      | exact avoids_idiv _ _ _ (by omega)
      | exact avoids_imod _ _ _ (by omega)
      | apply avoids_bind
      | apply avoids_ite
      | intro _
  · simp only [Variant.updateWith]
    unfold DecodeWheelTorque_updateWith
    repeat' first
      | exact avoids_pure _ _
      | exact hfd _ _
      | exact avoids_idiv _ _ _ (by omega)
      | exact avoids_imod _ _ _ (by omega)
      | apply avoids_bind
      | apply avoids_ite
      | intro _
  · simp only [Variant.updateWith]
    unfold DecodeCrankTorque_updateWith
    repeat' first
      | exact avoids_pure _ _
      | exact hfd _ _
      | exact avoids_idiv _ _ _ (by omega)
      | exact avoids_imod _ _ _ (by omega)
      | apply avoids_bind
      | apply avoids_ite
      | intro _
  · exact absurd rfl hv

/-- The first part of a decode does not touch the quantized record interval. -/
theorem updateWith_interval (fd : ℚ → ℚ → Except Fault ℚ) (c : Consts) (v : Variant)
    (hv : v ≠ .crankTorqueFreq) (s s2 : BPSAMPLER) (p : Payload)
    (h : v.updateWith fd c s p = .ok s2) : s2.usRecordInterval = s.usRecordInterval := by
  cases v
  · simp only [Variant.updateWith] at h
    unfold DecodePowerOnly_updateWith at h
    simp only [bind_eq_ok, pure_eq_ok] at h
    obtain ⟨per, hper, ev, hev, s1, hs1, rfl⟩ := h
    split at hs1
    · simp only [bind_eq_ok, pure_eq_ok] at hs1
      obtain ⟨_, _, _, _, _, _, _, _, _, _, _, _, _, _, _, _, _, _, _, _, rfl⟩ := hs1
      rfl
    · simp only [pure_eq_ok] at hs1
      subst hs1
      rfl
  · simp only [Variant.updateWith] at h
    unfold DecodeWheelTorque_updateWith at h
    simp only [bind_eq_ok, pure_eq_ok] at h
    obtain ⟨ev, hev, s1, hs1, rfl⟩ := h
    split at hs1
    · simp only [bind_eq_ok, pure_eq_ok] at hs1
      obtain ⟨_, _, _, _, _, _, _, _, _, _, _, _, _, _, _, _, _, _, _, _, rfl⟩ := hs1
      rfl
    · simp only [pure_eq_ok] at hs1
      subst hs1
      rfl
  · simp only [Variant.updateWith] at h
    unfold DecodeCrankTorque_updateWith at h
    simp only [bind_eq_ok, pure_eq_ok] at h
    obtain ⟨ev, hev, s1, hs1, rfl⟩ := h
    split at hs1
    · simp only [bind_eq_ok, pure_eq_ok] at hs1
      obtain ⟨_, _, _, _, _, _, _, _, _, _, _, _, _, _, _, _, _, _, _, _, rfl⟩ := hs1
      rfl
    · simp only [pure_eq_ok] at hs1
      subst hs1
      rfl
  · exact absurd rfl hv

theorem avoids_decodeWith (e : Fault) (he : e ≠ .nonTermination)
    (fd : ℚ → ℚ → Except Fault ℚ) (hfd : ∀ a b, Avoids e (fd a b)) (c : Consts) (v : Variant)
    (hv : v ≠ .crankTorqueFreq) (ro : ℚ) (d : Decoder) (t : ℚ) (p : Payload)
    (hI : 1 ≤ d.stState.usRecordInterval) : Avoids e (v.DecodeWith fd c ro d t p) := by
  have hu := avoids_updateWith e fd hfd c v hv d.stState p hI
  have hs : ∀ s2, v.updateWith fd c d.stState p = .ok s2 → 1 ≤ s2.usRecordInterval := by
    intro s2 h
    rw [updateWith_interval fd c v hv d.stState s2 p h]
    exact hI
  cases v
  · simp only [Variant.DecodeWith, Variant.updateWith] at hu hs ⊢
    unfold DecodePowerOnlyWith
    apply avoids_bind _ _ _ hu
    intro s2 h2
    apply avoids_bind _ _ _ (avoids_recordOrCatchUpWith e he fd hfd c ro _ _ t s2 (hs s2 h2))
    intro _ _
    exact avoids_pure _ _
  · simp only [Variant.DecodeWith, Variant.updateWith] at hu hs ⊢
    unfold DecodeWheelTorqueWith
    apply avoids_bind _ _ _ hu
    intro s2 h2
    apply avoids_bind _ _ _ (avoids_recordOrCatchUpWith e he fd hfd c ro _ _ t s2 (hs s2 h2))
    intro _ _
    exact avoids_pure _ _
  · simp only [Variant.DecodeWith, Variant.updateWith] at hu hs ⊢
    unfold DecodeCrankTorqueWith
    apply avoids_bind _ _ _ hu
    intro s2 h2
    apply avoids_bind _ _ _ (avoids_recordOrCatchUpWith e he fd hfd c ro _ _ t s2 (hs s2 h2))
    intro _ _
    exact avoids_pure _ _
  · exact absurd rfl hv

theorem avoids_resyncWith (e : Fault) (fd : ℚ → ℚ → Except Fault ℚ)
    (hfd : ∀ a b, Avoids e (fd a b)) (c : Consts) (v : Variant) (ro : ℚ) (d : Decoder) (t : ℚ)
    (p : Payload) : Avoids e (v.ResyncWith fd c ro d t p) := by
  cases v
  all_goals
    simp only [Variant.ResyncWith]
    first
      | unfold DecodePowerOnly_ResyncWith
      | unfold DecodeWheelTorque_ResyncWith
      | unfold DecodeCrankTorque_ResyncWith
      | unfold DecodeCrankTorqueFreq_ResyncWith
    repeat' first
      | exact avoids_pure _ _
      | exact hfd _ _
      | exact avoids_fillGapWith e fd hfd _ _
      | (unfold resyncCatchUpWith)
      | (unfold resyncGapCountWith)
      | (unfold resyncGapCountWTWith)
      | apply avoids_bind
      | apply avoids_ite
      | intro _

theorem avoids_messageWith (e : Fault) (he : e ≠ .nonTermination)
    (fd : ℚ → ℚ → Except Fault ℚ) (hfd : ∀ a b, Avoids e (fd a b)) (c : Consts) (v : Variant)
    (hv : v ≠ .crankTorqueFreq) (ro : ℚ) (d : Decoder) (t : ℚ) (p : Payload)
    (hI : 1 ≤ d.stState.usRecordInterval) : Avoids e (v.MessageWith fd c ro d t p) := by
  have hd := avoids_decodeWith e he fd hfd c v hv ro d t p hI
  have hr := avoids_resyncWith e fd hfd c v ro d t p
  cases v
  · simp only [Variant.MessageWith, Variant.DecodeWith, Variant.ResyncWith] at hd hr ⊢
    unfold DecodePowerOnly_MessageWith
    apply avoids_ite
    · intro _
      apply avoids_bind
      · exact avoids_ite _ _ _ _ (fun _ => hr) (fun _ => hd)
      · intro _ _
        exact avoids_pure _ _
    · intro _
      exact avoids_pure _ _
  · simp only [Variant.MessageWith, Variant.DecodeWith, Variant.ResyncWith] at hd hr ⊢
    unfold DecodeWheelTorque_MessageWith
    apply avoids_ite
    · intro _
      apply avoids_bind
      · exact avoids_ite _ _ _ _ (fun _ => hr) (fun _ => hd)
      · intro _ _
        exact avoids_pure _ _
    · intro _
      exact avoids_pure _ _
  · simp only [Variant.MessageWith, Variant.DecodeWith, Variant.ResyncWith] at hd hr ⊢
    unfold DecodeCrankTorque_MessageWith
    apply avoids_ite
    · intro _
      apply avoids_bind
      · exact avoids_ite _ _ _ _ (fun _ => hr) (fun _ => hd)
      · intro _ _
        exact avoids_pure _ _
    · intro _
      exact avoids_pure _ _
  · exact absurd rfl hv

theorem refines_refl {α : Type} (x : Except Fault α) : Refines x x := fun _ h => h

theorem refines_bind {α β : Type} (x y : Except Fault α) (f g : α → Except Fault β)
    (hx : Refines x y) (hf : ∀ a, Refines (f a) (g a)) : Refines (x >>= f) (y >>= g) := by
  intro b h
  cases x with
  | error e => cases h
  | ok a =>
    rw [hx a rfl]
    exact hf a b h

theorem refines_ite {α : Type} (cnd : Prop) [Decidable cnd] (x y x2 y2 : Except Fault α)
    (hx : Refines x x2) (hy : Refines y y2) :
    Refines (if cnd then x else y) (if cnd then x2 else y2) := by
  split_ifs
  · exact hx
  · exact hy

/-- Where the divisor is not zero the two floating divisions agree. -/
theorem refines_fdiv (nan : ℚ → ℚ) (a b : ℚ) : Refines (fdiv a b) (fdivCont nan a b) := by
  intro x h
  rw [fdiv_eq_ok] at h
  obtain ⟨hb, rfl⟩ := h
  unfold fdivCont
  rw [if_neg hb]

theorem fdivCont_zero (nan : ℚ → ℚ) (a : ℚ) : fdivCont nan a 0 = .ok (nan a) := by
  unfold fdivCont
  rw [if_pos rfl]

theorem refines_fillGap (nan : ℚ → ℚ) (ro : ℚ) (s : BPSAMPLER) :
    Refines (RecordOutput_FillGap ro s) (RecordOutput_FillGapWith (fdivCont nan) ro s) := by
  unfold RecordOutput_FillGap RecordOutput_FillGapWith
  repeat' first
    | apply refines_bind
    | apply refines_ite
    | exact refines_fdiv _ _ _
    | exact refines_refl _
    | intro _

theorem refines_recordOutput (nan : ℚ → ℚ) (ro : ℚ) (s : BPSAMPLER) :
    Refines (RecordOutput ro s) (RecordOutputWith (fdivCont nan) ro s) := by
  unfold RecordOutput RecordOutputWith
  repeat' first
    | apply refines_bind
    | exact refines_fdiv _ _ _
    | exact refines_fillGap _ _ _
    | exact refines_refl _
    | intro _

theorem refines_recordOrCatchUp (nan : ℚ → ℚ) (c : Consts) (ro I step t : ℚ) (s : BPSAMPLER) :
    Refines (recordOrCatchUp c ro I step t s)
      (recordOrCatchUpWith (fdivCont nan) c ro I step t s) := by
  unfold recordOrCatchUp recordOrCatchUpWith
  apply refines_ite
  · exact refines_recordOutput _ _ _
  · exact refines_refl _

theorem refines_update (nan : ℚ → ℚ) (c : Consts) (v : Variant) (s : BPSAMPLER) (p : Payload) :
    Refines (v.update c s p) (v.updateWith (fdivCont nan) c s p) := by
  cases v
  all_goals
    simp only [Variant.update, Variant.updateWith]
    first
      | unfold DecodePowerOnly_update DecodePowerOnly_updateWith
      | unfold DecodeWheelTorque_update DecodeWheelTorque_updateWith
      | unfold DecodeCrankTorque_update DecodeCrankTorque_updateWith
      | unfold DecodeCrankTorqueFreq_update DecodeCrankTorqueFreq_updateWith
    repeat' first
      | apply refines_bind
      | apply refines_ite
      | exact refines_fdiv _ _ _
      | exact refines_refl _
      | intro _

theorem refines_decode (nan : ℚ → ℚ) (c : Consts) (v : Variant) (ro : ℚ) (d : Decoder) (t : ℚ)
    (p : Payload) : Refines (v.Decode c ro d t p) (v.DecodeWith (fdivCont nan) c ro d t p) := by
  have hu := refines_update nan c v d.stState p
  cases v
  all_goals
    simp only [Variant.Decode, Variant.DecodeWith, Variant.update, Variant.updateWith] at hu ⊢
    first
      | unfold DecodePowerOnly DecodePowerOnlyWith
      | unfold DecodeWheelTorque DecodeWheelTorqueWith
      | unfold DecodeCrankTorque DecodeCrankTorqueWith
      | unfold DecodeCrankTorqueFreq DecodeCrankTorqueFreqWith
    apply refines_bind _ _ _ _ hu
    intro s2
    apply refines_bind _ _ _ _ (refines_recordOrCatchUp nan c ro _ _ t s2)
    intro _
    exact refines_refl _

theorem refines_resync (nan : ℚ → ℚ) (c : Consts) (v : Variant) (ro : ℚ) (d : Decoder) (t : ℚ)
    (p : Payload) : Refines (v.Resync c ro d t p) (v.ResyncWith (fdivCont nan) c ro d t p) := by
  cases v
  all_goals
    simp only [Variant.Resync, Variant.ResyncWith]
    first
      | unfold DecodePowerOnly_Resync DecodePowerOnly_ResyncWith
      | unfold DecodeWheelTorque_Resync DecodeWheelTorque_ResyncWith
      | unfold DecodeCrankTorque_Resync DecodeCrankTorque_ResyncWith
      | unfold DecodeCrankTorqueFreq_Resync DecodeCrankTorqueFreq_ResyncWith
    repeat' first
      | apply refines_bind
      | apply refines_ite
      | exact refines_fdiv _ _ _
      | exact refines_fillGap _ _ _
      | (unfold resyncCatchUp resyncCatchUpWith)
      | (unfold resyncGapCount resyncGapCountWith)
      | (unfold resyncGapCountWT resyncGapCountWTWith)
      | exact refines_refl _
      | intro _

/-- Wherever a message handler of the embedding returns, the handler with the floating
division that does not stop returns the same decoder and the same records. -/
theorem refines_message (nan : ℚ → ℚ) (c : Consts) (v : Variant) (ro : ℚ) (d : Decoder)
    (t : ℚ) (p : Payload) :
    Refines (v.Message c ro d t p) (v.MessageWith (fdivCont nan) c ro d t p) := by
  have hd := refines_decode nan c v ro d t p
  have hr := refines_resync nan c v ro d t p
  cases v
  all_goals
    simp only [Variant.Message, Variant.MessageWith, Variant.Decode, Variant.DecodeWith,
      Variant.Resync, Variant.ResyncWith] at hd hr ⊢
    first
      | unfold DecodePowerOnly_Message DecodePowerOnly_MessageWith
      | unfold DecodeWheelTorque_Message DecodeWheelTorque_MessageWith
      | unfold DecodeCrankTorque_Message DecodeCrankTorque_MessageWith
      | unfold DecodeCrankTorqueFreq_Message DecodeCrankTorqueFreq_MessageWith
    apply refines_ite
    · apply refines_bind
      · apply refines_ite
        · exact hr
        · exact hd
      · intro _
        exact refines_refl _
    · exact refines_refl _

/-- A step that avoids both division faults returns, unless its wall-clock loop does not
terminate. -/
theorem ok_or_loops {α : Type} (x : Except Fault α) (h1 : Avoids .intDivByZero x)
    (h2 : Avoids .floatDivByZero x) : (∃ a, x = .ok a) ∨ x = .error .nonTermination := by
  cases x with
  | ok a => exact Or.inl ⟨a, rfl⟩
  | error e =>
    cases e
    · exact absurd rfl h1
    · exact absurd rfl h2
    · exact Or.inr rfl

/-- C35: with a quantized record interval of at least 1, for every payload, every receive
time and every decoder state, the steps of the Power-Only, Wheel-Torque and Crank-Torque
decoders divide by no zero integer, also when the code is followed past a floating division
by zero (which in C delivers an infinity or a NaN and does not stop the step; `nan` gives the
value that stands for it).  Followed in this way, the first part of the incremental decode,
the resync, `RecordOutput` and `RecordOutput_FillGap` return, and the incremental decode and
the message handler return unless the wall-clock loop that ends the decode does not
terminate: no step ends in a division by zero.  The cadence divides only when it is
positive, the period delta only when it is neither 0 nor `0xFFFF`, the quantized record
interval is not 0, and the gap count divides only in floating point.  With the floating
division that stops at a zero divisor these functions are the ones of the embedding, which
end in no integer division by zero either; and wherever a function of the embedding
returns, the function followed past the floating divisions returns the same result. -/
theorem C35_no_integer_division_by_zero (c : Consts) (v : Variant)
    (hv : v ≠ .crankTorqueFreq) (nan : ℚ → ℚ) (ro : ℚ) (d : Decoder) (t : ℚ) (p : Payload)
    (hI : 1 ≤ d.stState.usRecordInterval) :
    ((∃ s2, v.updateWith (fdivCont nan) c d.stState p = .ok s2)
      ∧ (∃ out, v.ResyncWith (fdivCont nan) c ro d t p = .ok out)
      ∧ (∃ out, RecordOutputWith (fdivCont nan) ro d.stState = .ok out)
      ∧ (∃ out, RecordOutput_FillGapWith (fdivCont nan) ro d.stState = .ok out)
      ∧ (∀ s2, v.updateWith (fdivCont nan) c d.stState p = .ok s2 →
          (∃ out, RecordOutputWith (fdivCont nan) ro s2 = .ok out)
          ∧ ∃ out, RecordOutput_FillGapWith (fdivCont nan) ro s2 = .ok out))
    ∧ (((∃ out, v.DecodeWith (fdivCont nan) c ro d t p = .ok out)
          ∨ v.DecodeWith (fdivCont nan) c ro d t p = .error .nonTermination)
      ∧ ((∃ out, v.MessageWith (fdivCont nan) c ro d t p = .ok out)
          ∨ v.MessageWith (fdivCont nan) c ro d t p = .error .nonTermination))
    ∧ (v.updateWith fdiv = v.update ∧ v.ResyncWith fdiv = v.Resync
      ∧ v.DecodeWith fdiv = v.Decode ∧ v.MessageWith fdiv = v.Message
      ∧ RecordOutputWith fdiv = RecordOutput
      ∧ RecordOutput_FillGapWith fdiv = RecordOutput_FillGap)
    ∧ (Refines (v.update c d.stState p) (v.updateWith (fdivCont nan) c d.stState p)
      ∧ Refines (v.Resync c ro d t p) (v.ResyncWith (fdivCont nan) c ro d t p)
      ∧ Refines (v.Decode c ro d t p) (v.DecodeWith (fdivCont nan) c ro d t p)
      ∧ Refines (v.Message c ro d t p) (v.MessageWith (fdivCont nan) c ro d t p)
      ∧ Refines (RecordOutput ro d.stState) (RecordOutputWith (fdivCont nan) ro d.stState)
      ∧ Refines (RecordOutput_FillGap ro d.stState)
          (RecordOutput_FillGapWith (fdivCont nan) ro d.stState)
      ∧ (∀ a b, b ≠ 0 → fdivCont nan a b = fdiv a b)
      ∧ ∀ a, fdivCont nan a 0 = .ok (nan a))
    ∧ (v.Message c ro d t p ≠ .error .intDivByZero
      ∧ v.Resync c ro d t p ≠ .error .intDivByZero
      ∧ v.Decode c ro d t p ≠ .error .intDivByZero
      ∧ v.update c d.stState p ≠ .error .intDivByZero
      ∧ RecordOutput ro d.stState ≠ .error .intDivByZero
      ∧ RecordOutput_FillGap ro d.stState ≠ .error .intDivByZero
      ∧ (∀ s2, v.update c d.stState p = .ok s2 →
          RecordOutput ro s2 ≠ .error .intDivByZero
          ∧ RecordOutput_FillGap ro s2 ≠ .error .intDivByZero)
      ∧ (ro ≠ 0 → ∃ out, RecordOutput_FillGap ro d.stState = .ok out)) := by
  have hfd : ∀ e a b, Avoids e (fdivCont nan a b) := fun e a b => avoids_fdivCont e nan a b
  have hi : Fault.intDivByZero ≠ Fault.nonTermination := by decide
  have hf : Fault.floatDivByZero ≠ Fault.nonTermination := by decide
  refine ⟨⟨?_, ?_, ?_, ?_, ?_⟩, ⟨?_, ?_⟩, ?_,
    ⟨refines_update nan c v d.stState p, refines_resync nan c v ro d t p,
      refines_decode nan c v ro d t p, refines_message nan c v ro d t p,
      refines_recordOutput nan ro d.stState, refines_fillGap nan ro d.stState, ?_,
      fdivCont_zero nan⟩, ?_⟩
  · exact ok_of_avoids _ (fun e => avoids_updateWith e _ (hfd e) c v hv d.stState p hI)
  · exact ok_of_avoids _ (fun e => avoids_resyncWith e _ (hfd e) c v ro d t p)
  · exact ok_of_avoids _ (fun e => avoids_recordOutputWith e _ (hfd e) ro d.stState hI)
  · exact ok_of_avoids _ (fun e => avoids_fillGapWith e _ (hfd e) ro d.stState)
  · intro s2 h
    have hI2 : 1 ≤ s2.usRecordInterval := by
      rw [updateWith_interval _ c v hv d.stState s2 p h]
      exact hI
    exact ⟨ok_of_avoids _ (fun e => avoids_recordOutputWith e _ (hfd e) ro s2 hI2),
      ok_of_avoids _ (fun e => avoids_fillGapWith e _ (hfd e) ro s2)⟩
  · exact ok_or_loops _ (avoids_decodeWith _ hi _ (hfd _) c v hv ro d t p hI)
      (avoids_decodeWith _ hf _ (hfd _) c v hv ro d t p hI)
  · exact ok_or_loops _ (avoids_messageWith _ hi _ (hfd _) c v hv ro d t p hI)
      (avoids_messageWith _ hf _ (hfd _) c v hv ro d t p hI)
  · obtain ⟨w1, w2, w3, w4, w5, w6⟩ := with_fdiv
    exact ⟨by rw [w3], by rw [w4], by rw [w5], by rw [w6], w2, w1⟩
  · intro a b hb
    unfold fdivCont
    rw [if_neg hb, fdiv_ok a b hb]
  · refine ⟨intSafe_message c v hv ro d t p hI, intSafe_resync c v ro d t p,
      intSafe_decode c v hv ro d t p hI, intSafe_update c v hv d.stState p hI,
      intSafe_recordOutput ro d.stState hI, intSafe_fillGap ro d.stState, ?_,
      fun hro => fillGap_ok ro d.stState hro⟩
    intro s2 h
    have hI2 : 1 ≤ s2.usRecordInterval := by
      rw [(update_spec c v d.stState s2 p h).1.2.2.2.1]
      exact hI
    exact ⟨intSafe_recordOutput ro s2 hI2, intSafe_fillGap ro s2⟩

theorem C35_no_integer_division_by_zero_witness :
    Variant.powerOnly ≠ .crankTorqueFreq
    ∧ 1 ≤ poResyncedSession.po.stState.usRecordInterval
    ∧ Variant.powerOnly.update defaultConsts poResyncedSession.po.stState sameCountPage
        = .error .floatDivByZero
    ∧ (∃ s2, Variant.powerOnly.updateWith (fdivCont (fun _ => 0)) defaultConsts
        poResyncedSession.po.stState sameCountPage = .ok s2)
    ∧ ((∃ out, Variant.powerOnly.DecodeWith (fdivCont (fun _ => 0)) defaultConsts 1
          poResyncedSession.po (3 / 2) sameCountPage = .ok out)
        ∨ Variant.powerOnly.DecodeWith (fdivCont (fun _ => 0)) defaultConsts 1
          poResyncedSession.po (3 / 2) sameCountPage = .error .nonTermination)
    ∧ Variant.powerOnly.Decode defaultConsts 1 poResyncedSession.po (3 / 2) sameCountPage
        ≠ .error .intDivByZero :=
  have h := C35_no_integer_division_by_zero defaultConsts .powerOnly (by decide) (fun _ => 0) 1
    poResyncedSession.po (3 / 2) sameCountPage (by decide!)
  ⟨by decide, by decide!, by decide!, h.1.1, h.2.1.1, h.2.2.2.2.2.2.1⟩

end BikePower
